import Mathlib

/-!
# ECU core: scheduler, trigger-wheel phase tracker, fuel, AFR trim, idle
throttle, configuration

A shallow embedding of parts of the engine control unit firmware
(`stm32_ecu_lib`) together with theorems about them.

Conventions of the embedding:
* `unsigned int` variables are natural numbers, every increment is reduced
  modulo `2 ^ 32`; a conversion to `uint16_t` or `uint8_t` reduces modulo
  `2 ^ 16` or `2 ^ 8`;
* `int` variables are mathematical integers (signed overflow is undefined in C
  and is not modelled);
* `float` variables are exact rationals; a conversion to `int` truncates toward
  zero and `roundf` rounds half away from zero;
* a function pointer is a number naming the function; what the function does to
  the module's variables is given by an environment;
* the status word `ecuStatus` is a natural number below `2 ^ 32` with the bit
  operations of the macros of `global.h`;
* calls to the hardware are appended to logs; the EEPROM behind `nvm.c` is
  modelled by its content, block by block, and by the values returned for the
  operations on the I2C bus (see the section on `nvm.c`);
* an assignment to an array element with indices outside the array is undefined
  in C; maps are functions of two integers and such an assignment updates the
  function at those indices.
-/

namespace ECU

/-! ## scheduler.h / scheduler.c -/

/-- The number of slots of the task table (`#define SCH_MAX_NUMBER_OF_TASKS 5`). -/
def SCH_MAX_NUMBER_OF_TASKS : Nat := 5

/-- The number of values of an `unsigned int` (32 bits on the target). -/
def UINT_RANGE : Nat := 2 ^ 32

/-- The task states of `scheduler.h`. -/
inductive scTaskStatus where
  | SCH_UNDEFINED
  | SCH_READY
  | SCH_STARTED
  | SCH_BLOCKING
  deriving DecidableEq, Repr

/-- One slot of the task table. `function` names the callback. -/
structure scTaskDescription where
  function : Nat
  state : scTaskStatus
  period : Nat
  periodCount : Nat
  overrunCount : Nat
  deriving DecidableEq, Repr

/-- The variables of `scheduler.c`. -/
structure Scheduler where
  scTasks : Nat → scTaskDescription
  scNumberOfTasksRegistered : Int
  scTimerTickPeriod : Int
  scSchedulerStarted : Int

/-- The effect of each callback on the scheduler variables: a callback runs
inside `scTimerTick` and may call the scheduler functions. -/
abbrev Callbacks := Nat → Scheduler → Scheduler

/-- The C function `roundf` on exact values: nearest integer, halves away from zero. -/
def roundf (x : ℚ) : Int :=
  if 0 ≤ x then ⌊x + 1 / 2⌋ else -⌊-x + 1 / 2⌋

/-- Conversion of an integral `float` value to `unsigned int` (only defined in
C for values in range; the model reduces a non-negative value modulo `2 ^ 32`
and sends a negative one to 0). -/
def toUnsigned (z : Int) : Nat := z.toNat % UINT_RANGE

/-- Assignment to `scTasks[i]`. -/
def setTask (s : Scheduler) (i : Nat) (d : scTaskDescription) : Scheduler :=
  { s with scTasks := Function.update s.scTasks i d }

/-- The function `scInitialise`: store the tick period, no task registered, every
slot undefined. -/
def scInitialise (timerTickPeriod_ : Int) (s : Scheduler) : Scheduler :=
  { s with
    scTimerTickPeriod := timerTickPeriod_
    scNumberOfTasksRegistered := 0
    scTasks := fun i =>
      if i < SCH_MAX_NUMBER_OF_TASKS then
        { s.scTasks i with state := scTaskStatus.SCH_UNDEFINED }
      else s.scTasks i }

/-- The function `scStartScheduler`. -/
def scStartScheduler (s : Scheduler) : Scheduler :=
  { s with scSchedulerStarted := 1 }

/-- The function `scStopScheduler`. -/
def scStopScheduler (s : Scheduler) : Scheduler :=
  { s with scSchedulerStarted := 0 }

/-- The function `scCompleted`: `scTasks[index].state = SCH_READY`. An index
outside the table is an out-of-bounds write in C; the model leaves the state
as it is. -/
def scCompleted (index : Int) (s : Scheduler) : Scheduler :=
  if 0 ≤ index ∧ index < SCH_MAX_NUMBER_OF_TASKS then
    setTask s index.toNat { s.scTasks index.toNat with state := scTaskStatus.SCH_READY }
  else s

/-- The function `scAddTask(index, f, period)`. -/
def scAddTask (index : Int) (f : Nat) (period : ℚ) (s : Scheduler) : Scheduler :=
  if s.scNumberOfTasksRegistered < SCH_MAX_NUMBER_OF_TASKS then
    if 0 ≤ index ∧ index < SCH_MAX_NUMBER_OF_TASKS then
      { s with
        scTasks := Function.update s.scTasks index.toNat
          { s.scTasks index.toNat with
            period := toUnsigned (roundf (period / s.scTimerTickPeriod))
            periodCount := 0
            function := f
            state := scTaskStatus.SCH_READY }
        scNumberOfTasksRegistered := s.scNumberOfTasksRegistered + 1 }
    else s
  else s

/-- The body of the loop of `scTimerTick` for slot `t`. The result is the new
state and whether `scTasks[t].function()` was called. -/
def scTickTask (cb : Callbacks) (t : Nat) (s : Scheduler) : Scheduler × Bool :=
  let r : Scheduler × Bool :=
    if (s.scTasks t).state = scTaskStatus.SCH_READY then
      let s1 := setTask s t
        { s.scTasks t with periodCount := ((s.scTasks t).periodCount + 1) % UINT_RANGE }
      if (s1.scTasks t).periodCount ≥ (s1.scTasks t).period then
        let s2 := setTask s1 t
          { s1.scTasks t with
            periodCount := 0
            overrunCount := 0
            state := scTaskStatus.SCH_STARTED }
        (cb (s2.scTasks t).function s2, true)
      else (s1, false)
    else (s, false)
  if (r.1.scTasks t).state = scTaskStatus.SCH_STARTED then
    (setTask r.1 t
      { r.1.scTasks t with overrunCount := ((r.1.scTasks t).overrunCount + 1) % UINT_RANGE },
     r.2)
  else r

/-- The loop `for (t = ...; t < scNumberOfTasksRegistered; t++)` of
`scTimerTick`, from slot `t` on. `fuel` bounds the number of iterations by the
size of the table (an access beyond it is out of bounds in C). The result is the
new state and the slots whose callback was called, in order. -/
def scTimerTickLoop (cb : Callbacks) : Nat → Nat → Scheduler → Scheduler × List Nat
  | 0, _, s => (s, [])
  | fuel + 1, t, s =>
    if (t : Int) < s.scNumberOfTasksRegistered then
      let r := scTickTask cb t s
      let r2 := scTimerTickLoop cb fuel (t + 1) r.1
      (r2.1, (if r.2 then [t] else []) ++ r2.2)
    else (s, [])

/-- The function `scTimerTick`: the new state and the slots whose callback was
called during the tick. -/
def scTimerTick (cb : Callbacks) (s : Scheduler) : Scheduler × List Nat :=
  if s.scSchedulerStarted ≠ 0 then scTimerTickLoop cb SCH_MAX_NUMBER_OF_TASKS 0 s
  else (s, [])

/-- The state after `n` calls of `scTimerTick`. -/
def scRun (cb : Callbacks) : Nat → Scheduler → Scheduler
  | 0, s => s
  | n + 1, s => (scTimerTick cb (scRun cb n s)).1

/-- How often the callback of slot `t` is called during tick `k + 1` of a run
from `s`. -/
def scCallsOnTick (cb : Callbacks) (s : Scheduler) (t k : Nat) : Nat :=
  (scTimerTick cb (scRun cb k s)).2.count t

/-- How often the callback of slot `t` is called during the first `n` ticks of
a run from `s`. -/
def scCalls (cb : Callbacks) (s : Scheduler) (t : Nat) : Nat → Nat
  | 0 => 0
  | n + 1 => scCalls cb s t n + scCallsOnTick cb s t n

/-! ## utility_functions.c -/

/-- Conversion of a `float` to `int`: truncation toward zero. -/
def floatToInt (x : ℚ) : Int :=
  if 0 ≤ x then ⌊x⌋ else ⌈x⌉

/-- The function `limitF`. -/
def limitF (x lower upper : ℚ) : ℚ :=
  let r := if x > upper then upper else x
  if r < lower then lower else r

/-- The function `limitI`. -/
def limitI (x lower upper : Int) : Int :=
  let r := if x > upper then upper else x
  if r < lower then lower else r

/-- The function `rangeF`: `a` and `b` are the extremes, in either order. -/
def rangeF (x a b : ℚ) : ℚ :=
  limitF x (min a b) (max a b)

/-! ## cfg_data.h and global.h: configuration page and key data -/

/-- The number of RPM columns of a map (`VE_MAP_SIZE_RPM`). -/
def VE_MAP_SIZE_RPM : Int := 8

/-- The number of load rows of a map (`VE_MAP_SIZE_LOAD`). -/
def VE_MAP_SIZE_LOAD : Int := 8

/-- A map `float m[VE_MAP_SIZE_LOAD][VE_MAP_SIZE_RPM]`, read as `m load rpm`. -/
abbrev EngineMap := Int → Int → ℚ

/-- The struct `filtersStruct`. -/
structure filtersStruct where
  mapFilter : ℚ
  lambdaSensorFilter : ℚ
  coolantTempFilter : ℚ
  airTempFilter : ℚ
  tpsFilter : ℚ
  voltageFilter : ℚ
  reserved : Int
  crankshaftPulseFilter : Nat

/-- The struct `parameters1Struct`. -/
structure parameters1Struct where
  engTempCompT1 : ℚ
  engTempCompC1 : ℚ
  engTempCompT2 : ℚ
  engTempCompC2 : ℚ
  airTempCompT1 : ℚ
  airTempCompC1 : ℚ
  airTempCompT2 : ℚ
  airTempCompC2 : ℚ
  vvtPWM1 : ℚ
  vvtRPM1 : ℚ
  vvtPWM2 : ℚ
  vvtRPM2 : ℚ
  crankingThreshold : ℚ
  crankingPW : ℚ
  accelCompLimit : ℚ
  accelCompAmplitude : ℚ
  accelCompDuration : ℚ
  coolingFanOnTemp : ℚ
  tpsFastIdleValue : ℚ
  tpsFastIdleTemp : ℚ
  tpsNormalIdleValue : ℚ
  tpsNormalIdleTemp : ℚ
  idleActuatorGain : ℚ
  reserved : ℚ
  idleControlThreshold : ℚ
  idleControlDelay : ℚ
  afrCorrectionGainP : ℚ
  afrCorrectionGainI : ℚ
  afrAveragingFilterTC : ℚ
  afrDataSavePeriod : ℚ
  pseStartValue : ℚ
  pseDecayTime : ℚ
  psitStartValue : ℚ
  psitDecayTime : ℚ

/-- The struct `parameters2Struct`. -/
structure parameters2Struct where
  ecuID : Int
  numberRpmCells : Int
  numberLoadCells : Int
  rpmAxisStart : ℚ
  rpmAxisDelta : ℚ
  loadAxisStart : ℚ
  loadAxisDelta : ℚ
  requiredFuel : ℚ
  injectorLatency : ℚ
  ignitionFiringSense : Int
  ignitionDwell : ℚ
  twTeeth : Int
  twMissingTeeth : Int
  twTDCAngle : ℚ
  injectorStartAngle : ℚ
  injectorIndex0 : Int
  injectorIndex1 : Int
  injectorIndex2 : Int
  injectorIndex3 : Int
  injectorSequenceReset : Int
  thermistorT1 : ℚ
  thermistorR1 : ℚ
  thermistorT2 : ℚ
  thermistorR2 : ℚ
  tpsFullyClosedVoltage : ℚ
  tpsFullyOpenVoltage : ℚ
  idleActuatorType : Int

/-- The struct `page1Struct` (the variable `cfPage1`). -/
structure page1Struct where
  filters : filtersStruct
  p1 : parameters1Struct
  p2 : parameters2Struct
  veMap : EngineMap
  ignitionMap : EngineMap
  targetAFRMap : EngineMap

/-- The struct `keyDataStruct` (the variable `keyData.v`). -/
structure keyDataStruct where
  timestamp : ℚ
  MAP : ℚ
  lambdaVoltage : ℚ
  coolantTemperature : ℚ
  airTemperature : ℚ
  TPSVoltage : ℚ
  voltage2 : ℚ
  RPM : ℚ
  injectorPW : ℚ
  interpolatedVE : ℚ
  TPS : ℚ
  targetTPS : ℚ
  tempCompensation : ℚ
  accelCompensation : ℚ
  thermistorResistance : ℚ
  currentCell : ℚ
  errorTooth : ℚ
  syncErrors : ℚ
  vvtPwr : ℚ
  interpolatedAdvance : ℚ
  idleActuatorCmd : ℚ
  spare23 : ℚ
  AFRCorrection : ℚ
  lambdaVoltageAverage : ℚ
  AFRIndex : ℚ
  correctionSavedTime : ℚ
  lambdaVoltageSamples : ℚ

/-! ## trigger_wheel_handler.c -/

/-- The number of injectors (`NUM_INJECTORS`). -/
def NUM_INJECTORS : Int := 4

/-- The functions handed to the timers as callbacks. -/
inductive TimerCallback where
  | injectorPowerOnA
  | injectorPowerOffA
  | injectorPowerOnB
  | injectorPowerOffB
  | injectorPowerOnC
  | injectorPowerOffC
  | injectorPowerOnD
  | injectorPowerOffD
  | injectorPowerOnALL
  | injectorPowerOffALL
  | ignitionPowerOff
  deriving DecidableEq, Repr

/-- A call into the hardware services made by the trigger-wheel code. The timer
arguments are `uint16_t` parameters. -/
inductive HwCall where
  | startInjectionTimerA (delay1 delay2 : Int) (callback1 callback2 : TimerCallback)
  | startInjectionTimerB (delay1 delay2 : Int) (callback1 callback2 : TimerCallback)
  | startIgnitionTimer (period : Int) (callback : TimerCallback)
  | writeInjectorPin (injector : Int) (level : Bool)
  | writeCoilPin (coil : Int) (level : Bool)
  deriving DecidableEq, Repr

/-- Conversion of an `int` argument to a `uint16_t` parameter. -/
def toUint16 (x : Int) : Int := x % 65536

/-- Conversion of an `int` to `uint8_t`. -/
def toUint8 (x : Int) : Int := x % 256

/-- The variables read and written by `trigger_wheel_handler.c`: the
configuration page, the key data, the variables of the file (with the `static`
variables of `crankshaftPulseHandler`) and the calls made to the hardware
services, latest last. -/
structure TriggerWheel where
  cfPage1 : page1Struct
  keyData : keyDataStruct
  crankPulsePeriodR : Int
  crankPulsePeriodF : Int
  injectorFiringIndex1 : Int
  injectorFiringIndex2 : Int
  injectorVernier : ℚ
  injectorDelay : Int
  injectorPW : Int
  triggerWheelInSync : Nat
  currentTooth : Int
  triggerWheelTeethHalf : Int
  triggerWheelToothSpacingReciprocal : ℚ
  rpmToTeethPerMillisecond : ℚ
  rpmFromPeriod : ℚ
  injectorIndex : Int
  injectorIndexA : Int
  injectorIndexB : Int
  injectorIndexC : Int
  injectorIndexD : Int
  injectorSequence : Int → Int
  ignitionFiringIndex1 : Int
  ignitionFiringIndex2 : Int
  dwellIndex1 : Int
  dwellIndex2 : Int
  ignitionDelay : Int
  activeCoil : Int
  coilON : Bool
  coilOFF : Bool
  twResetFlag : Int
  injectorSequenceReset : Int
  check_ig1 : Int
  check_ig2 : Int
  crankPulsePeriodFN_1 : Int
  crankPulsePeriodFtN_1 : Int
  crankPulsePeriodEstimate : Int
  hw : List HwCall

/-- The variables of `trigger_wheel_handler.c` at power on, with their
initialisers (0 where the source gives none). -/
def twPowerOn (cfg : page1Struct) (kd : keyDataStruct) : TriggerWheel :=
  { cfPage1 := cfg
    keyData := kd
    crankPulsePeriodR := 1000000
    crankPulsePeriodF := 1000000
    injectorFiringIndex1 := 0
    injectorFiringIndex2 := 18
    injectorVernier := 0
    injectorDelay := 1
    injectorPW := 2000
    triggerWheelInSync := 0
    currentTooth := 0
    triggerWheelTeethHalf := 0
    triggerWheelToothSpacingReciprocal := 0
    rpmToTeethPerMillisecond := 0
    rpmFromPeriod := 0
    injectorIndex := 0
    injectorIndexA := 0
    injectorIndexB := 0
    injectorIndexC := 0
    injectorIndexD := 0
    injectorSequence := fun _ => 0
    ignitionFiringIndex1 := 0
    ignitionFiringIndex2 := 0
    dwellIndex1 := 0
    dwellIndex2 := 0
    ignitionDelay := 1
    activeCoil := 0
    coilON := true
    coilOFF := false
    twResetFlag := 0
    injectorSequenceReset := 0
    check_ig1 := 0
    check_ig2 := 0
    crankPulsePeriodFN_1 := 0
    crankPulsePeriodFtN_1 := 0
    crankPulsePeriodEstimate := 0
    hw := [] }

/-- The call `HAL_GPIO_WritePin` or a timer start: appended to the log. -/
def hwCall (c : HwCall) (s : TriggerWheel) : TriggerWheel :=
  { s with hw := s.hw ++ [c] }

/-- The function `angleToIndexAndVernier`: the tooth index and the vernier. -/
def angleToIndexAndVernier (s : TriggerWheel) (angle : ℚ) : Int × ℚ :=
  let index := floatToInt (angle * s.triggerWheelToothSpacingReciprocal)
  (index, angle * s.triggerWheelToothSpacingReciprocal - index)

/-- The function `setInjectionAngle`. -/
def setInjectionAngle (injectorAngle : ℚ) (s : TriggerWheel) : TriggerWheel :=
  let r := angleToIndexAndVernier s (s.cfPage1.p2.twTDCAngle - injectorAngle)
  { s with
    injectorVernier := r.2
    injectorFiringIndex1 := r.1
    injectorFiringIndex2 := r.1 + s.triggerWheelTeethHalf }

/-- The function `injectorPowerReset`: all injectors and coils off. -/
def injectorPowerReset (s : TriggerWheel) : TriggerWheel :=
  { s with hw := s.hw ++
      [HwCall.writeInjectorPin 0 false, HwCall.writeInjectorPin 1 false,
       HwCall.writeInjectorPin 2 false, HwCall.writeInjectorPin 3 false,
       HwCall.writeCoilPin 0 s.coilOFF, HwCall.writeCoilPin 1 s.coilOFF,
       HwCall.writeCoilPin 2 s.coilOFF, HwCall.writeCoilPin 3 s.coilOFF] }

/-- The function `setInjectorSequence`. -/
def setInjectorSequence (a b c d sequenceResetValue : Int) (s : TriggerWheel) : TriggerWheel :=
  { s with
    injectorSequence := fun i =>
      if i = 0 then limitI a 1 NUM_INJECTORS - 1
      else if i = 1 then limitI b 1 NUM_INJECTORS - 1
      else if i = 2 then limitI c 1 NUM_INJECTORS - 1
      else if i = 3 then limitI d 1 NUM_INJECTORS - 1
      else s.injectorSequence i
    injectorSequenceReset :=
      if sequenceResetValue > 0 then limitI sequenceResetValue 1 NUM_INJECTORS - 1
      else sequenceResetValue }

/-- The function `setTriggerWheelConfig`. -/
def setTriggerWheelConfig (s : TriggerWheel) : TriggerWheel :=
  { s with
    triggerWheelTeethHalf := Int.tdiv s.cfPage1.p2.twTeeth 2
    triggerWheelToothSpacingReciprocal := (s.cfPage1.p2.twTeeth : ℚ) / 360
    rpmToTeethPerMillisecond := (s.cfPage1.p2.twTeeth : ℚ) / 60000
    rpmFromPeriod := 60000000 / (s.cfPage1.p2.twTeeth : ℚ) }

/-- The function `twInitialise`. -/
def twInitialise (s : TriggerWheel) : TriggerWheel :=
  let s1 := injectorPowerReset s
  let s2 := setInjectorSequence s1.cfPage1.p2.injectorIndex0 s1.cfPage1.p2.injectorIndex1
    s1.cfPage1.p2.injectorIndex2 s1.cfPage1.p2.injectorIndex3
    s1.cfPage1.p2.injectorSequenceReset s1
  let s3 := setTriggerWheelConfig s2
  let s4 := setInjectionAngle s3.cfPage1.p2.injectorStartAngle s3
  let s5 : TriggerWheel :=
    if s4.cfPage1.p2.ignitionFiringSense > 0 then { s4 with coilON := true, coilOFF := false }
    else { s4 with coilON := false, coilOFF := true }
  { s5 with keyData := { s5.keyData with errorTooth := 0, syncErrors := 0 } }

/-- The function `twSetInjectionTiming`. -/
def twSetInjectionTiming (PW : ℚ) (s : TriggerWheel) : TriggerWheel :=
  { s with
    injectorPW := floatToInt PW
    injectorDelay := floatToInt (s.crankPulsePeriodF * s.injectorVernier) }

/-- The function `twSetIgnitionTiming`. -/
def twSetIgnitionTiming (advance : ℚ) (s : TriggerWheel) : TriggerWheel :=
  let r := angleToIndexAndVernier s (s.cfPage1.p2.twTDCAngle - advance)
  let ignitionTooth := r.1
  let ignitionVernier := r.2
  let dwellTeeth0 :=
    floatToInt (s.keyData.RPM * s.rpmToTeethPerMillisecond * s.cfPage1.p2.ignitionDwell)
  let dwellTeeth := if dwellTeeth0 < 1 then 1 else dwellTeeth0
  let dwellIndexA := ignitionTooth - dwellTeeth
  let dwellIndexB := if dwellIndexA < 0 then dwellIndexA + s.cfPage1.p2.twTeeth else dwellIndexA
  let dwellIndexC := dwellIndexB + s.triggerWheelTeethHalf
  let dwellIndexD :=
    if dwellIndexC ≥ s.cfPage1.p2.twTeeth then dwellIndexC - s.cfPage1.p2.twTeeth else dwellIndexC
  { s with
    ignitionFiringIndex1 := ignitionTooth
    ignitionFiringIndex2 := ignitionTooth + s.triggerWheelTeethHalf
    ignitionDelay := floatToInt (s.crankPulsePeriodF * ignitionVernier)
    dwellIndex1 := if dwellIndexB ≠ 0 then dwellIndexB else s.cfPage1.p2.twTeeth - 1
    dwellIndex2 := if dwellIndexD ≠ 0 then dwellIndexD else s.cfPage1.p2.twTeeth - 1 }

/-- The first statement of `crankshaftPulseHandler`: `currentTooth++`. -/
def twIncrementTooth (s : TriggerWheel) : TriggerWheel :=
  { s with currentTooth := s.currentTooth + 1 }

/-- The second step of `crankshaftPulseHandler`: at TDC or TDC + 180 the
injection and ignition timing variables are updated. -/
def twUpdateTiming (s : TriggerWheel) : TriggerWheel :=
  if s.currentTooth = s.cfPage1.p2.twTeeth ∨ s.currentTooth = s.triggerWheelTeethHalf then
    let s1 := twSetInjectionTiming s.keyData.injectorPW s
    twSetIgnitionTiming s1.keyData.interpolatedAdvance s1
  else s

/-- The third step of `crankshaftPulseHandler`: the injector index reset at TDC. -/
def twSequenceReset (s : TriggerWheel) : TriggerWheel :=
  if s.currentTooth = s.cfPage1.p2.twTeeth then
    if s.injectorSequenceReset < 0 then { s with injectorIndex := 0 }
    else if s.twResetFlag ≠ 0 then
      { s with injectorIndex := s.injectorSequenceReset, twResetFlag := 0 }
    else s
  else s

/-- The missing-tooth test of `crankshaftPulseHandler`, on the state in which
the tooth index has been incremented: the tooth is beyond half way round and
the period exceeds the estimate plus half of it (`>>` is an arithmetic shift). -/
def twMissingToothDetected (crankPulsePeriod : Int) (s : TriggerWheel) : Bool :=
  decide (s.currentTooth > s.triggerWheelTeethHalf ∧
    crankPulsePeriod > s.crankPulsePeriodEstimate + (s.crankPulsePeriodEstimate >>> (1 : Nat)))

/-- The fourth step of `crankshaftPulseHandler`: missing-tooth detection. -/
def twMissingTooth (crankPulsePeriod : Int) (s : TriggerWheel) : TriggerWheel :=
  if twMissingToothDetected crankPulsePeriod s = true then
    let s1 : TriggerWheel :=
      if s.currentTooth ≠ s.cfPage1.p2.twTeeth then
        { s with keyData :=
            { s.keyData with
              errorTooth := s.currentTooth
              syncErrors := s.keyData.syncErrors + 1 } }
      else
        { s with triggerWheelInSync := (s.triggerWheelInSync + 1) % UINT_RANGE }
    { s1 with currentTooth := s1.cfPage1.p2.twMissingTeeth }
  else
    { s with crankPulsePeriodR := crankPulsePeriod }

/-- The injection part of the output step, for the timer of index 1. `cmp` is
the level read from the pin `CMP_SIGNAL_CHECK`. -/
def twInjectionA (cmp : Bool) (s : TriggerWheel) : TriggerWheel :=
  if s.currentTooth = s.injectorFiringIndex1 then
    if cmp = true then
      if s.keyData.RPM > s.cfPage1.p1.crankingThreshold then
        hwCall (HwCall.startInjectionTimerA (toUint16 s.injectorDelay) (toUint16 s.injectorPW)
          TimerCallback.injectorPowerOnA TimerCallback.injectorPowerOffA) s
      else
        hwCall (HwCall.startInjectionTimerA (toUint16 s.injectorDelay) (toUint16 s.injectorPW)
          TimerCallback.injectorPowerOnALL TimerCallback.injectorPowerOffALL) s
    else
      if s.keyData.RPM > s.cfPage1.p1.crankingThreshold then
        hwCall (HwCall.startInjectionTimerA (toUint16 s.injectorDelay) (toUint16 s.injectorPW)
          TimerCallback.injectorPowerOnD TimerCallback.injectorPowerOffD) s
      else
        hwCall (HwCall.startInjectionTimerA (toUint16 s.injectorDelay) (toUint16 s.injectorPW)
          TimerCallback.injectorPowerOnALL TimerCallback.injectorPowerOffALL) s
  else s

/-- The injection part of the output step, for the timer of index 2. -/
def twInjectionB (cmp : Bool) (s : TriggerWheel) : TriggerWheel :=
  if s.currentTooth = s.injectorFiringIndex2 then
    if cmp = true then
      if s.keyData.RPM > s.cfPage1.p1.crankingThreshold then
        hwCall (HwCall.startInjectionTimerB (toUint16 s.injectorDelay) (toUint16 s.injectorPW)
          TimerCallback.injectorPowerOnC TimerCallback.injectorPowerOffC) s
      else
        hwCall (HwCall.startInjectionTimerB (toUint16 s.injectorDelay) (toUint16 s.injectorPW)
          TimerCallback.injectorPowerOnALL TimerCallback.injectorPowerOffALL) s
    else
      if s.keyData.RPM > s.cfPage1.p1.crankingThreshold then
        hwCall (HwCall.startInjectionTimerB (toUint16 s.injectorDelay) (toUint16 s.injectorPW)
          TimerCallback.injectorPowerOnB TimerCallback.injectorPowerOffB) s
      else
        hwCall (HwCall.startInjectionTimerB (toUint16 s.injectorDelay) (toUint16 s.injectorPW)
          TimerCallback.injectorPowerOnALL TimerCallback.injectorPowerOffALL) s
  else s

/-- The dwell part of the output step: the coils are energised. -/
def twDwell (cmp : Bool) (s : TriggerWheel) : TriggerWheel :=
  let s1 :=
    if s.currentTooth = s.dwellIndex1 then
      if cmp = true then hwCall (HwCall.writeCoilPin 0 s.coilON) s
      else hwCall (HwCall.writeCoilPin 3 s.coilON) s
    else s
  if s1.currentTooth = s1.dwellIndex2 then
    if cmp = true then hwCall (HwCall.writeCoilPin 2 s1.coilON) s1
    else hwCall (HwCall.writeCoilPin 1 s1.coilON) s1
  else s1

/-- The firing part of the output step: the ignition timer is started. -/
def twFire (cmp : Bool) (s : TriggerWheel) : TriggerWheel :=
  let s1 :=
    if s.currentTooth = s.ignitionFiringIndex1 then
      if cmp = true then
        hwCall (HwCall.startIgnitionTimer (toUint16 s.ignitionDelay) TimerCallback.ignitionPowerOff)
          { s with check_ig1 := toUint8 s.ignitionFiringIndex1, activeCoil := 0 }
      else
        hwCall (HwCall.startIgnitionTimer (toUint16 s.ignitionDelay) TimerCallback.ignitionPowerOff)
          { s with activeCoil := 3 }
    else s
  if s1.currentTooth = s1.ignitionFiringIndex2 then
    if cmp = true then
      hwCall (HwCall.startIgnitionTimer (toUint16 s1.ignitionDelay) TimerCallback.ignitionPowerOff)
        { s1 with check_ig2 := toUint8 s1.ignitionFiringIndex2, activeCoil := 2 }
    else
      hwCall (HwCall.startIgnitionTimer (toUint16 s1.ignitionDelay) TimerCallback.ignitionPowerOff)
        { s1 with activeCoil := 1 }
  else s1

/-- The fifth step of `crankshaftPulseHandler`: the outputs, made only in sync. -/
def twOutputs (cmp : Bool) (s : TriggerWheel) : TriggerWheel :=
  if s.triggerWheelInSync > 0 then
    twFire cmp (twDwell cmp (twInjectionB cmp (twInjectionA cmp s)))
  else s

/-- The last step of `crankshaftPulseHandler`: the period filter and the
estimate of the next period. `x << k` is `x * 2 ^ k`, `x >> k` an arithmetic
shift. -/
def twPeriodFilter (s : TriggerWheel) : TriggerWheel :=
  let k := s.cfPage1.filters.crankshaftPulseFilter
  let crankPulsePeriodFTemp :=
    ((s.crankPulsePeriodR * 2 ^ k - s.crankPulsePeriodFN_1) >>> k) + s.crankPulsePeriodFN_1
  let crankPulsePeriodF := crankPulsePeriodFTemp >>> k
  { s with
    crankPulsePeriodFN_1 := crankPulsePeriodFTemp
    crankPulsePeriodF := crankPulsePeriodF
    crankPulsePeriodEstimate := 2 * crankPulsePeriodF - s.crankPulsePeriodFtN_1
    crankPulsePeriodFtN_1 := crankPulsePeriodF }

/-- The function `crankshaftPulseHandler`. `cmp` is the level of the pin
`CMP_SIGNAL_CHECK` during the call, `crankPulsePeriod` the measured period. -/
def crankshaftPulseHandler (cmp : Bool) (crankPulsePeriod : Int) (s : TriggerWheel) :
    TriggerWheel :=
  twPeriodFilter (twOutputs cmp (twMissingTooth crankPulsePeriod
    (twSequenceReset (twUpdateTiming (twIncrementTooth s)))))

/-- The state after a train of pulses, each with the pin level read during it
and its period. -/
def twRun (pulses : List (Bool × Int)) (s : TriggerWheel) : TriggerWheel :=
  pulses.foldl (fun st p => crankshaftPulseHandler p.1 p.2 st) s

/-! ## fuel_injection.h / fuel_injection.c -/

/-- The struct `currentCellStruct`. -/
structure currentCellStruct where
  rpmIndex : Int
  loadIndex : Int

/-- The struct `temperatureCompDefn`. -/
structure temperatureCompDefn where
  t1 : ℚ
  t2 : ℚ
  a : ℚ
  b : ℚ

/-- The configuration page and the variables of `fuel_injection.c`. -/
structure FuelInjection where
  cfPage1 : page1Struct
  accelCompensationValue : ℚ
  tempComp : ℚ
  accelCompLimit : ℚ
  accelCompAmplitude : ℚ
  accelCompTC : ℚ
  lowPassTPS_1 : ℚ
  accelCompPeak : ℚ
  tempCompCoeff : Int → temperatureCompDefn
  rpmDeltaReciprocal : ℚ
  loadDeltaReciprocal : ℚ
  relRPM : ℚ
  relLoad : ℚ
  r1 : Int
  r2 : Int
  l1 : Int
  l2 : Int
  currentCell : currentCellStruct
  interpolatedVE : ℚ
  PSE : ℚ
  PSEStart : ℚ
  PSEDecay : ℚ
  AFRCorrection : EngineMap
  veMapCorrected : EngineMap

/-- The function `initPostStartEnrichment`. -/
def initPostStartEnrichment (startValue timePeriod cyclicPeriod : ℚ) (s : FuelInjection) :
    FuelInjection :=
  let start := 1 + (1 / 100) * startValue
  { s with
    PSEStart := start
    PSE := start
    PSEDecay := (start - 1) * cyclicPeriod / (1000 * timePeriod) }

/-- The function `resetCorrectionArray`. -/
def resetCorrectionArray (s : FuelInjection) : FuelInjection :=
  { s with
    veMapCorrected := fun r c =>
      if 0 ≤ r ∧ r < VE_MAP_SIZE_LOAD ∧ 0 ≤ c ∧ c < VE_MAP_SIZE_RPM then
        s.cfPage1.veMap r c + s.AFRCorrection r c
      else s.veMapCorrected r c }

/-- The function `initAccelCompensation`; `logf` is the library logarithm. -/
def initAccelCompensation (logf : ℚ → ℚ) (limit amplitudeFactor time cyclicPeriod : ℚ)
    (s : FuelInjection) : FuelInjection :=
  let tc := -(logf ((1 / 10) / amplitudeFactor)) * cyclicPeriod / time
  { s with
    accelCompTC := tc
    accelCompAmplitude := 2 * amplitudeFactor / (1 - tc)
    accelCompLimit := 2 * limit
    lowPassTPS_1 := 0
    accelCompPeak := 0
    accelCompensationValue := 0 }

/-- The function `accelCompensation1`: the value returned and the new state. -/
def accelCompensation1 (TPS : ℚ) (s : FuelInjection) : ℚ × FuelInjection :=
  let lowPassTPS := (TPS - s.lowPassTPS_1) * s.accelCompTC + s.lowPassTPS_1
  let newAccelComp0 := s.accelCompAmplitude * (TPS - lowPassTPS)
  let newAccelComp := if newAccelComp0 > 0 then newAccelComp0 else 0
  let peak :=
    if newAccelComp > s.accelCompPeak then
      (if newAccelComp > s.accelCompLimit then s.accelCompLimit else newAccelComp)
    else s.accelCompPeak
  let clip := (1 / 2) * peak
  if newAccelComp > clip then
    (clip, { s with lowPassTPS_1 := lowPassTPS, accelCompPeak := peak,
                    accelCompensationValue := clip })
  else
    (newAccelComp, { s with lowPassTPS_1 := lowPassTPS, accelCompPeak := 2 * newAccelComp,
                            accelCompensationValue := newAccelComp })

/-- The function `initTempCompSlope`. -/
def initTempCompSlope (T1 comp1_percent T2 comp2_percent : ℚ) (index : Int)
    (s : FuelInjection) : FuelInjection :=
  let comp1 := (1 / 100) * comp1_percent
  let comp2 := (1 / 100) * comp2_percent
  let a := (comp2 - comp1) / (T2 - T1)
  { s with
    tempCompCoeff := Function.update s.tempCompCoeff index
      { t1 := T1, t2 := T2, a := a, b := comp1 - a * T1 } }

/-- The function `temperatureCompensation`. -/
def temperatureCompensation (s : FuelInjection) (temp : ℚ) (tccIndex : Int) : ℚ :=
  1 + ((s.tempCompCoeff tccIndex).a *
        limitF temp (s.tempCompCoeff tccIndex).t1 (s.tempCompCoeff tccIndex).t2
      + (s.tempCompCoeff tccIndex).b)

/-- The function `findHeightInsideRectangle`. -/
def findHeightInsideRectangle (x y widthR depthR h1 h2 h3 h4 : ℚ) : ℚ :=
  let xD := x * widthR
  let h12 := xD * (h2 - h1) + h1
  let h34 := xD * (h4 - h3) + h3
  y * depthR * (h34 - h12) + h12

/-- The function `getMapInterpolatedValue`. -/
def getMapInterpolatedValue (s : FuelInjection) (map : EngineMap) : ℚ :=
  findHeightInsideRectangle s.relRPM s.relLoad s.rpmDeltaReciprocal s.loadDeltaReciprocal
    (map s.l1 s.r1) (map s.l1 s.r2) (map s.l2 s.r1) (map s.l2 s.r2)

/-- The function `mapLookup`. -/
def mapLookup (_RPM _load : ℚ) (s : FuelInjection) : FuelInjection :=
  let RPM := limitF _RPM s.cfPage1.p2.rpmAxisStart
    (s.cfPage1.p2.rpmAxisStart + ((VE_MAP_SIZE_RPM - 1 : Int) : ℚ) * s.cfPage1.p2.rpmAxisDelta)
  let load := limitF _load s.cfPage1.p2.loadAxisStart
    (s.cfPage1.p2.loadAxisStart + ((VE_MAP_SIZE_LOAD - 1 : Int) : ℚ) * s.cfPage1.p2.loadAxisDelta)
  let tempR := (RPM - s.cfPage1.p2.rpmAxisStart) * s.rpmDeltaReciprocal
  let tempL := (load - s.cfPage1.p2.loadAxisStart) * s.loadDeltaReciprocal
  let rpmIndex := limitI (floatToInt tempR) 0 (VE_MAP_SIZE_RPM - 1)
  let loadIndex := limitI (floatToInt tempL) 0 (VE_MAP_SIZE_LOAD - 1)
  let r1 := if rpmIndex ≤ VE_MAP_SIZE_RPM - 2 then rpmIndex else rpmIndex - 1
  let l1 := if loadIndex ≤ VE_MAP_SIZE_LOAD - 2 then loadIndex else loadIndex - 1
  { s with
    currentCell :=
      { rpmIndex := limitI (roundf tempR) 0 (VE_MAP_SIZE_RPM - 1)
        loadIndex := limitI (roundf tempL) 0 (VE_MAP_SIZE_LOAD - 1) }
    r1 := r1
    r2 := r1 + 1
    l1 := l1
    l2 := l1 + 1
    relRPM := RPM - (s.cfPage1.p2.rpmAxisStart + (r1 : ℚ) * s.cfPage1.p2.rpmAxisDelta)
    relLoad := load - (s.cfPage1.p2.loadAxisStart + (l1 : ℚ) * s.cfPage1.p2.loadAxisDelta) }

/-- The function `getInjectorPulseWidth`: the pulse width returned and the new
state. -/
def getInjectorPulseWidth (RPM load TPS engineTemperature airTemperature : ℚ)
    (s : FuelInjection) : ℚ × FuelInjection :=
  let ac := accelCompensation1 TPS s
  let adjustedMAP := (load + ac.1) * (1 / 100)
  let s1 : FuelInjection :=
    { ac.2 with
      veMapCorrected := fun l r =>
        if l = ac.2.currentCell.loadIndex ∧ r = ac.2.currentCell.rpmIndex then
          ac.2.cfPage1.veMap l r + ac.2.AFRCorrection l r
        else ac.2.veMapCorrected l r }
  let s2 : FuelInjection := { s1 with interpolatedVE := getMapInterpolatedValue s1 s1.veMapCorrected }
  let s3 : FuelInjection :=
    { s2 with
      tempComp := temperatureCompensation s2 engineTemperature 0 *
        temperatureCompensation s2 airTemperature 1 }
  if RPM < s3.cfPage1.p1.crankingThreshold then
    let s4 : FuelInjection := { s3 with PSE := s3.PSEStart }
    if TPS < 60 then
      (s4.cfPage1.p1.crankingPW * (1 + 2 * (temperatureCompensation s4 engineTemperature 0 - 1)),
       s4)
    else (100, s4)
  else
    (1000 * (s3.cfPage1.p2.requiredFuel * s3.interpolatedVE * (1 / 100) * adjustedMAP
        * s3.tempComp * s3.PSE + s3.cfPage1.p2.injectorLatency),
     { s3 with PSE := if s3.PSE > 1 then s3.PSE - s3.PSEDecay else 1 })

/-- The function `fuInitialise`; `logf` is the library logarithm. -/
def fuInitialise (logf : ℚ → ℚ) (cyclicPeriod : ℚ) (s : FuelInjection) : FuelInjection :=
  let s1 : FuelInjection :=
    { s with
      rpmDeltaReciprocal := 1 / s.cfPage1.p2.rpmAxisDelta
      loadDeltaReciprocal := 1 / s.cfPage1.p2.loadAxisDelta }
  let s2 := initTempCompSlope s1.cfPage1.p1.engTempCompT1 s1.cfPage1.p1.engTempCompC1
    s1.cfPage1.p1.engTempCompT2 s1.cfPage1.p1.engTempCompC2 0 s1
  let s3 := initTempCompSlope s2.cfPage1.p1.airTempCompT1 s2.cfPage1.p1.airTempCompC1
    s2.cfPage1.p1.airTempCompT2 s2.cfPage1.p1.airTempCompC2 1 s2
  let s4 := initPostStartEnrichment s3.cfPage1.p1.pseStartValue s3.cfPage1.p1.pseDecayTime
    cyclicPeriod s3
  let s5 := initAccelCompensation logf s4.cfPage1.p1.accelCompLimit
    s4.cfPage1.p1.accelCompAmplitude s4.cfPage1.p1.accelCompDuration cyclicPeriod s4
  resetCorrectionArray s5

/-! ## global.h: the ECU status word -/

/-- The status bit `EEPROM_AVAILABLE`. -/
def EEPROM_AVAILABLE : Nat := 0x100

/-- The status bit `EEPROM_DATA_SAVE_ERROR`. -/
def EEPROM_DATA_SAVE_ERROR : Nat := 0x200

/-- The status bit `EEPROM_DATA_READ_ERROR`. -/
def EEPROM_DATA_READ_ERROR : Nat := 0x400

/-- The status bit `EEPROM_CHECKSUM_ERROR`. -/
def EEPROM_CHECKSUM_ERROR : Nat := 0x800

/-- The status bit `IDLE_SWITCH_ON`. -/
def IDLE_SWITCH_ON : Nat := 0x1000

/-- The status bit `COOLING_FAN_ON`. -/
def COOLING_FAN_ON : Nat := 0x2000

/-- The status bit `AFR_ACTIVE_CONTROL`. -/
def AFR_ACTIVE_CONTROL : Nat := 0x4000

/-- The status bit `INVALID_CONFIG`. -/
def INVALID_CONFIG : Nat := 0x8000

/-- The macros `SET_...`: `STAT |= bit` on the `uint32_t` status word. -/
def setStatus (bit status : Nat) : Nat := status ||| bit

/-- The macros `CLEAR_...`: `STAT &= ~bit` on the `uint32_t` status word. -/
def clearStatus (bit status : Nat) : Nat := status &&& (0xFFFFFFFF ^^^ bit)

/-- The macros `TEST_...` and the tests `(ecuStatus & bit) != 0`. -/
def testStatus (bit status : Nat) : Bool := decide (status &&& bit ≠ 0)

/-! ## cfg_data.h: the configuration descriptor and the EEPROM layout -/

/-- The struct `configurationDesciptorStruct`. -/
structure configurationDesciptorStruct where
  currentConfiguration : Int
  unused : List Int

/-- The address `FILTERS_NVM_ADDR`, relative to the configuration page. -/
def FILTERS_NVM_ADDR : Int := 0

/-- The address `PARAMETERS_1_NVM_ADDR`. -/
def PARAMETERS_1_NVM_ADDR : Int := 64

/-- The address `PARAMETERS_2_NVM_ADDR`. -/
def PARAMETERS_2_NVM_ADDR : Int := 256

/-- The address `VE_MAP_NVM_ADDR`. -/
def VE_MAP_NVM_ADDR : Int := 384

/-- The address `IGNITION_MAP_NVM_ADDR`. -/
def IGNITION_MAP_NVM_ADDR : Int := 704

/-- The address `TGT_AFR_MAP_NVM_ADDR`. -/
def TGT_AFR_MAP_NVM_ADDR : Int := 1024

/-- The address `CONFIGURATION_PAGE_START_ADDR`. -/
def CONFIGURATION_PAGE_START_ADDR : Int := 640

/-- The size `CONFIGURATION_PAGE_SIZE`. -/
def CONFIGURATION_PAGE_SIZE : Int := 1344

/-- The address `AFR_DATA_NVM_ADDR`. -/
def AFR_DATA_NVM_ADDR : Int := 64

/-- A cell `(l, r)` lies in the `VE_MAP_SIZE_LOAD` by `VE_MAP_SIZE_RPM` grid. -/
def inGrid (l r : Int) : Bool :=
  decide (0 ≤ l ∧ l < VE_MAP_SIZE_LOAD ∧ 0 ≤ r ∧ r < VE_MAP_SIZE_RPM)

/-- The assignment `m[l][r] = v`. -/
def setCell (m : EngineMap) (l r : Int) (v : ℚ) : EngineMap :=
  fun a b => if a = l ∧ b = r then v else m a b

/-- An array of the grid overwritten as a whole: the cells of the grid are taken
from `new`. -/
def gridCopy (new old : EngineMap) : EngineMap :=
  fun l r => if inGrid l r = true then new l r else old l r

/-! ## nvm.c

The EEPROM, the I2C bus and the HAL functions `HAL_I2C_IsDeviceReady`,
`HAL_I2C_Master_Transmit` and `HAL_I2C_Master_Receive` are outside the
repository; the macro `I2C_INTERFACE` is taken as defined. Every call of one of
the three functions is an operation on the bus. The operations are counted, and
the value the HAL returns for operation `k` is `bus k`: every operation of a
block read or write succeeds or fails on its own, whatever the operations
before it did.

The bytes on the device are not modelled. The content of the device is held
block by block: for each type of block stored by the firmware and each device
address, the data a block read of that type delivers from that address and
whether the checksum received after it matches the data. In the layout of
`cfg_data.h` blocks of different types never share an address. A block write
whose transfers all succeed leaves the block with a matching checksum. What a
block write that has started a transmission and is not completed leaves on the
device, and what a data transfer that breaks off leaves in the destination
variable, depends on the bytes that went over the bus; both are given by the
device (`torn`, `cutShort`), for every operation at which this can happen. -/

/-- The values of `HAL_StatusTypeDef` (HAL). -/
inductive HAL_StatusTypeDef where
  | HAL_OK
  | HAL_ERROR
  | HAL_BUSY
  | HAL_TIMEOUT
  deriving DecidableEq, Repr

/-- A block on the device: its data, whether the stored checksum matches, and
what a transfer of the data that breaks off at bus operation `k` leaves in a
variable holding `x` (`cutShort k x`). -/
structure NvBlock (α : Type) where
  data : α
  checksumOk : Bool
  cutShort : Nat → α → α

/-- The block after a complete block write of the data `d`. -/
def NvBlock.written {α : Type} (b : NvBlock α) (d : α) : NvBlock α :=
  { b with data := d, checksumOk := true }

/-- The content of the device, by type of block and address. -/
structure NvContent where
  descriptor : Int → NvBlock configurationDesciptorStruct
  afrData : Int → NvBlock (EngineMap × EngineMap)
  filters : Int → NvBlock filtersStruct
  parameters1 : Int → NvBlock parameters1Struct
  parameters2 : Int → NvBlock parameters2Struct
  maps : Int → NvBlock EngineMap

/-- The EEPROM device and the bus. `writes` lists the calls of
`nvEEPROMBlockWrite` (address and number of data bytes), latest last; `ops` is
the number of bus operations made so far and `bus k` the value the HAL returns
for operation `k`; `torn k before full` is the content left by a block write
from the content `before` towards the content `full` whose last transmission
was operation `k`, when the block write is not completed. -/
structure Eeprom extends NvContent where
  writes : List (Int × Int)
  ops : Nat
  bus : Nat → HAL_StatusTypeDef
  torn : Nat → NvContent → NvContent → NvContent

/-- One call of a HAL function on the bus: the value returned, and the device
with the operation counted. -/
def nvBusOperation (e : Eeprom) : HAL_StatusTypeDef × Eeprom :=
  (e.bus e.ops, { e with ops := e.ops + 1 })

/-- The loop `while (HAL_I2C_IsDeviceReady(...) != HAL_OK)` of `nvEEPROMWrite`
and `nvEEPROMBlockRead`, which gives up when `++eeWaitCount > 1000`, with
`attempts` calls left (1001 at the start): whether the device answered, and the
device. -/
def nvWaitReady : Nat → Eeprom → Bool × Eeprom
  | 0, e => (false, e)
  | attempts + 1, e =>
    let r := nvBusOperation e
    if r.1 = HAL_StatusTypeDef.HAL_OK then (true, r.2) else nvWaitReady attempts r.2

/-- The function `nvTestEEPROMReady`: the value returned, the device and the
status word. -/
def nvTestEEPROMReady (e : Eeprom) (status : Nat) : Int × Eeprom × Nat :=
  let r := nvBusOperation e
  if r.1 = HAL_StatusTypeDef.HAL_OK then (1, r.2, setStatus EEPROM_AVAILABLE status)
  else (0, r.2, status)

/-- The function `nvEEPROMWrite` for one transmission of a block write from the
content `before` towards the content `full`: the value returned, the device
and the status word. Once the transmission is made the device holds the
content given by `torn`, until the block write is completed. -/
def nvEEPROMWrite (before full : NvContent) (e : Eeprom) (status : Nat) :
    HAL_StatusTypeDef × Eeprom × Nat :=
  let w := nvWaitReady 1001 e
  if w.1 = true then
    let t := nvBusOperation w.2
    let e1 : Eeprom := { t.2 with toNvContent := w.2.torn w.2.ops before full }
    if t.1 ≠ HAL_StatusTypeDef.HAL_OK then (t.1, e1, setStatus EEPROM_DATA_SAVE_ERROR status)
    else (t.1, e1, status)
  else (HAL_StatusTypeDef.HAL_ERROR, w.2, setStatus EEPROM_DATA_SAVE_ERROR status)

/-- The loop of `nvEEPROMBlockWrite` over the pages of 64 bytes, with `pages`
pages left: `HAL_ERROR` as soon as `nvEEPROMWrite` fails for a page. -/
def nvEEPROMBlockWritePages (before full : NvContent) :
    Nat → Eeprom → Nat → HAL_StatusTypeDef × Eeprom × Nat
  | 0, e, status => (HAL_StatusTypeDef.HAL_OK, e, status)
  | pages + 1, e, status =>
    let w := nvEEPROMWrite before full e status
    if w.1 ≠ HAL_StatusTypeDef.HAL_OK then (HAL_StatusTypeDef.HAL_ERROR, w.2.1, w.2.2)
    else nvEEPROMBlockWritePages before full pages w.2.1 w.2.2

/-- The function `nvEEPROMBlockWrite` for a block of `nBytes` bytes at
`eepromAddress`; `store` puts the data with a matching checksum into the
content of the device. The pages, the remaining bytes and the checksum are sent
with `nvEEPROMWrite`; the value returned is `HAL_ERROR` when a page or the
remaining bytes fail, and the value of `nvEEPROMWrite` for the checksum
otherwise. The value returned, the device and the status word. -/
def nvEEPROMBlockWrite (store : NvContent → NvContent) (eepromAddress nBytes : Int)
    (e : Eeprom) (status : Nat) : HAL_StatusTypeDef × Eeprom × Nat :=
  let pages := Int.tdiv nBytes 64
  let additionalBytes := nBytes - pages * 64
  let before := e.toNvContent
  let full := store e.toNvContent
  let e0 : Eeprom := { e with writes := e.writes ++ [(eepromAddress, nBytes)] }
  let p := nvEEPROMBlockWritePages before full pages.toNat e0 status
  if p.1 ≠ HAL_StatusTypeDef.HAL_OK then (HAL_StatusTypeDef.HAL_ERROR, p.2.1, p.2.2)
  else
    let a :=
      if additionalBytes > 0 then nvEEPROMWrite before full p.2.1 p.2.2
      else (HAL_StatusTypeDef.HAL_OK, p.2.1, p.2.2)
    if a.1 ≠ HAL_StatusTypeDef.HAL_OK then (HAL_StatusTypeDef.HAL_ERROR, a.2.1, a.2.2)
    else
      let c := nvEEPROMWrite before full a.2.1 a.2.2
      if c.1 = HAL_StatusTypeDef.HAL_OK then (c.1, { c.2.1 with toNvContent := full }, c.2.2)
      else c

/-- The function `nvEEPROMRead` of the block `blk` of the device into a variable
holding `dest`: the address is transmitted and the data received. The value
returned, the variable, the device and the status word. -/
def nvEEPROMRead {α : Type} (blk : NvBlock α) (dest : α) (e : Eeprom) (status : Nat) :
    HAL_StatusTypeDef × α × Eeprom × Nat :=
  let t := nvBusOperation e
  if t.1 ≠ HAL_StatusTypeDef.HAL_OK then
    (HAL_StatusTypeDef.HAL_ERROR, dest, t.2, setStatus EEPROM_DATA_READ_ERROR status)
  else
    let r := nvBusOperation t.2
    if r.1 ≠ HAL_StatusTypeDef.HAL_OK then
      (HAL_StatusTypeDef.HAL_ERROR, blk.cutShort t.2.ops dest, r.2,
       setStatus EEPROM_DATA_READ_ERROR status)
    else (HAL_StatusTypeDef.HAL_OK, blk.data, r.2, status)

/-- The function `nvEEPROMBlockRead` of the block `blk` of the device into a
variable holding `dest`: the device is waited for, the data read with
`nvEEPROMRead`, the checksum received and compared. The value returned, the
variable, the device and the status word. -/
def nvEEPROMBlockRead {α : Type} (blk : NvBlock α) (dest : α) (e : Eeprom) (status : Nat) :
    HAL_StatusTypeDef × α × Eeprom × Nat :=
  let w := nvWaitReady 1001 e
  if w.1 = true then
    let d := nvEEPROMRead blk dest w.2 status
    if d.1 ≠ HAL_StatusTypeDef.HAL_OK then (HAL_StatusTypeDef.HAL_ERROR, d.2.1, d.2.2.1, d.2.2.2)
    else
      let c := nvBusOperation d.2.2.1
      if c.1 ≠ HAL_StatusTypeDef.HAL_OK then (HAL_StatusTypeDef.HAL_ERROR, d.2.1, c.2, d.2.2.2)
      else
        (HAL_StatusTypeDef.HAL_OK, d.2.1, c.2,
         if blk.checksumOk = true then d.2.2.2
         else setStatus EEPROM_CHECKSUM_ERROR d.2.2.2)
  else (HAL_StatusTypeDef.HAL_ERROR, dest, w.2, setStatus EEPROM_DATA_READ_ERROR status)

/-! ## auto_afr.h / auto_afr.c -/

/-- The struct `afrDataStruct`. -/
structure afrDataStruct where
  lambdaAverages : EngineMap
  lambdaSamples : EngineMap
  cumulativeError : EngineMap

/-- The variables read and written by `auto_afr.c`: the configuration page, the
status word, the EEPROM and the variables of the file. The correction array is
an argument of the functions. -/
structure AutoAfr where
  cfPage1 : page1Struct
  ecuStatus : Nat
  eeprom : Eeprom
  savePeriod : Int
  savePeriodCounter : ℚ
  filterN_1 : EngineMap
  loadIndex1 : Int
  rpmIndex1 : Int
  afrData : afrDataStruct
  dataLock : Int

/-- The function `afResetAFRNoSave`: the correction array and the new state. -/
def afResetAFRNoSave (correctionArray : EngineMap) (s : AutoAfr) : EngineMap × AutoAfr :=
  (gridCopy (fun _ _ => 0) correctionArray,
   { s with
     afrData :=
       { lambdaAverages := gridCopy s.cfPage1.targetAFRMap s.afrData.lambdaAverages
         lambdaSamples := gridCopy (fun _ _ => 0) s.afrData.lambdaSamples
         cumulativeError := gridCopy (fun _ _ => 0) s.afrData.cumulativeError }
     filterN_1 := gridCopy s.cfPage1.targetAFRMap s.filterN_1 })

/-- The function `afInitialise`: the correction array and the new state. -/
def afInitialise (cyclicPeriod : ℚ) (correctionArray : EngineMap) (s : AutoAfr) :
    EngineMap × AutoAfr :=
  let s1 : AutoAfr :=
    { s with
      loadIndex1 := 0
      rpmIndex1 := 0
      savePeriod := floatToInt (60000 * s.cfPage1.p1.afrDataSavePeriod / cyclicPeriod)
      savePeriodCounter := 0 }
  let r := afResetAFRNoSave correctionArray s1
  if testStatus EEPROM_AVAILABLE r.2.ecuStatus = true then
    let s2 : AutoAfr := { r.2 with dataLock := 1 }
    let rd := nvEEPROMBlockRead (s2.eeprom.afrData AFR_DATA_NVM_ADDR)
      (s2.afrData.lambdaAverages, s2.afrData.lambdaSamples) s2.eeprom s2.ecuStatus
    (r.1,
     { s2 with
       afrData :=
         { s2.afrData with
           lambdaAverages := gridCopy rd.2.1.1 s2.afrData.lambdaAverages
           lambdaSamples := gridCopy rd.2.1.2 s2.afrData.lambdaSamples }
       eeprom := rd.2.2.1
       ecuStatus := rd.2.2.2
       dataLock := 0 })
  else r

/-- The function `afSaveAFRDataToNVM`: the value returned and the new state. -/
def afSaveAFRDataToNVM (s : AutoAfr) : HAL_StatusTypeDef × AutoAfr :=
  let s1 : AutoAfr := { s with dataLock := 1 }
  let w := nvEEPROMBlockWrite
    (fun c => { c with
      afrData := Function.update c.afrData AFR_DATA_NVM_ADDR
        ((c.afrData AFR_DATA_NVM_ADDR).written
          (s1.afrData.lambdaAverages, s1.afrData.lambdaSamples)) })
    AFR_DATA_NVM_ADDR 512 s1.eeprom s1.ecuStatus
  (w.1, { s1 with eeprom := w.2.1, ecuStatus := w.2.2, dataLock := 0 })

/-- The function `afResetAFR`: the value returned, the correction array and the
new state. -/
def afResetAFR (correctionArray : EngineMap) (s : AutoAfr) :
    HAL_StatusTypeDef × EngineMap × AutoAfr :=
  let r := afResetAFRNoSave correctionArray s
  if testStatus EEPROM_AVAILABLE r.2.ecuStatus = true then
    let w := afSaveAFRDataToNVM r.2
    (w.1, r.1, w.2)
  else (HAL_StatusTypeDef.HAL_OK, r.1, r.2)

/-- The function `afSaveAFRData`: the value returned and the new state. -/
def afSaveAFRData (RPM engineTemp : ℚ) (s : AutoAfr) : Int × AutoAfr :=
  if testStatus EEPROM_AVAILABLE s.ecuStatus = true then
    if engineTemp > s.cfPage1.p1.engTempCompT2 ∧ RPM > s.cfPage1.p1.crankingThreshold then
      if s.savePeriod > 0 then
        if s.savePeriodCounter + 1 ≥ (s.savePeriod : ℚ) then
          let w := afSaveAFRDataToNVM { s with savePeriodCounter := 0 }
          if w.1 = HAL_StatusTypeDef.HAL_OK then (1, w.2) else (0, w.2)
        else (0, { s with savePeriodCounter := s.savePeriodCounter + 1 })
      else (0, s)
    else (0, s)
  else (0, s)

/-- The first step of the active branch of `afComputeCorrection`: unless the
data lock is set, the long-term average of the cell is filtered and its sample
count incremented. -/
def afUpdateAverage (loadIndex rpmIndex : Int) (lambdaVoltage : ℚ) (s : AutoAfr) : AutoAfr :=
  if s.dataLock = 0 then
    let average := s.cfPage1.p1.afrAveragingFilterTC *
      (lambdaVoltage - s.filterN_1 loadIndex rpmIndex) + s.filterN_1 loadIndex rpmIndex
    { s with
      afrData :=
        { s.afrData with
          lambdaAverages := setCell s.afrData.lambdaAverages loadIndex rpmIndex average
          lambdaSamples := setCell s.afrData.lambdaSamples loadIndex rpmIndex
            (s.afrData.lambdaSamples loadIndex rpmIndex + 1 / 100) }
      filterN_1 := setCell s.filterN_1 loadIndex rpmIndex average }
  else s

/-- The second step of the active branch of `afComputeCorrection`: the error `e`
is integrated if the cumulative error of the cell is not saturated. -/
def afIntegrateError (loadIndex rpmIndex : Int) (e : ℚ) (s : AutoAfr) : AutoAfr :=
  if |s.afrData.cumulativeError loadIndex rpmIndex| < 10000 then
    { s with
      afrData :=
        { s.afrData with
          cumulativeError := setCell s.afrData.cumulativeError loadIndex rpmIndex
            (s.afrData.cumulativeError loadIndex rpmIndex + (1 / 1000) * e) } }
  else s

/-- The function `afComputeCorrection`: the correction array and the new state. -/
def afComputeCorrection (RPM engineTemp : ℚ) (loadIndex rpmIndex : Int) (lambdaVoltage : ℚ)
    (correctionArray : EngineMap) (s : AutoAfr) : EngineMap × AutoAfr :=
  if engineTemp > s.cfPage1.p1.engTempCompT2 ∧ RPM > s.cfPage1.p1.crankingThreshold then
    let s1 : AutoAfr := { s with ecuStatus := setStatus AFR_ACTIVE_CONTROL s.ecuStatus }
    let s2 := afUpdateAverage loadIndex rpmIndex lambdaVoltage s1
    let e := s2.cfPage1.targetAFRMap loadIndex rpmIndex - lambdaVoltage
    let s3 := afIntegrateError loadIndex rpmIndex e s2
    (setCell correctionArray loadIndex rpmIndex
       (s3.cfPage1.p1.afrCorrectionGainP * e +
        s3.cfPage1.p1.afrCorrectionGainI * s3.afrData.cumulativeError loadIndex rpmIndex),
     s3)
  else (correctionArray, { s with ecuStatus := clearStatus AFR_ACTIVE_CONTROL s.ecuStatus })

/-- The values delivered by `afGetSample` through its pointer arguments. -/
structure AfrSample where
  correction : ℚ
  average : ℚ
  samples : ℚ
  AFRIndex : ℚ

/-- The function `afGetSample`: the sample and the new state. -/
def afGetSample (correctionArray : EngineMap) (s : AutoAfr) : AfrSample × AutoAfr :=
  ({ correction := correctionArray s.loadIndex1 s.rpmIndex1
     average := s.afrData.lambdaAverages s.loadIndex1 s.rpmIndex1
     samples := s.afrData.lambdaSamples s.loadIndex1 s.rpmIndex1
     AFRIndex := ((s.loadIndex1 * VE_MAP_SIZE_RPM + s.rpmIndex1 : Int) : ℚ) },
   if s.rpmIndex1 + 1 ≥ VE_MAP_SIZE_RPM then
     if s.loadIndex1 + 1 ≥ VE_MAP_SIZE_LOAD then { s with rpmIndex1 := 0, loadIndex1 := 0 }
     else { s with rpmIndex1 := 0, loadIndex1 := s.loadIndex1 + 1 }
   else { s with rpmIndex1 := s.rpmIndex1 + 1 })

/-! ## The variables of the firmware as a whole

The functions of `cfg_data.c` and `cyclic_tasks.c` work on the variables of
several files. The variables of `sensors.c`, `auto_idle.c` and
`vvt_controller.c` and the peripherals they drive are a component of type `X`
of this state, and the initialisation functions of these files are parameters
(`Modules`). In the source these functions read `cfPage1`; `seInitialise` also
writes the key data and, through `readAnalog`, the status word. The target
throttle position of `auto_idle.c` is embedded on its own variables in a
section below. -/

/-- An output made by `cyclic_tasks.c`: a timer compare value, a CAN message
(identifier and data bytes) or a toggle of the LED pin. -/
inductive EcuOutput where
  | timSetCompare (value : Int)
  | canMessage (stdId : Int) (data : List Int)
  | ledToggle
  deriving DecidableEq, Repr

/-- The variables of the firmware. `tw`, `fu` and `af` hold the variables of
`trigger_wheel_handler.c`, `fuel_injection.c` and `auto_afr.c`; the
configuration page, the key data, the status word and the EEPROM are shared and
held once, here. -/
structure Ecu (X : Type) where
  cfPage1 : page1Struct
  configurationDescriptor : configurationDesciptorStruct
  ecuStatus : Nat
  keyData : keyDataStruct
  eeprom : Eeprom
  tw : TriggerWheel
  fu : FuelInjection
  af : AutoAfr
  sc : Scheduler
  triggerWheelInSyncLast : Nat
  saveAFRFlag : Int
  outputs : List EcuOutput
  other : X

/-- The initialisation functions of the files whose variables are the component
`X`, and the library logarithm. -/
structure Modules (X : Type) where
  logf : ℚ → ℚ
  seInitialise : Int → page1Struct → keyDataStruct → Nat → X → keyDataStruct × Nat × X
  aiInitialise : ℚ → page1Struct → X → X
  vvInitialise : page1Struct → X → X

/-- The variables seen by `trigger_wheel_handler.c`. -/
def Ecu.twView {X : Type} (s : Ecu X) : TriggerWheel :=
  { s.tw with cfPage1 := s.cfPage1, keyData := s.keyData }

/-- The variables after a function of `trigger_wheel_handler.c` has run. -/
def Ecu.setTw {X : Type} (s : Ecu X) (t : TriggerWheel) : Ecu X :=
  { s with tw := t, keyData := t.keyData }

/-- The variables seen by `fuel_injection.c`. -/
def Ecu.fuView {X : Type} (s : Ecu X) : FuelInjection :=
  { s.fu with cfPage1 := s.cfPage1 }

/-- The variables seen by `auto_afr.c`. -/
def Ecu.afView {X : Type} (s : Ecu X) : AutoAfr :=
  { s.af with cfPage1 := s.cfPage1, ecuStatus := s.ecuStatus, eeprom := s.eeprom }

/-- The variables after a function of `auto_afr.c` has run on the correction
array `AFRCorrection` of `fuel_injection.c`. -/
def Ecu.setAf {X : Type} (s : Ecu X) (r : EngineMap × AutoAfr) : Ecu X :=
  { s with
    af := r.2
    ecuStatus := r.2.ecuStatus
    eeprom := r.2.eeprom
    fu := { s.fu with AFRCorrection := r.1 } }

/-! ## cfg_data.c -/

/-- The constant `DIAGNOSTIC_MODE` of `global.h`. -/
def DIAGNOSTIC_MODE : Int := 1

/-- The period `CYCLIC_PROCESSING_HF_PERIOD` of `ecu_main.h`. -/
def CYCLIC_PROCESSING_HF_PERIOD : ℚ := 5

/-- The period `CYCLIC_PROCESSING_LF_PERIOD`. -/
def CYCLIC_PROCESSING_LF_PERIOD : ℚ := 40

/-- The period `CYCLIC_PROCESSING_VLF_PERIOD`. -/
def CYCLIC_PROCESSING_VLF_PERIOD : ℚ := 1000

/-- The task index `CYCLIC_PROCESSING_VLF_TASKS`. -/
def CYCLIC_PROCESSING_VLF_TASKS : Int := 2

/-- The type `paramType` of `global.h`: a data item from the host, in float and
in integer format. -/
structure paramType where
  f : ℚ
  i : Int

/-- The enumeration `cfErrorCode`. -/
inductive cfErrorCode where
  | CF_SUCCESS
  | CF_INVALID
  | CF_ERASE_ERROR
  | CF_WRITE_ERROR
  | CF_DATA_SIZE_MISMATCH
  | CF_UNKNOWN_BLOCK_ID
  deriving DecidableEq, Repr

/-- The block identifier `FILTER_BLK`. -/
def FILTER_BLK : Int := 100

/-- The block identifier `PARAMETER_1_BLK`. -/
def PARAMETER_1_BLK : Int := 200

/-- The block identifier `PARAMETER_2_BLK`. -/
def PARAMETER_2_BLK : Int := 300

/-- The block identifier `VE_MAP_BLK`. -/
def VE_MAP_BLK : Int := 400

/-- The block identifier `IGN_MAP_BLK`. -/
def IGN_MAP_BLK : Int := 500

/-- The block identifier `TGT_AFR_BLK`. -/
def TGT_AFR_BLK : Int := 600

/-- The item count `FILTER_ITEMS`. -/
def FILTER_ITEMS : Int := 8

/-- The item count `PARAMETER_1_ITEMS`. -/
def PARAMETER_1_ITEMS : Int := 34

/-- The item count `PARAMETER_2_ITEMS`. -/
def PARAMETER_2_ITEMS : Int := 27

/-- The item count `VE_MAP_ITEMS`. -/
def VE_MAP_ITEMS : Int := 64

/-- The item count `IGN_MAP_ITEMS`. -/
def IGN_MAP_ITEMS : Int := 64

/-- The item count `TGT_AFR_ITEMS`. -/
def TGT_AFR_ITEMS : Int := 64

/-- The function `absAddr`: the result is a `uint16_t`. -/
def absAddr {X : Type} (relAddr : Int) (s : Ecu X) : Int :=
  toUint16 ((s.configurationDescriptor.currentConfiguration - 1) * CONFIGURATION_PAGE_SIZE
    + CONFIGURATION_PAGE_START_ADDR + relAddr)

/-- The function `copyTypedData` on the filters block, with the type string
`filterDataTypes = "FFFFFFII"`. -/
def copyTypedDataFilters (data : Nat → paramType) : filtersStruct :=
  { mapFilter := (data 0).f
    lambdaSensorFilter := (data 1).f
    coolantTempFilter := (data 2).f
    airTempFilter := (data 3).f
    tpsFilter := (data 4).f
    voltageFilter := (data 5).f
    reserved := (data 6).i
    crankshaftPulseFilter := (data 7).i.toNat }

/-- The function `copyTypedData` on the block of parameters 1, with the type
string `p1DataTypes = "*F"`: every item is a float. -/
def copyTypedDataP1 (data : Nat → paramType) : parameters1Struct :=
  ⟨(data 0).f, (data 1).f, (data 2).f, (data 3).f, (data 4).f, (data 5).f, (data 6).f,
   (data 7).f, (data 8).f, (data 9).f, (data 10).f, (data 11).f, (data 12).f, (data 13).f,
   (data 14).f, (data 15).f, (data 16).f, (data 17).f, (data 18).f, (data 19).f, (data 20).f,
   (data 21).f, (data 22).f, (data 23).f, (data 24).f, (data 25).f, (data 26).f, (data 27).f,
   (data 28).f, (data 29).f, (data 30).f, (data 31).f, (data 32).f, (data 33).f⟩

/-- The function `copyTypedData` on the block of parameters 2, with the type
string `p2DataTypes = "IIIFFFFFFIFIIFFIIIIIFFFFFFI"`. -/
def copyTypedDataP2 (data : Nat → paramType) : parameters2Struct :=
  ⟨(data 0).i, (data 1).i, (data 2).i, (data 3).f, (data 4).f, (data 5).f, (data 6).f,
   (data 7).f, (data 8).f, (data 9).i, (data 10).f, (data 11).i, (data 12).i, (data 13).f,
   (data 14).f, (data 15).i, (data 16).i, (data 17).i, (data 18).i, (data 19).i, (data 20).f,
   (data 21).f, (data 22).f, (data 23).f, (data 24).f, (data 25).f, (data 26).i⟩

/-- The function `copyTypedData` on a map, with the type string `"*F"`: item
`l * 8 + r` goes to `map[l][r]`. -/
def copyTypedDataMap (data : Nat → paramType) (old : EngineMap) : EngineMap :=
  gridCopy (fun l r => (data (l * VE_MAP_SIZE_RPM + r).toNat).f) old

/-- The function `cfSaveConfig`. `copy` is `copyTypedData` into the block of the
configuration page, `store` puts the block of the page into the content of the
device. The error code and the new state. -/
def cfSaveConfig {X : Type} (copy : page1Struct → page1Struct)
    (store : page1Struct → NvContent → NvContent) (blkSize nItemsSupplied itemsExpected : Int)
    (eepromAddress : Int) (s : Ecu X) : cfErrorCode × Ecu X :=
  if nItemsSupplied = itemsExpected then
    let s1 : Ecu X := { s with cfPage1 := copy s.cfPage1 }
    let w := nvEEPROMBlockWrite (store s1.cfPage1) eepromAddress blkSize s1.eeprom s1.ecuStatus
    let s2 : Ecu X := { s1 with eeprom := w.2.1, ecuStatus := w.2.2 }
    if w.1 ≠ HAL_StatusTypeDef.HAL_OK then (cfErrorCode.CF_WRITE_ERROR, s2)
    else (cfErrorCode.CF_SUCCESS, s2)
  else (cfErrorCode.CF_DATA_SIZE_MISMATCH, s)

/-- The test of `cfRestoreConfiguration` on the status word: a read error or a
checksum error is recorded. -/
def nvReadFailed (status : Nat) : Bool :=
  testStatus EEPROM_DATA_READ_ERROR status || testStatus EEPROM_CHECKSUM_ERROR status

/-- The first step of `cfRestoreConfiguration`: the configuration descriptor is
read from address 0. -/
def cfRestoreDescriptor {X : Type} (s : Ecu X) : Ecu X :=
  let rd := nvEEPROMBlockRead (s.eeprom.descriptor 0) s.configurationDescriptor s.eeprom
    s.ecuStatus
  { s with configurationDescriptor := rd.2.1, eeprom := rd.2.2.1, ecuStatus := rd.2.2.2 }

/-- One statement `nvEEPROMBlockRead(&cfPage1.x, absAddr(relAddr), sizeof(cfPage1.x))`
of `cfRestoreConfiguration`: the block of the device at the address of the
current configuration (`view` selects the type of block) is read into a
member of the configuration page (`get` is the member, `put` assigns it). -/
def cfRestoreBlock {X α : Type} (view : Eeprom → Int → NvBlock α) (relAddr : Int)
    (get : page1Struct → α) (put : page1Struct → α → page1Struct) (s : Ecu X) : Ecu X :=
  let rd := nvEEPROMBlockRead (view s.eeprom (absAddr relAddr s)) (get s.cfPage1) s.eeprom
    s.ecuStatus
  { s with cfPage1 := put s.cfPage1 rd.2.1, eeprom := rd.2.2.1, ecuStatus := rd.2.2.2 }

/-- The second step of `cfRestoreConfiguration`: the six blocks of the
configuration page are read, one after the other, from the addresses of the
current configuration. -/
def cfRestoreBlocks {X : Type} (s : Ecu X) : Ecu X :=
  let s1 := cfRestoreBlock (fun e => e.filters) FILTERS_NVM_ADDR (fun c => c.filters)
    (fun c v => { c with filters := v }) s
  let s2 := cfRestoreBlock (fun e => e.parameters1) PARAMETERS_1_NVM_ADDR (fun c => c.p1)
    (fun c v => { c with p1 := v }) s1
  let s3 := cfRestoreBlock (fun e => e.parameters2) PARAMETERS_2_NVM_ADDR (fun c => c.p2)
    (fun c v => { c with p2 := v }) s2
  let s4 := cfRestoreBlock (fun e => e.maps) VE_MAP_NVM_ADDR (fun c => c.veMap)
    (fun c v => { c with veMap := gridCopy v c.veMap }) s3
  let s5 := cfRestoreBlock (fun e => e.maps) IGNITION_MAP_NVM_ADDR (fun c => c.ignitionMap)
    (fun c v => { c with ignitionMap := gridCopy v c.ignitionMap }) s4
  cfRestoreBlock (fun e => e.maps) TGT_AFR_MAP_NVM_ADDR (fun c => c.targetAFRMap)
    (fun c v => { c with targetAFRMap := gridCopy v c.targetAFRMap }) s5

/-- The function `cfRestoreConfiguration`: the value returned and the new
state. -/
def cfRestoreConfiguration {X : Type} (s : Ecu X) : Int × Ecu X :=
  let s1 := cfRestoreDescriptor s
  if nvReadFailed s1.ecuStatus = true ∨ s1.configurationDescriptor.currentConfiguration < 1
      ∨ s1.configurationDescriptor.currentConfiguration > 8 then
    (1, { s1 with ecuStatus := setStatus INVALID_CONFIG s1.ecuStatus })
  else
    let s2 := cfRestoreBlocks s1
    if nvReadFailed s2.ecuStatus = true then
      (2, { s2 with ecuStatus := setStatus INVALID_CONFIG s2.ecuStatus })
    else (0, s2)

/-- The call `seInitialise(disable)` of `sensors.c`. -/
def ecuSeInitialise {X : Type} (env : Modules X) (disable : Int) (s : Ecu X) : Ecu X :=
  let r := env.seInitialise disable s.cfPage1 s.keyData s.ecuStatus s.other
  { s with keyData := r.1, ecuStatus := r.2.1, other := r.2.2 }

/-- The call `afInitialise(CYCLIC_PROCESSING_VLF_PERIOD, AFRCorrection)`. -/
def ecuAfInitialise {X : Type} (s : Ecu X) : Ecu X :=
  s.setAf (afInitialise CYCLIC_PROCESSING_VLF_PERIOD s.fu.AFRCorrection s.afView)

/-- The call `fuInitialise(CYCLIC_PROCESSING_HF_PERIOD)`. -/
def ecuFuInitialise {X : Type} (env : Modules X) (s : Ecu X) : Ecu X :=
  { s with fu := fuInitialise env.logf CYCLIC_PROCESSING_HF_PERIOD s.fuView }

/-- The function `cfSoftwareResetFilters`. -/
def cfSoftwareResetFilters {X : Type} (env : Modules X) (s : Ecu X) : Ecu X :=
  ecuSeInitialise env DIAGNOSTIC_MODE s

/-- The function `cfSoftwareReset`. -/
def cfSoftwareReset {X : Type} (env : Modules X) (s : Ecu X) : Ecu X :=
  let t := nvTestEEPROMReady s.eeprom s.ecuStatus
  let s1 : Ecu X := { s with eeprom := t.2.1, ecuStatus := t.2.2 }
  let s2 := s1.setTw (twInitialise s1.twView)
  let s3 := ecuAfInitialise s2
  let s4 := ecuFuInitialise env s3
  let s5 := ecuSeInitialise env DIAGNOSTIC_MODE s4
  let s6 : Ecu X :=
    { s5 with other := env.aiInitialise CYCLIC_PROCESSING_LF_PERIOD s5.cfPage1 s5.other }
  { s6 with other := env.vvInitialise s6.cfPage1 s6.other }

/-- The function `cfSoftwareResetMaps`. -/
def cfSoftwareResetMaps {X : Type} (env : Modules X) (s : Ecu X) : Ecu X :=
  ecuFuInitialise env (ecuAfInitialise s)

/-- The function `cfProcessNVMMessage`: the error code and the new state. -/
def cfProcessNVMMessage {X : Type} (env : Modules X) (block nItems : Int)
    (data : Nat → paramType) (s : Ecu X) : cfErrorCode × Ecu X :=
  if block = FILTER_BLK then
    let r := cfSaveConfig (fun c => { c with filters := copyTypedDataFilters data })
      (fun c e => { e with
        filters := Function.update e.filters (absAddr FILTERS_NVM_ADDR s)
          ((e.filters (absAddr FILTERS_NVM_ADDR s)).written c.filters) })
      32 nItems FILTER_ITEMS (absAddr FILTERS_NVM_ADDR s) s
    (r.1, cfSoftwareResetFilters env r.2)
  else if block = PARAMETER_1_BLK then
    let r := cfSaveConfig (fun c => { c with p1 := copyTypedDataP1 data })
      (fun c e => { e with
        parameters1 := Function.update e.parameters1 (absAddr PARAMETERS_1_NVM_ADDR s)
          ((e.parameters1 (absAddr PARAMETERS_1_NVM_ADDR s)).written c.p1) })
      136 nItems PARAMETER_1_ITEMS (absAddr PARAMETERS_1_NVM_ADDR s) s
    (r.1, cfSoftwareReset env r.2)
  else if block = PARAMETER_2_BLK then
    let r := cfSaveConfig (fun c => { c with p2 := copyTypedDataP2 data })
      (fun c e => { e with
        parameters2 := Function.update e.parameters2 (absAddr PARAMETERS_2_NVM_ADDR s)
          ((e.parameters2 (absAddr PARAMETERS_2_NVM_ADDR s)).written c.p2) })
      108 nItems PARAMETER_2_ITEMS (absAddr PARAMETERS_2_NVM_ADDR s) s
    (r.1, cfSoftwareReset env r.2)
  else if block = VE_MAP_BLK then
    let r := cfSaveConfig (fun c => { c with veMap := copyTypedDataMap data c.veMap })
      (fun c e => { e with
        maps := Function.update e.maps (absAddr VE_MAP_NVM_ADDR s)
          ((e.maps (absAddr VE_MAP_NVM_ADDR s)).written c.veMap) })
      256 nItems VE_MAP_ITEMS (absAddr VE_MAP_NVM_ADDR s) s
    (r.1, cfSoftwareResetMaps env r.2)
  else if block = IGN_MAP_BLK then
    cfSaveConfig (fun c => { c with ignitionMap := copyTypedDataMap data c.ignitionMap })
      (fun c e => { e with
        maps := Function.update e.maps (absAddr IGNITION_MAP_NVM_ADDR s)
          ((e.maps (absAddr IGNITION_MAP_NVM_ADDR s)).written c.ignitionMap) })
      256 nItems IGN_MAP_ITEMS (absAddr IGNITION_MAP_NVM_ADDR s) s
  else if block = TGT_AFR_BLK then
    let r := cfSaveConfig (fun c => { c with targetAFRMap := copyTypedDataMap data c.targetAFRMap })
      (fun c e => { e with
        maps := Function.update e.maps (absAddr TGT_AFR_MAP_NVM_ADDR s)
          ((e.maps (absAddr TGT_AFR_MAP_NVM_ADDR s)).written c.targetAFRMap) })
      256 nItems TGT_AFR_ITEMS (absAddr TGT_AFR_MAP_NVM_ADDR s) s
    (r.1, cfSoftwareResetMaps env r.2)
  else (cfErrorCode.CF_UNKNOWN_BLOCK_ID, s)

/-- The first statements of the in-range branch of `cfSetCurrentConfig`: the
configuration number is set, the status word cleared and the descriptor written
to address 0. The value of `nvEEPROMBlockWrite`, which the function does not
use, and the new state. -/
def cfStoreDescriptor {X : Type} (configNumber : Int) (s : Ecu X) :
    HAL_StatusTypeDef × Ecu X :=
  let s1 : Ecu X :=
    { s with
      configurationDescriptor :=
        { s.configurationDescriptor with currentConfiguration := configNumber }
      ecuStatus := 0 }
  let w := nvEEPROMBlockWrite
    (fun c => { c with
      descriptor := Function.update c.descriptor 0
        ((c.descriptor 0).written s1.configurationDescriptor) })
    0 60 s1.eeprom s1.ecuStatus
  (w.1, { s1 with eeprom := w.2.1, ecuStatus := w.2.2 })

/-- The function `cfSetCurrentConfig`: the value returned and the new state. -/
def cfSetCurrentConfig {X : Type} (env : Modules X) (configNumber : Int) (s : Ecu X) :
    Int × Ecu X :=
  if configNumber ≥ 1 ∧ configNumber ≤ 8 then
    let s2 := (cfStoreDescriptor configNumber s).2
    let s3 := (cfRestoreConfiguration s2).2
    (0, cfSoftwareReset env s3)
  else (1, s)

/-! ## cyclic_tasks.c: the very low frequency tasks -/

/-- The function `coolingFanControl`. -/
def coolingFanControl {X : Type} (engineTemp : ℚ) (s : Ecu X) : Ecu X :=
  if engineTemp > s.cfPage1.p1.coolingFanOnTemp then
    { s with
      outputs := s.outputs ++ [EcuOutput.timSetCompare 4000]
      ecuStatus := setStatus COOLING_FAN_ON s.ecuStatus }
  else
    { s with
      ecuStatus := clearStatus COOLING_FAN_ON s.ecuStatus
      outputs := s.outputs ++ [EcuOutput.timSetCompare 0] }

/-- The first step of `cyclicProcessingVLFTasks`: the test for a stationary
crankshaft. -/
def vlfStationaryCheck {X : Type} (s : Ecu X) : Ecu X :=
  if s.tw.triggerWheelInSync = s.triggerWheelInSyncLast then
    let t := s.twView
    s.setTw (injectorPowerReset
      { t with
        triggerWheelInSync := 0
        keyData := { t.keyData with syncErrors := 0, RPM := 0 } })
  else s

/-- The messages sent on the CAN bus by `cyclicProcessingVLFTasks`; the
arguments are converted to the `uint8_t` and `uint16_t` parameters. -/
def vlfCanMessages {X : Type} (s : Ecu X) : List EcuOutput :=
  let lambda := toUint16 (floatToInt s.keyData.lambdaVoltage)
  let pw := toUint16 (floatToInt s.keyData.injectorPW)
  let ig := toUint16 (floatToInt s.keyData.interpolatedAdvance)
  [EcuOutput.canMessage 0x124 [0, if testStatus IDLE_SWITCH_ON s.ecuStatus = true then 1 else 0],
   EcuOutput.canMessage 0x125
     [toUint8 (floatToInt s.keyData.MAP), lambda / 256, lambda % 256,
      toUint8 (floatToInt s.keyData.airTemperature),
      toUint8 (floatToInt s.keyData.coolantTemperature)],
   EcuOutput.canMessage 0x126 [pw / 256, pw % 256, ig / 256, ig % 256]]

/-- The function `cyclicProcessingVLFTasks`. -/
def cyclicProcessingVLFTasks {X : Type} (s : Ecu X) : Ecu X :=
  let s1 := vlfStationaryCheck s
  let s2 : Ecu X := { s1 with triggerWheelInSyncLast := s1.tw.triggerWheelInSync }
  let s3 := coolingFanControl s2.keyData.coolantTemperature s2
  let s4 : Ecu X := { s3 with saveAFRFlag := 1 }
  let s5 : Ecu X := { s4 with outputs := s4.outputs ++ vlfCanMessages s4 ++ [EcuOutput.ledToggle] }
  { s5 with sc := scCompleted CYCLIC_PROCESSING_VLF_TASKS s5.sc }

/-! ## cyclic_tasks.c: the speed calculation of the high frequency tasks -/

/-- The second statement of `cyclicProcessingHFTasks`: in sync, the speed is
calculated from the filtered pulse period, avoiding a division by 0. The
function works on the variables of `trigger_wheel_handler.c` and the key
data. -/
def hfComputeRPM (s : TriggerWheel) : TriggerWheel :=
  if s.triggerWheelInSync > 0 then
    { s with
      keyData :=
        { s.keyData with
          RPM := if s.crankPulsePeriodF > 0 then s.rpmFromPeriod / (s.crankPulsePeriodF : ℚ)
                 else 0 } }
  else s

/-! ## auto_idle.c, actuatorType1.c and actuatorType2.c: the target throttle position

The functions that set the actuator output drive a PWM channel and are not
embedded. `fmaxf` is the library maximum. -/

/-- The configuration page, the key data and the variables of `auto_idle.c`. -/
structure AutoIdle where
  cfPage1 : page1Struct
  keyData : keyDataStruct
  aiTpsError : ℚ
  aiErrorDot : ℚ
  aiErrorSum : ℚ
  aiError_1 : ℚ
  aiKi : ℚ
  aiKd : ℚ
  PSIT : ℚ
  PSITDecayStep : ℚ
  gradient : ℚ
  offset : ℚ
  aiTargetTPSAdjust : ℚ

/-- The function `aiType1ActuatorInit`. -/
def aiType1ActuatorInit (s : AutoIdle) : AutoIdle := s

/-- The function `aiType2ActuatorInit`. -/
def aiType2ActuatorInit (s : AutoIdle) : AutoIdle :=
  { s with aiKi := 15 / 100, aiKd := 9 / 10 }

/-- The function `aiInitialise`. -/
def aiInitialise (cyclicPeriod : ℚ) (s : AutoIdle) : AutoIdle :=
  let gradient := (s.cfPage1.p1.tpsFastIdleValue - s.cfPage1.p1.tpsNormalIdleValue) /
    (s.cfPage1.p1.tpsFastIdleTemp - s.cfPage1.p1.tpsNormalIdleTemp)
  let s1 : AutoIdle :=
    { s with
      PSITDecayStep :=
        s.cfPage1.p1.psitStartValue * cyclicPeriod / (1000 * s.cfPage1.p1.psitDecayTime)
      PSIT := s.cfPage1.p1.psitDecayTime
      gradient := gradient
      offset := s.cfPage1.p1.tpsNormalIdleValue - gradient * s.cfPage1.p1.tpsNormalIdleTemp
      aiTargetTPSAdjust := 0 }
  if s1.cfPage1.p2.idleActuatorType = 1 then aiType1ActuatorInit s1
  else if s1.cfPage1.p2.idleActuatorType = 2 then aiType2ActuatorInit s1
  else s1

/-- The function `aiGetTargetTPS`: the value returned and the new state. -/
def aiGetTargetTPS (engineTemp : ℚ) (s : AutoIdle) : ℚ × AutoIdle :=
  let s1 : AutoIdle :=
    if s.keyData.RPM > s.cfPage1.p1.crankingThreshold then
      (if s.PSIT > 0 then { s with PSIT := s.PSIT - s.PSITDecayStep } else s)
    else { s with PSIT := s.cfPage1.p1.psitStartValue }
  let targetTPS := limitF (s1.gradient * engineTemp + s1.offset)
    s1.cfPage1.p1.tpsNormalIdleValue s1.cfPage1.p1.tpsFastIdleValue + s1.aiTargetTPSAdjust
  (max targetTPS s1.PSIT, s1)

/-- The function `aiGetDemand`: the value returned and the new state. -/
def aiGetDemand (TPS targetTPS : ℚ) (s : AutoIdle) : ℚ × AutoIdle :=
  let e := targetTPS - TPS
  let s1 : AutoIdle :=
    { s with
      aiTpsError := e
      aiErrorSum := s.aiErrorSum + e
      aiErrorDot := e - s.aiError_1
      aiError_1 := e }
  (s1.cfPage1.p1.idleActuatorGain *
      (s1.aiTpsError + s1.aiKi * s1.aiErrorSum + s1.aiKd * s1.aiErrorDot), s1)

/-! ## ecu_services.c: the capture interrupt of the crankshaft timer

The timer registers are inputs of the function: `SR` is the status register and
`CCR3` the capture register of `CRANKSHAFT_TRIGGER_TIMER` at the time of the
interrupt. -/

/-- The variables written by `ecuISRcrankshaftTrigger`: its static variable
`crankshaftPulseTime_1` and the variables of the trigger-wheel handler. -/
structure CrankshaftTrigger where
  crankshaftPulseTime_1 : Int
  tw : TriggerWheel

/-- The period calculated by `ecuISRcrankshaftTrigger` from the captured time
`timeNow` and the previous one, both `uint16_t`; the operands are promoted to
`int` and the result is converted to `uint16_t`. -/
def isrPulsePeriod (timeNow crankshaftPulseTime_1 : Int) : Int :=
  if timeNow > crankshaftPulseTime_1 then toUint16 (timeNow - crankshaftPulseTime_1)
  else toUint16 (timeNow + (0xffff - crankshaftPulseTime_1))

/-- The function `ecuISRcrankshaftTrigger`; `cmp` is the level of the pin
`CMP_SIGNAL_CHECK` during the call of the handler. -/
def ecuISRcrankshaftTrigger (cmp : Bool) (SR CCR3 : Nat) (s : CrankshaftTrigger) :
    CrankshaftTrigger :=
  if SR &&& 8 ≠ 0 then
    let timeNow := toUint16 (CCR3 : Int)
    let period := isrPulsePeriod timeNow s.crankshaftPulseTime_1
    { crankshaftPulseTime_1 := timeNow
      tw := crankshaftPulseHandler cmp period s.tw }
  else s

/-! ## Auxiliary definitions used in the statements -/

/-- Whether a tick that reaches a slot with contents `d` calls its callback. -/
def scFires (d : scTaskDescription) : Bool :=
  decide (d.state = scTaskStatus.SCH_READY ∧ d.period ≤ (d.periodCount + 1) % UINT_RANGE)

/-- Callbacks that leave the registration count and the started flag alone. -/
def scKeepsControl (cb : Callbacks) : Prop :=
  ∀ f s, (cb f s).scNumberOfTasksRegistered = s.scNumberOfTasksRegistered ∧
    (cb f s).scSchedulerStarted = s.scSchedulerStarted

/-- What a tick does to a slot whose callback does not complete the task. -/
def scOverrunStep (d : scTaskDescription) : scTaskDescription :=
  if scFires d = true then
    { d with periodCount := 0, overrunCount := 1 % UINT_RANGE, state := scTaskStatus.SCH_STARTED }
  else if d.state = scTaskStatus.SCH_READY then
    { d with periodCount := (d.periodCount + 1) % UINT_RANGE }
  else if d.state = scTaskStatus.SCH_STARTED then
    { d with overrunCount := (d.overrunCount + 1) % UINT_RANGE }
  else d

/-- What a tick does to a ready slot whose callback completes the task. -/
def scCompletingStep (d : scTaskDescription) : scTaskDescription :=
  if scFires d = true then
    { d with periodCount := 0, overrunCount := 0, state := scTaskStatus.SCH_READY }
  else
    { d with periodCount := (d.periodCount + 1) % UINT_RANGE }

/-- The state in which the callback of slot `t` is entered: the slot has been
marked started and its counters cleared. -/
def scStartedState (s : Scheduler) (t : Nat) : Scheduler :=
  setTask s t
    { s.scTasks t with periodCount := 0, overrunCount := 0, state := scTaskStatus.SCH_STARTED }

/-- The variables on which tooth counting, synchronisation and the period
filter depend, and which they change. -/
structure TwPhase where
  cfPage1 : page1Struct
  triggerWheelTeethHalf : Int
  currentTooth : Int
  triggerWheelInSync : Nat
  syncErrors : ℚ
  errorTooth : ℚ
  crankPulsePeriodR : Int
  crankPulsePeriodF : Int
  crankPulsePeriodFN_1 : Int
  crankPulsePeriodFtN_1 : Int
  crankPulsePeriodEstimate : Int

/-- The phase variables of a state. -/
def twPhase (s : TriggerWheel) : TwPhase :=
  { cfPage1 := s.cfPage1
    triggerWheelTeethHalf := s.triggerWheelTeethHalf
    currentTooth := s.currentTooth
    triggerWheelInSync := s.triggerWheelInSync
    syncErrors := s.keyData.syncErrors
    errorTooth := s.keyData.errorTooth
    crankPulsePeriodR := s.crankPulsePeriodR
    crankPulsePeriodF := s.crankPulsePeriodF
    crankPulsePeriodFN_1 := s.crankPulsePeriodFN_1
    crankPulsePeriodFtN_1 := s.crankPulsePeriodFtN_1
    crankPulsePeriodEstimate := s.crankPulsePeriodEstimate }

/-- Whether a call of `crankshaftPulseHandler` with this period detects a
missing tooth: the test of the fourth step on the state it is made in. -/
def twDetects (crankPulsePeriod : Int) (s : TriggerWheel) : Bool :=
  twMissingToothDetected crankPulsePeriod (twSequenceReset (twUpdateTiming (twIncrementTooth s)))

/-- The scheduler variables before `main` runs: zero initialised. -/
def scBoot : Scheduler :=
  { scTasks := fun _ =>
      { function := 0, state := scTaskStatus.SCH_UNDEFINED, period := 0, periodCount := 0,
        overrunCount := 0 }
    scNumberOfTasksRegistered := 0
    scTimerTickPeriod := 0
    scSchedulerStarted := 0 }

/-- The scheduler as `ecuInitialisation` sets it up: a tick of 1 ms, the three
cyclic tasks in slots 0, 1 and 2 with periods of 5, 40 and 1000 ms, started.
Each callback is named by the number of its slot. -/
def ecuScheduler : Scheduler :=
  scStartScheduler (scAddTask 2 2 1000 (scAddTask 1 1 40 (scAddTask 0 0 5
    (scInitialise 1 scBoot))))

/-- The cyclic tasks of `cyclic_tasks.c` as seen by the scheduler: each ends
with `scCompleted` of its own slot. -/
def cyclicTasks : Callbacks := fun f s => scCompleted f s

/-- Cyclic tasks of which the high-frequency one (slot 0) does not reach its
`scCompleted`; the others complete. -/
def cyclicTasksStuckHF : Callbacks := fun f s => if f = 0 then s else scCompleted f s

/-- The period filter has settled on the period `P`: the last period, the
filtered period, the estimate and the filter memories all stand for `P`. -/
def twSettled (P : Int) (s : TriggerWheel) : Prop :=
  s.crankPulsePeriodR = P ∧ s.crankPulsePeriodF = P ∧
  s.crankPulsePeriodFN_1 = P * 2 ^ s.cfPage1.filters.crankshaftPulseFilter ∧
  s.crankPulsePeriodFtN_1 = P ∧ s.crankPulsePeriodEstimate = P

/-- The predicate `twSettled` is decidable. -/
instance twSettledDecidable (P : Int) (s : TriggerWheel) : Decidable (twSettled P s) := by
  unfold twSettled
  infer_instance

/-- A map given by its rows, as in an initialiser. -/
def mapOfRows (rows : List (List ℚ)) : EngineMap :=
  fun l r => (rows.getD l.toNat []).getD r.toNat 0

/-- The initialiser of `cfPage1` in `cfg_data.c`: the default configuration, a
36-1 trigger wheel with filter shift 3. -/
def cfPage1Default : page1Struct :=
  { filters := ⟨1 / 2, 1 / 2, 1 / 100, 1 / 10, 1 / 2, 1 / 100, 0, 3⟩
    p1 := ⟨0, 10, 50, -5, 0, 73 / 10, 60, -23 / 2, 0, 1000, 100, 4000, 500, 6000, 15 / 2,
      1 / 2, 500, 88, 10, 5, 0, 50, 3, 0, 0, 0, 1 / 100, 1 / 1000, 5 / 10000, 10, 30, 15, 6, 15⟩
    p2 := ⟨32, 8, 8, 750, 700, 30, 10, 61 / 10, 1 / 2, -1, 4, 36, 1, 138, 15, 1, 2, 1, 2, -1, 7,
      2800, 100, 180, 3248, 628, 2⟩
    ignitionMap := mapOfRows
      [[2, 5, 45 / 2, 144 / 5, 149 / 5, 154 / 5, 159 / 5, 164 / 5],
       [5, 10, 217 / 10, 55 / 2, 287 / 10, 30, 156 / 5, 162 / 5],
       [10, 77 / 5, 104 / 5, 263 / 10, 277 / 10, 291 / 10, 153 / 5, 32],
       [10, 15, 20, 25, 267 / 10, 283 / 10, 30, 158 / 5],
       [10, 73 / 5, 96 / 5, 119 / 5, 128 / 5, 55 / 2, 293 / 10, 156 / 5],
       [10, 71 / 5, 183 / 10, 45 / 2, 123 / 5, 267 / 10, 287 / 10, 154 / 5],
       [10, 69 / 5, 35 / 2, 213 / 10, 47 / 2, 129 / 5, 281 / 10, 152 / 5],
       [10, 133 / 10, 167 / 10, 20, 45 / 2, 25, 55 / 2, 30]]
    veMap := mapOfRows
      [[439 / 10, 45, 91 / 2, 467 / 10, 227 / 5, 208 / 5, 329 / 10, 307 / 10],
       [48, 491 / 10, 509 / 10, 539 / 10, 579 / 10, 289 / 5, 238 / 5, 217 / 5],
       [52, 559 / 10, 286 / 5, 299 / 5, 312 / 5, 649 / 10, 302 / 5, 115 / 2],
       [58, 633 / 10, 309 / 5, 319 / 5, 131 / 2, 347 / 5, 683 / 10, 324 / 5],
       [65, 135 / 2, 328 / 5, 673 / 10, 711 / 10, 751 / 10, 149 / 2, 70],
       [70, 729 / 10, 358 / 5, 721 / 10, 74, 392 / 5, 397 / 5, 389 / 5],
       [75, 761 / 10, 747 / 10, 751 / 10, 771 / 10, 417 / 5, 433 / 5, 432 / 5],
       [807 / 10, 402 / 5, 801 / 10, 403 / 5, 408 / 5, 436 / 5, 903 / 10, 447 / 5]]
    targetAFRMap := mapOfRows
      [[480, 480, 480, 480, 480, 480, 480, 480],
       [482, 484, 486, 488, 490, 492, 494, 497],
       [484, 488, 492, 496, 500, 504, 508, 514],
       [486, 492, 498, 504, 510, 516, 522, 531],
       [488, 496, 504, 512, 520, 528, 536, 548],
       [490, 500, 510, 520, 530, 540, 550, 565],
       [492, 504, 516, 528, 540, 552, 564, 582],
       [500, 514, 528, 542, 556, 570, 584, 600]] }

/-- The key data before `main` runs: zero initialised. -/
def keyDataZero : keyDataStruct :=
  ⟨0, 0, 0, 0, 0, 0, 0, 0, 0, 0, 0, 0, 0, 0, 0, 0, 0, 0, 0, 0, 0, 0, 0, 0, 0, 0, 0⟩

/-- The trigger-wheel variables after power on and `twInitialise`, with the
default configuration. -/
def twStart : TriggerWheel := twInitialise (twPowerOn cfPage1Default keyDataZero)

/-- A state in the middle of running: default configuration, tooth index
`tooth`, `inSync` revolutions in sync, the period filter settled on `P`. -/
def twRunning (tooth : Int) (inSync : Nat) (P : Int) : TriggerWheel :=
  { twStart with
    currentTooth := tooth
    triggerWheelInSync := inSync
    crankPulsePeriodR := P
    crankPulsePeriodF := P
    crankPulsePeriodFN_1 := P * 2 ^ 3
    crankPulsePeriodFtN_1 := P
    crankPulsePeriodEstimate := P }

/-- The variables of `fuel_injection.c` before `main` runs: zero initialised,
with the configuration page `cfg`. -/
def fuBoot (cfg : page1Struct) : FuelInjection :=
  { cfPage1 := cfg
    accelCompensationValue := 0
    tempComp := 0
    accelCompLimit := 0
    accelCompAmplitude := 0
    accelCompTC := 0
    lowPassTPS_1 := 0
    accelCompPeak := 0
    tempCompCoeff := fun _ => { t1 := 0, t2 := 0, a := 0, b := 0 }
    rpmDeltaReciprocal := 0
    loadDeltaReciprocal := 0
    relRPM := 0
    relLoad := 0
    r1 := 0
    r2 := 0
    l1 := 0
    l2 := 0
    currentCell := { rpmIndex := 0, loadIndex := 0 }
    interpolatedVE := 0
    PSE := 0
    PSEStart := 0
    PSEDecay := 0
    AFRCorrection := fun _ _ => 0
    veMapCorrected := fun _ _ => 0 }

/-- The default configuration with the RPM axis running downwards:
`rpmAxisDelta = -700`. -/
def cfPage1NegativeDelta : page1Struct :=
  { cfPage1Default with p2 := { cfPage1Default.p2 with rpmAxisDelta := -700 } }

/-- The dwell tooth count of `twSetIgnitionTiming`: the number of teeth that
pass during the dwell time at the current speed, at least 1. -/
def twDwellTeeth (s : TriggerWheel) : Int :=
  let dwellTeeth :=
    floatToInt (s.keyData.RPM * s.rpmToTeethPerMillisecond * s.cfPage1.p2.ignitionDwell)
  if dwellTeeth < 1 then 1 else dwellTeeth

/-- The firing tooth index of `twSetIgnitionTiming` for an advance. -/
def twFiringTooth (advance : ℚ) (s : TriggerWheel) : Int :=
  (angleToIndexAndVernier s (s.cfPage1.p2.twTDCAngle - advance)).1

/-- The trigger wheel after initialisation with the default configuration,
turning at `RPM`. -/
def twAtSpeed (RPM : ℚ) : TriggerWheel :=
  { twStart with keyData := { keyDataZero with RPM := RPM } }

/-- The trigger wheel after initialisation with the default configuration but
the dwell time `dwell` (in milliseconds), turning at `RPM`. -/
def twWithDwell (dwell RPM : ℚ) : TriggerWheel :=
  { twInitialise (twPowerOn
      { cfPage1Default with p2 := { cfPage1Default.p2 with ignitionDwell := dwell } }
      keyDataZero) with
    keyData := { keyDataZero with RPM := RPM } }

/-- The state of `crankshaftPulseHandler` after its missing-tooth step, before
the outputs are made. -/
def twAfterMissingTooth (crankPulsePeriod : Int) (s : TriggerWheel) : TriggerWheel :=
  twMissingTooth crankPulsePeriod (twSequenceReset (twUpdateTiming (twIncrementTooth s)))

/-- The corrected VE map as `getInjectorPulseWidth` leaves it before it
interpolates: the entry of the current cell is the VE map entry plus the AFR
correction of that cell, the other entries are the corrected values held from
earlier calls. -/
def veMapCorrectedAtCurrentCell (s : FuelInjection) : EngineMap :=
  fun l r =>
    if l = s.currentCell.loadIndex ∧ r = s.currentCell.rpmIndex then
      s.cfPage1.veMap l r + s.AFRCorrection l r
    else s.veMapCorrected l r

/-- The variables of `fuel_injection.c` after `fuInitialise(5)` on the default
configuration, the logarithm of the acceleration filter taken as 0. -/
def fuStart : FuelInjection := fuInitialise (fun _ => 0) 5 (fuBoot cfPage1Default)

/-- The variable `configurationDescriptor` with its initialiser. -/
def configurationDescriptorDefault : configurationDesciptorStruct :=
  { currentConfiguration := 1, unused := [1, 2, 3, 4, 5, 6, 7, 8, 9, 10, 11, 12, 13, 14] }

/-- An EEPROM holding at every address blocks with the data `d`, `cfg` and zero
AFR data, with checksums matching or not as `ok` says. `ready` says whether the
device is there: every bus operation returns `HAL_OK`, or every bus operation
returns `HAL_ERROR`. A block write that is not completed and a data transfer
that breaks off leave the device and the destination as they were. -/
def eepromWith (ready ok : Bool) (d : configurationDesciptorStruct) (cfg : page1Struct) :
    Eeprom :=
  { descriptor := fun _ => ⟨d, ok, fun _ x => x⟩
    afrData := fun _ => ⟨(fun _ _ => 0, fun _ _ => 0), ok, fun _ x => x⟩
    filters := fun _ => ⟨cfg.filters, ok, fun _ x => x⟩
    parameters1 := fun _ => ⟨cfg.p1, ok, fun _ x => x⟩
    parameters2 := fun _ => ⟨cfg.p2, ok, fun _ x => x⟩
    maps := fun _ => ⟨cfg.veMap, ok, fun _ x => x⟩
    writes := []
    ops := 0
    bus := fun _ =>
      if ready = true then HAL_StatusTypeDef.HAL_OK else HAL_StatusTypeDef.HAL_ERROR
    torn := fun _ before _ => before }

/-- No EEPROM fitted: the device never answers. -/
def eepromAbsent : Eeprom :=
  eepromWith false false configurationDescriptorDefault cfPage1Default

/-- The variables of `auto_afr.c` before `main` runs: zero initialised, with the
configuration page `cfg`, the status word `status` and the device `e`. -/
def afBoot (cfg : page1Struct) (status : Nat) (e : Eeprom) : AutoAfr :=
  { cfPage1 := cfg
    ecuStatus := status
    eeprom := e
    savePeriod := 0
    savePeriodCounter := 0
    filterN_1 := fun _ _ => 0
    loadIndex1 := 0
    rpmIndex1 := 0
    afrData :=
      { lambdaAverages := fun _ _ => 0
        lambdaSamples := fun _ _ => 0
        cumulativeError := fun _ _ => 0 }
    dataLock := 0 }

/-- The correction array and the variables of `auto_afr.c` after
`afInitialise(1000, AFRCorrection)` on the default configuration, without
EEPROM. -/
def afStart : EngineMap × AutoAfr :=
  afInitialise 1000 (fun _ _ => 0) (afBoot cfPage1Default 0 eepromAbsent)

/-- A call of `afComputeCorrection` with the speed `p.1` and the engine
temperature `p.2` is active under the configuration `cfg`. -/
def afActive (cfg : page1Struct) (p : ℚ × ℚ) : Prop :=
  p.2 > cfg.p1.engTempCompT2 ∧ p.1 > cfg.p1.crankingThreshold

instance afActiveDecidable (cfg : page1Struct) (p : ℚ × ℚ) : Decidable (afActive cfg p) := by
  unfold afActive
  infer_instance

/-- Successive calls of `afComputeCorrection` on the cell
`(loadIndex, rpmIndex)` with the constant lambda voltage `lambdaVoltage`, one
for each speed and engine temperature of `calls`. -/
def afRun (calls : List (ℚ × ℚ)) (loadIndex rpmIndex : Int) (lambdaVoltage : ℚ)
    (cs : EngineMap × AutoAfr) : EngineMap × AutoAfr :=
  calls.foldl
    (fun st p => afComputeCorrection p.1 p.2 loadIndex rpmIndex lambdaVoltage st.1 st.2) cs

/-- The variables of the firmware after the initialisation of the trigger wheel,
fuel and AFR code on the default configuration, with the scheduler started, the
device `e` and the status word `status`; the component for the other files
has no variables. -/
def ecuStart (status : Nat) (e : Eeprom) : Ecu Unit :=
  { cfPage1 := cfPage1Default
    configurationDescriptor := configurationDescriptorDefault
    ecuStatus := status
    keyData := keyDataZero
    eeprom := e
    tw := twStart
    fu := fuStart
    af := afStart.2
    sc := ecuScheduler
    triggerWheelInSyncLast := 0
    saveAFRFlag := 0
    outputs := []
    other := () }

/-- Initialisation functions that do nothing, for the files that are not
embedded; the logarithm is taken as 0. -/
def modulesIdle : Modules Unit :=
  { logf := fun _ => 0
    seInitialise := fun _ _ kd status x => (kd, status, x)
    aiInitialise := fun _ _ x => x
    vvInitialise := fun _ x => x }

/-- A device that answers, holding the default configuration in every block. -/
def eepromFitted : Eeprom :=
  eepromWith true true configurationDescriptorDefault cfPage1Default

/-- The block identifier is one of the six identifiers 100, 200, 300, 400, 500
and 600 of the configuration blocks. -/
def cfKnownBlock (block : Int) : Prop :=
  block = 100 ∨ block = 200 ∨ block = 300 ∨ block = 400 ∨ block = 500 ∨ block = 600

instance cfKnownBlockDecidable (block : Int) : Decidable (cfKnownBlock block) := by
  unfold cfKnownBlock
  infer_instance

/-- The item counts of the six configuration blocks, by block identifier: 8, 34,
27, 64, 64, 64. -/
def cfBlockItemCount (block : Int) : Int :=
  if block = 100 then 8 else if block = 200 then 34 else if block = 300 then 27 else 64

/-- The calls of `injectorPowerReset` to the hardware: every injector pin and
every coil pin is written with its off level. -/
def powerResetCalls (coilOFF : Bool) : List HwCall :=
  [HwCall.writeInjectorPin 0 false, HwCall.writeInjectorPin 1 false,
   HwCall.writeInjectorPin 2 false, HwCall.writeInjectorPin 3 false,
   HwCall.writeCoilPin 0 coilOFF, HwCall.writeCoilPin 1 coilOFF,
   HwCall.writeCoilPin 2 coilOFF, HwCall.writeCoilPin 3 coilOFF]

/-- The test of `cfRestoreConfiguration` after the descriptor read: the status
word shows a read or checksum error, or the configuration number of the
descriptor is outside 1..8. -/
def cfDescriptorInvalid {X : Type} (s : Ecu X) : Prop :=
  nvReadFailed (cfRestoreDescriptor s).ecuStatus = true ∨
    (cfRestoreDescriptor s).configurationDescriptor.currentConfiguration < 1 ∨
    (cfRestoreDescriptor s).configurationDescriptor.currentConfiguration > 8

instance cfDescriptorInvalidDecidable {X : Type} (s : Ecu X) :
    Decidable (cfDescriptorInvalid s) := by
  unfold cfDescriptorInvalid
  infer_instance

/-- A device that answers and holds the default configuration, with the
descriptor naming configuration `n` and all checksums matching or not as `ok`
says. -/
def eepromConfig (n : Int) (ok : Bool) : Eeprom :=
  eepromWith true ok { configurationDescriptorDefault with currentConfiguration := n }
    cfPage1Default

/-- The fractional position of `x` on an axis of 8 grid lines from `start` in
steps of `delta`, after `x` has been limited to the axis: 0 at the first grid
line, 7 at the last. -/
def axisPosition (x start delta : ℚ) : ℚ :=
  (limitF x start (start + 7 * delta) - start) / delta

/-- The memory of the period filter of `crankshaftPulseHandler` after one
update with the period `R`, from the memory `m`, for the filter shift `k`. -/
def periodFilterStep (k : Nat) (R m : Int) : Int :=
  ((R * 2 ^ k - m) >>> k) + m

/-- The trigger-wheel variables after power on and `twInitialise`, with the
default configuration (36 teeth) and the filter shift `k`. -/
def twPowerOnFilter (k : Nat) : TriggerWheel :=
  twInitialise (twPowerOn
    { cfPage1Default with filters := { cfPage1Default.filters with crankshaftPulseFilter := k } }
    keyDataZero)

/-- A pulse train of steady tooth period `R` fed to the handler from the state
`s`: every pulse has the period `R`, except pulses that the handler detects as
the gap of the missing tooth. -/
def twSteadyTrain (R : Int) : List (Bool × Int) → TriggerWheel → Prop
  | [], _ => True
  | p :: ps, s =>
    (p.2 = R ∨ twDetects p.2 s = true) ∧ twSteadyTrain R ps (crankshaftPulseHandler p.1 p.2 s)

/-- A device that answers and holds, besides the default configuration, AFR
data saved earlier: the long-term average `average` and the sample count
`samples` in every cell, with a matching checksum. -/
def eepromAfrData (average samples : ℚ) : Eeprom :=
  { eepromFitted with
    afrData := fun _ => ⟨(fun _ _ => average, fun _ _ => samples), true, fun _ x => x⟩ }

/-- The correction array and the variables of `auto_afr.c` after
`afInitialise(1000, AFRCorrection)` on the default configuration with an EEPROM
that holds the average 450 and the sample count 12 for every cell. -/
def afRestored : EngineMap × AutoAfr :=
  afInitialise 1000 (fun _ _ => 0) (afBoot cfPage1Default EEPROM_AVAILABLE (eepromAfrData 450 12))

/-- The inputs of one pass of the fuel calculation of `cyclicProcessingHFTasks`:
the speed, the load (MAP), the throttle position and the two temperatures, and
the content of the array `AFRCorrection` as `afComputeCorrection` leaves it
between the lookup and the pulse-width calculation. -/
structure FuelCycle where
  RPM : ℚ
  load : ℚ
  TPS : ℚ
  engineTemperature : ℚ
  airTemperature : ℚ
  AFRCorrection : EngineMap

/-- The variables of `fuel_injection.c` on entry to `getInjectorPulseWidth` in
one pass of `cyclicProcessingHFTasks`: after `mapLookup(RPM, MAP)` and the
update of `AFRCorrection`. -/
def fuCycleEntry (c : FuelCycle) (s : FuelInjection) : FuelInjection :=
  { mapLookup c.RPM c.load s with AFRCorrection := c.AFRCorrection }

/-- One pass of the fuel calculation of `cyclicProcessingHFTasks`: the pulse
width and the new state. -/
def fuCycle (c : FuelCycle) (s : FuelInjection) : ℚ × FuelInjection :=
  getInjectorPulseWidth c.RPM c.load c.TPS c.engineTemperature c.airTemperature
    (fuCycleEntry c s)

/-- Successive passes of the fuel calculation, one for each element of `cs`. -/
def fuRun (cs : List FuelCycle) (s : FuelInjection) : FuelInjection :=
  cs.foldl (fun st c => (fuCycle c st).2) s

/-- The variables of `fuel_injection.c` after `fuInitialise(5)` on the default
configuration with the post-start enrichment of 30 % decaying over
`pseDecayTime` seconds. -/
def fuStartDecay (pseDecayTime : ℚ) : FuelInjection :=
  fuInitialise (fun _ => 0) 5
    (fuBoot { cfPage1Default with p1 := { cfPage1Default.p1 with pseDecayTime := pseDecayTime } })

/-- A pass with the engine running at 2000 RPM, load 50, no AFR correction. -/
def fuCycleRunning : FuelCycle :=
  { RPM := 2000, load := 50, TPS := 10, engineTemperature := 80, airTemperature := 20,
    AFRCorrection := fun _ _ => 0 }

/-- The variables of `auto_afr.c` just before call number `n` (counting from 0)
of `afGetSample`, from the state `s`: call `k` is made with the correction array
`cs k`, and `between k` is what the rest of the firmware does to the variables
between call `k` and call `k + 1`. -/
def afSampleState (cs : Nat → EngineMap) (between : Nat → AutoAfr → AutoAfr) :
    Nat → AutoAfr → AutoAfr
  | 0, s => s
  | n + 1, s => between n (afGetSample (cs n) (afSampleState cs between n s)).2

/-- The sample delivered by call number `n` of `afGetSample`. -/
def afSampleReport (cs : Nat → EngineMap) (between : Nat → AutoAfr → AutoAfr) (n : Nat)
    (s : AutoAfr) : AfrSample :=
  (afGetSample (cs n) (afSampleState cs between n s)).1

/-- The address and size arguments with which the firmware reads and writes the
six blocks of the current configuration (`cfRestoreConfiguration`,
`cfProcessNVMMessage`): `absAddr` of the relative address and `sizeof` of the
block, for 4-byte `int` and `float`. -/
def cfConfigBlocks {X : Type} (s : Ecu X) : List (Int × Int) :=
  [(absAddr FILTERS_NVM_ADDR s, 32), (absAddr PARAMETERS_1_NVM_ADDR s, 136),
   (absAddr PARAMETERS_2_NVM_ADDR s, 108), (absAddr VE_MAP_NVM_ADDR s, 256),
   (absAddr IGNITION_MAP_NVM_ADDR s, 256), (absAddr TGT_AFR_MAP_NVM_ADDR s, 256)]

/-- The address and size arguments of all block reads and writes of the
firmware: the configuration descriptor (`cfRestoreConfiguration`,
`cfSetCurrentConfig`), the AFR data (`afInitialise`, `afSaveAFRDataToNVM`) and
the six blocks of the current configuration. -/
def nvmBlocks {X : Type} (s : Ecu X) : List (Int × Int) :=
  (0, 60) :: (AFR_DATA_NVM_ADDR, 512) :: cfConfigBlocks s

/-- The device addresses taken by a block written by `nvEEPROMBlockWrite` with
the address and size `b`: the data bytes from `b.1` and the four checksum bytes
from `b.1 + b.2`; the first address and the address after the last. -/
def nvBlockRange (b : Int × Int) : Int × Int := (b.1, b.1 + b.2 + 4)

/-- Two blocks share no device address. -/
def nvDisjoint (a b : Int × Int) : Prop :=
  (nvBlockRange a).2 ≤ (nvBlockRange b).1 ∨ (nvBlockRange b).2 ≤ (nvBlockRange a).1

instance nvDisjointDecidable (a b : Int × Int) : Decidable (nvDisjoint a b) := by
  unfold nvDisjoint
  infer_instance

/-- The variables of `auto_idle.c` before `main` runs: zero initialised, with
the configuration page `cfg` and the key data `kd`. -/
def aiBoot (cfg : page1Struct) (kd : keyDataStruct) : AutoIdle :=
  { cfPage1 := cfg
    keyData := kd
    aiTpsError := 0
    aiErrorDot := 0
    aiErrorSum := 0
    aiError_1 := 0
    aiKi := 0
    aiKd := 0
    PSIT := 0
    PSITDecayStep := 0
    gradient := 0
    offset := 0
    aiTargetTPSAdjust := 0 }

/-- The variables of `auto_idle.c` after `aiInitialise(40)` (the call of
`cfSoftwareReset`) on the default configuration with the engine running at
`RPM`. -/
def aiStart (RPM : ℚ) : AutoIdle :=
  aiInitialise CYCLIC_PROCESSING_LF_PERIOD
    (aiBoot cfPage1Default { keyDataZero with RPM := RPM })

/-- Successive calls of `accelCompensation1`, one for each throttle position of
`tps`. -/
def accelRun (tps : List ℚ) (s : FuelInjection) : FuelInjection :=
  tps.foldl (fun st x => (accelCompensation1 x st).2) s

/-- The peak of the acceleration compensation lies between 0 and the limit
`accelCompLimit`, which is twice `L`. -/
def accelWithinLimit (L : ℚ) (s : FuelInjection) : Prop :=
  s.accelCompLimit = 2 * L ∧ 0 ≤ s.accelCompPeak ∧ s.accelCompPeak ≤ 2 * L

instance accelWithinLimitDecidable (L : ℚ) (s : FuelInjection) :
    Decidable (accelWithinLimit L s) := by
  unfold accelWithinLimit
  infer_instance

/-- The device `e'` is the device `e` after bus operations that left what it
holds alone: the content, the list of block writes and the behaviour of the bus
are those of `e`, and the bus operations of `e` are among those of `e'`. -/
def nvSameDevice (e e' : Eeprom) : Prop :=
  e'.toNvContent = e.toNvContent ∧ e'.writes = e.writes ∧ e'.bus = e.bus ∧ e'.torn = e.torn ∧
    e.ops ≤ e'.ops

/-- The value `nvEEPROMBlockWrite` returns for a block of `nBytes` bytes on the
device `e`; it depends neither on the data nor on the address nor on the status
word. -/
def nvBlockWriteResult (nBytes : Int) (e : Eeprom) : HAL_StatusTypeDef :=
  (nvEEPROMBlockWrite (fun c => c) 0 nBytes e 0).1

/-- The sizes in bytes of the six configuration blocks, by block identifier:
32, 136, 108, 256, 256, 256. -/
def cfBlockBytes (block : Int) : Int :=
  if block = 100 then 32 else if block = 200 then 136 else if block = 300 then 108 else 256

/-- The device `e` on a bus whose operation `k` fails with `HAL_ERROR`. -/
def eepromFailing (k : Nat) (e : Eeprom) : Eeprom :=
  { e with bus := fun i => if i = k then HAL_StatusTypeDef.HAL_ERROR else e.bus i }

theorem setTask_same (s : Scheduler) (i : Nat) (d : scTaskDescription) :
    (setTask s i d).scTasks i = d := by
  simp [setTask]

theorem setTask_other (s : Scheduler) (i j : Nat) (d : scTaskDescription) (h : j ≠ i) :
    (setTask s i d).scTasks j = s.scTasks j := by
  simp [setTask, Function.update_noteq h]

theorem scTickTask_snd (cb : Callbacks) (t : Nat) (s : Scheduler) :
    (scTickTask cb t s).2 = scFires (s.scTasks t) := by
  unfold scTickTask scFires
  simp only [setTask_same]
  split_ifs <;> simp_all

theorem scTickTask_control (cb : Callbacks) (hctl : scKeepsControl cb) (u : Nat) (s : Scheduler) :
    (scTickTask cb u s).1.scNumberOfTasksRegistered = s.scNumberOfTasksRegistered ∧
    (scTickTask cb u s).1.scSchedulerStarted = s.scSchedulerStarted := by
  unfold scTickTask
  simp only [setTask_same]
  split_ifs <;> simp [setTask, (hctl _ _).1, (hctl _ _).2]

theorem scTickTask_other (cb : Callbacks) (Q : scTaskDescription → Prop) (t u : Nat)
    (hfr : ∀ f s, Q (s.scTasks t) → (cb f s).scTasks t = s.scTasks t)
    (hne : u ≠ t) (s : Scheduler) (hq : Q (s.scTasks t)) :
    (scTickTask cb u s).1.scTasks t = s.scTasks t := by
  have hne2 : t ≠ u := fun h => hne h.symm
  unfold scTickTask
  simp only [setTask_same]
  split_ifs <;> simp [setTask_other _ _ _ _ hne2] <;>
    (rw [hfr] <;> simp [setTask_other _ _ _ _ hne2, hq])

theorem scTimerTickLoop_slot (cb : Callbacks) (hctl : scKeepsControl cb)
    (Q : scTaskDescription → Prop) (t : Nat)
    (hfr : ∀ f s, Q (s.scTasks t) → (cb f s).scTasks t = s.scTasks t)
    (step : scTaskDescription → scTaskDescription)
    (hself : ∀ s, Q (s.scTasks t) → (scTickTask cb t s).1.scTasks t = step (s.scTasks t))
    (hQ : ∀ d, Q d → Q (step d)) :
    ∀ (fuel i : Nat) (s : Scheduler), Q (s.scTasks t) →
      (scTimerTickLoop cb fuel i s).1.scNumberOfTasksRegistered = s.scNumberOfTasksRegistered ∧
      (scTimerTickLoop cb fuel i s).1.scSchedulerStarted = s.scSchedulerStarted ∧
      (scTimerTickLoop cb fuel i s).1.scTasks t =
        (if i ≤ t ∧ t < i + fuel ∧ (t : Int) < s.scNumberOfTasksRegistered
          then step (s.scTasks t) else s.scTasks t) ∧
      (scTimerTickLoop cb fuel i s).2.count t =
        (if i ≤ t ∧ t < i + fuel ∧ (t : Int) < s.scNumberOfTasksRegistered ∧
            scFires (s.scTasks t) = true then 1 else 0) := by
  intro fuel
  induction fuel with
  | zero =>
    intro i s _
    have h0 : ¬ (i ≤ t ∧ t < i + 0) := by omega
    simp only [scTimerTickLoop, List.count_nil, true_and]
    constructor
    · rw [if_neg]; intro h; exact h0 ⟨h.1, h.2.1⟩
    · rw [if_neg]; intro h; exact h0 ⟨h.1, h.2.1⟩
  | succ fuel ih =>
    intro i s hq
    unfold scTimerTickLoop
    by_cases hcnt : (i : Int) < s.scNumberOfTasksRegistered
    · simp only [hcnt, if_true]
      have hc := scTickTask_control cb hctl i s
      by_cases hit : i = t
      · subst hit
        have hq2 : Q ((scTickTask cb i s).1.scTasks i) := by
          rw [hself s hq]; exact hQ _ hq
        obtain ⟨h1, h2, h3, h4⟩ := ih (i + 1) (scTickTask cb i s).1 hq2
        rw [if_neg (fun h => absurd h.1 (by omega))] at h3 h4
        refine ⟨by rw [h1, hc.1], by rw [h2, hc.2], ?_, ?_⟩
        · rw [h3, if_pos ⟨le_refl _, by omega, hcnt⟩, hself s hq]
        · rw [List.count_append, h4, scTickTask_snd]
          by_cases hf : scFires (s.scTasks i) = true
          · rw [if_pos hf, if_pos ⟨le_refl _, by omega, hcnt, hf⟩]; simp
          · rw [if_neg hf, if_neg (fun h => hf h.2.2.2)]; simp
      · have hslot := scTickTask_other cb Q t i hfr hit s hq
        have hq2 : Q ((scTickTask cb i s).1.scTasks t) := by rw [hslot]; exact hq
        obtain ⟨h1, h2, h3, h4⟩ := ih (i + 1) (scTickTask cb i s).1 hq2
        have hcond : (i + 1 ≤ t ∧ t < i + 1 + fuel) ↔ (i ≤ t ∧ t < i + (fuel + 1)) := by
          constructor
          · intro h; omega
          · intro h; omega
        refine ⟨by rw [h1, hc.1], by rw [h2, hc.2], ?_, ?_⟩
        · rw [h3, hslot, hc.1]
          by_cases hx : i ≤ t ∧ t < i + (fuel + 1)
          · have hx2 := hcond.mpr hx
            simp [hx.1, hx.2, hx2.1, hx2.2]
          · have hx2 : ¬ (i + 1 ≤ t ∧ t < i + 1 + fuel) := fun h => hx (hcond.mp h)
            rw [if_neg (fun h => hx2 ⟨h.1, h.2.1⟩), if_neg (fun h => hx ⟨h.1, h.2.1⟩)]
        · have hnil : (if (scTickTask cb i s).2 = true then [i] else []).count t = 0 := by
            split_ifs
            · simp [List.count_cons, hit]
            · simp
          rw [List.count_append, hnil, h4, hslot, hc.1, zero_add]
          by_cases hx : i ≤ t ∧ t < i + (fuel + 1)
          · have hx2 := hcond.mpr hx
            simp only [hx.1, hx.2, hx2.1, hx2.2, true_and]
          · have hx2 : ¬ (i + 1 ≤ t ∧ t < i + 1 + fuel) := fun h => hx (hcond.mp h)
            rw [if_neg (fun h => hx2 ⟨h.1, h.2.1⟩), if_neg (fun h => hx ⟨h.1, h.2.1⟩)]
    · simp only [hcnt, if_false, List.count_nil, true_and]
      have hno : ¬ (i ≤ t ∧ (t : Int) < s.scNumberOfTasksRegistered) := by
        intro h
        have : (i : Int) ≤ (t : Int) := by exact_mod_cast h.1
        omega
      constructor
      · rw [if_neg]; intro h; exact hno ⟨h.1, h.2.2⟩
      · rw [if_neg]; intro h; exact hno ⟨h.1, h.2.2.1⟩

theorem scTimerTick_slot (cb : Callbacks) (hctl : scKeepsControl cb)
    (Q : scTaskDescription → Prop) (t : Nat)
    (hfr : ∀ f s, Q (s.scTasks t) → (cb f s).scTasks t = s.scTasks t)
    (step : scTaskDescription → scTaskDescription)
    (hself : ∀ s, Q (s.scTasks t) → (scTickTask cb t s).1.scTasks t = step (s.scTasks t))
    (hQ : ∀ d, Q d → Q (step d))
    (s : Scheduler) (hq : Q (s.scTasks t)) (hstart : s.scSchedulerStarted ≠ 0)
    (ht : (t : Int) < s.scNumberOfTasksRegistered)
    (hmax : s.scNumberOfTasksRegistered ≤ SCH_MAX_NUMBER_OF_TASKS) :
    (scTimerTick cb s).1.scNumberOfTasksRegistered = s.scNumberOfTasksRegistered ∧
    (scTimerTick cb s).1.scSchedulerStarted = s.scSchedulerStarted ∧
    (scTimerTick cb s).1.scTasks t = step (s.scTasks t) ∧
    (scTimerTick cb s).2.count t = (if scFires (s.scTasks t) = true then 1 else 0) := by
  have h := scTimerTickLoop_slot cb hctl Q t hfr step hself hQ SCH_MAX_NUMBER_OF_TASKS 0 s hq
  have ht5 : t < 0 + SCH_MAX_NUMBER_OF_TASKS := by
    have : (t : Int) < (SCH_MAX_NUMBER_OF_TASKS : Int) := lt_of_lt_of_le ht hmax
    have : t < SCH_MAX_NUMBER_OF_TASKS := by exact_mod_cast this
    omega
  unfold scTimerTick
  rw [if_pos hstart]
  obtain ⟨h1, h2, h3, h4⟩ := h
  refine ⟨h1, h2, ?_, ?_⟩
  · rw [h3, if_pos ⟨Nat.zero_le _, ht5, ht⟩]
  · rw [h4]
    by_cases hf : scFires (s.scTasks t) = true
    · rw [if_pos ⟨Nat.zero_le _, ht5, ht, hf⟩, if_pos hf]
    · rw [if_neg (fun h => hf h.2.2.2), if_neg hf]

theorem scTickTask_self_overrun (cb : Callbacks) (t : Nat)
    (hnever : ∀ f s, (cb f s).scTasks t = s.scTasks t) (s : Scheduler) :
    (scTickTask cb t s).1.scTasks t = scOverrunStep (s.scTasks t) := by
  unfold scTickTask scOverrunStep scFires
  simp only [setTask_same]
  split_ifs <;> simp_all [setTask_same]; omega

theorem scRun_overrun (cb : Callbacks) (s : Scheduler) (t c P k0 : Nat)
    (hctl : scKeepsControl cb)
    (hnever : ∀ f s, (cb f s).scTasks t = s.scTasks t)
    (hstart : s.scSchedulerStarted ≠ 0)
    (ht : (t : Int) < s.scNumberOfTasksRegistered)
    (hmax : s.scNumberOfTasksRegistered ≤ SCH_MAX_NUMBER_OF_TASKS)
    (hready : (s.scTasks t).state = scTaskStatus.SCH_READY)
    (hc : (s.scTasks t).periodCount = c) (hP : (s.scTasks t).period = P)
    (hPlt : P < UINT_RANGE) (hk : (c < P ∧ k0 = P - c) ∨ (P = 0 ∧ k0 = 1)) (n : Nat) :
    (scRun cb n s).scNumberOfTasksRegistered = s.scNumberOfTasksRegistered ∧
    (scRun cb n s).scSchedulerStarted = s.scSchedulerStarted ∧
    ((scRun cb n s).scTasks t).period = P ∧
    (n < k0 → ((scRun cb n s).scTasks t).state = scTaskStatus.SCH_READY ∧
      ((scRun cb n s).scTasks t).periodCount = c + n) ∧
    (k0 ≤ n → ((scRun cb n s).scTasks t).state = scTaskStatus.SCH_STARTED ∧
      ((scRun cb n s).scTasks t).overrunCount = (n - k0 + 1) % UINT_RANGE) ∧
    scCallsOnTick cb s t n = (if n + 1 = k0 then 1 else 0) := by
  have tick := fun (s' : Scheduler) (h1 : s'.scSchedulerStarted ≠ 0)
      (h2 : (t : Int) < s'.scNumberOfTasksRegistered)
      (h3 : s'.scNumberOfTasksRegistered ≤ SCH_MAX_NUMBER_OF_TASKS) =>
    scTimerTick_slot cb hctl (fun _ => True) t (fun f s _ => hnever f s) scOverrunStep
      (fun s _ => scTickTask_self_overrun cb t hnever s) (fun _ _ => trivial) s' trivial h1 h2 h3
  have hfire : ∀ n, n < k0 → ((scRun cb n s).scTasks t).state = scTaskStatus.SCH_READY →
      ((scRun cb n s).scTasks t).periodCount = c + n → ((scRun cb n s).scTasks t).period = P →
      (scFires ((scRun cb n s).scTasks t) = true ↔ n + 1 = k0) := by
    intro n hlt j1 j2 j3
    unfold scFires
    rw [j3, j2]
    simp only [j1, true_and, decide_eq_true_eq]
    rcases hk with ⟨h1, h2⟩ | ⟨h1, h2⟩
    · rw [Nat.mod_eq_of_lt (by omega)]; omega
    · subst h1; omega
  have key : ∀ n, (scRun cb n s).scNumberOfTasksRegistered = s.scNumberOfTasksRegistered ∧
      (scRun cb n s).scSchedulerStarted = s.scSchedulerStarted ∧
      ((scRun cb n s).scTasks t).period = P ∧
      (n < k0 → ((scRun cb n s).scTasks t).state = scTaskStatus.SCH_READY ∧
        ((scRun cb n s).scTasks t).periodCount = c + n) ∧
      (k0 ≤ n → ((scRun cb n s).scTasks t).state = scTaskStatus.SCH_STARTED ∧
        ((scRun cb n s).scTasks t).overrunCount = (n - k0 + 1) % UINT_RANGE) := by
    intro n
    induction n with
    | zero =>
      refine ⟨rfl, rfl, hP, fun _ => ⟨hready, by simpa using hc⟩, fun h => ?_⟩
      omega
    | succ n ih =>
      obtain ⟨i1, i2, i3, i4, i5⟩ := ih
      obtain ⟨t1, t2, t3, _⟩ := tick (scRun cb n s) (by rw [i2]; exact hstart)
        (by rw [i1]; exact ht) (by rw [i1]; exact hmax)
      have hrun : scRun cb (n + 1) s = (scTimerTick cb (scRun cb n s)).1 := rfl
      rw [hrun, t1, t2, t3]
      refine ⟨i1, i2, ?_, ?_, ?_⟩
      · unfold scOverrunStep; split_ifs <;> simp [i3]
      · intro hlt
        obtain ⟨j1, j2⟩ := i4 (by omega)
        have hnf : ¬ scFires ((scRun cb n s).scTasks t) = true := by
          rw [hfire n (by omega) j1 j2 i3]; omega
        unfold scOverrunStep
        rw [if_neg hnf, if_pos j1]
        refine ⟨j1, ?_⟩
        show (((scRun cb n s).scTasks t).periodCount + 1) % UINT_RANGE = c + (n + 1)
        rw [j2, Nat.mod_eq_of_lt]
        · omega
        · rcases hk with ⟨h1, h2⟩ | ⟨h1, h2⟩ <;> omega
      · intro hge
        rcases Nat.lt_or_ge n k0 with hlt | hge2
        · obtain ⟨j1, j2⟩ := i4 hlt
          have heq : n + 1 = k0 := by omega
          have hf : scFires ((scRun cb n s).scTasks t) = true := (hfire n hlt j1 j2 i3).mpr heq
          unfold scOverrunStep
          rw [if_pos hf]
          refine ⟨rfl, ?_⟩
          show 1 % UINT_RANGE = (n + 1 - k0 + 1) % UINT_RANGE
          rw [heq]; simp
        · obtain ⟨j1, j2⟩ := i5 hge2
          have hnf : ¬ scFires ((scRun cb n s).scTasks t) = true := by
            unfold scFires; simp [j1]
          have hnr : ¬ ((scRun cb n s).scTasks t).state = scTaskStatus.SCH_READY := by
            rw [j1]; decide
          unfold scOverrunStep
          rw [if_neg hnf, if_neg hnr, if_pos j1]
          refine ⟨j1, ?_⟩
          show (((scRun cb n s).scTasks t).overrunCount + 1) % UINT_RANGE = _
          rw [j2, Nat.mod_add_mod]
          congr 1; omega
  obtain ⟨i1, i2, i3, i4, i5⟩ := key n
  refine ⟨i1, i2, i3, i4, i5, ?_⟩
  obtain ⟨_, _, _, t4⟩ := tick (scRun cb n s) (by rw [i2]; exact hstart)
    (by rw [i1]; exact ht) (by rw [i1]; exact hmax)
  unfold scCallsOnTick
  rw [t4]
  rcases Nat.lt_or_ge n k0 with hlt | hge
  · obtain ⟨j1, j2⟩ := i4 hlt
    by_cases h : n + 1 = k0
    · rw [if_pos ((hfire n hlt j1 j2 i3).mpr h), if_pos h]
    · rw [if_neg (fun hf => h ((hfire n hlt j1 j2 i3).mp hf)), if_neg h]
  · obtain ⟨j1, _⟩ := i5 hge
    have hnf : ¬ scFires ((scRun cb n s).scTasks t) = true := by
      unfold scFires; simp [j1]
    rw [if_neg hnf, if_neg (by omega)]

theorem scCalls_of_single (cb : Callbacks) (s : Scheduler) (t k0 : Nat)
    (h : ∀ k, scCallsOnTick cb s t k = (if k + 1 = k0 then 1 else 0)) (hk : 1 ≤ k0) (n : Nat) :
    scCalls cb s t n = (if k0 ≤ n then 1 else 0) := by
  induction n with
  | zero => rw [if_neg (by omega)]; rfl
  | succ n ih =>
    unfold scCalls
    rw [ih, h n]
    by_cases h1 : k0 ≤ n
    · rw [if_pos h1, if_neg (by omega), if_pos (by omega)]
    · by_cases h2 : n + 1 = k0
      · rw [if_neg h1, if_pos h2, if_pos (by omega)]
      · rw [if_neg h1, if_neg h2, if_neg (by omega)]

theorem setTask_setTask (s : Scheduler) (i : Nat) (a b : scTaskDescription) :
    setTask (setTask s i a) i b = setTask s i b := by
  simp [setTask]

theorem scCompleted_slot (t : Nat) (ht : t < SCH_MAX_NUMBER_OF_TASKS) (s : Scheduler) :
    (scCompleted t s).scTasks t = { s.scTasks t with state := scTaskStatus.SCH_READY } := by
  have h : (0 : Int) ≤ (t : Int) ∧ (t : Int) < (SCH_MAX_NUMBER_OF_TASKS : Int) :=
    ⟨Int.natCast_nonneg t, by exact_mod_cast ht⟩
  unfold scCompleted
  rw [if_pos h]
  simp [setTask]

theorem scTickTask_fire (cb : Callbacks) (t : Nat) (s : Scheduler)
    (hf : scFires (s.scTasks t) = true) :
    (scTickTask cb t s).1 =
      (if ((cb (s.scTasks t).function (scStartedState s t)).scTasks t).state =
          scTaskStatus.SCH_STARTED then
        setTask (cb (s.scTasks t).function (scStartedState s t)) t
          { (cb (s.scTasks t).function (scStartedState s t)).scTasks t with
            overrunCount :=
              (((cb (s.scTasks t).function (scStartedState s t)).scTasks t).overrunCount + 1)
                % UINT_RANGE }
      else cb (s.scTasks t).function (scStartedState s t)) := by
  unfold scFires at hf
  simp only [decide_eq_true_eq] at hf
  unfold scTickTask scStartedState
  simp only [setTask_same, setTask_setTask, hf.1, hf.2, if_true, ge_iff_le]
  split_ifs <;> rfl

theorem scTickTask_self_completing (cb : Callbacks) (t : Nat) (ht : t < SCH_MAX_NUMBER_OF_TASKS)
    (f0 : Nat) (hdone : ∀ s, (cb f0 s).scTasks t = (scCompleted t s).scTasks t)
    (s : Scheduler) (hq : (s.scTasks t).state = scTaskStatus.SCH_READY)
    (hfn : (s.scTasks t).function = f0) :
    (scTickTask cb t s).1.scTasks t = scCompletingStep (s.scTasks t) := by
  by_cases hf : scFires (s.scTasks t) = true
  · have h := hdone (scStartedState s t)
    rw [scCompleted_slot t ht] at h
    rw [scTickTask_fire cb t s hf, hfn]
    unfold scCompletingStep
    rw [if_pos hf, if_neg (by rw [h]; simp), h]
    simp [scStartedState, setTask_same]
  · unfold scCompletingStep
    rw [if_neg hf]
    unfold scFires at hf
    simp only [decide_eq_true_eq, hq, true_and] at hf
    unfold scTickTask
    simp only [setTask_same, hq, if_true, ge_iff_le, hf, if_false]
    simp [setTask_same]

theorem succ_mod_cases (a P : Nat) (hP : 0 < P) :
    (a + 1) % P = (if a % P + 1 = P then 0 else a % P + 1) := by
  have hlt := Nat.mod_lt a hP
  have hdiv := Nat.div_add_mod a P
  by_cases h : a % P + 1 = P
  · rw [if_pos h]
    have : a + 1 = P * (a / P + 1) := by rw [Nat.mul_add, Nat.mul_one]; omega
    rw [this, Nat.mul_mod_right]
  · rw [if_neg h]
    have : a + 1 = P * (a / P) + (a % P + 1) := by omega
    rw [this, Nat.mul_add_mod, Nat.mod_eq_of_lt (by omega)]

theorem scRun_completing (cb : Callbacks) (s : Scheduler) (t c P : Nat)
    (hctl : scKeepsControl cb)
    (hdone : ∀ s', (cb (s.scTasks t).function s').scTasks t = (scCompleted t s').scTasks t)
    (hother : ∀ f s', (s'.scTasks t).state = scTaskStatus.SCH_READY →
      (cb f s').scTasks t = s'.scTasks t)
    (hstart : s.scSchedulerStarted ≠ 0)
    (ht : (t : Int) < s.scNumberOfTasksRegistered)
    (hmax : s.scNumberOfTasksRegistered ≤ SCH_MAX_NUMBER_OF_TASKS)
    (hready : (s.scTasks t).state = scTaskStatus.SCH_READY)
    (hc : (s.scTasks t).periodCount = c) (hP : (s.scTasks t).period = P)
    (hP1 : 1 ≤ P) (hPlt : P < UINT_RANGE) (hcP : c < P) (n : Nat) :
    (scRun cb n s).scNumberOfTasksRegistered = s.scNumberOfTasksRegistered ∧
    (scRun cb n s).scSchedulerStarted = s.scSchedulerStarted ∧
    ((scRun cb n s).scTasks t).period = P ∧
    ((scRun cb n s).scTasks t).state = scTaskStatus.SCH_READY ∧
    ((scRun cb n s).scTasks t).periodCount = (c + n) % P ∧
    scCallsOnTick cb s t n = (if (c + n + 1) % P = 0 then 1 else 0) := by
  have ht5 : t < SCH_MAX_NUMBER_OF_TASKS := by
    have : (t : Int) < (SCH_MAX_NUMBER_OF_TASKS : Int) := lt_of_lt_of_le ht hmax
    exact_mod_cast this
  have hstepQ : ∀ d : scTaskDescription,
      (d.state = scTaskStatus.SCH_READY ∧ d.function = (s.scTasks t).function) →
      ((scCompletingStep d).state = scTaskStatus.SCH_READY ∧
        (scCompletingStep d).function = (s.scTasks t).function) := by
    intro d hd
    unfold scCompletingStep
    split_ifs
    · exact ⟨rfl, hd.2⟩
    · exact hd
  have tick := fun (s' : Scheduler)
      (h0 : (s'.scTasks t).state = scTaskStatus.SCH_READY ∧
        (s'.scTasks t).function = (s.scTasks t).function)
      (h1 : s'.scSchedulerStarted ≠ 0)
      (h2 : (t : Int) < s'.scNumberOfTasksRegistered)
      (h3 : s'.scNumberOfTasksRegistered ≤ SCH_MAX_NUMBER_OF_TASKS) =>
    scTimerTick_slot cb hctl
      (fun d => d.state = scTaskStatus.SCH_READY ∧ d.function = (s.scTasks t).function) t
      (fun f s' hq => hother f s' hq.1)
      scCompletingStep
      (fun s' hq => scTickTask_self_completing cb t ht5 (s.scTasks t).function hdone s' hq.1 hq.2)
      hstepQ s' h0 h1 h2 h3
  have hfire : ∀ n, ((scRun cb n s).scTasks t).state = scTaskStatus.SCH_READY →
      ((scRun cb n s).scTasks t).periodCount = (c + n) % P →
      ((scRun cb n s).scTasks t).period = P →
      (scFires ((scRun cb n s).scTasks t) = true ↔ (c + n + 1) % P = 0) := by
    intro n j1 j2 j3
    have hlt := Nat.mod_lt (c + n) (show 0 < P by omega)
    unfold scFires
    rw [j3, j2]
    simp only [j1, true_and, decide_eq_true_eq]
    rw [Nat.mod_eq_of_lt (by omega), succ_mod_cases (c + n) P (by omega)]
    by_cases h : (c + n) % P + 1 = P
    · rw [if_pos h]; constructor
      · intro _; rfl
      · intro _; omega
    · rw [if_neg h]; constructor
      · intro h2; omega
      · intro h2; omega
  have key : ∀ n, (scRun cb n s).scNumberOfTasksRegistered = s.scNumberOfTasksRegistered ∧
      (scRun cb n s).scSchedulerStarted = s.scSchedulerStarted ∧
      ((scRun cb n s).scTasks t).period = P ∧
      (((scRun cb n s).scTasks t).state = scTaskStatus.SCH_READY ∧
        ((scRun cb n s).scTasks t).function = (s.scTasks t).function) ∧
      ((scRun cb n s).scTasks t).periodCount = (c + n) % P := by
    intro n
    induction n with
    | zero =>
      refine ⟨rfl, rfl, hP, ⟨hready, rfl⟩, ?_⟩
      show (s.scTasks t).periodCount = (c + 0) % P
      rw [hc, Nat.add_zero, Nat.mod_eq_of_lt hcP]
    | succ n ih =>
      obtain ⟨i1, i2, i3, i4, i5⟩ := ih
      obtain ⟨t1, t2, t3, _⟩ := tick (scRun cb n s) i4 (by rw [i2]; exact hstart)
        (by rw [i1]; exact ht) (by rw [i1]; exact hmax)
      have hrun : scRun cb (n + 1) s = (scTimerTick cb (scRun cb n s)).1 := rfl
      have hlt := Nat.mod_lt (c + n) (show 0 < P by omega)
      rw [hrun, t1, t2, t3]
      refine ⟨i1, i2, ?_, hstepQ _ i4, ?_⟩
      · unfold scCompletingStep; split_ifs <;> exact i3
      · have hfi := hfire n i4.1 i5 i3
        have hcases := succ_mod_cases (c + n) P (by omega)
        unfold scCompletingStep
        by_cases hf : scFires ((scRun cb n s).scTasks t) = true
        · rw [if_pos hf]
          show 0 = (c + (n + 1)) % P
          rw [← Nat.add_assoc, hfi.mp hf]
        · rw [if_neg hf]
          show (((scRun cb n s).scTasks t).periodCount + 1) % UINT_RANGE = (c + (n + 1)) % P
          have hne : ¬ (c + n + 1) % P = 0 := fun h => hf (hfi.mpr h)
          rw [i5, Nat.mod_eq_of_lt (by omega), ← Nat.add_assoc, hcases]
          by_cases h : (c + n) % P + 1 = P
          · rw [hcases, if_pos h] at hne; exact absurd rfl hne
          · rw [if_neg h]
  obtain ⟨i1, i2, i3, i4, i5⟩ := key n
  refine ⟨i1, i2, i3, i4.1, i5, ?_⟩
  obtain ⟨_, _, _, t4⟩ := tick (scRun cb n s) i4 (by rw [i2]; exact hstart)
    (by rw [i1]; exact ht) (by rw [i1]; exact hmax)
  unfold scCallsOnTick
  rw [t4]
  have hfi := hfire n i4.1 i5 i3
  by_cases hf : scFires ((scRun cb n s).scTasks t) = true
  · rw [if_pos hf, if_pos (hfi.mp hf)]
  · rw [if_neg hf, if_neg (fun h => hf (hfi.mpr h))]

/-! ## Scheduler: claims -/

/-- C1 (amended). Scheduler overrun. On a started scheduler, take a slot `t`
below the registration count `scNumberOfTasksRegistered` (the slots which the
loop of `scTimerTick` visits) that is ready, with period `P` and period count
`c` (`c < P`, or `P = 0`), and callbacks none of which completes task `t` (none
writes its slot) or changes the registration count or the started flag. Then
over any run of ticks the callback of `t` is called on exactly one tick, tick
`k0 = max 1 (P - c)`, the one on which the period count reaches the period; from
that tick on the task is `SCH_STARTED`, its overrun count after tick `n` is
`n - k0 + 1` in 32-bit unsigned arithmetic, and every further tick adds exactly
1 to it (modulo `2 ^ 32`, and without reduction while the counter has not
wrapped). -/
theorem C1_scheduler_overrun (cb : Callbacks) (s : Scheduler) (t c P : Nat)
    (hctl : scKeepsControl cb)
    (hnever : ∀ f s', (cb f s').scTasks t = s'.scTasks t)
    (hstart : s.scSchedulerStarted ≠ 0)
    (ht : (t : Int) < s.scNumberOfTasksRegistered)
    (hmax : s.scNumberOfTasksRegistered ≤ SCH_MAX_NUMBER_OF_TASKS)
    (hready : (s.scTasks t).state = scTaskStatus.SCH_READY)
    (hc : (s.scTasks t).periodCount = c) (hP : (s.scTasks t).period = P)
    (hPlt : P < UINT_RANGE) (hcP : c < P ∨ P = 0) :
    (∀ k, scCallsOnTick cb s t k = (if k + 1 = max 1 (P - c) then 1 else 0)) ∧
    (∀ n, scCalls cb s t n = (if max 1 (P - c) ≤ n then 1 else 0)) ∧
    (∀ n, max 1 (P - c) ≤ n →
      ((scRun cb n s).scTasks t).state = scTaskStatus.SCH_STARTED ∧
      ((scRun cb n s).scTasks t).overrunCount = (n - max 1 (P - c) + 1) % UINT_RANGE ∧
      ((scRun cb (n + 1) s).scTasks t).overrunCount =
        (((scRun cb n s).scTasks t).overrunCount + 1) % UINT_RANGE ∧
      (n - max 1 (P - c) + 2 < UINT_RANGE →
        ((scRun cb (n + 1) s).scTasks t).overrunCount =
          ((scRun cb n s).scTasks t).overrunCount + 1)) := by
  have hk : (c < P ∧ max 1 (P - c) = P - c) ∨ (P = 0 ∧ max 1 (P - c) = 1) := by
    rcases hcP with h | h
    · exact Or.inl ⟨h, max_eq_right (by omega)⟩
    · subst h; exact Or.inr ⟨rfl, by simp⟩
  have h1 : 1 ≤ max 1 (P - c) := le_max_left _ _
  have run := scRun_overrun cb s t c P (max 1 (P - c)) hctl hnever hstart ht hmax hready hc hP
    hPlt hk
  have hcalls : ∀ k, scCallsOnTick cb s t k = (if k + 1 = max 1 (P - c) then 1 else 0) :=
    fun k => (run k).2.2.2.2.2
  refine ⟨hcalls, scCalls_of_single cb s t _ hcalls h1, ?_⟩
  intro n hn
  obtain ⟨hs, ho⟩ := (run n).2.2.2.2.1 hn
  obtain ⟨_, ho2⟩ := (run (n + 1)).2.2.2.2.1 (by omega)
  have hstep : (n + 1 - max 1 (P - c) + 1) = (n - max 1 (P - c) + 1) + 1 := by omega
  refine ⟨hs, ho, ?_, ?_⟩
  · rw [ho2, ho, hstep, Nat.mod_add_mod]
  · intro hlt
    rw [ho2, ho, hstep, Nat.mod_eq_of_lt (by omega), Nat.mod_eq_of_lt (by omega)]

/-- C1 amended, at a concrete input: on the scheduler of `ecuInitialisation`, a
high-frequency task that never completes is called once in 100 ticks and has
then overrun 96 ticks. -/
theorem C1_scheduler_overrun_witness :
    scCalls cyclicTasksStuckHF ecuScheduler 0 100 = 1 ∧
    ((scRun cyclicTasksStuckHF 100 ecuScheduler).scTasks 0).state = scTaskStatus.SCH_STARTED ∧
    ((scRun cyclicTasksStuckHF 100 ecuScheduler).scTasks 0).overrunCount = 96 := by
  have hctl : scKeepsControl cyclicTasksStuckHF := by
    intro f s
    unfold cyclicTasksStuckHF scCompleted setTask
    split_ifs <;> exact ⟨rfl, rfl⟩
  have hnever : ∀ f s', (cyclicTasksStuckHF f s').scTasks 0 = s'.scTasks 0 := by
    intro f s'
    unfold cyclicTasksStuckHF scCompleted
    split_ifs with h0 h1
    · rfl
    · have : (0 : Nat) ≠ (f : Int).toNat := by simpa using fun h => h0 h.symm
      exact setTask_other _ _ _ _ this
    · rfl
  have h := C1_scheduler_overrun cyclicTasksStuckHF ecuScheduler 0 0 5 hctl hnever
    (by decide) (by decide) (by decide) (by decide) (by decide)
    (by
      norm_num [ecuScheduler, scStartScheduler, scAddTask, scInitialise, scBoot,
        SCH_MAX_NUMBER_OF_TASKS, roundf, toUnsigned, UINT_RANGE, Function.update]
      decide)
    (by norm_num [UINT_RANGE]) (Or.inl (by norm_num))
  obtain ⟨_, h2, h3⟩ := h
  have h4 := h3 100 (by norm_num)
  refine ⟨?_, h4.1, ?_⟩
  · rw [h2 100]; norm_num
  · rw [h4.2.1]; norm_num [UINT_RANGE]

/-- C2 (amended). Scheduler task state machine. On a started scheduler, take a
slot `t` below the registration count `scNumberOfTasksRegistered` (the slots
which the loop of `scTimerTick` visits) that is ready with period `n >= 1` and
period count 0 (as `scAddTask` leaves it), whose callback ends with
`scCompleted(t)`, the callbacks leaving a ready slot `t`, the registration count
and the started flag alone. Then (1) on a tick that calls it, the callback is
entered with the slot in state `SCH_STARTED` and the slot is `SCH_READY` again
when the loop body is left (Ready -> Started -> Ready within the tick); (2) the
callback is called on tick `k + 1` exactly when `n` divides `k + 1`, once; (3)
after every tick the slot is ready and its period count is the number of ticks
modulo `n`, so it is 0 after each tick with a call. -/
theorem C2_scheduler_task_cycle (cb : Callbacks) (s : Scheduler) (t n : Nat)
    (hctl : scKeepsControl cb)
    (hdone : ∀ s', (cb (s.scTasks t).function s').scTasks t = (scCompleted t s').scTasks t)
    (hother : ∀ f s', (s'.scTasks t).state = scTaskStatus.SCH_READY →
      (cb f s').scTasks t = s'.scTasks t)
    (hstart : s.scSchedulerStarted ≠ 0)
    (ht : (t : Int) < s.scNumberOfTasksRegistered)
    (hmax : s.scNumberOfTasksRegistered ≤ SCH_MAX_NUMBER_OF_TASKS)
    (hready : (s.scTasks t).state = scTaskStatus.SCH_READY)
    (hc : (s.scTasks t).periodCount = 0) (hP : (s.scTasks t).period = n)
    (hn : 1 ≤ n) (hlt : n < UINT_RANGE) :
    (∀ s', scFires (s'.scTasks t) = true →
      (s'.scTasks t).function = (s.scTasks t).function →
      ((scStartedState s' t).scTasks t).state = scTaskStatus.SCH_STARTED ∧
      (scTickTask cb t s').1 = cb (s'.scTasks t).function (scStartedState s' t) ∧
      ((scTickTask cb t s').1.scTasks t).state = scTaskStatus.SCH_READY) ∧
    (∀ k, scCallsOnTick cb s t k = (if n ∣ k + 1 then 1 else 0)) ∧
    (∀ m, ((scRun cb m s).scTasks t).state = scTaskStatus.SCH_READY ∧
      ((scRun cb m s).scTasks t).periodCount = m % n ∧
      (n ∣ m → ((scRun cb m s).scTasks t).periodCount = 0)) := by
  have ht5 : t < SCH_MAX_NUMBER_OF_TASKS := by
    have : (t : Int) < (SCH_MAX_NUMBER_OF_TASKS : Int) := lt_of_lt_of_le ht hmax
    exact_mod_cast this
  have run := scRun_completing cb s t 0 n hctl hdone hother hstart ht hmax hready hc hP hn hlt
    (by omega)
  refine ⟨?_, ?_, ?_⟩
  · intro s' hf hfn0
    have hst : ((scStartedState s' t).scTasks t).state = scTaskStatus.SCH_STARTED := by
      simp [scStartedState, setTask_same]
    have hd := hdone (scStartedState s' t)
    rw [← hfn0, scCompleted_slot t ht5] at hd
    have hnot : ¬ ((cb (s'.scTasks t).function (scStartedState s' t)).scTasks t).state =
        scTaskStatus.SCH_STARTED := by
      rw [hd]; simp
    have heq := scTickTask_fire cb t s' hf
    rw [if_neg hnot] at heq
    refine ⟨hst, heq, ?_⟩
    rw [heq, hd]
  · intro k
    rw [(run k).2.2.2.2.2, Nat.zero_add]
    by_cases h : n ∣ k + 1
    · rw [if_pos h, if_pos (Nat.mod_eq_zero_of_dvd h)]
    · rw [if_neg h, if_neg (fun h0 => h (Nat.dvd_of_mod_eq_zero h0))]
  · intro m
    obtain ⟨_, _, _, r4, r5, _⟩ := run m
    rw [Nat.zero_add] at r5
    exact ⟨r4, r5, fun hd => by rw [r5, Nat.mod_eq_zero_of_dvd hd]⟩

/-- C2 amended, at a concrete input: on the scheduler of `ecuInitialisation`
with the cyclic tasks, the low-frequency task (slot 1, period 40) is called on
tick 80 and not on tick 81, and its period count after 85 ticks is 5. -/
theorem C2_scheduler_task_cycle_witness :
    scCallsOnTick cyclicTasks ecuScheduler 1 79 = 1 ∧
    scCallsOnTick cyclicTasks ecuScheduler 1 80 = 0 ∧
    ((scRun cyclicTasks 85 ecuScheduler).scTasks 1).periodCount = 5 := by
  have hctl : scKeepsControl cyclicTasks := by
    intro f s
    unfold cyclicTasks scCompleted setTask
    split_ifs <;> exact ⟨rfl, rfl⟩
  have hother : ∀ f s', (s'.scTasks 1).state = scTaskStatus.SCH_READY →
      (cyclicTasks f s').scTasks 1 = s'.scTasks 1 := by
    intro f s' hr
    unfold cyclicTasks scCompleted
    split_ifs with h0
    · by_cases hf : (f : Int).toNat = 1
      · rw [hf, setTask_same, ← hr]
      · exact setTask_other _ _ _ _ (fun h => hf h.symm)
    · rfl
  have hfn : (ecuScheduler.scTasks 1).function = 1 := by decide
  have h := C2_scheduler_task_cycle cyclicTasks ecuScheduler 1 40 hctl
    (fun s' => by rw [hfn]; rfl) hother
    (by decide) (by decide) (by decide) (by decide) (by decide)
    (by
      norm_num [ecuScheduler, scStartScheduler, scAddTask, scInitialise, scBoot,
        SCH_MAX_NUMBER_OF_TASKS, roundf, toUnsigned, UINT_RANGE, Function.update]
      decide)
    (by norm_num) (by norm_num [UINT_RANGE])
  obtain ⟨_, h2, h3⟩ := h
  refine ⟨?_, ?_, ?_⟩
  · rw [h2 79]; norm_num
  · rw [h2 80]; norm_num
  · rw [(h3 85).2.1]

theorem scAddTask_tickPeriod (index : Int) (f : Nat) (period : ℚ) (s : Scheduler) :
    (scAddTask index f period s).scTimerTickPeriod = s.scTimerTickPeriod := by
  unfold scAddTask
  split_ifs <;> rfl

theorem scAddTask_foldl_tickPeriod (pre : List (Int × Nat × ℚ)) (s : Scheduler) :
    (pre.foldl (fun st a => scAddTask a.1 a.2.1 a.2.2 st) s).scTimerTickPeriod =
      s.scTimerTickPeriod := by
  induction pre generalizing s with
  | nil => rfl
  | cons a rest ih => rw [List.foldl_cons, ih, scAddTask_tickPeriod]

theorem roundf_eq_round (q : ℚ) (hq : 0 ≤ q) : roundf q = round q := by
  unfold roundf
  rw [if_pos hq, round_eq]

/-- C3. `scAddTask`. Let `s` be a state reached from `scInitialise(tickPeriod)` by
any earlier calls of `scAddTask`. If `0 <= index < SCH_MAX_NUMBER_OF_TASKS` and
fewer than `SCH_MAX_NUMBER_OF_TASKS` tasks are registered, `scAddTask(index, f,
periodMs)` sets that slot to `SCH_READY` with period count 0, callback `f` and
period `roundf(periodMs / tickPeriod)` converted to `unsigned int` (which is
`round(periodMs / tickPeriod)` when the tick period is not 0, the quotient is
not negative and the result fits in 32 bits), leaves the other slots alone and adds 1 to the number of
registered tasks. With an index outside the table, or with the count at its
maximum, the state is unchanged: no slot and no counter is written. -/
theorem C3_scAddTask (s0 : Scheduler) (tickPeriod : Int) (pre : List (Int × Nat × ℚ))
    (s : Scheduler)
    (hs : s = pre.foldl (fun st a => scAddTask a.1 a.2.1 a.2.2 st) (scInitialise tickPeriod s0))
    (index : Int) (f : Nat) (periodMs : ℚ) :
    ((0 ≤ index ∧ index < SCH_MAX_NUMBER_OF_TASKS) ∧
        s.scNumberOfTasksRegistered < SCH_MAX_NUMBER_OF_TASKS →
      ((scAddTask index f periodMs s).scTasks index.toNat).state = scTaskStatus.SCH_READY ∧
      ((scAddTask index f periodMs s).scTasks index.toNat).periodCount = 0 ∧
      ((scAddTask index f periodMs s).scTasks index.toNat).function = f ∧
      ((scAddTask index f periodMs s).scTasks index.toNat).period =
        toUnsigned (roundf (periodMs / tickPeriod)) ∧
      (tickPeriod ≠ 0 → 0 ≤ periodMs / tickPeriod →
          round (periodMs / tickPeriod) < (UINT_RANGE : Int) →
        (((scAddTask index f periodMs s).scTasks index.toNat).period : Int) =
          round (periodMs / tickPeriod)) ∧
      (∀ j, j ≠ index.toNat → (scAddTask index f periodMs s).scTasks j = s.scTasks j) ∧
      (scAddTask index f periodMs s).scNumberOfTasksRegistered =
        s.scNumberOfTasksRegistered + 1) ∧
    (¬ (0 ≤ index ∧ index < SCH_MAX_NUMBER_OF_TASKS) ∨
        ¬ s.scNumberOfTasksRegistered < SCH_MAX_NUMBER_OF_TASKS →
      scAddTask index f periodMs s = s) := by
  have htp : s.scTimerTickPeriod = tickPeriod := by
    rw [hs, scAddTask_foldl_tickPeriod]; rfl
  constructor
  · rintro ⟨hidx, hcnt⟩
    have hper : ((scAddTask index f periodMs s).scTasks index.toNat).period =
        toUnsigned (roundf (periodMs / tickPeriod)) := by
      unfold scAddTask
      rw [if_pos hcnt, if_pos hidx, htp]
      simp
    refine ⟨?_, ?_, ?_, hper, ?_, ?_, ?_⟩
    · unfold scAddTask; rw [if_pos hcnt, if_pos hidx]; simp
    · unfold scAddTask; rw [if_pos hcnt, if_pos hidx]; simp
    · unfold scAddTask; rw [if_pos hcnt, if_pos hidx]; simp
    · intro _ h0 hfit
      rw [hper, roundf_eq_round _ h0]
      have hnn : 0 ≤ round (periodMs / (tickPeriod : ℚ)) := by
        rw [round_eq]
        exact Int.floor_nonneg.mpr (by linarith)
      unfold toUnsigned
      have hlt : (round (periodMs / (tickPeriod : ℚ))).toNat < UINT_RANGE := by
        have := Int.toNat_of_nonneg hnn
        omega
      rw [Nat.mod_eq_of_lt hlt, Int.toNat_of_nonneg hnn]
    · intro j hj
      unfold scAddTask
      rw [if_pos hcnt, if_pos hidx]
      simp [Function.update_noteq hj]
    · unfold scAddTask; rw [if_pos hcnt, if_pos hidx]
  · intro h
    unfold scAddTask
    rcases h with h | h
    · split_ifs <;> rfl
    · rw [if_neg h]

/-- Witness of C3: after `scInitialise(2)` and one earlier registration,
`scAddTask(3, 7, 5)` makes slot 3 ready with period `round(5 / 2) = 3` and the
count 2, and `scAddTask(5, 7, 5)` changes nothing. -/
theorem C3_scAddTask_witness :
    ((scAddTask 3 7 5 (scAddTask 0 0 3 (scInitialise 2 scBoot))).scTasks 3).state =
      scTaskStatus.SCH_READY ∧
    (((scAddTask 3 7 5 (scAddTask 0 0 3 (scInitialise 2 scBoot))).scTasks 3).period : Int) =
      round ((5 : ℚ) / ((2 : Int) : ℚ)) ∧
    (scAddTask 3 7 5 (scAddTask 0 0 3 (scInitialise 2 scBoot))).scNumberOfTasksRegistered = 2 ∧
    scAddTask 5 7 5 (scAddTask 0 0 3 (scInitialise 2 scBoot)) =
      scAddTask 0 0 3 (scInitialise 2 scBoot) := by
  have h := C3_scAddTask scBoot 2 [(0, 0, 3)] (scAddTask 0 0 3 (scInitialise 2 scBoot)) rfl
    3 7 5
  have h5 := C3_scAddTask scBoot 2 [(0, 0, 3)] (scAddTask 0 0 3 (scInitialise 2 scBoot)) rfl
    5 7 5
  obtain ⟨h1, _⟩ := h
  obtain ⟨a1, _, _, _, a5, _, a7⟩ := h1 ⟨by decide, by decide⟩
  refine ⟨a1, ?_, ?_, ?_⟩
  · have hr : round ((5 : ℚ) / ((2 : Int) : ℚ)) = 3 := by
      rw [round_eq]; norm_num [Int.floor_eq_iff]
    exact a5 (by decide) (by norm_num) (by rw [hr]; norm_num [UINT_RANGE])
  · rw [a7]; decide
  · exact h5.2 (Or.inl (by decide))

/-! ## Trigger wheel: lemmas -/

theorem twPhase_hwCall (c : HwCall) (s : TriggerWheel) : twPhase (hwCall c s) = twPhase s := rfl

theorem twPhase_twUpdateTiming (s : TriggerWheel) : twPhase (twUpdateTiming s) = twPhase s := by
  unfold twUpdateTiming
  split_ifs <;> rfl

theorem twPhase_twSequenceReset (s : TriggerWheel) : twPhase (twSequenceReset s) = twPhase s := by
  unfold twSequenceReset
  split_ifs <;> rfl

theorem twPhase_twInjectionA (cmp : Bool) (s : TriggerWheel) :
    twPhase (twInjectionA cmp s) = twPhase s := by
  unfold twInjectionA
  split_ifs <;> rfl

theorem twPhase_twInjectionB (cmp : Bool) (s : TriggerWheel) :
    twPhase (twInjectionB cmp s) = twPhase s := by
  unfold twInjectionB
  split_ifs <;> rfl

theorem twPhase_twDwell (cmp : Bool) (s : TriggerWheel) : twPhase (twDwell cmp s) = twPhase s := by
  unfold twDwell
  dsimp only
  split_ifs <;> rfl

theorem twPhase_twFire (cmp : Bool) (s : TriggerWheel) : twPhase (twFire cmp s) = twPhase s := by
  unfold twFire
  dsimp only
  split_ifs <;> rfl

theorem twPhase_twOutputs (cmp : Bool) (s : TriggerWheel) :
    twPhase (twOutputs cmp s) = twPhase s := by
  unfold twOutputs
  split_ifs
  · rw [twPhase_twFire, twPhase_twDwell, twPhase_twInjectionB, twPhase_twInjectionA]
  · rfl

theorem twMissingToothDetected_congr (p : Int) (a b : TriggerWheel) (h : twPhase a = twPhase b) :
    twMissingToothDetected p a = twMissingToothDetected p b := by
  have h1 := congrArg TwPhase.currentTooth h
  have h2 := congrArg TwPhase.triggerWheelTeethHalf h
  have h3 := congrArg TwPhase.crankPulsePeriodEstimate h
  simp only [twPhase] at h1 h2 h3
  unfold twMissingToothDetected
  rw [h1, h2, h3]

theorem twPhase_twMissingTooth_congr (p : Int) (a b : TriggerWheel) (h : twPhase a = twPhase b) :
    twPhase (twMissingTooth p a) = twPhase (twMissingTooth p b) := by
  have hd := twMissingToothDetected_congr p a b h
  simp only [twPhase, TwPhase.mk.injEq] at h
  obtain ⟨h1, h2, h3, h4, h5, h6, h7, h8, h9, h10, h11⟩ := h
  unfold twMissingTooth
  rw [hd]
  split_ifs <;> simp_all [twPhase]

theorem twPhase_twPeriodFilter_congr (a b : TriggerWheel) (h : twPhase a = twPhase b) :
    twPhase (twPeriodFilter a) = twPhase (twPeriodFilter b) := by
  simp only [twPhase, TwPhase.mk.injEq] at h
  obtain ⟨h1, h2, h3, h4, h5, h6, h7, h8, h9, h10, h11⟩ := h
  simp [twPeriodFilter, twPhase, *]

theorem twPhase_crankshaftPulseHandler (cmp : Bool) (p : Int) (s : TriggerWheel) :
    twPhase (crankshaftPulseHandler cmp p s) =
      twPhase (twPeriodFilter (twMissingTooth p (twIncrementTooth s))) := by
  unfold crankshaftPulseHandler
  apply twPhase_twPeriodFilter_congr
  rw [twPhase_twOutputs]
  apply twPhase_twMissingTooth_congr
  rw [twPhase_twSequenceReset, twPhase_twUpdateTiming]

theorem twDetects_eq (p : Int) (s : TriggerWheel) :
    twDetects p s = twMissingToothDetected p (twIncrementTooth s) := by
  unfold twDetects
  apply twMissingToothDetected_congr
  rw [twPhase_twSequenceReset, twPhase_twUpdateTiming]

theorem twDetects_iff (p : Int) (s : TriggerWheel) :
    twDetects p s = true ↔
      (s.currentTooth + 1 > s.triggerWheelTeethHalf ∧
        p > s.crankPulsePeriodEstimate + (s.crankPulsePeriodEstimate >>> (1 : Nat))) := by
  rw [twDetects_eq]
  simp [twMissingToothDetected, twIncrementTooth]

theorem crankshaftPulseHandler_detect (cmp : Bool) (p : Int) (s : TriggerWheel)
    (hd : twDetects p s = true) :
    (crankshaftPulseHandler cmp p s).cfPage1 = s.cfPage1 ∧
    (crankshaftPulseHandler cmp p s).triggerWheelTeethHalf = s.triggerWheelTeethHalf ∧
    (crankshaftPulseHandler cmp p s).currentTooth = s.cfPage1.p2.twMissingTeeth ∧
    (crankshaftPulseHandler cmp p s).triggerWheelInSync =
      (if s.currentTooth + 1 ≠ s.cfPage1.p2.twTeeth then s.triggerWheelInSync
        else (s.triggerWheelInSync + 1) % UINT_RANGE) ∧
    (crankshaftPulseHandler cmp p s).keyData.syncErrors =
      (if s.currentTooth + 1 ≠ s.cfPage1.p2.twTeeth then s.keyData.syncErrors + 1
        else s.keyData.syncErrors) ∧
    (crankshaftPulseHandler cmp p s).keyData.errorTooth =
      (if s.currentTooth + 1 ≠ s.cfPage1.p2.twTeeth then ((s.currentTooth + 1 : Int) : ℚ)
        else s.keyData.errorTooth) ∧
    (crankshaftPulseHandler cmp p s).crankPulsePeriodR = s.crankPulsePeriodR := by
  have h := twPhase_crankshaftPulseHandler cmp p s
  rw [twDetects_eq] at hd
  simp only [twPhase, TwPhase.mk.injEq] at h
  obtain ⟨h1, h2, h3, h4, h5, h6, h7, h8, h9, h10, h11⟩ := h
  rw [h1, h2, h3, h4, h5, h6, h7]
  unfold twPeriodFilter twMissingTooth
  rw [hd]
  simp only [twIncrementTooth, if_true]
  refine ⟨?_, ?_, ?_, ?_, ?_, ?_, ?_⟩ <;> split_ifs <;> simp

theorem crankshaftPulseHandler_nodetect (cmp : Bool) (p : Int) (s : TriggerWheel)
    (hd : twDetects p s = false) :
    (crankshaftPulseHandler cmp p s).cfPage1 = s.cfPage1 ∧
    (crankshaftPulseHandler cmp p s).triggerWheelTeethHalf = s.triggerWheelTeethHalf ∧
    (crankshaftPulseHandler cmp p s).currentTooth = s.currentTooth + 1 ∧
    (crankshaftPulseHandler cmp p s).triggerWheelInSync = s.triggerWheelInSync ∧
    (crankshaftPulseHandler cmp p s).keyData.syncErrors = s.keyData.syncErrors ∧
    (crankshaftPulseHandler cmp p s).keyData.errorTooth = s.keyData.errorTooth ∧
    (crankshaftPulseHandler cmp p s).crankPulsePeriodR = p := by
  have h := twPhase_crankshaftPulseHandler cmp p s
  rw [twDetects_eq] at hd
  simp only [twPhase, TwPhase.mk.injEq] at h
  obtain ⟨h1, h2, h3, h4, h5, h6, h7, h8, h9, h10, h11⟩ := h
  rw [h1, h2, h3, h4, h5, h6, h7]
  unfold twPeriodFilter twMissingTooth
  rw [hd]
  simp [twIncrementTooth]

theorem crankshaftPulseHandler_filter (cmp : Bool) (p : Int) (s : TriggerWheel) :
    (crankshaftPulseHandler cmp p s).crankPulsePeriodFN_1 =
      (((crankshaftPulseHandler cmp p s).crankPulsePeriodR *
          2 ^ s.cfPage1.filters.crankshaftPulseFilter - s.crankPulsePeriodFN_1) >>>
        s.cfPage1.filters.crankshaftPulseFilter) + s.crankPulsePeriodFN_1 ∧
    (crankshaftPulseHandler cmp p s).crankPulsePeriodF =
      (crankshaftPulseHandler cmp p s).crankPulsePeriodFN_1 >>>
        s.cfPage1.filters.crankshaftPulseFilter ∧
    (crankshaftPulseHandler cmp p s).crankPulsePeriodEstimate =
      2 * (crankshaftPulseHandler cmp p s).crankPulsePeriodF - s.crankPulsePeriodFtN_1 ∧
    (crankshaftPulseHandler cmp p s).crankPulsePeriodFtN_1 =
      (crankshaftPulseHandler cmp p s).crankPulsePeriodF := by
  have h := twPhase_crankshaftPulseHandler cmp p s
  simp only [twPhase, TwPhase.mk.injEq] at h
  obtain ⟨h1, h2, h3, h4, h5, h6, h7, h8, h9, h10, h11⟩ := h
  rw [h7, h8, h9, h10, h11]
  unfold twPeriodFilter twMissingTooth
  split_ifs <;> simp [twIncrementTooth]

theorem shiftRight_one_nonneg (e : Int) (he : 0 ≤ e) : 0 ≤ e >>> (1 : Nat) := by
  rw [Int.shiftRight_eq_div_pow]
  exact Int.ediv_nonneg he (by norm_num)

theorem threshold_iff (p e : Int) :
    p > e + (e >>> (1 : Nat)) ↔ (p : ℚ) > 3 / 2 * (e : ℚ) := by
  have hs : e >>> (1 : Nat) = e / 2 := by
    rw [Int.shiftRight_eq_div_pow]; norm_num
  rw [hs]
  constructor
  · intro h
    have h2 : 3 * e < 2 * p := by omega
    have h3 : (3 : ℚ) * (e : ℚ) < 2 * (p : ℚ) := by exact_mod_cast h2
    linarith
  · intro h
    have h3 : (3 : ℚ) * (e : ℚ) < 2 * (p : ℚ) := by linarith
    have h2 : 3 * e < 2 * p := by exact_mod_cast h3
    omega

theorem mul_pow_shiftRight (P : Int) (k : Nat) : (P * 2 ^ k) >>> k = P := by
  rw [Int.shiftRight_eq_div_pow]
  push_cast
  exact Int.mul_ediv_cancel P (by positivity)

theorem twSettled_step (cmp : Bool) (p P : Int) (s : TriggerWheel) (hs : twSettled P s)
    (hR : (crankshaftPulseHandler cmp p s).crankPulsePeriodR = P)
    (hcfg : (crankshaftPulseHandler cmp p s).cfPage1 = s.cfPage1) :
    twSettled P (crankshaftPulseHandler cmp p s) := by
  obtain ⟨s1, s2, s3, s4, s5⟩ := hs
  obtain ⟨f1, f2, f3, f4⟩ := crankshaftPulseHandler_filter cmp p s
  have e1 : (crankshaftPulseHandler cmp p s).crankPulsePeriodFN_1 =
      P * 2 ^ s.cfPage1.filters.crankshaftPulseFilter := by
    rw [f1, hR, s3, sub_self, Int.zero_shiftRight, zero_add]
  have e2 : (crankshaftPulseHandler cmp p s).crankPulsePeriodF = P := by
    rw [f2, e1, mul_pow_shiftRight]
  refine ⟨hR, e2, ?_, ?_, ?_⟩
  · rw [e1, hcfg]
  · rw [f4, e2]
  · rw [f3, e2, s4]; ring

theorem twSettled_no_detection (P : Int) (hP : 0 ≤ P) (s : TriggerWheel) (hs : twSettled P s) :
    twDetects P s = false := by
  have h := twDetects_iff P s
  have hn := shiftRight_one_nonneg P hP
  rw [hs.2.2.2.2] at h
  cases hd : twDetects P s
  · rfl
  · have := (h.mp hd).2
    omega

theorem twRun_cons (q : Bool × Int) (ps : List (Bool × Int)) (s : TriggerWheel) :
    twRun (q :: ps) s = twRun ps (crankshaftPulseHandler q.1 q.2 s) := rfl

theorem twRun_append (ps qs : List (Bool × Int)) (s : TriggerWheel) :
    twRun (ps ++ qs) s = twRun qs (twRun ps s) := by
  unfold twRun
  rw [List.foldl_append]

theorem twRun_steady (P : Int) (hP : 0 ≤ P) (ps : List (Bool × Int)) :
    ∀ s : TriggerWheel, (∀ q ∈ ps, q.2 = P) → twSettled P s →
      twSettled P (twRun ps s) ∧
      (twRun ps s).currentTooth = s.currentTooth + ps.length ∧
      (twRun ps s).triggerWheelInSync = s.triggerWheelInSync ∧
      (twRun ps s).keyData.syncErrors = s.keyData.syncErrors ∧
      (twRun ps s).keyData.errorTooth = s.keyData.errorTooth ∧
      (twRun ps s).cfPage1 = s.cfPage1 ∧
      (twRun ps s).triggerWheelTeethHalf = s.triggerWheelTeethHalf := by
  induction ps with
  | nil =>
    intro s _ hs
    exact ⟨hs, by simp [twRun], rfl, rfl, rfl, rfl, rfl⟩
  | cons q rest ih =>
    intro s hall hs
    have hq : q.2 = P := hall q (List.mem_cons_self _ _)
    have hnd : twDetects q.2 s = false := by rw [hq]; exact twSettled_no_detection P hP s hs
    obtain ⟨n1, n2, n3, n4, n5, n6, n7⟩ := crankshaftPulseHandler_nodetect q.1 q.2 s hnd
    have hs2 : twSettled P (crankshaftPulseHandler q.1 q.2 s) :=
      twSettled_step q.1 q.2 P s hs (by rw [n7, hq]) n1
    obtain ⟨r1, r2, r3, r4, r5, r6, r7⟩ :=
      ih (crankshaftPulseHandler q.1 q.2 s) (fun x hx => hall x (List.mem_cons_of_mem _ hx)) hs2
    rw [twRun_cons]
    refine ⟨r1, ?_, by rw [r3, n4], by rw [r4, n5], by rw [r5, n6], by rw [r6, n1],
      by rw [r7, n2]⟩
    rw [r2, n3, List.length_cons]
    push_cast
    ring

/-! ## Trigger wheel: claims -/

set_option maxRecDepth 100000

/-- C4, counterexample. Default 36-1 wheel, filter settled on the period 10000,
tooth index 1, five revolutions in sync. After 34 pulses of period 10000 and a
pulse of period 15000, which is `>= 1.5 x 10000`, the in-sync count is still 5
and the tooth index is 36, not 1: the gap is not detected, because the test is
`period > estimate + (estimate >> 1)`. -/
theorem C4_counterexample :
    twSettled 10000 (twRunning 1 5 10000) ∧
    (twRunning 1 5 10000).currentTooth = (twRunning 1 5 10000).cfPage1.p2.twMissingTeeth ∧
    (twRunning 1 5 10000).cfPage1.p2.twTeeth
      - (twRunning 1 5 10000).cfPage1.p2.twMissingTeeth - 1 = 34 ∧
    ((15000 : Int) : ℚ) ≥ 3 / 2 * ((10000 : Int) : ℚ) ∧
    (twRun (List.replicate 34 (true, 10000) ++ [(true, 15000)])
      (twRunning 1 5 10000)).triggerWheelInSync ≠ 5 + 1 ∧
    (twRun (List.replicate 34 (true, 10000) ++ [(true, 15000)])
      (twRunning 1 5 10000)).currentTooth ≠ 1 := by
  have hall : ∀ q ∈ List.replicate 34 (true, (10000 : Int)), q.2 = 10000 := by
    intro q hq
    rw [(List.mem_replicate.mp hq).2]
  obtain ⟨r1, r2, r3, _, _, _, _⟩ :=
    twRun_steady 10000 (by decide) _ (twRunning 1 5 10000) hall (by decide)
  have hnd : twDetects 15000 (twRun (List.replicate 34 (true, 10000)) (twRunning 1 5 10000))
      = false := by
    cases hd : twDetects 15000 (twRun (List.replicate 34 (true, 10000)) (twRunning 1 5 10000))
    · rfl
    · have h := ((twDetects_iff _ _).mp hd).2
      rw [r1.2.2.2.2] at h
      exact absurd h (by decide)
  obtain ⟨_, _, n3, n4, _, _, _⟩ := crankshaftPulseHandler_nodetect true 15000 _ hnd
  have hrun : twRun (List.replicate 34 (true, 10000) ++ [(true, 15000)]) (twRunning 1 5 10000)
      = crankshaftPulseHandler true 15000
          (twRun (List.replicate 34 (true, 10000)) (twRunning 1 5 10000)) := by
    rw [twRun_append]; rfl
  refine ⟨by decide, by decide, by decide, by norm_num, ?_, ?_⟩
  · rw [hrun, n4, r3]; decide
  · rw [hrun, n3, r2]; decide

/-- C4, amended. Missing-tooth detection at the expected position. Start from a
state with `currentTooth = twMissingTeeth` in which the period filter has
settled on a period `P >= 0` (estimate `P`), with `triggerWheelTeethHalf` as
`setTriggerWheelConfig` sets it. After `twTeeth - twMissingTeeth - 1` pulses of
period `P` and one pulse whose period is greater than `1.5 x P`, the in-sync
count is one more (as an unsigned 32-bit increment), `syncErrors` is unchanged
and `currentTooth` is `twMissingTeeth` again; the filter is still settled on
`P`, so the same holds for the next revolution. -/
theorem C4_missing_tooth_in_sync (s s' : TriggerWheel) (P gap : Int) (cmps : List Bool)
    (cg : Bool)
    (hP : 0 ≤ P) (hset : twSettled P s)
    (htooth : s.currentTooth = s.cfPage1.p2.twMissingTeeth)
    (hhalf : s.triggerWheelTeethHalf = Int.tdiv s.cfPage1.p2.twTeeth 2)
    (hteeth : 0 < s.cfPage1.p2.twTeeth)
    (hlen : (cmps.length : Int) = s.cfPage1.p2.twTeeth - s.cfPage1.p2.twMissingTeeth - 1)
    (hgap : (gap : ℚ) > 3 / 2 * (P : ℚ))
    (hs' : s' = twRun (cmps.map (fun c => (c, P)) ++ [(cg, gap)]) s) :
    s'.triggerWheelInSync = (s.triggerWheelInSync + 1) % UINT_RANGE ∧
    (s.triggerWheelInSync + 1 < UINT_RANGE → s'.triggerWheelInSync = s.triggerWheelInSync + 1) ∧
    s'.keyData.syncErrors = s.keyData.syncErrors ∧
    s'.currentTooth = s.cfPage1.p2.twMissingTeeth ∧
    twSettled P s' ∧ s'.cfPage1 = s.cfPage1 ∧
    s'.triggerWheelTeethHalf = s.triggerWheelTeethHalf := by
  have hall : ∀ q ∈ cmps.map (fun c => (c, P)), q.2 = P := by
    intro q hq
    obtain ⟨c, _, rfl⟩ := List.mem_map.mp hq
    rfl
  obtain ⟨r1, r2, r3, r4, _, r6, r7⟩ := twRun_steady P hP _ s hall hset
  rw [List.length_map] at r2
  have hrun : s' = crankshaftPulseHandler cg gap (twRun (cmps.map (fun c => (c, P))) s) := by
    rw [hs', twRun_append]; rfl
  have htdiv : Int.tdiv s.cfPage1.p2.twTeeth 2 < s.cfPage1.p2.twTeeth := by
    have h1 : Int.tdiv s.cfPage1.p2.twTeeth 2 = s.cfPage1.p2.twTeeth / 2 :=
      Int.tdiv_eq_ediv (le_of_lt hteeth) (by norm_num)
    rw [h1]; omega
  have hd : twDetects gap (twRun (cmps.map (fun c => (c, P))) s) = true := by
    rw [twDetects_iff, r1.2.2.2.2, r7, hhalf, r2, htooth, hlen]
    exact ⟨by omega, (threshold_iff gap P).mpr hgap⟩
  have hat : (twRun (cmps.map (fun c => (c, P))) s).currentTooth + 1 =
      (twRun (cmps.map (fun c => (c, P))) s).cfPage1.p2.twTeeth := by
    rw [r2, r6, htooth, hlen]; ring
  obtain ⟨d1, d2, d3, d4, d5, _, d7⟩ := crankshaftPulseHandler_detect cg gap _ hd
  rw [if_neg (not_not.mpr hat)] at d4 d5
  have hin : s'.triggerWheelInSync = (s.triggerWheelInSync + 1) % UINT_RANGE := by
    rw [hrun, d4, r3]
  refine ⟨hin, ?_, ?_, ?_, ?_, ?_, ?_⟩
  · intro hlt
    rw [hin, Nat.mod_eq_of_lt hlt]
  · rw [hrun, d5, r4]
  · rw [hrun, d3, r6]
  · rw [hrun]
    exact twSettled_step cg gap P _ r1 (by rw [d7]; exact r1.1) d1
  · rw [hrun, d1, r6]
  · rw [hrun, d2, r7]

/-- Witness of C4 (amended): default 36-1 wheel settled on 10000 at tooth 1 with
five revolutions in sync; 34 pulses of 10000 and a gap of 20000 give six. -/
theorem C4_missing_tooth_in_sync_witness :
    (twRun ((List.replicate 34 true).map (fun c => (c, (10000 : Int))) ++ [(true, 20000)])
      (twRunning 1 5 10000)).triggerWheelInSync = 6 ∧
    (twRun ((List.replicate 34 true).map (fun c => (c, (10000 : Int))) ++ [(true, 20000)])
      (twRunning 1 5 10000)).currentTooth = 1 := by
  have h := C4_missing_tooth_in_sync (twRunning 1 5 10000) _ 10000 20000
    (List.replicate 34 true) true (by decide) (by decide) (by decide) (by decide) (by decide)
    (by decide) (by norm_num) rfl
  exact ⟨h.2.1 (by decide), h.2.2.2.1⟩

/-- C5. Sync error at the wrong tooth. In every call of `crankshaftPulseHandler`
in which a missing tooth is detected while the incremented tooth index differs
from `twTeeth`, `syncErrors` is increased by exactly 1, `errorTooth` becomes
the incremented tooth index, `triggerWheelInSync` is unchanged and
`currentTooth` is set to `twMissingTeeth`. -/
theorem C5_sync_error_wrong_tooth (cmp : Bool) (p : Int) (s : TriggerWheel)
    (hd : twDetects p s = true) (hne : s.currentTooth + 1 ≠ s.cfPage1.p2.twTeeth) :
    (crankshaftPulseHandler cmp p s).keyData.syncErrors = s.keyData.syncErrors + 1 ∧
    (crankshaftPulseHandler cmp p s).keyData.errorTooth = ((s.currentTooth + 1 : Int) : ℚ) ∧
    (crankshaftPulseHandler cmp p s).triggerWheelInSync = s.triggerWheelInSync ∧
    (crankshaftPulseHandler cmp p s).currentTooth = s.cfPage1.p2.twMissingTeeth := by
  obtain ⟨_, _, d3, d4, d5, d6, _⟩ := crankshaftPulseHandler_detect cmp p s hd
  rw [if_pos hne] at d4 d5 d6
  exact ⟨d5, d6, d4, d3⟩

/-- Witness of C5: default 36-1 wheel settled on 10000, at tooth 20 with five
revolutions in sync; a pulse of period 20000 is taken for the gap at tooth 21. -/
theorem C5_sync_error_wrong_tooth_witness :
    (crankshaftPulseHandler true 20000 (twRunning 20 5 10000)).keyData.syncErrors =
      (twRunning 20 5 10000).keyData.syncErrors + 1 ∧
    (crankshaftPulseHandler true 20000 (twRunning 20 5 10000)).keyData.errorTooth = 21 ∧
    (crankshaftPulseHandler true 20000 (twRunning 20 5 10000)).triggerWheelInSync = 5 ∧
    (crankshaftPulseHandler true 20000 (twRunning 20 5 10000)).currentTooth = 1 := by
  have h := C5_sync_error_wrong_tooth true 20000 (twRunning 20 5 10000)
    ((twDetects_iff _ _).mpr (by decide)) (by decide)
  exact ⟨h.1, h.2.1, h.2.2.1, h.2.2.2⟩

/-- C6. For every call of `crankshaftPulseHandler`: the call detects a missing
tooth exactly when the incremented tooth index is greater than
`triggerWheelTeethHalf` (which `setTriggerWheelConfig` sets to `twTeeth / 2`)
and the period is greater than 1.5 times the estimate; `currentTooth` after the
call is `twMissingTeeth` if it does, whether or not the tooth index matches
`twTeeth`, and its value before the call plus 1 if it does not. -/
theorem C6_tooth_reset_iff_detected (cmp : Bool) (p : Int) (s : TriggerWheel) :
    (twDetects p s = true ↔
      (s.currentTooth + 1 > s.triggerWheelTeethHalf ∧
        (p : ℚ) > 3 / 2 * (s.crankPulsePeriodEstimate : ℚ))) ∧
    (crankshaftPulseHandler cmp p s).currentTooth =
      (if s.currentTooth + 1 > s.triggerWheelTeethHalf ∧
          (p : ℚ) > 3 / 2 * (s.crankPulsePeriodEstimate : ℚ)
        then s.cfPage1.p2.twMissingTeeth else s.currentTooth + 1) ∧
    (setTriggerWheelConfig s).triggerWheelTeethHalf = Int.tdiv s.cfPage1.p2.twTeeth 2 := by
  have hiff : twDetects p s = true ↔
      (s.currentTooth + 1 > s.triggerWheelTeethHalf ∧
        (p : ℚ) > 3 / 2 * (s.crankPulsePeriodEstimate : ℚ)) := by
    rw [twDetects_iff, threshold_iff]
  refine ⟨hiff, ?_, rfl⟩
  cases hd : twDetects p s
  · rw [if_neg (fun h => by rw [hiff.mpr h] at hd; exact Bool.noConfusion hd)]
    exact (crankshaftPulseHandler_nodetect cmp p s hd).2.2.1
  · rw [if_pos (hiff.mp hd)]
    exact (crankshaftPulseHandler_detect cmp p s hd).2.2.1

/-- C7, counterexample. Default 36-1 wheel settled on 10000, tooth index 20, five
revolutions in sync. A pulse of period 20000 is detected as a missing tooth at
tooth 21, not 36; after the call `triggerWheelInSync` is still 5, not 0. -/
theorem C7_counterexample :
    twDetects 20000 (twRunning 20 5 10000) = true ∧
    (twRunning 20 5 10000).currentTooth + 1 ≠ (twRunning 20 5 10000).cfPage1.p2.twTeeth ∧
    (crankshaftPulseHandler true 20000 (twRunning 20 5 10000)).triggerWheelInSync ≠ 0 := by
  have hd : twDetects 20000 (twRunning 20 5 10000) = true :=
    (twDetects_iff _ _).mpr (by decide)
  obtain ⟨_, _, _, d4, _, _, _⟩ := crankshaftPulseHandler_detect true 20000 _ hd
  refine ⟨hd, by decide, ?_⟩
  rw [d4]
  decide

/-- C7, amended. In a call of `crankshaftPulseHandler` in which a missing tooth is
detected at a tooth index different from `twTeeth`, `triggerWheelInSync` is
left as it was (it is not reset); in a call in which it is detected at
`twTeeth`, `triggerWheelInSync` is one more than before, as an unsigned 32-bit
increment. -/
theorem C7_in_sync_count (cmp : Bool) (p : Int) (s : TriggerWheel)
    (hd : twDetects p s = true) :
    (s.currentTooth + 1 ≠ s.cfPage1.p2.twTeeth →
      (crankshaftPulseHandler cmp p s).triggerWheelInSync = s.triggerWheelInSync) ∧
    (s.currentTooth + 1 = s.cfPage1.p2.twTeeth →
      (crankshaftPulseHandler cmp p s).triggerWheelInSync =
        (s.triggerWheelInSync + 1) % UINT_RANGE ∧
      (s.triggerWheelInSync + 1 < UINT_RANGE →
        (crankshaftPulseHandler cmp p s).triggerWheelInSync = s.triggerWheelInSync + 1)) := by
  obtain ⟨_, _, _, d4, _, _, _⟩ := crankshaftPulseHandler_detect cmp p s hd
  constructor
  · intro hne
    rw [d4, if_pos hne]
  · intro heq
    rw [d4, if_neg (not_not.mpr heq)]
    exact ⟨rfl, fun hlt => Nat.mod_eq_of_lt hlt⟩

/-- Witness of C7 (amended): default 36-1 wheel settled on 10000 with five
revolutions in sync; a gap of 20000 at tooth 36 gives six, at tooth 21 five. -/
theorem C7_in_sync_count_witness :
    (crankshaftPulseHandler true 20000 (twRunning 35 5 10000)).triggerWheelInSync = 6 ∧
    (crankshaftPulseHandler true 20000 (twRunning 20 5 10000)).triggerWheelInSync = 5 := by
  have h1 := C7_in_sync_count true 20000 (twRunning 35 5 10000)
    ((twDetects_iff _ _).mpr (by decide))
  have h2 := C7_in_sync_count true 20000 (twRunning 20 5 10000)
    ((twDetects_iff _ _).mpr (by decide))
  exact ⟨(h1.2 (by decide)).2 (by decide), h2.1 (by decide)⟩

theorem twRun_take_succ (ps : List (Bool × Int)) (i : Nat) (hi : i < ps.length)
    (s : TriggerWheel) :
    twRun (ps.take (i + 1)) s =
      crankshaftPulseHandler (ps.get ⟨i, hi⟩).1 (ps.get ⟨i, hi⟩).2 (twRun (ps.take i) s) := by
  rw [List.take_succ, twRun_append, List.getElem?_eq_getElem hi]
  rfl

theorem crankshaftPulseHandler_cfPage1 (cmp : Bool) (p : Int) (s : TriggerWheel) :
    (crankshaftPulseHandler cmp p s).cfPage1 = s.cfPage1 := by
  cases hd : twDetects p s
  · exact (crankshaftPulseHandler_nodetect cmp p s hd).1
  · exact (crankshaftPulseHandler_detect cmp p s hd).1

theorem twRun_cfPage1 (ps : List (Bool × Int)) :
    ∀ s : TriggerWheel, (twRun ps s).cfPage1 = s.cfPage1 := by
  induction ps with
  | nil => intro s; rfl
  | cons q rest ih =>
    intro s
    rw [twRun_cons, ih, crankshaftPulseHandler_cfPage1]

/-- C8, counterexample. Default 36-1 wheel, initial state after power on and
`twInitialise` (`currentTooth = 0`). After 36 pulses of the same period 10000
no missing tooth has been detected and `currentTooth` is 36, outside
`0..twTeeth-1`. -/
theorem C8_counterexample :
    twStart.currentTooth = 0 ∧ twStart.cfPage1.p2.twTeeth = 36 ∧
    twStart.cfPage1.p2.twMissingTeeth = 1 ∧
    (twRun (List.replicate 36 (true, 10000)) twStart).currentTooth = 36 ∧
    ¬ ((twRun (List.replicate 36 (true, 10000)) twStart).currentTooth
        ≤ twStart.cfPage1.p2.twTeeth - 1) := by
  refine ⟨by decide, by decide, by decide, by decide, by decide⟩

/-- C8, amended. Tooth-counter range. Start from a state with `currentTooth` in
`0..twTeeth-1` (the initial state has `currentTooth = 0`, in that range when
`twTeeth >= 1`) and with `0 <= twMissingTeeth < twTeeth`. For any sequence of pulses, after every
call `currentTooth >= 0`; and if every call in which the incremented tooth
index reaches `twTeeth` detects a missing tooth, then after every call
`currentTooth` lies in `0..twTeeth-1`. -/
theorem C8_tooth_range (s0 : TriggerWheel) (ps : List (Bool × Int))
    (h0 : 0 ≤ s0.currentTooth ∧ s0.currentTooth ≤ s0.cfPage1.p2.twTeeth - 1)
    (hm : 0 ≤ s0.cfPage1.p2.twMissingTeeth ∧
      s0.cfPage1.p2.twMissingTeeth < s0.cfPage1.p2.twTeeth) :
    (∀ i, i ≤ ps.length → 0 ≤ (twRun (ps.take i) s0).currentTooth) ∧
    ((∀ i (hi : i < ps.length),
        (twRun (ps.take i) s0).currentTooth + 1 = s0.cfPage1.p2.twTeeth →
        twDetects (ps.get ⟨i, hi⟩).2 (twRun (ps.take i) s0) = true) →
      ∀ i, i ≤ ps.length → (twRun (ps.take i) s0).currentTooth ≤ s0.cfPage1.p2.twTeeth - 1) := by
  have step : ∀ i (hi : i < ps.length),
      (twRun (ps.take (i + 1)) s0).currentTooth =
        (if twDetects (ps.get ⟨i, hi⟩).2 (twRun (ps.take i) s0) = true
          then s0.cfPage1.p2.twMissingTeeth else (twRun (ps.take i) s0).currentTooth + 1) := by
    intro i hi
    rw [twRun_take_succ ps i hi]
    cases hd : twDetects (ps.get ⟨i, hi⟩).2 (twRun (ps.take i) s0)
    · rw [if_neg (by decide)]
      exact (crankshaftPulseHandler_nodetect _ _ _ hd).2.2.1
    · rw [if_pos rfl, (crankshaftPulseHandler_detect _ _ _ hd).2.2.1, twRun_cfPage1]
  constructor
  · intro i
    induction i with
    | zero => intro _; exact h0.1
    | succ i ih =>
      intro hi
      have hlt : i < ps.length := by omega
      rw [step i hlt]
      have := ih (by omega)
      split_ifs
      · exact hm.1
      · omega
  · intro hgap i
    induction i with
    | zero => intro _; exact h0.2
    | succ i ih =>
      intro hi
      have hlt : i < ps.length := by omega
      rw [step i hlt]
      have hprev := ih (by omega)
      by_cases hd : twDetects (ps.get ⟨i, hlt⟩).2 (twRun (ps.take i) s0) = true
      · rw [if_pos hd]; omega
      · rw [if_neg hd]
        have hne : (twRun (ps.take i) s0).currentTooth + 1 ≠ s0.cfPage1.p2.twTeeth :=
          fun h => hd (hgap i hlt h)
        omega

/-- Witness of C8 (amended): default 36-1 wheel settled on 10000 at tooth 34; a
pulse of 10000 and a gap of 20000, detected when the tooth index reaches 36,
leave the tooth index within `0..35`. -/
theorem C8_tooth_range_witness :
    0 ≤ (twRun [(true, 10000), (true, 20000)] (twRunning 34 0 10000)).currentTooth ∧
    (twRun [(true, 10000), (true, 20000)] (twRunning 34 0 10000)).currentTooth ≤ 35 := by
  have h := C8_tooth_range (twRunning 34 0 10000)
    [(true, 10000), (true, 20000)] (by decide) (by decide)
  have hgap : ∀ i (hi : i < [(true, (10000 : Int)), (true, 20000)].length),
      (twRun ([(true, (10000 : Int)), (true, 20000)].take i)
        (twRunning 34 0 10000)).currentTooth + 1 = (twRunning 34 0 10000).cfPage1.p2.twTeeth →
      twDetects ([(true, (10000 : Int)), (true, 20000)].get ⟨i, hi⟩).2
        (twRun ([(true, (10000 : Int)), (true, 20000)].take i)
          (twRunning 34 0 10000)) = true := by
    decide
  exact ⟨h.1 2 (by decide), h.2 hgap 2 (by decide)⟩

/-! ## Map lookup: lemmas -/

theorem limitF_eq_max_min (x lower upper : ℚ) : limitF x lower upper = max lower (min x upper) := by
  unfold limitF
  by_cases h1 : x > upper
  · rw [if_pos h1, min_eq_right (le_of_lt h1)]
    by_cases h2 : upper < lower
    · rw [if_pos h2, max_eq_left (le_of_lt h2)]
    · rw [if_neg h2, max_eq_right (not_lt.mp h2)]
  · rw [if_neg h1, min_eq_left (not_lt.mp h1)]
    by_cases h2 : x < lower
    · rw [if_pos h2, max_eq_left (le_of_lt h2)]
    · rw [if_neg h2, max_eq_right (not_lt.mp h2)]

theorem limitF_idem (x lower upper : ℚ) :
    limitF (limitF x lower upper) lower upper = limitF x lower upper := by
  rw [limitF_eq_max_min, limitF_eq_max_min]
  simp only [max_def, min_def]
  split_ifs <;> rfl

theorem limitF_of_mem (x lower upper : ℚ) (h1 : lower ≤ x) (h2 : x ≤ upper) :
    limitF x lower upper = x := by
  unfold limitF
  rw [if_neg (not_lt.mpr h2), if_neg (not_lt.mpr h1)]

theorem limitI_of_mem (x lower upper : Int) (h1 : lower ≤ x) (h2 : x ≤ upper) :
    limitI x lower upper = x := by
  unfold limitI
  rw [if_neg (not_lt.mpr h2), if_neg (not_lt.mpr h1)]

theorem floatToInt_intCast (i : Int) : floatToInt (i : ℚ) = i := by
  unfold floatToInt
  split_ifs
  · exact Int.floor_intCast i
  · exact Int.ceil_intCast i

theorem roundf_intCast (i : Int) : roundf (i : ℚ) = i := by
  unfold roundf
  split_ifs with h
  · rw [Int.floor_eq_iff]
    constructor <;> norm_num
  · have h2 : -(i : ℚ) + 1 / 2 = ((-i : Int) : ℚ) + 1 / 2 := by push_cast; ring
    rw [h2]
    have : ⌊((-i : Int) : ℚ) + 1 / 2⌋ = -i := by
      rw [Int.floor_eq_iff]
      constructor <;> norm_num
    rw [this, neg_neg]

theorem fuInitialise_cfPage1 (logf : ℚ → ℚ) (cyclicPeriod : ℚ) (s : FuelInjection) :
    (fuInitialise logf cyclicPeriod s).cfPage1 = s.cfPage1 := rfl

theorem fuInitialise_reciprocals (logf : ℚ → ℚ) (cyclicPeriod : ℚ) (s : FuelInjection) :
    (fuInitialise logf cyclicPeriod s).rpmDeltaReciprocal = 1 / s.cfPage1.p2.rpmAxisDelta ∧
    (fuInitialise logf cyclicPeriod s).loadDeltaReciprocal = 1 / s.cfPage1.p2.loadAxisDelta :=
  ⟨rfl, rfl⟩

/-- One axis of `mapLookup` at a grid point: the clamped value, the fractional
position, the lower index of the rectangle and the relative position. -/
theorem axis_at_grid_point (a d : ℚ) (hd : 0 < d) (i : Int) (h0 : 0 ≤ i) (h7 : i ≤ 7) :
    limitF (a + (i : ℚ) * d) a (a + ((7 : Int) : ℚ) * d) = a + (i : ℚ) * d ∧
    (a + (i : ℚ) * d - a) * (1 / d) = (i : ℚ) ∧
    (a + (i : ℚ) * d
        - (a + (((if i ≤ 6 then i else i - 1 : Int)) : ℚ) * d)) * (1 / d) =
      (if i ≤ 6 then 0 else 1) := by
  have hi0 : (0 : ℚ) ≤ (i : ℚ) := by exact_mod_cast h0
  have hi7 : (i : ℚ) ≤ 7 := by exact_mod_cast h7
  have hne : d ≠ 0 := ne_of_gt hd
  refine ⟨?_, ?_, ?_⟩
  · apply limitF_of_mem
    · nlinarith
    · push_cast; nlinarith
  · field_simp
  · split_ifs
    · field_simp
    · push_cast; field_simp; ring

/-! ## Map lookup: claims -/

/-- C9, counterexample. Default configuration with the nonzero RPM axis delta
-700 instead of 700. At the grid point `i = 1`, `j = 0`, that is
`rpm = 750 + 1 * (-700)`, `load = 30 + 0 * 10`, the value returned after
`mapLookup` for the default VE map is `map[0][0] = 43.9`, not `map[0][1] = 45`:
`limitF` returns its lower limit when the upper limit is below it. -/
theorem C9_counterexample :
    (fuBoot cfPage1NegativeDelta).cfPage1.p2.rpmAxisDelta ≠ 0 ∧
    (fuBoot cfPage1NegativeDelta).cfPage1.p2.loadAxisDelta ≠ 0 ∧
    getMapInterpolatedValue
      (mapLookup (750 + ((1 : Int) : ℚ) * (-700)) (30 + ((0 : Int) : ℚ) * 10)
        (fuInitialise (fun _ => 0) 5 (fuBoot cfPage1NegativeDelta)))
      cfPage1Default.veMap = 439 / 10 ∧
    cfPage1Default.veMap 0 1 = 45 := by
  refine ⟨by norm_num [fuBoot, cfPage1NegativeDelta, cfPage1Default],
    by norm_num [fuBoot, cfPage1NegativeDelta, cfPage1Default], ?_,
    by norm_num [cfPage1Default, mapOfRows]⟩
  norm_num [getMapInterpolatedValue, mapLookup, fuInitialise, resetCorrectionArray,
    initAccelCompensation, initPostStartEnrichment, initTempCompSlope, fuBoot,
    cfPage1NegativeDelta, cfPage1Default, limitF, limitI, floatToInt, roundf,
    findHeightInsideRectangle, VE_MAP_SIZE_RPM, VE_MAP_SIZE_LOAD, mapOfRows]

/-- C9, amended. Bilinear interpolation is exact at grid points. For every map,
every positive `rpmAxisDelta` and `loadAxisDelta`, and every grid point
`(rpm, load) = (rpmAxisStart + i * rpmAxisDelta, loadAxisStart + j * loadAxisDelta)`
with `0 <= i, j <= 7` (the last row and column included), `mapLookup(rpm, load)`
after `fuInitialise` followed by `getMapInterpolatedValue(map)` returns exactly
`map[j][i]` (arithmetic over exact rationals). -/
theorem C9_interpolation_exact_at_grid_points (logf : ℚ → ℚ) (cyclicPeriod : ℚ)
    (s0 : FuelInjection) (map : EngineMap) (i j : Int)
    (hdr : 0 < s0.cfPage1.p2.rpmAxisDelta) (hdl : 0 < s0.cfPage1.p2.loadAxisDelta)
    (hi : 0 ≤ i ∧ i ≤ 7) (hj : 0 ≤ j ∧ j ≤ 7) :
    getMapInterpolatedValue
      (mapLookup (s0.cfPage1.p2.rpmAxisStart + (i : ℚ) * s0.cfPage1.p2.rpmAxisDelta)
        (s0.cfPage1.p2.loadAxisStart + (j : ℚ) * s0.cfPage1.p2.loadAxisDelta)
        (fuInitialise logf cyclicPeriod s0)) map = map j i := by
  obtain ⟨a1, a2, a3⟩ := axis_at_grid_point s0.cfPage1.p2.rpmAxisStart
    s0.cfPage1.p2.rpmAxisDelta hdr i hi.1 hi.2
  obtain ⟨b1, b2, b3⟩ := axis_at_grid_point s0.cfPage1.p2.loadAxisStart
    s0.cfPage1.p2.loadAxisDelta hdl j hj.1 hj.2
  have hR : ((VE_MAP_SIZE_RPM - 1 : Int) : ℚ) = ((7 : Int) : ℚ) := by
    norm_num [VE_MAP_SIZE_RPM]
  have hL : ((VE_MAP_SIZE_LOAD - 1 : Int) : ℚ) = ((7 : Int) : ℚ) := by
    norm_num [VE_MAP_SIZE_LOAD]
  have hR7 : VE_MAP_SIZE_RPM - 1 = 7 := by decide
  have hL7 : VE_MAP_SIZE_LOAD - 1 = 7 := by decide
  have hR6 : VE_MAP_SIZE_RPM - 2 = 6 := by decide
  have hL6 : VE_MAP_SIZE_LOAD - 2 = 6 := by decide
  have hli : limitI i 0 7 = i := limitI_of_mem i 0 7 hi.1 hi.2
  have hlj : limitI j 0 7 = j := limitI_of_mem j 0 7 hj.1 hj.2
  unfold getMapInterpolatedValue mapLookup
  simp only [fuInitialise_cfPage1, (fuInitialise_reciprocals logf cyclicPeriod s0).1,
    (fuInitialise_reciprocals logf cyclicPeriod s0).2, hR, hL, hR7, hL7, hR6, hL6,
    a1, a2, b1, b2, floatToInt_intCast, hli, hlj, a3, b3]
  unfold findHeightInsideRectangle
  have hne1 : s0.cfPage1.p2.rpmAxisDelta ≠ 0 := ne_of_gt hdr
  have hne2 : s0.cfPage1.p2.loadAxisDelta ≠ 0 := ne_of_gt hdl
  by_cases h6 : i ≤ 6 <;> by_cases g6 : j ≤ 6
  · simp [h6, g6]
  · have : j = 7 := by omega
    subst this
    simp [h6]
    field_simp
    ring
  · have : i = 7 := by omega
    subst this
    simp [g6]
    field_simp
    ring
  · have hi7 : i = 7 := by omega
    have hj7 : j = 7 := by omega
    subst hi7; subst hj7
    simp
    field_simp
    ring

/-- Witness of C9 (amended): default configuration, default VE map, the grid
point of the last column `i = 7` and row `j = 2`. -/
theorem C9_interpolation_exact_at_grid_points_witness :
    getMapInterpolatedValue
      (mapLookup ((fuBoot cfPage1Default).cfPage1.p2.rpmAxisStart
          + ((7 : Int) : ℚ) * (fuBoot cfPage1Default).cfPage1.p2.rpmAxisDelta)
        ((fuBoot cfPage1Default).cfPage1.p2.loadAxisStart
          + ((2 : Int) : ℚ) * (fuBoot cfPage1Default).cfPage1.p2.loadAxisDelta)
        (fuInitialise (fun _ => 0) 5 (fuBoot cfPage1Default)))
      cfPage1Default.veMap = cfPage1Default.veMap 2 7 :=
  C9_interpolation_exact_at_grid_points (fun _ => 0) 5 (fuBoot cfPage1Default)
    cfPage1Default.veMap 7 2
    (by norm_num [fuBoot, cfPage1Default]) (by norm_num [fuBoot, cfPage1Default])
    (by decide) (by decide)

/-- C10. Clamping. For every rpm and load, `mapLookup(rpm, load)` leaves exactly
the same state as `mapLookup` called with rpm clamped to
`[rpmAxisStart, rpmAxisStart + 7 * rpmAxisDelta]` and load clamped to
`[loadAxisStart, loadAxisStart + 7 * loadAxisDelta]` (the clamped value is
`max lower (min x upper)`, which is what `limitF` returns), so every later
`getMapInterpolatedValue` is identical. -/
theorem C10_mapLookup_clamping (rpm load : ℚ) (s : FuelInjection) :
    mapLookup rpm load s =
      mapLookup
        (max s.cfPage1.p2.rpmAxisStart
          (min rpm (s.cfPage1.p2.rpmAxisStart + 7 * s.cfPage1.p2.rpmAxisDelta)))
        (max s.cfPage1.p2.loadAxisStart
          (min load (s.cfPage1.p2.loadAxisStart + 7 * s.cfPage1.p2.loadAxisDelta))) s ∧
    (∀ map : EngineMap,
      getMapInterpolatedValue (mapLookup rpm load s) map =
        getMapInterpolatedValue
          (mapLookup
            (max s.cfPage1.p2.rpmAxisStart
              (min rpm (s.cfPage1.p2.rpmAxisStart + 7 * s.cfPage1.p2.rpmAxisDelta)))
            (max s.cfPage1.p2.loadAxisStart
              (min load (s.cfPage1.p2.loadAxisStart + 7 * s.cfPage1.p2.loadAxisDelta))) s)
          map) ∧
    (∀ x lower upper : ℚ, limitF x lower upper = max lower (min x upper)) := by
  have hR : ((VE_MAP_SIZE_RPM - 1 : Int) : ℚ) = 7 := by norm_num [VE_MAP_SIZE_RPM]
  have hL : ((VE_MAP_SIZE_LOAD - 1 : Int) : ℚ) = 7 := by norm_num [VE_MAP_SIZE_LOAD]
  have key : mapLookup rpm load s =
      mapLookup
        (max s.cfPage1.p2.rpmAxisStart
          (min rpm (s.cfPage1.p2.rpmAxisStart + 7 * s.cfPage1.p2.rpmAxisDelta)))
        (max s.cfPage1.p2.loadAxisStart
          (min load (s.cfPage1.p2.loadAxisStart + 7 * s.cfPage1.p2.loadAxisDelta))) s := by
    rw [← limitF_eq_max_min, ← limitF_eq_max_min]
    unfold mapLookup
    simp only [hR, hL, limitF_idem]
  exact ⟨key, fun map => by rw [← key], limitF_eq_max_min⟩

/-! ## Ignition timing: lemmas -/

theorem twSetIgnitionTiming_firing (advance : ℚ) (s : TriggerWheel) :
    (twSetIgnitionTiming advance s).ignitionFiringIndex1 = twFiringTooth advance s := rfl

theorem twDwellTeeth_pos (s : TriggerWheel) : 1 ≤ twDwellTeeth s := by
  unfold twDwellTeeth
  dsimp only
  split_ifs <;> omega

theorem twSetIgnitionTiming_dwellIndex1 (advance : ℚ) (s : TriggerWheel) :
    (twSetIgnitionTiming advance s).dwellIndex1 =
      if (if twFiringTooth advance s - twDwellTeeth s < 0 then
            twFiringTooth advance s - twDwellTeeth s + s.cfPage1.p2.twTeeth
          else twFiringTooth advance s - twDwellTeeth s) ≠ 0 then
        (if twFiringTooth advance s - twDwellTeeth s < 0 then
            twFiringTooth advance s - twDwellTeeth s + s.cfPage1.p2.twTeeth
          else twFiringTooth advance s - twDwellTeeth s)
      else s.cfPage1.p2.twTeeth - 1 := rfl

theorem twSetIgnitionTiming_dwellIndex2 (advance : ℚ) (s : TriggerWheel) :
    (twSetIgnitionTiming advance s).dwellIndex2 =
      if (if (if twFiringTooth advance s - twDwellTeeth s < 0 then
                twFiringTooth advance s - twDwellTeeth s + s.cfPage1.p2.twTeeth
              else twFiringTooth advance s - twDwellTeeth s) + s.triggerWheelTeethHalf
              ≥ s.cfPage1.p2.twTeeth then
            (if twFiringTooth advance s - twDwellTeeth s < 0 then
                twFiringTooth advance s - twDwellTeeth s + s.cfPage1.p2.twTeeth
              else twFiringTooth advance s - twDwellTeeth s) + s.triggerWheelTeethHalf
              - s.cfPage1.p2.twTeeth
          else
            (if twFiringTooth advance s - twDwellTeeth s < 0 then
                twFiringTooth advance s - twDwellTeeth s + s.cfPage1.p2.twTeeth
              else twFiringTooth advance s - twDwellTeeth s) + s.triggerWheelTeethHalf) ≠ 0 then
        (if (if twFiringTooth advance s - twDwellTeeth s < 0 then
                twFiringTooth advance s - twDwellTeeth s + s.cfPage1.p2.twTeeth
              else twFiringTooth advance s - twDwellTeeth s) + s.triggerWheelTeethHalf
              ≥ s.cfPage1.p2.twTeeth then
            (if twFiringTooth advance s - twDwellTeeth s < 0 then
                twFiringTooth advance s - twDwellTeeth s + s.cfPage1.p2.twTeeth
              else twFiringTooth advance s - twDwellTeeth s) + s.triggerWheelTeethHalf
              - s.cfPage1.p2.twTeeth
          else
            (if twFiringTooth advance s - twDwellTeeth s < 0 then
                twFiringTooth advance s - twDwellTeeth s + s.cfPage1.p2.twTeeth
              else twFiringTooth advance s - twDwellTeeth s) + s.triggerWheelTeethHalf)
      else s.cfPage1.p2.twTeeth - 1 := rfl

/-- The wrapped dwell index is the remainder modulo the tooth count when the
dwell start is within one revolution of the firing tooth. -/
theorem dwell_wrap_eq_emod (x N : Int) (hlo : -N ≤ x) (hhi : x < N) :
    (if x < 0 then x + N else x) = x % N := by
  split_ifs with h
  · have h1 : (x + N) % N = x + N := Int.emod_eq_of_lt (by omega) (by omega)
    rw [← h1, Int.add_emod_self]
  · exact (Int.emod_eq_of_lt (by omega) hhi).symm

theorem twStart_reciprocal : twStart.triggerWheelToothSpacingReciprocal = 1 / 10 := by
  norm_num [twStart, twInitialise, setInjectionAngle, setTriggerWheelConfig,
    setInjectorSequence, injectorPowerReset, twPowerOn, cfPage1Default]

theorem twStart_rpmToTeeth : twStart.rpmToTeethPerMillisecond = 3 / 5000 := by
  norm_num [twStart, twInitialise, setInjectionAngle, setTriggerWheelConfig,
    setInjectorSequence, injectorPowerReset, twPowerOn, cfPage1Default]

theorem twAtSpeed_firingTooth : twFiringTooth 113 (twAtSpeed 2200) = 2 := by
  have h : (twAtSpeed 2200).triggerWheelToothSpacingReciprocal = 1 / 10 := twStart_reciprocal
  have h2 : (twAtSpeed 2200).cfPage1.p2.twTDCAngle = 138 := rfl
  unfold twFiringTooth angleToIndexAndVernier
  dsimp only
  rw [h, h2]
  norm_num [floatToInt]

theorem twAtSpeed_dwellTeeth : twDwellTeeth (twAtSpeed 2200) = 5 := by
  have h : (twAtSpeed 2200).rpmToTeethPerMillisecond = 3 / 5000 := twStart_rpmToTeeth
  have h2 : (twAtSpeed 2200).cfPage1.p2.ignitionDwell = 4 := rfl
  have h3 : (twAtSpeed 2200).keyData.RPM = 2200 := rfl
  unfold twDwellTeeth
  dsimp only
  rw [h, h2, h3]
  norm_num [floatToInt, Int.floor_eq_iff]

/-- Within one revolution of the firing tooth both dwell indices are on the
wheel and different from 0. -/
theorem twSetIgnitionTiming_dwell_range (advance : ℚ) (s : TriggerWheel)
    (hN : 2 ≤ s.cfPage1.p2.twTeeth)
    (hhalf : s.triggerWheelTeethHalf = Int.tdiv s.cfPage1.p2.twTeeth 2)
    (hlo : -s.cfPage1.p2.twTeeth ≤ twFiringTooth advance s - twDwellTeeth s)
    (hhi : twFiringTooth advance s - twDwellTeeth s < s.cfPage1.p2.twTeeth) :
    (1 ≤ (twSetIgnitionTiming advance s).dwellIndex1 ∧
      (twSetIgnitionTiming advance s).dwellIndex1 ≤ s.cfPage1.p2.twTeeth - 1) ∧
    (1 ≤ (twSetIgnitionTiming advance s).dwellIndex2 ∧
      (twSetIgnitionTiming advance s).dwellIndex2 ≤ s.cfPage1.p2.twTeeth - 1) := by
  have hh : 0 ≤ s.triggerWheelTeethHalf ∧ s.triggerWheelTeethHalf ≤ s.cfPage1.p2.twTeeth := by
    rw [hhalf, Int.tdiv_eq_ediv (by omega) (by omega)]
    omega
  rw [twSetIgnitionTiming_dwellIndex1, twSetIgnitionTiming_dwellIndex2]
  generalize twFiringTooth advance s - twDwellTeeth s = x at hlo hhi ⊢
  generalize s.triggerWheelTeethHalf = h at hh ⊢
  generalize s.cfPage1.p2.twTeeth = N at hN hlo hhi hh ⊢
  split_ifs <;> omega

/-! ## Ignition timing: claims -/

/-- C12. Dwell wraparound: when the dwell start `f - d` (firing tooth less the
dwell tooth count, which is at least 1) lies in `-twTeeth .. twTeeth - 1`,
`twSetIgnitionTiming` sets `dwellIndex1` to `(f - d) mod twTeeth` when that is
nonzero and to `twTeeth - 1` when it is zero; with 36 teeth, firing tooth 2 and
5 dwell teeth `dwellIndex1` is 33. -/
theorem C12_dwell_wraparound (advance : ℚ) (s : TriggerWheel)
    (hlo : -s.cfPage1.p2.twTeeth ≤ twFiringTooth advance s - twDwellTeeth s)
    (hhi : twFiringTooth advance s - twDwellTeeth s < s.cfPage1.p2.twTeeth) :
    1 ≤ twDwellTeeth s ∧
    (twSetIgnitionTiming advance s).ignitionFiringIndex1 = twFiringTooth advance s ∧
    (twSetIgnitionTiming advance s).dwellIndex1 =
      (if (twFiringTooth advance s - twDwellTeeth s) % s.cfPage1.p2.twTeeth ≠ 0 then
        (twFiringTooth advance s - twDwellTeeth s) % s.cfPage1.p2.twTeeth
      else s.cfPage1.p2.twTeeth - 1) ∧
    (s.cfPage1.p2.twTeeth = 36 → twFiringTooth advance s = 2 → twDwellTeeth s = 5 →
      (twSetIgnitionTiming advance s).dwellIndex1 = 33) := by
  have key : (twSetIgnitionTiming advance s).dwellIndex1 =
      (if (twFiringTooth advance s - twDwellTeeth s) % s.cfPage1.p2.twTeeth ≠ 0 then
        (twFiringTooth advance s - twDwellTeeth s) % s.cfPage1.p2.twTeeth
      else s.cfPage1.p2.twTeeth - 1) := by
    rw [twSetIgnitionTiming_dwellIndex1, dwell_wrap_eq_emod _ _ hlo hhi]
  refine ⟨twDwellTeeth_pos s, rfl, key, ?_⟩
  intro hN hf hd
  rw [key, hN, hf, hd]
  decide

/-- C12, at a concrete input: the default configuration (36 teeth, TDC at 138
degrees, dwell 4 ms) at 2200 RPM with an advance of 113 degrees gives firing
tooth 2, 5 dwell teeth and `dwellIndex1 = 33`. -/
theorem C12_dwell_wraparound_witness :
    twFiringTooth 113 (twAtSpeed 2200) = 2 ∧ twDwellTeeth (twAtSpeed 2200) = 5 ∧
    (twSetIgnitionTiming 113 (twAtSpeed 2200)).dwellIndex1 = 33 :=
  ⟨twAtSpeed_firingTooth, twAtSpeed_dwellTeeth,
   (C12_dwell_wraparound 113 (twAtSpeed 2200)
      (by rw [twAtSpeed_firingTooth, twAtSpeed_dwellTeeth]; decide)
      (by rw [twAtSpeed_firingTooth, twAtSpeed_dwellTeeth]; decide)).2.2.2
      rfl twAtSpeed_firingTooth twAtSpeed_dwellTeeth⟩

/-- C13, failing input: with 36 teeth, a dwell time of 15 ms, 6100 RPM and an
advance of 3 degrees the firing tooth is 13 and the dwell takes 54 teeth, more
than a revolution; the single wrap of `twSetIgnitionTiming` leaves
`dwellIndex1 = -5`, which is not a tooth of the wheel. -/
theorem C13_dwell_index_off_wheel :
    (twWithDwell 15 6100).cfPage1.p2.twTeeth = 36 ∧
    twFiringTooth 3 (twWithDwell 15 6100) = 13 ∧
    twDwellTeeth (twWithDwell 15 6100) = 54 ∧
    (twSetIgnitionTiming 3 (twWithDwell 15 6100)).dwellIndex1 = -5 ∧
    ¬ (1 ≤ (twSetIgnitionTiming 3 (twWithDwell 15 6100)).dwellIndex1) := by
  have hr : (twWithDwell 15 6100).triggerWheelToothSpacingReciprocal = 1 / 10 := by
    norm_num [twWithDwell, twInitialise, setInjectionAngle, setTriggerWheelConfig,
      setInjectorSequence, injectorPowerReset, twPowerOn, cfPage1Default]
  have ht : (twWithDwell 15 6100).rpmToTeethPerMillisecond = 3 / 5000 := by
    norm_num [twWithDwell, twInitialise, setInjectionAngle, setTriggerWheelConfig,
      setInjectorSequence, injectorPowerReset, twPowerOn, cfPage1Default]
  have hN : (twWithDwell 15 6100).cfPage1.p2.twTeeth = 36 := rfl
  have hf : twFiringTooth 3 (twWithDwell 15 6100) = 13 := by
    have h2 : (twWithDwell 15 6100).cfPage1.p2.twTDCAngle = 138 := rfl
    unfold twFiringTooth angleToIndexAndVernier
    dsimp only
    rw [hr, h2]
    norm_num [floatToInt]
  have hd : twDwellTeeth (twWithDwell 15 6100) = 54 := by
    have h2 : (twWithDwell 15 6100).cfPage1.p2.ignitionDwell = 15 := rfl
    have h3 : (twWithDwell 15 6100).keyData.RPM = 6100 := rfl
    unfold twDwellTeeth
    dsimp only
    rw [ht, h2, h3]
    norm_num [floatToInt]
  have hi : (twSetIgnitionTiming 3 (twWithDwell 15 6100)).dwellIndex1 = -5 := by
    rw [twSetIgnitionTiming_dwellIndex1, hf, hd, hN]
    decide
  refine ⟨hN, hf, hd, hi, ?_⟩
  rw [hi]
  decide

/-! ## Handler steps: frame lemmas -/

theorem twUpdateTiming_frame (s : TriggerWheel) :
    (twUpdateTiming s).injectorIndex = s.injectorIndex ∧
    (twUpdateTiming s).twResetFlag = s.twResetFlag ∧
    (twUpdateTiming s).injectorSequenceReset = s.injectorSequenceReset ∧
    (twUpdateTiming s).currentTooth = s.currentTooth ∧
    (twUpdateTiming s).cfPage1 = s.cfPage1 ∧
    (twUpdateTiming s).hw = s.hw ∧
    (twUpdateTiming s).activeCoil = s.activeCoil := by
  unfold twUpdateTiming
  split_ifs <;> simp [twSetIgnitionTiming, twSetInjectionTiming]

theorem twSequenceReset_frame (s : TriggerWheel) :
    (twSequenceReset s).hw = s.hw ∧ (twSequenceReset s).activeCoil = s.activeCoil := by
  unfold twSequenceReset
  split_ifs <;> simp

theorem twMissingTooth_frame (p : Int) (s : TriggerWheel) :
    (twMissingTooth p s).injectorIndex = s.injectorIndex ∧
    (twMissingTooth p s).twResetFlag = s.twResetFlag ∧
    (twMissingTooth p s).hw = s.hw ∧
    (twMissingTooth p s).activeCoil = s.activeCoil := by
  unfold twMissingTooth
  split_ifs <;> simp

theorem twInjectionA_frame (cmp : Bool) (s : TriggerWheel) :
    (twInjectionA cmp s).injectorIndex = s.injectorIndex ∧
    (twInjectionA cmp s).twResetFlag = s.twResetFlag := by
  unfold twInjectionA
  split_ifs <;> exact ⟨rfl, rfl⟩

theorem twInjectionB_frame (cmp : Bool) (s : TriggerWheel) :
    (twInjectionB cmp s).injectorIndex = s.injectorIndex ∧
    (twInjectionB cmp s).twResetFlag = s.twResetFlag := by
  unfold twInjectionB
  split_ifs <;> exact ⟨rfl, rfl⟩

theorem twDwell_frame (cmp : Bool) (s : TriggerWheel) :
    (twDwell cmp s).injectorIndex = s.injectorIndex ∧
    (twDwell cmp s).twResetFlag = s.twResetFlag := by
  unfold twDwell
  dsimp only
  split_ifs <;> exact ⟨rfl, rfl⟩

theorem twFire_frame (cmp : Bool) (s : TriggerWheel) :
    (twFire cmp s).injectorIndex = s.injectorIndex ∧
    (twFire cmp s).twResetFlag = s.twResetFlag := by
  unfold twFire
  dsimp only
  split_ifs <;> exact ⟨rfl, rfl⟩

theorem twOutputs_frame (cmp : Bool) (s : TriggerWheel) :
    (twOutputs cmp s).injectorIndex = s.injectorIndex ∧
    (twOutputs cmp s).twResetFlag = s.twResetFlag := by
  unfold twOutputs
  split_ifs
  · rw [(twFire_frame _ _).1, (twFire_frame _ _).2, (twDwell_frame _ _).1, (twDwell_frame _ _).2,
      (twInjectionB_frame _ _).1, (twInjectionB_frame _ _).2, (twInjectionA_frame _ _).1,
      (twInjectionA_frame _ _).2]
    exact ⟨rfl, rfl⟩
  · exact ⟨rfl, rfl⟩

theorem twPeriodFilter_frame (s : TriggerWheel) :
    (twPeriodFilter s).injectorIndex = s.injectorIndex ∧
    (twPeriodFilter s).twResetFlag = s.twResetFlag ∧
    (twPeriodFilter s).hw = s.hw ∧
    (twPeriodFilter s).activeCoil = s.activeCoil := by
  simp [twPeriodFilter]

/-- The sequence-reset step, read off field by field. -/
theorem twSequenceReset_spec (t : TriggerWheel) :
    (twSequenceReset t).injectorIndex =
      (if t.currentTooth = t.cfPage1.p2.twTeeth then
        (if t.injectorSequenceReset < 0 then 0
         else if t.twResetFlag ≠ 0 then t.injectorSequenceReset else t.injectorIndex)
       else t.injectorIndex) ∧
    (twSequenceReset t).twResetFlag =
      (if t.currentTooth = t.cfPage1.p2.twTeeth ∧ 0 ≤ t.injectorSequenceReset ∧ t.twResetFlag ≠ 0
        then 0 else t.twResetFlag) := by
  unfold twSequenceReset
  split_ifs <;> first | exact ⟨rfl, rfl⟩ | (exfalso; omega)

/-- The handler changes the injector index and the reset flag only in its
sequence-reset step. -/
theorem crankshaftPulseHandler_sequence (cmp : Bool) (p : Int) (s : TriggerWheel) :
    (crankshaftPulseHandler cmp p s).injectorIndex =
      (twSequenceReset (twUpdateTiming (twIncrementTooth s))).injectorIndex ∧
    (crankshaftPulseHandler cmp p s).twResetFlag =
      (twSequenceReset (twUpdateTiming (twIncrementTooth s))).twResetFlag := by
  unfold crankshaftPulseHandler
  rw [(twPeriodFilter_frame _).1, (twPeriodFilter_frame _).2.1, (twOutputs_frame _ _).1,
    (twOutputs_frame _ _).2, (twMissingTooth_frame _ _).1, (twMissingTooth_frame _ _).2.1]
  exact ⟨rfl, rfl⟩

/-- Without synchronisation the output step does nothing. -/
theorem twOutputs_not_in_sync (cmp : Bool) (s : TriggerWheel) (h : s.triggerWheelInSync = 0) :
    twOutputs cmp s = s := by
  unfold twOutputs
  rw [if_neg (by omega)]

/-! ## Handler: claims on the sequence reset and the outputs -/

/-- C16. Injector-sequence reset policy: a call of `crankshaftPulseHandler`
changes the injector index and `twResetFlag` only when the incremented
`currentTooth` equals `twTeeth`; in such a call, with `injectorSequenceReset < 0`
the injector index becomes 0 and the flag is unchanged, with
`injectorSequenceReset >= 0` and a nonzero flag the index becomes
`injectorSequenceReset` and the flag 0, and with `injectorSequenceReset >= 0` and
a zero flag neither changes. -/
theorem C16_injector_sequence_reset (cmp : Bool) (p : Int) (s : TriggerWheel) :
    (s.currentTooth + 1 ≠ s.cfPage1.p2.twTeeth →
      (crankshaftPulseHandler cmp p s).injectorIndex = s.injectorIndex ∧
      (crankshaftPulseHandler cmp p s).twResetFlag = s.twResetFlag) ∧
    (s.currentTooth + 1 = s.cfPage1.p2.twTeeth →
      (s.injectorSequenceReset < 0 →
        (crankshaftPulseHandler cmp p s).injectorIndex = 0 ∧
        (crankshaftPulseHandler cmp p s).twResetFlag = s.twResetFlag) ∧
      (0 ≤ s.injectorSequenceReset → s.twResetFlag ≠ 0 →
        (crankshaftPulseHandler cmp p s).injectorIndex = s.injectorSequenceReset ∧
        (crankshaftPulseHandler cmp p s).twResetFlag = 0) ∧
      (0 ≤ s.injectorSequenceReset → s.twResetFlag = 0 →
        (crankshaftPulseHandler cmp p s).injectorIndex = s.injectorIndex ∧
        (crankshaftPulseHandler cmp p s).twResetFlag = s.twResetFlag)) := by
  obtain ⟨h1, h2, h3, h4, h5, -, -⟩ := twUpdateTiming_frame (twIncrementTooth s)
  have hi : (twIncrementTooth s).injectorIndex = s.injectorIndex := rfl
  have hf : (twIncrementTooth s).twResetFlag = s.twResetFlag := rfl
  have hr : (twIncrementTooth s).injectorSequenceReset = s.injectorSequenceReset := rfl
  have ht : (twIncrementTooth s).currentTooth = s.currentTooth + 1 := rfl
  have hc : (twIncrementTooth s).cfPage1 = s.cfPage1 := rfl
  rw [hi] at h1
  rw [hf] at h2
  rw [hr] at h3
  rw [ht] at h4
  rw [hc] at h5
  rw [(crankshaftPulseHandler_sequence cmp p s).1, (crankshaftPulseHandler_sequence cmp p s).2,
    (twSequenceReset_spec _).1, (twSequenceReset_spec _).2, h1, h2, h3, h4, h5]
  refine ⟨fun hne => ?_, fun heq => ⟨fun hneg => ?_, fun hpos hflag => ?_, fun hpos hflag => ?_⟩⟩
  · rw [if_neg hne, if_neg (fun h => hne h.1)]
    exact ⟨rfl, rfl⟩
  · rw [if_pos heq, if_pos hneg, if_neg (fun h => absurd hneg (by omega))]
    exact ⟨rfl, rfl⟩
  · rw [if_pos heq, if_neg (by omega), if_pos hflag, if_pos ⟨heq, hpos, hflag⟩]
    exact ⟨rfl, rfl⟩
  · rw [if_pos heq, if_neg (by omega), if_neg (fun h => h hflag), if_neg (fun h => h.2.2 hflag)]
    exact ⟨rfl, rfl⟩

/-- C16, at a concrete input: tooth 35 of the 36 tooth wheel with the camshaft
flag set and reset value 2: the call sets the injector index to 2 and clears
the flag. -/
theorem C16_injector_sequence_reset_witness :
    (crankshaftPulseHandler true 1000
      { twStart with currentTooth := 35, twResetFlag := 1, injectorSequenceReset := 2 }).injectorIndex
      = 2 ∧
    (crankshaftPulseHandler true 1000
      { twStart with currentTooth := 35, twResetFlag := 1, injectorSequenceReset := 2 }).twResetFlag
      = 0 :=
  ((C16_injector_sequence_reset true 1000
    { twStart with currentTooth := 35, twResetFlag := 1, injectorSequenceReset := 2 }).2
      (by decide)).2.1 (by decide) (by decide)

/-- C17. No output without synchronisation: a call of `crankshaftPulseHandler`
in which `triggerWheelInSync` is 0 after the missing-tooth step makes no call to
the hardware (no injection timer, no ignition timer, no coil pin) and leaves
`activeCoil` unchanged, whatever the tooth and the firing and dwell indices. -/
theorem C17_no_output_without_sync (cmp : Bool) (p : Int) (s : TriggerWheel)
    (h : (twAfterMissingTooth p s).triggerWheelInSync = 0) :
    (crankshaftPulseHandler cmp p s).hw = s.hw ∧
    (crankshaftPulseHandler cmp p s).activeCoil = s.activeCoil := by
  have e : crankshaftPulseHandler cmp p s = twPeriodFilter (twAfterMissingTooth p s) := by
    have e1 := twOutputs_not_in_sync cmp _ h
    unfold crankshaftPulseHandler
    unfold twAfterMissingTooth at e1 ⊢
    rw [e1]
  rw [e, (twPeriodFilter_frame _).2.2.1, (twPeriodFilter_frame _).2.2.2]
  unfold twAfterMissingTooth
  rw [(twMissingTooth_frame _ _).2.2.1, (twMissingTooth_frame _ _).2.2.2,
    (twSequenceReset_frame _).1, (twSequenceReset_frame _).2,
    (twUpdateTiming_frame _).2.2.2.2.2.1, (twUpdateTiming_frame _).2.2.2.2.2.2]
  exact ⟨rfl, rfl⟩

/-- C17, at a concrete input: the first pulse after initialisation, on a tooth
that equals the injector firing index and the dwell index. -/
theorem C17_no_output_without_sync_witness :
    (twAfterMissingTooth 1000
      { twStart with injectorFiringIndex1 := 1, dwellIndex1 := 1, ignitionFiringIndex1 := 1 }
      ).triggerWheelInSync = 0 ∧
    (crankshaftPulseHandler true 1000
      { twStart with injectorFiringIndex1 := 1, dwellIndex1 := 1, ignitionFiringIndex1 := 1 }).hw
      = twStart.hw ∧
    (crankshaftPulseHandler true 1000
      { twStart with injectorFiringIndex1 := 1, dwellIndex1 := 1, ignitionFiringIndex1 := 1 }
      ).activeCoil = 0 :=
  ⟨by decide,
   C17_no_output_without_sync true 1000
    { twStart with injectorFiringIndex1 := 1, dwellIndex1 := 1, ignitionFiringIndex1 := 1 }
    (by decide)⟩

/-! ## Pulse width: lemmas -/

theorem accelCompensation1_frame (TPS : ℚ) (s : FuelInjection) :
    (accelCompensation1 TPS s).2.cfPage1 = s.cfPage1 ∧
    (accelCompensation1 TPS s).2.tempCompCoeff = s.tempCompCoeff ∧
    (accelCompensation1 TPS s).2.PSE = s.PSE ∧
    (accelCompensation1 TPS s).2.currentCell = s.currentCell ∧
    (accelCompensation1 TPS s).2.AFRCorrection = s.AFRCorrection ∧
    (accelCompensation1 TPS s).2.veMapCorrected = s.veMapCorrected ∧
    (accelCompensation1 TPS s).2.relRPM = s.relRPM ∧
    (accelCompensation1 TPS s).2.relLoad = s.relLoad ∧
    (accelCompensation1 TPS s).2.rpmDeltaReciprocal = s.rpmDeltaReciprocal ∧
    (accelCompensation1 TPS s).2.loadDeltaReciprocal = s.loadDeltaReciprocal ∧
    (accelCompensation1 TPS s).2.r1 = s.r1 ∧ (accelCompensation1 TPS s).2.r2 = s.r2 ∧
    (accelCompensation1 TPS s).2.l1 = s.l1 ∧ (accelCompensation1 TPS s).2.l2 = s.l2 := by
  unfold accelCompensation1
  dsimp only
  split_ifs <;> exact ⟨rfl, rfl, rfl, rfl, rfl, rfl, rfl, rfl, rfl, rfl, rfl, rfl, rfl, rfl⟩

/-- The pulse width on the cranking path. -/
theorem getInjectorPulseWidth_cranking (RPM load TPS engineTemperature airTemperature : ℚ)
    (s : FuelInjection) (h : RPM < s.cfPage1.p1.crankingThreshold) :
    (getInjectorPulseWidth RPM load TPS engineTemperature airTemperature s).1 =
      (if TPS < 60 then
        s.cfPage1.p1.crankingPW * (1 + 2 * (temperatureCompensation s engineTemperature 0 - 1))
      else 100) := by
  obtain ⟨h1, h2, -⟩ := accelCompensation1_frame TPS s
  unfold getInjectorPulseWidth
  dsimp only
  rw [h1, if_pos h]
  split_ifs
  · simp only [temperatureCompensation, h2]
  · rfl

/-- The pulse width on the running path. -/
theorem getInjectorPulseWidth_running (RPM load TPS engineTemperature airTemperature : ℚ)
    (s : FuelInjection) (h : s.cfPage1.p1.crankingThreshold ≤ RPM) :
    (getInjectorPulseWidth RPM load TPS engineTemperature airTemperature s).1 =
      1000 * (s.cfPage1.p2.requiredFuel
          * (getMapInterpolatedValue s (veMapCorrectedAtCurrentCell s) / 100)
          * ((load + (accelCompensation1 TPS s).1) / 100)
          * temperatureCompensation s engineTemperature 0
          * temperatureCompensation s airTemperature 1
          * s.PSE
        + s.cfPage1.p2.injectorLatency) ∧
    (getInjectorPulseWidth RPM load TPS engineTemperature airTemperature s).2.interpolatedVE =
      getMapInterpolatedValue s (veMapCorrectedAtCurrentCell s) := by
  obtain ⟨h1, h2, h3, h4, h5, h6, h7, h8, h9, h10, h11, h12, h13, h14⟩ :=
    accelCompensation1_frame TPS s
  unfold getInjectorPulseWidth
  dsimp only
  rw [h1, if_neg (not_lt.mpr h)]
  simp only [temperatureCompensation, getMapInterpolatedValue, veMapCorrectedAtCurrentCell,
    h1, h2, h3, h4, h5, h6, h7, h8, h9, h10, h11, h12, h13, h14]
  constructor
  · ring
  · trivial

/-! ## Pulse width: claims -/

/-- C14. Cranking pulse-width path: with `RPM < crankingThreshold`,
`getInjectorPulseWidth` returns `crankingPW * (1 + 2 * (engineTempComp - 1))`
when `TPS < 60` and 100 when `TPS >= 60`, where `engineTempComp` is
`temperatureCompensation(engineTemperature, 0)`; the value is the same for every
other load, air temperature, VE map, AFR correction, corrected VE map and
post-start enrichment value. -/
theorem C14_cranking_pulse_width (RPM load TPS engineTemperature airTemperature : ℚ)
    (s : FuelInjection) (h : RPM < s.cfPage1.p1.crankingThreshold) :
    (getInjectorPulseWidth RPM load TPS engineTemperature airTemperature s).1 =
      (if TPS < 60 then
        s.cfPage1.p1.crankingPW * (1 + 2 * (temperatureCompensation s engineTemperature 0 - 1))
      else 100) ∧
    ∀ (load2 airTemperature2 PSE2 : ℚ) (veMap2 AFRCorrection2 veMapCorrected2 : EngineMap),
      (getInjectorPulseWidth RPM load2 TPS engineTemperature airTemperature2
        { s with
          cfPage1 := { s.cfPage1 with veMap := veMap2 }
          PSE := PSE2
          AFRCorrection := AFRCorrection2
          veMapCorrected := veMapCorrected2 }).1 =
      (getInjectorPulseWidth RPM load TPS engineTemperature airTemperature s).1 := by
  refine ⟨getInjectorPulseWidth_cranking RPM load TPS engineTemperature airTemperature s h, ?_⟩
  intro load2 airTemperature2 PSE2 veMap2 AFRCorrection2 veMapCorrected2
  rw [getInjectorPulseWidth_cranking RPM load TPS engineTemperature airTemperature s h]
  exact getInjectorPulseWidth_cranking RPM load2 TPS engineTemperature airTemperature2 _ h

/-- C14, at a concrete input: 166.7 RPM with the default threshold of 500. -/
theorem C14_cranking_pulse_width_witness :
    (1667 / 10 : ℚ) < fuStart.cfPage1.p1.crankingThreshold ∧
    (getInjectorPulseWidth (1667 / 10) 50 10 20 20 fuStart).1 =
      (if (10 : ℚ) < 60 then
        fuStart.cfPage1.p1.crankingPW * (1 + 2 * (temperatureCompensation fuStart 20 0 - 1))
      else 100) ∧
    (getInjectorPulseWidth (1667 / 10) 50 70 20 20 fuStart).1 = 100 :=
  ⟨by norm_num [fuStart, fuInitialise_cfPage1, fuBoot, cfPage1Default],
   (C14_cranking_pulse_width (1667 / 10) 50 10 20 20 fuStart
      (by norm_num [fuStart, fuInitialise_cfPage1, fuBoot, cfPage1Default])).1,
   by
    rw [(C14_cranking_pulse_width (1667 / 10) 50 70 20 20 fuStart
      (by norm_num [fuStart, fuInitialise_cfPage1, fuBoot, cfPage1Default])).1]
    norm_num⟩

/-- C15. Running-engine pulse width: with `RPM >= crankingThreshold`,
`getInjectorPulseWidth` returns `1000 * (requiredFuel * (interpolatedVE / 100) *
((load + accelCompensation) / 100) * engineTempComp * airTempComp * PSE +
injectorLatency)`, where `accelCompensation` is the value of
`accelCompensation1(TPS)` in this call, `interpolatedVE` (stored by the call) is
the bilinear interpolation of the corrected VE map in which the current cell
holds the VE map entry plus its AFR correction, and `PSE` is the post-start
enrichment value held before the call. -/
theorem C15_running_pulse_width (RPM load TPS engineTemperature airTemperature : ℚ)
    (s : FuelInjection) (h : s.cfPage1.p1.crankingThreshold ≤ RPM) :
    (getInjectorPulseWidth RPM load TPS engineTemperature airTemperature s).1 =
      1000 * (s.cfPage1.p2.requiredFuel
          * (getMapInterpolatedValue s (veMapCorrectedAtCurrentCell s) / 100)
          * ((load + (accelCompensation1 TPS s).1) / 100)
          * temperatureCompensation s engineTemperature 0
          * temperatureCompensation s airTemperature 1
          * s.PSE
        + s.cfPage1.p2.injectorLatency) ∧
    (getInjectorPulseWidth RPM load TPS engineTemperature airTemperature s).2.interpolatedVE =
      getMapInterpolatedValue s (veMapCorrectedAtCurrentCell s) ∧
    veMapCorrectedAtCurrentCell s s.currentCell.loadIndex s.currentCell.rpmIndex =
      s.cfPage1.veMap s.currentCell.loadIndex s.currentCell.rpmIndex +
        s.AFRCorrection s.currentCell.loadIndex s.currentCell.rpmIndex :=
  ⟨(getInjectorPulseWidth_running RPM load TPS engineTemperature airTemperature s h).1,
   (getInjectorPulseWidth_running RPM load TPS engineTemperature airTemperature s h).2,
   by simp [veMapCorrectedAtCurrentCell]⟩

/-- C15, at a concrete input: 2000 RPM with the default threshold of 500, after
a lookup at 2000 RPM and a load of 50. -/
theorem C15_running_pulse_width_witness :
    (mapLookup 2000 50 fuStart).cfPage1.p1.crankingThreshold ≤ (2000 : ℚ) ∧
    (getInjectorPulseWidth 2000 50 10 80 20 (mapLookup 2000 50 fuStart)).1 =
      1000 * ((mapLookup 2000 50 fuStart).cfPage1.p2.requiredFuel
          * (getMapInterpolatedValue (mapLookup 2000 50 fuStart)
              (veMapCorrectedAtCurrentCell (mapLookup 2000 50 fuStart)) / 100)
          * ((50 + (accelCompensation1 10 (mapLookup 2000 50 fuStart)).1) / 100)
          * temperatureCompensation (mapLookup 2000 50 fuStart) 80 0
          * temperatureCompensation (mapLookup 2000 50 fuStart) 20 1
          * (mapLookup 2000 50 fuStart).PSE
        + (mapLookup 2000 50 fuStart).cfPage1.p2.injectorLatency) :=
  ⟨by norm_num [mapLookup, fuStart, fuInitialise_cfPage1, fuBoot, cfPage1Default],
   (C15_running_pulse_width 2000 50 10 80 20 (mapLookup 2000 50 fuStart)
      (by norm_num [mapLookup, fuStart, fuInitialise_cfPage1, fuBoot, cfPage1Default])).1⟩

/-! ## AFR correction: lemmas -/

theorem setCell_same (m : EngineMap) (l r : Int) (v : ℚ) : setCell m l r v l r = v := by
  simp [setCell]

theorem setCell_other (m : EngineMap) (l r a b : Int) (v : ℚ) (h : ¬ (a = l ∧ b = r)) :
    setCell m l r v a b = m a b := by
  simp only [setCell, if_neg h]

theorem afUpdateAverage_frame (l r : Int) (lambdaVoltage : ℚ) (s : AutoAfr) :
    (afUpdateAverage l r lambdaVoltage s).cfPage1 = s.cfPage1 ∧
    (afUpdateAverage l r lambdaVoltage s).afrData.cumulativeError = s.afrData.cumulativeError ∧
    (afUpdateAverage l r lambdaVoltage s).ecuStatus = s.ecuStatus ∧
    (afUpdateAverage l r lambdaVoltage s).eeprom = s.eeprom := by
  unfold afUpdateAverage
  split_ifs <;> exact ⟨rfl, rfl, rfl, rfl⟩

theorem afIntegrateError_frame (l r : Int) (e : ℚ) (s : AutoAfr) :
    (afIntegrateError l r e s).cfPage1 = s.cfPage1 ∧
    (afIntegrateError l r e s).ecuStatus = s.ecuStatus ∧
    (afIntegrateError l r e s).eeprom = s.eeprom := by
  unfold afIntegrateError
  split_ifs <;> exact ⟨rfl, rfl, rfl⟩

theorem afIntegrateError_cell (l r : Int) (e : ℚ) (s : AutoAfr) :
    (afIntegrateError l r e s).afrData.cumulativeError l r =
      if |s.afrData.cumulativeError l r| < 10000 then
        s.afrData.cumulativeError l r + (1 / 1000) * e
      else s.afrData.cumulativeError l r := by
  unfold afIntegrateError
  split_ifs
  · exact setCell_same _ _ _ _
  · rfl

theorem afComputeCorrection_cfPage1 (RPM engineTemp : ℚ) (l r : Int) (lambdaVoltage : ℚ)
    (c : EngineMap) (s : AutoAfr) :
    (afComputeCorrection RPM engineTemp l r lambdaVoltage c s).2.cfPage1 = s.cfPage1 := by
  unfold afComputeCorrection
  dsimp only
  split_ifs
  · rw [(afIntegrateError_frame _ _ _ _).1, (afUpdateAverage_frame _ _ _ _).1]
  · rfl

/-- The accumulator of the selected cell after an active call. -/
theorem afComputeCorrection_cumulativeError (RPM engineTemp : ℚ) (l r : Int)
    (lambdaVoltage : ℚ) (c : EngineMap) (s : AutoAfr)
    (h : afActive s.cfPage1 (RPM, engineTemp)) :
    (afComputeCorrection RPM engineTemp l r lambdaVoltage c s).2.afrData.cumulativeError l r =
      if |s.afrData.cumulativeError l r| < 10000 then
        s.afrData.cumulativeError l r + (1 / 1000) * (s.cfPage1.targetAFRMap l r - lambdaVoltage)
      else s.afrData.cumulativeError l r := by
  have h2 : engineTemp > s.cfPage1.p1.engTempCompT2 ∧ RPM > s.cfPage1.p1.crankingThreshold := h
  unfold afComputeCorrection
  dsimp only
  rw [if_pos h2, afIntegrateError_cell, (afUpdateAverage_frame _ _ _ _).1,
    (afUpdateAverage_frame _ _ _ _).2.1]

theorem afRun_nil (l r : Int) (lambdaVoltage : ℚ) (cs : EngineMap × AutoAfr) :
    afRun [] l r lambdaVoltage cs = cs := rfl

theorem afRun_cons (p : ℚ × ℚ) (calls : List (ℚ × ℚ)) (l r : Int) (lambdaVoltage : ℚ)
    (cs : EngineMap × AutoAfr) :
    afRun (p :: calls) l r lambdaVoltage cs =
      afRun calls l r lambdaVoltage (afComputeCorrection p.1 p.2 l r lambdaVoltage cs.1 cs.2) :=
  rfl

theorem afRun_append (xs ys : List (ℚ × ℚ)) (l r : Int) (lambdaVoltage : ℚ)
    (cs : EngineMap × AutoAfr) :
    afRun (xs ++ ys) l r lambdaVoltage cs =
      afRun ys l r lambdaVoltage (afRun xs l r lambdaVoltage cs) := by
  simp [afRun, List.foldl_append]

theorem afRun_cfPage1 (calls : List (ℚ × ℚ)) (l r : Int) (lambdaVoltage : ℚ)
    (cs : EngineMap × AutoAfr) :
    (afRun calls l r lambdaVoltage cs).2.cfPage1 = cs.2.cfPage1 := by
  induction calls generalizing cs with
  | nil => rfl
  | cons p calls ih => rw [afRun_cons, ih, afComputeCorrection_cfPage1]

/-- The bound kept by the accumulator of the selected cell: one step beyond
the saturation level. -/
theorem afRun_cumulativeError_bound (calls : List (ℚ × ℚ)) (l r : Int) (lambdaVoltage : ℚ)
    (cs : EngineMap × AutoAfr) (hact : ∀ p ∈ calls, afActive cs.2.cfPage1 p)
    (h0 : |cs.2.afrData.cumulativeError l r| <
      10000 + |cs.2.cfPage1.targetAFRMap l r - lambdaVoltage| / 1000) :
    |(afRun calls l r lambdaVoltage cs).2.afrData.cumulativeError l r| <
      10000 + |cs.2.cfPage1.targetAFRMap l r - lambdaVoltage| / 1000 := by
  induction calls generalizing cs with
  | nil => exact h0
  | cons p calls ih =>
    rw [afRun_cons]
    have hp : afActive cs.2.cfPage1 (p.1, p.2) := hact p (List.mem_cons_self _ _)
    have hc := afComputeCorrection_cfPage1 p.1 p.2 l r lambdaVoltage cs.1 cs.2
    have key := ih (afComputeCorrection p.1 p.2 l r lambdaVoltage cs.1 cs.2)
      (by rw [hc]; exact fun q hq => hact q (List.mem_cons_of_mem _ hq))
    rw [hc] at key
    apply key
    rw [afComputeCorrection_cumulativeError p.1 p.2 l r lambdaVoltage cs.1 cs.2 hp]
    split_ifs with hlt
    · have h1 := abs_add (cs.2.afrData.cumulativeError l r)
        (1 / 1000 * (cs.2.cfPage1.targetAFRMap l r - lambdaVoltage))
      have h2 : |1 / 1000 * (cs.2.cfPage1.targetAFRMap l r - lambdaVoltage)| =
          |cs.2.cfPage1.targetAFRMap l r - lambdaVoltage| / 1000 := by
        rw [abs_mul, abs_of_pos (by norm_num : (0 : ℚ) < 1 / 1000)]
        ring
      rw [h2] at h1
      linarith
    · exact h0

/-- While the accumulator has stayed below the saturation level it is the sum
of the steps. -/
theorem afRun_cumulativeError_linear (n : Nat) (p : ℚ × ℚ) (l r : Int) (lambdaVoltage : ℚ)
    (cs : EngineMap × AutoAfr) (hp : afActive cs.2.cfPage1 p)
    (h0 : cs.2.afrData.cumulativeError l r = 0)
    (hn : (n : ℚ) * |cs.2.cfPage1.targetAFRMap l r - lambdaVoltage| / 1000 <
      10000 + |cs.2.cfPage1.targetAFRMap l r - lambdaVoltage| / 1000) :
    (afRun (List.replicate n p) l r lambdaVoltage cs).2.afrData.cumulativeError l r =
      (n : ℚ) * ((cs.2.cfPage1.targetAFRMap l r - lambdaVoltage) / 1000) := by
  induction n with
  | zero => simp [afRun_nil, h0]
  | succ n ih =>
    have hd : 0 ≤ |cs.2.cfPage1.targetAFRMap l r - lambdaVoltage| / 1000 := by positivity
    have hn1 : ((n : ℚ) + 1) * |cs.2.cfPage1.targetAFRMap l r - lambdaVoltage| / 1000 <
        10000 + |cs.2.cfPage1.targetAFRMap l r - lambdaVoltage| / 1000 := by
      have := hn
      push_cast at this
      exact this
    have ih2 := ih (by linarith)
    have hrep : List.replicate (n + 1) p = List.replicate n p ++ [p] := by
      rw [List.replicate_succ']
    rw [hrep, afRun_append, afRun_cons, afRun_nil]
    have hcf := afRun_cfPage1 (List.replicate n p) l r lambdaVoltage cs
    rw [afComputeCorrection_cumulativeError _ _ _ _ _ _ _ (by rw [hcf]; exact hp), ih2, hcf]
    have habs : |(n : ℚ) * ((cs.2.cfPage1.targetAFRMap l r - lambdaVoltage) / 1000)| < 10000 := by
      rw [abs_mul, abs_div, Nat.abs_cast]
      norm_num
      linarith
    rw [if_pos habs]
    push_cast
    ring

theorem afStart_cfPage1 : afStart.2.cfPage1 = cfPage1Default := by
  have h : testStatus EEPROM_AVAILABLE 0 = false := by decide
  simp [afStart, afInitialise, afResetAFRNoSave, afBoot, h]

theorem afStart_cumulativeError : afStart.2.afrData.cumulativeError 0 0 = 0 := by
  have h : testStatus EEPROM_AVAILABLE 0 = false := by decide
  simp [afStart, afInitialise, afResetAFRNoSave, afBoot, h, gridCopy]

theorem afStart_active : afActive afStart.2.cfPage1 (2000, 90) := by
  rw [afStart_cfPage1]
  norm_num [afActive, cfPage1Default]

theorem afStart_target : afStart.2.cfPage1.targetAFRMap 0 0 = 480 := by
  rw [afStart_cfPage1]
  norm_num [cfPage1Default, mapOfRows]

/-! ## AFR correction: claims -/

/-- C11, counterexample: with the default configuration (target 480 in cell
(0, 0)) and a constant lambda voltage of 100 the error is 380 and each active
call adds 0.38; starting from 0, after 26316 active calls the cumulative error
of the cell is 10000.08, above 10000. -/
theorem C11_counterexample :
    afActive afStart.2.cfPage1 (2000, 90) ∧
    afStart.2.afrData.cumulativeError 0 0 = 0 ∧
    afStart.2.cfPage1.targetAFRMap 0 0 - 100 ≠ 0 ∧
    (afRun (List.replicate 26316 (2000, 90)) 0 0 100 afStart).2.afrData.cumulativeError 0 0 =
      250002 / 25 ∧
    ¬ |(afRun (List.replicate 26316 (2000, 90)) 0 0 100 afStart).2.afrData.cumulativeError 0 0|
      ≤ 10000 := by
  have hv : (afRun (List.replicate 26316 (2000, 90)) 0 0 100 afStart).2.afrData.cumulativeError
      0 0 = 250002 / 25 := by
    rw [afRun_cumulativeError_linear 26316 (2000, 90) 0 0 100 afStart afStart_active
      afStart_cumulativeError (by rw [afStart_target]; norm_num), afStart_target]
    norm_num
  refine ⟨afStart_active, afStart_cumulativeError, by rw [afStart_target]; norm_num, hv, ?_⟩
  rw [hv, abs_of_pos (by norm_num : (0 : ℚ) < 250002 / 25)]
  norm_num

/-- C11, amended. Anti-windup: starting from `cumulativeError = 0` for a cell,
for every constant lambda voltage and every number of active calls of
`afComputeCorrection` on that cell, the magnitude of the cumulative error of the
cell stays below `10000 + 0.001 * |e|` with `e = target - lambda`: the test is
made before the step is added, so the value can pass 10000 by less than one
step; once the magnitude has reached 10000 a further active call leaves the
value unchanged. -/
theorem C11_anti_windup_bound (calls : List (ℚ × ℚ)) (l r : Int) (lambdaVoltage : ℚ)
    (cs : EngineMap × AutoAfr) (hact : ∀ p ∈ calls, afActive cs.2.cfPage1 p)
    (h0 : cs.2.afrData.cumulativeError l r = 0) :
    |(afRun calls l r lambdaVoltage cs).2.afrData.cumulativeError l r| <
      10000 + |cs.2.cfPage1.targetAFRMap l r - lambdaVoltage| / 1000 ∧
    (10000 ≤ |(afRun calls l r lambdaVoltage cs).2.afrData.cumulativeError l r| →
      ∀ p, afActive cs.2.cfPage1 p →
        (afRun (calls ++ [p]) l r lambdaVoltage cs).2.afrData.cumulativeError l r =
          (afRun calls l r lambdaVoltage cs).2.afrData.cumulativeError l r) := by
  constructor
  · apply afRun_cumulativeError_bound calls l r lambdaVoltage cs hact
    rw [h0, abs_zero]
    positivity
  · intro hsat p hp
    rw [afRun_append, afRun_cons, afRun_nil,
      afComputeCorrection_cumulativeError _ _ _ _ _ _ _
        (by rw [afRun_cfPage1]; exact hp),
      if_neg (not_lt.mpr hsat)]

/-- C11 amended, at a concrete input: three active calls on cell (0, 0) of the
default configuration with lambda voltage 100. -/
theorem C11_anti_windup_bound_witness :
    |(afRun (List.replicate 3 (2000, 90)) 0 0 100 afStart).2.afrData.cumulativeError 0 0| <
      10000 + |afStart.2.cfPage1.targetAFRMap 0 0 - 100| / 1000 :=
  (C11_anti_windup_bound (List.replicate 3 (2000, 90)) 0 0 100 afStart
    (fun p hp => by rw [List.eq_of_mem_replicate hp]; exact afStart_active)
    afStart_cumulativeError).1

/-! ## Very low frequency tasks: lemmas and claim -/

theorem coolingFanControl_frame {X : Type} (engineTemp : ℚ) (s : Ecu X) :
    (coolingFanControl engineTemp s).tw = s.tw ∧
    (coolingFanControl engineTemp s).keyData = s.keyData ∧
    (coolingFanControl engineTemp s).triggerWheelInSyncLast = s.triggerWheelInSyncLast := by
  unfold coolingFanControl
  split_ifs <;> exact ⟨rfl, rfl, rfl⟩

theorem cyclicProcessingVLFTasks_frame {X : Type} (s : Ecu X) :
    (cyclicProcessingVLFTasks s).tw = (vlfStationaryCheck s).tw ∧
    (cyclicProcessingVLFTasks s).keyData = (vlfStationaryCheck s).keyData ∧
    (cyclicProcessingVLFTasks s).triggerWheelInSyncLast =
      (vlfStationaryCheck s).tw.triggerWheelInSync := by
  unfold cyclicProcessingVLFTasks
  dsimp only
  rw [(coolingFanControl_frame _ _).1, (coolingFanControl_frame _ _).2.1,
    (coolingFanControl_frame _ _).2.2]
  exact ⟨rfl, rfl, rfl⟩

/-- C18. Stationary-crank detection: `triggerWheelInSyncLast` holds the value of
`triggerWheelInSync` at the end of the previous invocation of
`cyclicProcessingVLFTasks` (every invocation ends with the two equal). If at an
invocation `triggerWheelInSync` equals that value, then after the invocation
`triggerWheelInSync = 0`, `RPM = 0`, `syncErrors = 0` and every injector pin and
every coil pin has been written with its off level; if the count has changed,
`triggerWheelInSync`, `RPM` and `syncErrors` are as before the invocation. -/
theorem C18_stationary_crank_detection {X : Type} (s : Ecu X) :
    (cyclicProcessingVLFTasks s).triggerWheelInSyncLast =
      (cyclicProcessingVLFTasks s).tw.triggerWheelInSync ∧
    (s.tw.triggerWheelInSync = s.triggerWheelInSyncLast →
      (cyclicProcessingVLFTasks s).tw.triggerWheelInSync = 0 ∧
      (cyclicProcessingVLFTasks s).keyData.RPM = 0 ∧
      (cyclicProcessingVLFTasks s).keyData.syncErrors = 0 ∧
      (cyclicProcessingVLFTasks s).tw.hw = s.tw.hw ++ powerResetCalls s.tw.coilOFF) ∧
    (s.tw.triggerWheelInSync ≠ s.triggerWheelInSyncLast →
      (cyclicProcessingVLFTasks s).tw.triggerWheelInSync = s.tw.triggerWheelInSync ∧
      (cyclicProcessingVLFTasks s).keyData.RPM = s.keyData.RPM ∧
      (cyclicProcessingVLFTasks s).keyData.syncErrors = s.keyData.syncErrors ∧
      (cyclicProcessingVLFTasks s).tw.hw = s.tw.hw) := by
  obtain ⟨h1, h2, h3⟩ := cyclicProcessingVLFTasks_frame s
  rw [h1, h2, h3]
  refine ⟨rfl, fun h => ?_, fun h => ?_⟩
  · unfold vlfStationaryCheck
    rw [if_pos h]
    exact ⟨rfl, rfl, rfl, rfl⟩
  · unfold vlfStationaryCheck
    rw [if_neg h]
    exact ⟨rfl, rfl, rfl, rfl⟩

/-- C18, at a concrete input: the first invocation after initialisation, with
no revolution counted, and an invocation after three revolutions in sync. -/
theorem C18_stationary_crank_detection_witness :
    (cyclicProcessingVLFTasks (ecuStart 0 eepromAbsent)).tw.triggerWheelInSync = 0 ∧
    (cyclicProcessingVLFTasks (ecuStart 0 eepromAbsent)).keyData.RPM = 0 ∧
    (cyclicProcessingVLFTasks
      { ecuStart 0 eepromAbsent with tw := twRunning 5 3 10000 }).tw.triggerWheelInSync = 3 :=
  ⟨((C18_stationary_crank_detection (ecuStart 0 eepromAbsent)).2.1 rfl).1,
   ((C18_stationary_crank_detection (ecuStart 0 eepromAbsent)).2.1 rfl).2.1,
   ((C18_stationary_crank_detection
      { ecuStart 0 eepromAbsent with tw := twRunning 5 3 10000 }).2.2 (by decide)).1⟩

/-! ## EEPROM and configuration data: lemmas -/

theorem afResetAFRNoSave_frame (c : EngineMap) (s : AutoAfr) :
    (afResetAFRNoSave c s).2.eeprom = s.eeprom ∧
    (afResetAFRNoSave c s).2.cfPage1 = s.cfPage1 ∧
    (afResetAFRNoSave c s).2.ecuStatus = s.ecuStatus := ⟨rfl, rfl, rfl⟩

theorem nvSameDevice_refl (e : Eeprom) : nvSameDevice e e :=
  ⟨rfl, rfl, rfl, rfl, le_refl _⟩

theorem nvSameDevice_trans {a b c : Eeprom} (h1 : nvSameDevice a b) (h2 : nvSameDevice b c) :
    nvSameDevice a c :=
  ⟨h2.1.trans h1.1, h2.2.1.trans h1.2.1, h2.2.2.1.trans h1.2.2.1, h2.2.2.2.1.trans h1.2.2.2.1,
    le_trans h1.2.2.2.2 h2.2.2.2.2⟩

theorem nvBusOperation_frame (e : Eeprom) : nvSameDevice e (nvBusOperation e).2 :=
  ⟨rfl, rfl, rfl, rfl, Nat.le_succ _⟩

/-- Waiting for the device leaves what it holds alone. -/
theorem nvWaitReady_frame : ∀ (n : Nat) (e : Eeprom), nvSameDevice e (nvWaitReady n e).2 := by
  intro n
  induction n with
  | zero => exact fun e => nvSameDevice_refl e
  | succ n ih =>
    intro e
    unfold nvWaitReady
    dsimp only
    split_ifs
    · exact nvBusOperation_frame e
    · exact nvSameDevice_trans (nvBusOperation_frame e) (ih _)

/-- A device that answers the first call is ready at once. -/
theorem nvWaitReady_ok (n : Nat) (e : Eeprom) (h : e.bus e.ops = HAL_StatusTypeDef.HAL_OK) :
    nvWaitReady (n + 1) e = (true, { e with ops := e.ops + 1 }) := by
  unfold nvWaitReady nvBusOperation
  dsimp only
  rw [if_pos h]

/-- A device that answers none of the calls is not ready. -/
theorem nvWaitReady_dead : ∀ (n : Nat) (e : Eeprom),
    (∀ k, e.ops ≤ k → e.bus k ≠ HAL_StatusTypeDef.HAL_OK) → (nvWaitReady n e).1 = false := by
  intro n
  induction n with
  | zero => exact fun _ _ => rfl
  | succ n ih =>
    intro e h
    unfold nvWaitReady nvBusOperation
    dsimp only
    rw [if_neg (h _ (le_refl _))]
    exact ih _ (fun k hk => h k (Nat.le_of_succ_le hk))

/-- The result of `nvEEPROMRead`, by the values the bus returns for the address
and for the data. -/
theorem nvEEPROMRead_eq {α : Type} (blk : NvBlock α) (dest : α) (e : Eeprom) (status : Nat) :
    nvEEPROMRead blk dest e status =
      if e.bus e.ops ≠ HAL_StatusTypeDef.HAL_OK then
        (HAL_StatusTypeDef.HAL_ERROR, dest, { e with ops := e.ops + 1 },
          setStatus EEPROM_DATA_READ_ERROR status)
      else if e.bus (e.ops + 1) ≠ HAL_StatusTypeDef.HAL_OK then
        (HAL_StatusTypeDef.HAL_ERROR, blk.cutShort (e.ops + 1) dest,
          { e with ops := e.ops + 1 + 1 }, setStatus EEPROM_DATA_READ_ERROR status)
      else (HAL_StatusTypeDef.HAL_OK, blk.data, { e with ops := e.ops + 1 + 1 }, status) := by
  unfold nvEEPROMRead nvBusOperation
  rfl

/-- The result of `nvEEPROMBlockRead`, by the values the bus returns for the
operations after the wait: the address, the data and the checksum. -/
theorem nvEEPROMBlockRead_eq {α : Type} (blk : NvBlock α) (dest : α) (e : Eeprom)
    (status : Nat) :
    nvEEPROMBlockRead blk dest e status =
      if (nvWaitReady 1001 e).1 = true then
        if e.bus (nvWaitReady 1001 e).2.ops ≠ HAL_StatusTypeDef.HAL_OK then
          (HAL_StatusTypeDef.HAL_ERROR, dest,
            { (nvWaitReady 1001 e).2 with ops := (nvWaitReady 1001 e).2.ops + 1 },
            setStatus EEPROM_DATA_READ_ERROR status)
        else if e.bus ((nvWaitReady 1001 e).2.ops + 1) ≠ HAL_StatusTypeDef.HAL_OK then
          (HAL_StatusTypeDef.HAL_ERROR, blk.cutShort ((nvWaitReady 1001 e).2.ops + 1) dest,
            { (nvWaitReady 1001 e).2 with ops := (nvWaitReady 1001 e).2.ops + 1 + 1 },
            setStatus EEPROM_DATA_READ_ERROR status)
        else if e.bus ((nvWaitReady 1001 e).2.ops + 1 + 1) ≠ HAL_StatusTypeDef.HAL_OK then
          (HAL_StatusTypeDef.HAL_ERROR, blk.data,
            { (nvWaitReady 1001 e).2 with ops := (nvWaitReady 1001 e).2.ops + 1 + 1 + 1 },
            status)
        else
          (HAL_StatusTypeDef.HAL_OK, blk.data,
            { (nvWaitReady 1001 e).2 with ops := (nvWaitReady 1001 e).2.ops + 1 + 1 + 1 },
            if blk.checksumOk = true then status
            else setStatus EEPROM_CHECKSUM_ERROR status)
      else
        (HAL_StatusTypeDef.HAL_ERROR, dest, (nvWaitReady 1001 e).2,
          setStatus EEPROM_DATA_READ_ERROR status) := by
  have hb : (nvWaitReady 1001 e).2.bus = e.bus := (nvWaitReady_frame 1001 e).2.2.1
  unfold nvEEPROMBlockRead
  dsimp only
  rw [nvEEPROMRead_eq, hb]
  by_cases hw : (nvWaitReady 1001 e).1 = true
  · rw [if_pos hw, if_pos hw]
    by_cases h0 : e.bus (nvWaitReady 1001 e).2.ops ≠ HAL_StatusTypeDef.HAL_OK
    · rw [if_pos h0, if_pos h0]
      dsimp only
      rw [if_pos (show HAL_StatusTypeDef.HAL_ERROR ≠ HAL_StatusTypeDef.HAL_OK by decide)]
    · rw [if_neg h0, if_neg h0]
      by_cases h1 : e.bus ((nvWaitReady 1001 e).2.ops + 1) ≠ HAL_StatusTypeDef.HAL_OK
      · rw [if_pos h1, if_pos h1]
        dsimp only
        rw [if_pos (show HAL_StatusTypeDef.HAL_ERROR ≠ HAL_StatusTypeDef.HAL_OK by decide)]
      · rw [if_neg h1, if_neg h1]
        dsimp only
        rw [if_neg (show ¬ HAL_StatusTypeDef.HAL_OK ≠ HAL_StatusTypeDef.HAL_OK by decide)]
        unfold nvBusOperation
        dsimp only
  · rw [if_neg hw, if_neg hw]

theorem nvSameDevice_ops (e : Eeprom) (n : Nat) : nvSameDevice e { e with ops := e.ops + n } :=
  ⟨rfl, rfl, rfl, rfl, Nat.le_add_right _ _⟩

/-- A block read leaves what the device holds alone. -/
theorem nvEEPROMBlockRead_frame {α : Type} (blk : NvBlock α) (dest : α) (e : Eeprom)
    (status : Nat) : nvSameDevice e (nvEEPROMBlockRead blk dest e status).2.2.1 := by
  have hw := nvWaitReady_frame 1001 e
  rw [nvEEPROMBlockRead_eq]
  split_ifs <;>
    first
    | exact hw
    | exact nvSameDevice_trans hw (nvSameDevice_ops _ 1)
    | exact nvSameDevice_trans hw (nvSameDevice_ops _ 2)
    | exact nvSameDevice_trans hw (nvSameDevice_ops _ 3)

theorem nvTestEEPROMReady_frame (e : Eeprom) (status : Nat) :
    nvSameDevice e (nvTestEEPROMReady e status).2.1 := by
  unfold nvTestEEPROMReady
  dsimp only
  split_ifs <;> exact nvBusOperation_frame e

theorem afInitialise_frame (cyclicPeriod : ℚ) (c : EngineMap) (s : AutoAfr) :
    nvSameDevice s.eeprom (afInitialise cyclicPeriod c s).2.eeprom ∧
    (afInitialise cyclicPeriod c s).2.cfPage1 = s.cfPage1 := by
  unfold afInitialise
  dsimp only
  split_ifs
  · exact ⟨nvEEPROMBlockRead_frame _ _ _ _, rfl⟩
  · exact ⟨nvSameDevice_refl _, rfl⟩

theorem ecuAfInitialise_frame {X : Type} (s : Ecu X) :
    (ecuAfInitialise s).cfPage1 = s.cfPage1 ∧
    nvSameDevice s.eeprom (ecuAfInitialise s).eeprom ∧
    (ecuAfInitialise s).configurationDescriptor = s.configurationDescriptor :=
  ⟨rfl, (afInitialise_frame _ _ _).1, rfl⟩

theorem ecuFuInitialise_frame {X : Type} (env : Modules X) (s : Ecu X) :
    (ecuFuInitialise env s).cfPage1 = s.cfPage1 ∧
    (ecuFuInitialise env s).eeprom = s.eeprom ∧
    (ecuFuInitialise env s).configurationDescriptor = s.configurationDescriptor :=
  ⟨rfl, rfl, rfl⟩

theorem ecuSeInitialise_frame {X : Type} (env : Modules X) (disable : Int) (s : Ecu X) :
    (ecuSeInitialise env disable s).cfPage1 = s.cfPage1 ∧
    (ecuSeInitialise env disable s).eeprom = s.eeprom ∧
    (ecuSeInitialise env disable s).configurationDescriptor = s.configurationDescriptor :=
  ⟨rfl, rfl, rfl⟩

/-- The software reset after a change of the filters writes neither the
configuration page, nor the descriptor, and makes no bus operation. -/
theorem cfSoftwareResetFilters_frame {X : Type} (env : Modules X) (s : Ecu X) :
    (cfSoftwareResetFilters env s).cfPage1 = s.cfPage1 ∧
    (cfSoftwareResetFilters env s).eeprom = s.eeprom ∧
    (cfSoftwareResetFilters env s).configurationDescriptor = s.configurationDescriptor :=
  ⟨rfl, rfl, rfl⟩

/-- The software reset of the maps writes neither the configuration page, nor
the descriptor, and leaves what the device holds alone (it may read the AFR
data). -/
theorem cfSoftwareResetMaps_frame {X : Type} (env : Modules X) (s : Ecu X) :
    (cfSoftwareResetMaps env s).cfPage1 = s.cfPage1 ∧
    nvSameDevice s.eeprom (cfSoftwareResetMaps env s).eeprom ∧
    (cfSoftwareResetMaps env s).configurationDescriptor = s.configurationDescriptor :=
  ⟨rfl, (ecuAfInitialise_frame s).2.1, rfl⟩

/-- The complete software reset writes neither the configuration page, nor the
descriptor, and leaves what the device holds alone (it tests the device and may
read the AFR data). -/
theorem cfSoftwareReset_frame {X : Type} (env : Modules X) (s : Ecu X) :
    (cfSoftwareReset env s).cfPage1 = s.cfPage1 ∧
    nvSameDevice s.eeprom (cfSoftwareReset env s).eeprom ∧
    (cfSoftwareReset env s).configurationDescriptor = s.configurationDescriptor := by
  unfold cfSoftwareReset
  dsimp only
  refine ⟨rfl, ?_, rfl⟩
  show nvSameDevice s.eeprom
    (ecuSeInitialise env DIAGNOSTIC_MODE (ecuFuInitialise env (ecuAfInitialise _))).eeprom
  rw [(ecuSeInitialise_frame _ _ _).2.1, (ecuFuInitialise_frame _ _).2.1]
  refine nvSameDevice_trans ?_ (ecuAfInitialise_frame _).2.1
  exact nvTestEEPROMReady_frame s.eeprom s.ecuStatus

/-- The bus as two devices see it is the same: the same number of operations
made and the same values to come. -/
theorem nvWaitReady_bus : ∀ (n : Nat) (e e' : Eeprom), e.ops = e'.ops → e.bus = e'.bus →
    (nvWaitReady n e).1 = (nvWaitReady n e').1 ∧
    (nvWaitReady n e).2.ops = (nvWaitReady n e').2.ops ∧
    (nvWaitReady n e).2.bus = (nvWaitReady n e').2.bus := by
  intro n
  induction n with
  | zero => exact fun e e' ho hb => ⟨rfl, ho, hb⟩
  | succ n ih =>
    intro e e' ho hb
    unfold nvWaitReady nvBusOperation
    dsimp only
    rw [ho, hb]
    split_ifs
    · exact ⟨rfl, rfl, rfl⟩
    · exact ih _ _ rfl rfl

/-- The value of `nvEEPROMWrite` and the bus after it depend on the bus only. -/
theorem nvEEPROMWrite_bus (b f b' f' : NvContent) (e e' : Eeprom) (st st' : Nat)
    (ho : e.ops = e'.ops) (hb : e.bus = e'.bus) :
    (nvEEPROMWrite b f e st).1 = (nvEEPROMWrite b' f' e' st').1 ∧
    (nvEEPROMWrite b f e st).2.1.ops = (nvEEPROMWrite b' f' e' st').2.1.ops ∧
    (nvEEPROMWrite b f e st).2.1.bus = (nvEEPROMWrite b' f' e' st').2.1.bus := by
  obtain ⟨h1, h2, h3⟩ := nvWaitReady_bus 1001 e e' ho hb
  unfold nvEEPROMWrite nvBusOperation
  dsimp only
  rw [h1, h2, h3]
  split_ifs <;> dsimp only <;> first | exact ⟨rfl, rfl, rfl⟩ | exact ⟨rfl, h2, h3⟩

theorem nvEEPROMBlockWritePages_bus (b f b' f' : NvContent) :
    ∀ (n : Nat) (e e' : Eeprom) (st st' : Nat), e.ops = e'.ops → e.bus = e'.bus →
    (nvEEPROMBlockWritePages b f n e st).1 = (nvEEPROMBlockWritePages b' f' n e' st').1 ∧
    (nvEEPROMBlockWritePages b f n e st).2.1.ops =
      (nvEEPROMBlockWritePages b' f' n e' st').2.1.ops ∧
    (nvEEPROMBlockWritePages b f n e st).2.1.bus =
      (nvEEPROMBlockWritePages b' f' n e' st').2.1.bus := by
  intro n
  induction n with
  | zero => exact fun e e' _ _ ho hb => ⟨rfl, ho, hb⟩
  | succ n ih =>
    intro e e' st st' ho hb
    obtain ⟨h1, h2, h3⟩ := nvEEPROMWrite_bus b f b' f' e e' st st' ho hb
    unfold nvEEPROMBlockWritePages
    dsimp only
    rw [h1]
    split_ifs
    · exact ⟨rfl, h2, h3⟩
    · exact ih _ _ _ _ h2 h3

/-- The value returned by `nvEEPROMBlockWrite` depends on the number of bytes
and on the bus only. -/
theorem nvEEPROMBlockWrite_bus (store store' : NvContent → NvContent) (addr addr' nBytes : Int)
    (e e' : Eeprom) (st st' : Nat) (ho : e.ops = e'.ops) (hb : e.bus = e'.bus) :
    (nvEEPROMBlockWrite store addr nBytes e st).1 =
      (nvEEPROMBlockWrite store' addr' nBytes e' st').1 := by
  unfold nvEEPROMBlockWrite
  dsimp only
  have p := nvEEPROMBlockWritePages_bus e.toNvContent (store e.toNvContent)
    e'.toNvContent (store' e'.toNvContent) (Int.tdiv nBytes 64).toNat
    { e with writes := e.writes ++ [(addr, nBytes)] }
    { e' with writes := e'.writes ++ [(addr', nBytes)] } st st' ho hb
  generalize nvEEPROMBlockWritePages e.toNvContent (store e.toNvContent)
    (Int.tdiv nBytes 64).toNat { e with writes := e.writes ++ [(addr, nBytes)] } st = P at p ⊢
  generalize nvEEPROMBlockWritePages e'.toNvContent (store' e'.toNvContent)
    (Int.tdiv nBytes 64).toNat { e' with writes := e'.writes ++ [(addr', nBytes)] } st' = P'
    at p ⊢
  obtain ⟨p1, p2, p3⟩ := p
  rw [p1]
  by_cases hp : P'.1 ≠ HAL_StatusTypeDef.HAL_OK
  · rw [if_pos hp, if_pos hp]
  · rw [if_neg hp, if_neg hp]
    have a : ∀ (A A' : HAL_StatusTypeDef × Eeprom × Nat), A.1 = A'.1 →
        A.2.1.ops = A'.2.1.ops → A.2.1.bus = A'.2.1.bus →
        (if A.1 ≠ HAL_StatusTypeDef.HAL_OK then (HAL_StatusTypeDef.HAL_ERROR, A.2.1, A.2.2)
          else
            if (nvEEPROMWrite e.toNvContent (store e.toNvContent) A.2.1 A.2.2).1 =
                HAL_StatusTypeDef.HAL_OK then
              ((nvEEPROMWrite e.toNvContent (store e.toNvContent) A.2.1 A.2.2).1,
                { (nvEEPROMWrite e.toNvContent (store e.toNvContent) A.2.1 A.2.2).2.1 with
                  toNvContent := store e.toNvContent },
                (nvEEPROMWrite e.toNvContent (store e.toNvContent) A.2.1 A.2.2).2.2)
            else nvEEPROMWrite e.toNvContent (store e.toNvContent) A.2.1 A.2.2).1 =
        (if A'.1 ≠ HAL_StatusTypeDef.HAL_OK then (HAL_StatusTypeDef.HAL_ERROR, A'.2.1, A'.2.2)
          else
            if (nvEEPROMWrite e'.toNvContent (store' e'.toNvContent) A'.2.1 A'.2.2).1 =
                HAL_StatusTypeDef.HAL_OK then
              ((nvEEPROMWrite e'.toNvContent (store' e'.toNvContent) A'.2.1 A'.2.2).1,
                { (nvEEPROMWrite e'.toNvContent (store' e'.toNvContent) A'.2.1 A'.2.2).2.1 with
                  toNvContent := store' e'.toNvContent },
                (nvEEPROMWrite e'.toNvContent (store' e'.toNvContent) A'.2.1 A'.2.2).2.2)
            else nvEEPROMWrite e'.toNvContent (store' e'.toNvContent) A'.2.1 A'.2.2).1 := by
      intro A A' a1 a2 a3
      obtain ⟨c1, -, -⟩ := nvEEPROMWrite_bus e.toNvContent (store e.toNvContent)
        e'.toNvContent (store' e'.toNvContent) A.2.1 A'.2.1 A.2.2 A'.2.2 a2 a3
      rw [a1, c1]
      split_ifs <;> first | rfl | exact c1
    by_cases ha : nBytes - Int.tdiv nBytes 64 * 64 > 0
    · rw [if_pos ha, if_pos ha]
      obtain ⟨a1, a2, a3⟩ := nvEEPROMWrite_bus e.toNvContent (store e.toNvContent)
        e'.toNvContent (store' e'.toNvContent) P.2.1 P'.2.1 P.2.2 P'.2.2 p2 p3
      exact a _ _ a1 a2 a3
    · rw [if_neg ha, if_neg ha]
      exact a (HAL_StatusTypeDef.HAL_OK, P.2.1, P.2.2) (HAL_StatusTypeDef.HAL_OK, P'.2.1, P'.2.2)
        rfl p2 p3

theorem nvEEPROMBlockWrite_result (store : NvContent → NvContent) (addr nBytes : Int)
    (e : Eeprom) (status : Nat) :
    (nvEEPROMBlockWrite store addr nBytes e status).1 = nvBlockWriteResult nBytes e :=
  nvEEPROMBlockWrite_bus store (fun c => c) addr 0 nBytes e e status 0 rfl rfl

/-- What `nvEEPROMWrite` leaves alone, and the status word after it. -/
theorem nvEEPROMWrite_frame (b f : NvContent) (e : Eeprom) (st : Nat) :
    (nvEEPROMWrite b f e st).2.1.writes = e.writes ∧
    (nvEEPROMWrite b f e st).2.1.bus = e.bus ∧
    (nvEEPROMWrite b f e st).2.1.torn = e.torn ∧
    e.ops ≤ (nvEEPROMWrite b f e st).2.1.ops ∧
    (nvEEPROMWrite b f e st).2.2 =
      if (nvEEPROMWrite b f e st).1 = HAL_StatusTypeDef.HAL_OK then st
      else setStatus EEPROM_DATA_SAVE_ERROR st := by
  obtain ⟨-, h2, h3, h4, h5⟩ := nvWaitReady_frame 1001 e
  unfold nvEEPROMWrite nvBusOperation
  dsimp only
  by_cases hw : (nvWaitReady 1001 e).1 = true
  · rw [if_pos hw]
    by_cases ht : (nvWaitReady 1001 e).2.bus (nvWaitReady 1001 e).2.ops ≠ HAL_StatusTypeDef.HAL_OK
    · rw [if_pos ht]
      exact ⟨h2, h3, h4, Nat.le_succ_of_le h5, (if_neg ht).symm⟩
    · rw [if_neg ht]
      exact ⟨h2, h3, h4, Nat.le_succ_of_le h5, (if_pos (not_not.mp ht)).symm⟩
  · rw [if_neg hw]
    exact ⟨h2, h3, h4, h5,
      (if_neg (show ¬ HAL_StatusTypeDef.HAL_ERROR = HAL_StatusTypeDef.HAL_OK by decide)).symm⟩

theorem nvEEPROMBlockWritePages_frame (b f : NvContent) : ∀ (n : Nat) (e : Eeprom) (st : Nat),
    (nvEEPROMBlockWritePages b f n e st).2.1.writes = e.writes ∧
    (nvEEPROMBlockWritePages b f n e st).2.1.bus = e.bus ∧
    (nvEEPROMBlockWritePages b f n e st).2.1.torn = e.torn ∧
    e.ops ≤ (nvEEPROMBlockWritePages b f n e st).2.1.ops ∧
    (nvEEPROMBlockWritePages b f n e st).2.2 =
      if (nvEEPROMBlockWritePages b f n e st).1 = HAL_StatusTypeDef.HAL_OK then st
      else setStatus EEPROM_DATA_SAVE_ERROR st := by
  intro n
  induction n with
  | zero => exact fun e st => ⟨rfl, rfl, rfl, le_refl _, rfl⟩
  | succ n ih =>
    intro e st
    obtain ⟨w1, w2, w3, w4, w5⟩ := nvEEPROMWrite_frame b f e st
    unfold nvEEPROMBlockWritePages
    dsimp only
    by_cases hw : (nvEEPROMWrite b f e st).1 ≠ HAL_StatusTypeDef.HAL_OK
    · rw [if_pos hw]
      refine ⟨w1, w2, w3, w4, ?_⟩
      dsimp only
      rw [w5, if_neg hw,
        if_neg (show ¬ HAL_StatusTypeDef.HAL_ERROR = HAL_StatusTypeDef.HAL_OK by decide)]
    · rw [if_neg hw]
      obtain ⟨i1, i2, i3, i4, i5⟩ := ih (nvEEPROMWrite b f e st).2.1 (nvEEPROMWrite b f e st).2.2
      refine ⟨i1.trans w1, i2.trans w2, i3.trans w3, le_trans w4 i4, ?_⟩
      rw [i5, w5, if_pos (not_not.mp hw)]

/-- What `nvEEPROMBlockWrite` does to the device and to the status word: the
call is listed; when it returns `HAL_OK` the device holds the block and the
status word is as before, otherwise `EEPROM_DATA_SAVE_ERROR` is set. -/
theorem nvEEPROMBlockWrite_frame (store : NvContent → NvContent) (addr nBytes : Int)
    (e : Eeprom) (st : Nat) :
    (nvEEPROMBlockWrite store addr nBytes e st).2.1.writes = e.writes ++ [(addr, nBytes)] ∧
    (nvEEPROMBlockWrite store addr nBytes e st).2.1.bus = e.bus ∧
    (nvEEPROMBlockWrite store addr nBytes e st).2.1.torn = e.torn ∧
    e.ops ≤ (nvEEPROMBlockWrite store addr nBytes e st).2.1.ops ∧
    (nvEEPROMBlockWrite store addr nBytes e st).2.2 =
      (if (nvEEPROMBlockWrite store addr nBytes e st).1 = HAL_StatusTypeDef.HAL_OK then st
       else setStatus EEPROM_DATA_SAVE_ERROR st) ∧
    ((nvEEPROMBlockWrite store addr nBytes e st).1 = HAL_StatusTypeDef.HAL_OK →
      (nvEEPROMBlockWrite store addr nBytes e st).2.1.toNvContent = store e.toNvContent) := by
  unfold nvEEPROMBlockWrite
  dsimp only
  have p := nvEEPROMBlockWritePages_frame e.toNvContent (store e.toNvContent)
    (Int.tdiv nBytes 64).toNat { e with writes := e.writes ++ [(addr, nBytes)] } st
  generalize nvEEPROMBlockWritePages e.toNvContent (store e.toNvContent)
    (Int.tdiv nBytes 64).toNat { e with writes := e.writes ++ [(addr, nBytes)] } st = P at p ⊢
  obtain ⟨p1, p2, p3, p4, p5⟩ := p
  have hne : HAL_StatusTypeDef.HAL_ERROR ≠ HAL_StatusTypeDef.HAL_OK := by decide
  by_cases hp : P.1 ≠ HAL_StatusTypeDef.HAL_OK
  · rw [if_pos hp]
    dsimp only
    rw [if_neg hne]
    exact ⟨p1, p2, p3, p4, by rw [p5, if_neg hp], fun h => absurd h hne⟩
  · rw [if_neg hp]
    rw [if_pos (not_not.mp hp)] at p5
    have a : ∀ A : HAL_StatusTypeDef × Eeprom × Nat,
        A.2.1.writes = e.writes ++ [(addr, nBytes)] → A.2.1.bus = e.bus → A.2.1.torn = e.torn →
        e.ops ≤ A.2.1.ops →
        (A.2.2 = if A.1 = HAL_StatusTypeDef.HAL_OK then st
          else setStatus EEPROM_DATA_SAVE_ERROR st) →
        (fun R : HAL_StatusTypeDef × Eeprom × Nat =>
          R.2.1.writes = e.writes ++ [(addr, nBytes)] ∧ R.2.1.bus = e.bus ∧
          R.2.1.torn = e.torn ∧ e.ops ≤ R.2.1.ops ∧
          (R.2.2 = if R.1 = HAL_StatusTypeDef.HAL_OK then st
            else setStatus EEPROM_DATA_SAVE_ERROR st) ∧
          (R.1 = HAL_StatusTypeDef.HAL_OK → R.2.1.toNvContent = store e.toNvContent))
        (if A.1 ≠ HAL_StatusTypeDef.HAL_OK then (HAL_StatusTypeDef.HAL_ERROR, A.2.1, A.2.2)
          else
            if (nvEEPROMWrite e.toNvContent (store e.toNvContent) A.2.1 A.2.2).1 =
                HAL_StatusTypeDef.HAL_OK then
              ((nvEEPROMWrite e.toNvContent (store e.toNvContent) A.2.1 A.2.2).1,
                { (nvEEPROMWrite e.toNvContent (store e.toNvContent) A.2.1 A.2.2).2.1 with
                  toNvContent := store e.toNvContent },
                (nvEEPROMWrite e.toNvContent (store e.toNvContent) A.2.1 A.2.2).2.2)
            else nvEEPROMWrite e.toNvContent (store e.toNvContent) A.2.1 A.2.2) := by
      intro A a1 a2 a3 a4 a5
      obtain ⟨c1, c2, c3, c4, c5⟩ :=
        nvEEPROMWrite_frame e.toNvContent (store e.toNvContent) A.2.1 A.2.2
      by_cases hA : A.1 ≠ HAL_StatusTypeDef.HAL_OK
      · rw [if_pos hA]
        dsimp only
        rw [if_neg hne]
        exact ⟨a1, a2, a3, a4, by rw [a5, if_neg hA], fun h => absurd h hne⟩
      · rw [if_neg hA]
        rw [if_pos (not_not.mp hA)] at a5
        by_cases hC : (nvEEPROMWrite e.toNvContent (store e.toNvContent) A.2.1 A.2.2).1 =
            HAL_StatusTypeDef.HAL_OK
        · rw [if_pos hC]
          dsimp only
          rw [if_pos hC]
          exact ⟨c1.trans a1, c2.trans a2, c3.trans a3, le_trans a4 c4,
            by rw [c5, if_pos hC, a5], fun _ => rfl⟩
        · rw [if_neg hC]
          refine ⟨c1.trans a1, c2.trans a2, c3.trans a3, le_trans a4 c4, ?_,
            fun h => absurd h hC⟩
          rw [c5]
          simp only [hC, if_false, a5]
    by_cases ha : nBytes - Int.tdiv nBytes 64 * 64 > 0
    · rw [if_pos ha]
      obtain ⟨w1, w2, w3, w4, w5⟩ :=
        nvEEPROMWrite_frame e.toNvContent (store e.toNvContent) P.2.1 P.2.2
      exact a _ (w1.trans p1) (w2.trans p2) (w3.trans p3) (le_trans p4 w4) (by rw [w5, p5])
    · rw [if_neg ha]
      exact a (HAL_StatusTypeDef.HAL_OK, P.2.1, P.2.2) p1 p2 p3 p4 (by
        rw [if_pos rfl]
        exact p5)

/-- The result of `cfSaveConfig`. -/
theorem cfSaveConfig_spec {X : Type} (copy : page1Struct → page1Struct)
    (store : page1Struct → NvContent → NvContent) (blkSize nItems expected addr : Int)
    (s : Ecu X) :
    ((cfSaveConfig copy store blkSize nItems expected addr s).1 =
        cfErrorCode.CF_DATA_SIZE_MISMATCH ↔ nItems ≠ expected) ∧
    (cfSaveConfig copy store blkSize nItems expected addr s).1 ≠
      cfErrorCode.CF_UNKNOWN_BLOCK_ID ∧
    (nItems ≠ expected → cfSaveConfig copy store blkSize nItems expected addr s =
      (cfErrorCode.CF_DATA_SIZE_MISMATCH, s)) ∧
    (nItems = expected → (cfSaveConfig copy store blkSize nItems expected addr s).1 =
      if nvBlockWriteResult blkSize s.eeprom = HAL_StatusTypeDef.HAL_OK then
        cfErrorCode.CF_SUCCESS
      else cfErrorCode.CF_WRITE_ERROR) := by
  unfold cfSaveConfig
  dsimp only
  by_cases h : nItems = expected
  · rw [if_pos h, nvEEPROMBlockWrite_result]
    by_cases hr : nvBlockWriteResult blkSize s.eeprom = HAL_StatusTypeDef.HAL_OK
    · simp [hr, h]
    · simp [hr, h]
  · rw [if_neg h]
    simp [h]

/-- A block save followed by a software reset that writes neither the
configuration page nor the device. -/
theorem cfSaveConfig_then_reset {X : Type} (reset : Ecu X → Ecu X)
    (hreset : ∀ t, (reset t).cfPage1 = t.cfPage1 ∧ nvSameDevice t.eeprom (reset t).eeprom)
    (copy : page1Struct → page1Struct) (store : page1Struct → NvContent → NvContent)
    (blkSize nItems expected addr : Int) (s : Ecu X) :
    ((cfSaveConfig copy store blkSize nItems expected addr s).1 =
        cfErrorCode.CF_DATA_SIZE_MISMATCH ↔ nItems ≠ expected) ∧
    (cfSaveConfig copy store blkSize nItems expected addr s).1 ≠
      cfErrorCode.CF_UNKNOWN_BLOCK_ID ∧
    (nItems ≠ expected →
      (reset (cfSaveConfig copy store blkSize nItems expected addr s).2).cfPage1 = s.cfPage1 ∧
      nvSameDevice s.eeprom
        (reset (cfSaveConfig copy store blkSize nItems expected addr s).2).eeprom) ∧
    (nItems = expected → (cfSaveConfig copy store blkSize nItems expected addr s).1 =
      if nvBlockWriteResult blkSize s.eeprom = HAL_StatusTypeDef.HAL_OK then
        cfErrorCode.CF_SUCCESS
      else cfErrorCode.CF_WRITE_ERROR) := by
  obtain ⟨h1, h2, h3, h4⟩ := cfSaveConfig_spec copy store blkSize nItems expected addr s
  refine ⟨h1, h2, fun h => ?_, h4⟩
  rw [h3 h]
  exact hreset s

/-! ## Configuration data: claims -/

/-- C19. Apply configuration block: `cfProcessNVMMessage` returns
`CF_UNKNOWN_BLOCK_ID` exactly when the block id is none of 100, 200, 300, 400,
500, 600, and then changes nothing; for a known block it returns
`CF_DATA_SIZE_MISMATCH` exactly when `nItems` differs from the item count of the
block (8, 34, 27, 64, 64, 64), and then the configuration page in RAM and what
the EEPROM holds are unchanged and no block write is made; when `nItems` matches
it returns `CF_SUCCESS` if `nvEEPROMBlockWrite` returns `HAL_OK` for the block
(32, 136, 108 or 256 bytes: every wait for the device and every transmission of
a page, of the remaining bytes and of the checksum succeeded) and
`CF_WRITE_ERROR` if it returns another value, whichever operation failed. The
value `nvEEPROMBlockWrite` returns depends on the size of the block and on the
bus only, not on the data, the address or the status word. -/
theorem C19_apply_configuration_block {X : Type} (env : Modules X) (block nItems : Int)
    (data : Nat → paramType) (s : Ecu X) :
    ((cfProcessNVMMessage env block nItems data s).1 = cfErrorCode.CF_UNKNOWN_BLOCK_ID ↔
      ¬ cfKnownBlock block) ∧
    (¬ cfKnownBlock block → (cfProcessNVMMessage env block nItems data s).2 = s) ∧
    (cfKnownBlock block →
      ((cfProcessNVMMessage env block nItems data s).1 = cfErrorCode.CF_DATA_SIZE_MISMATCH ↔
        nItems ≠ cfBlockItemCount block) ∧
      (nItems ≠ cfBlockItemCount block →
        (cfProcessNVMMessage env block nItems data s).2.cfPage1 = s.cfPage1 ∧
        nvSameDevice s.eeprom (cfProcessNVMMessage env block nItems data s).2.eeprom) ∧
      (nItems = cfBlockItemCount block →
        (cfProcessNVMMessage env block nItems data s).1 =
          if nvBlockWriteResult (cfBlockBytes block) s.eeprom = HAL_StatusTypeDef.HAL_OK then
            cfErrorCode.CF_SUCCESS
          else cfErrorCode.CF_WRITE_ERROR)) ∧
    (∀ (store : NvContent → NvContent) (addr : Int) (status : Nat),
      (nvEEPROMBlockWrite store addr (cfBlockBytes block) s.eeprom status).1 =
        nvBlockWriteResult (cfBlockBytes block) s.eeprom) := by
  have main : ((cfProcessNVMMessage env block nItems data s).1 =
        cfErrorCode.CF_UNKNOWN_BLOCK_ID ↔ ¬ cfKnownBlock block) ∧
      (¬ cfKnownBlock block → (cfProcessNVMMessage env block nItems data s).2 = s) ∧
      (cfKnownBlock block →
        ((cfProcessNVMMessage env block nItems data s).1 = cfErrorCode.CF_DATA_SIZE_MISMATCH ↔
          nItems ≠ cfBlockItemCount block) ∧
        (nItems ≠ cfBlockItemCount block →
          (cfProcessNVMMessage env block nItems data s).2.cfPage1 = s.cfPage1 ∧
          nvSameDevice s.eeprom (cfProcessNVMMessage env block nItems data s).2.eeprom) ∧
        (nItems = cfBlockItemCount block →
          (cfProcessNVMMessage env block nItems data s).1 =
            if nvBlockWriteResult (cfBlockBytes block) s.eeprom = HAL_StatusTypeDef.HAL_OK then
              cfErrorCode.CF_SUCCESS
            else cfErrorCode.CF_WRITE_ERROR)) := by
    by_cases h1 : block = FILTER_BLK
    · have hk : cfKnownBlock block := Or.inl h1
      have hc : cfBlockItemCount block = FILTER_ITEMS := by rw [h1]; rfl
      have hz : cfBlockBytes block = 32 := by rw [h1]; rfl
      unfold cfProcessNVMMessage
      rw [if_pos h1, hc, hz]
      obtain ⟨a, b, c, d⟩ := cfSaveConfig_then_reset (cfSoftwareResetFilters env)
        (fun t => ⟨(cfSoftwareResetFilters_frame env t).1, by
          rw [(cfSoftwareResetFilters_frame env t).2.1]; exact nvSameDevice_refl _⟩)
        (fun c => { c with filters := copyTypedDataFilters data })
        (fun c e => { e with
          filters := Function.update e.filters (absAddr FILTERS_NVM_ADDR s)
            ((e.filters (absAddr FILTERS_NVM_ADDR s)).written c.filters) })
        32 nItems FILTER_ITEMS (absAddr FILTERS_NVM_ADDR s) s
      exact ⟨⟨fun h => absurd h b, fun h => absurd hk h⟩, fun h => absurd hk h,
        fun _ => ⟨a, c, d⟩⟩
    by_cases h2 : block = PARAMETER_1_BLK
    · have hk : cfKnownBlock block := Or.inr (Or.inl h2)
      have hc : cfBlockItemCount block = PARAMETER_1_ITEMS := by rw [h2]; rfl
      have hz : cfBlockBytes block = 136 := by rw [h2]; rfl
      unfold cfProcessNVMMessage
      rw [if_neg h1, if_pos h2, hc, hz]
      obtain ⟨a, b, c, d⟩ := cfSaveConfig_then_reset (cfSoftwareReset env)
        (fun t => ⟨(cfSoftwareReset_frame env t).1, (cfSoftwareReset_frame env t).2.1⟩)
        (fun c => { c with p1 := copyTypedDataP1 data })
        (fun c e => { e with
          parameters1 := Function.update e.parameters1 (absAddr PARAMETERS_1_NVM_ADDR s)
            ((e.parameters1 (absAddr PARAMETERS_1_NVM_ADDR s)).written c.p1) })
        136 nItems PARAMETER_1_ITEMS (absAddr PARAMETERS_1_NVM_ADDR s) s
      exact ⟨⟨fun h => absurd h b, fun h => absurd hk h⟩, fun h => absurd hk h,
        fun _ => ⟨a, c, d⟩⟩
    by_cases h3 : block = PARAMETER_2_BLK
    · have hk : cfKnownBlock block := Or.inr (Or.inr (Or.inl h3))
      have hc : cfBlockItemCount block = PARAMETER_2_ITEMS := by rw [h3]; rfl
      have hz : cfBlockBytes block = 108 := by rw [h3]; rfl
      unfold cfProcessNVMMessage
      rw [if_neg h1, if_neg h2, if_pos h3, hc, hz]
      obtain ⟨a, b, c, d⟩ := cfSaveConfig_then_reset (cfSoftwareReset env)
        (fun t => ⟨(cfSoftwareReset_frame env t).1, (cfSoftwareReset_frame env t).2.1⟩)
        (fun c => { c with p2 := copyTypedDataP2 data })
        (fun c e => { e with
          parameters2 := Function.update e.parameters2 (absAddr PARAMETERS_2_NVM_ADDR s)
            ((e.parameters2 (absAddr PARAMETERS_2_NVM_ADDR s)).written c.p2) })
        108 nItems PARAMETER_2_ITEMS (absAddr PARAMETERS_2_NVM_ADDR s) s
      exact ⟨⟨fun h => absurd h b, fun h => absurd hk h⟩, fun h => absurd hk h,
        fun _ => ⟨a, c, d⟩⟩
    by_cases h4 : block = VE_MAP_BLK
    · have hk : cfKnownBlock block := Or.inr (Or.inr (Or.inr (Or.inl h4)))
      have hc : cfBlockItemCount block = VE_MAP_ITEMS := by rw [h4]; rfl
      have hz : cfBlockBytes block = 256 := by rw [h4]; rfl
      unfold cfProcessNVMMessage
      rw [if_neg h1, if_neg h2, if_neg h3, if_pos h4, hc, hz]
      obtain ⟨a, b, c, d⟩ := cfSaveConfig_then_reset (cfSoftwareResetMaps env)
        (fun t => ⟨(cfSoftwareResetMaps_frame env t).1, (cfSoftwareResetMaps_frame env t).2.1⟩)
        (fun c => { c with veMap := copyTypedDataMap data c.veMap })
        (fun c e => { e with
          maps := Function.update e.maps (absAddr VE_MAP_NVM_ADDR s)
            ((e.maps (absAddr VE_MAP_NVM_ADDR s)).written c.veMap) })
        256 nItems VE_MAP_ITEMS (absAddr VE_MAP_NVM_ADDR s) s
      exact ⟨⟨fun h => absurd h b, fun h => absurd hk h⟩, fun h => absurd hk h,
        fun _ => ⟨a, c, d⟩⟩
    by_cases h5 : block = IGN_MAP_BLK
    · have hk : cfKnownBlock block := Or.inr (Or.inr (Or.inr (Or.inr (Or.inl h5))))
      have hc : cfBlockItemCount block = IGN_MAP_ITEMS := by rw [h5]; rfl
      have hz : cfBlockBytes block = 256 := by rw [h5]; rfl
      unfold cfProcessNVMMessage
      rw [if_neg h1, if_neg h2, if_neg h3, if_neg h4, if_pos h5, hc, hz]
      obtain ⟨a, b, c, d⟩ := cfSaveConfig_then_reset (fun t : Ecu X => t)
        (fun t => ⟨rfl, nvSameDevice_refl _⟩)
        (fun c => { c with ignitionMap := copyTypedDataMap data c.ignitionMap })
        (fun c e => { e with
          maps := Function.update e.maps (absAddr IGNITION_MAP_NVM_ADDR s)
            ((e.maps (absAddr IGNITION_MAP_NVM_ADDR s)).written c.ignitionMap) })
        256 nItems IGN_MAP_ITEMS (absAddr IGNITION_MAP_NVM_ADDR s) s
      exact ⟨⟨fun h => absurd h b, fun h => absurd hk h⟩, fun h => absurd hk h,
        fun _ => ⟨a, c, d⟩⟩
    by_cases h6 : block = TGT_AFR_BLK
    · have hk : cfKnownBlock block := Or.inr (Or.inr (Or.inr (Or.inr (Or.inr h6))))
      have hc : cfBlockItemCount block = TGT_AFR_ITEMS := by rw [h6]; rfl
      have hz : cfBlockBytes block = 256 := by rw [h6]; rfl
      unfold cfProcessNVMMessage
      rw [if_neg h1, if_neg h2, if_neg h3, if_neg h4, if_neg h5, if_pos h6, hc, hz]
      obtain ⟨a, b, c, d⟩ := cfSaveConfig_then_reset (cfSoftwareResetMaps env)
        (fun t => ⟨(cfSoftwareResetMaps_frame env t).1, (cfSoftwareResetMaps_frame env t).2.1⟩)
        (fun c => { c with targetAFRMap := copyTypedDataMap data c.targetAFRMap })
        (fun c e => { e with
          maps := Function.update e.maps (absAddr TGT_AFR_MAP_NVM_ADDR s)
            ((e.maps (absAddr TGT_AFR_MAP_NVM_ADDR s)).written c.targetAFRMap) })
        256 nItems TGT_AFR_ITEMS (absAddr TGT_AFR_MAP_NVM_ADDR s) s
      exact ⟨⟨fun h => absurd h b, fun h => absurd hk h⟩, fun h => absurd hk h,
        fun _ => ⟨a, c, d⟩⟩
    have hk : ¬ cfKnownBlock block := by
      rintro (h | h | h | h | h | h)
      · exact h1 h
      · exact h2 h
      · exact h3 h
      · exact h4 h
      · exact h5 h
      · exact h6 h
    unfold cfProcessNVMMessage
    rw [if_neg h1, if_neg h2, if_neg h3, if_neg h4, if_neg h5, if_neg h6]
    exact ⟨⟨fun _ => hk, fun _ => rfl⟩, fun _ => rfl, fun h => absurd h hk⟩
  exact ⟨main.1, main.2.1, main.2.2,
    fun store addr status => nvEEPROMBlockWrite_result store addr _ _ status⟩

/-- C19, at concrete inputs: on the initialised ECU with a device that answers,
7 items for the filters block are refused, 8 items are stored, and block 150 is
unknown; when the transmission of the 32 bytes fails after the device has
answered (bus operation 1), 8 items give `CF_WRITE_ERROR`. -/
theorem C19_apply_configuration_block_witness :
    (cfProcessNVMMessage modulesIdle 100 7 (fun _ => ⟨0, 0⟩) (ecuStart 0 eepromFitted)).1 =
      cfErrorCode.CF_DATA_SIZE_MISMATCH ∧
    (cfProcessNVMMessage modulesIdle 100 8 (fun _ => ⟨0, 0⟩) (ecuStart 0 eepromFitted)).1 =
      cfErrorCode.CF_SUCCESS ∧
    (cfProcessNVMMessage modulesIdle 100 8 (fun _ => ⟨0, 0⟩)
      (ecuStart 0 (eepromFailing 1 eepromFitted))).1 = cfErrorCode.CF_WRITE_ERROR ∧
    (cfProcessNVMMessage modulesIdle 150 8 (fun _ => ⟨0, 0⟩) (ecuStart 0 eepromFitted)).1 =
      cfErrorCode.CF_UNKNOWN_BLOCK_ID :=
  ⟨((C19_apply_configuration_block modulesIdle 100 7 (fun _ => ⟨0, 0⟩)
      (ecuStart 0 eepromFitted)).2.2.1 (Or.inl rfl)).1.mpr (by decide),
   (((C19_apply_configuration_block modulesIdle 100 8 (fun _ => ⟨0, 0⟩)
      (ecuStart 0 eepromFitted)).2.2.1 (Or.inl rfl)).2.2 (by decide)).trans
      (if_pos (by decide)),
   (((C19_apply_configuration_block modulesIdle 100 8 (fun _ => ⟨0, 0⟩)
      (ecuStart 0 (eepromFailing 1 eepromFitted))).2.2.1 (Or.inl rfl)).2.2 (by decide)).trans
      (if_neg (by decide)),
   (C19_apply_configuration_block modulesIdle 150 8 (fun _ => ⟨0, 0⟩)
      (ecuStart 0 eepromFitted)).1.mpr (by decide)⟩

/-! ## Missing-tooth test and period filter: claims -/

/-- The half-way test on integers is the test over the rationals. -/
theorem half_iff (tooth twTeeth : Int) (h : 0 ≤ twTeeth) :
    tooth > Int.tdiv twTeeth 2 ↔ (tooth : ℚ) > (twTeeth : ℚ) / 2 := by
  rw [Int.tdiv_eq_ediv h (by norm_num)]
  constructor
  · intro h1
    have h2 : twTeeth < 2 * tooth := by omega
    have h3 : (twTeeth : ℚ) < 2 * (tooth : ℚ) := by exact_mod_cast h2
    linarith
  · intro h1
    have h3 : (twTeeth : ℚ) < 2 * (tooth : ℚ) := by linarith
    have h2 : twTeeth < 2 * tooth := by exact_mod_cast h3
    omega

/-- C27. The integer missing-tooth test agrees with the 1.5 x threshold: for
all integers period and estimate, `period > estimate + (estimate >> 1)` (an
arithmetic shift) holds exactly when `period > 1.5 * estimate` over the
rationals; for every integer tooth and `twTeeth >= 0`, `tooth > twTeeth / 2`
with the integer division of `setTriggerWheelConfig` holds exactly when
`tooth > twTeeth / 2` over the rationals; so the test of the handler after
`setTriggerWheelConfig` is the conjunction of the two rational comparisons. -/
theorem C27_integer_missing_tooth_test (period : Int) (s : TriggerWheel)
    (hN : 0 ≤ s.cfPage1.p2.twTeeth) :
    (period > s.crankPulsePeriodEstimate + (s.crankPulsePeriodEstimate >>> (1 : Nat)) ↔
      (period : ℚ) > 3 / 2 * (s.crankPulsePeriodEstimate : ℚ)) ∧
    (s.currentTooth > (setTriggerWheelConfig s).triggerWheelTeethHalf ↔
      (s.currentTooth : ℚ) > (s.cfPage1.p2.twTeeth : ℚ) / 2) ∧
    (twMissingToothDetected period (setTriggerWheelConfig s) = true ↔
      ((s.currentTooth : ℚ) > (s.cfPage1.p2.twTeeth : ℚ) / 2 ∧
       (period : ℚ) > 3 / 2 * (s.crankPulsePeriodEstimate : ℚ))) := by
  have h1 := threshold_iff period s.crankPulsePeriodEstimate
  have h2 : s.currentTooth > (setTriggerWheelConfig s).triggerWheelTeethHalf ↔
      (s.currentTooth : ℚ) > (s.cfPage1.p2.twTeeth : ℚ) / 2 :=
    half_iff s.currentTooth s.cfPage1.p2.twTeeth hN
  refine ⟨h1, h2, ?_⟩
  unfold twMissingToothDetected
  rw [decide_eq_true_iff]
  exact and_congr h2 h1

/-- C27, at a concrete input: 36 teeth, tooth 19, estimate 10001, period
15002. -/
theorem C27_integer_missing_tooth_test_witness :
    twMissingToothDetected 15002
      (setTriggerWheelConfig
        { twStart with currentTooth := 19, crankPulsePeriodEstimate := 10001 }) = true ↔
      (((19 : Int) : ℚ) > ((36 : Int) : ℚ) / 2 ∧
       ((15002 : Int) : ℚ) > 3 / 2 * ((10001 : Int) : ℚ)) :=
  (C27_integer_missing_tooth_test 15002
    { twStart with currentTooth := 19, crankPulsePeriodEstimate := 10001 } (by decide)).2.2

/-- C28. A gap period never enters the period filter: in a call of
`crankshaftPulseHandler` in which a missing tooth is detected,
`crankPulsePeriodR` is unchanged, and the filter memory, `crankPulsePeriodF`,
the last filtered value and the period estimate after the call are the same for
every period (and pin level) that triggers the detection; in a call without
detection `crankPulsePeriodR` becomes the period of the call, and that value is
the one fed to the filter. -/
theorem C28_gap_period_not_filtered (cmp1 cmp2 : Bool) (p1 p2 : Int) (s : TriggerWheel) :
    (twDetects p1 s = true →
      (crankshaftPulseHandler cmp1 p1 s).crankPulsePeriodR = s.crankPulsePeriodR ∧
      (crankshaftPulseHandler cmp1 p1 s).crankPulsePeriodFN_1 =
        ((s.crankPulsePeriodR * 2 ^ s.cfPage1.filters.crankshaftPulseFilter
            - s.crankPulsePeriodFN_1) >>> s.cfPage1.filters.crankshaftPulseFilter)
          + s.crankPulsePeriodFN_1) ∧
    (twDetects p1 s = true → twDetects p2 s = true →
      (crankshaftPulseHandler cmp1 p1 s).crankPulsePeriodFN_1 =
        (crankshaftPulseHandler cmp2 p2 s).crankPulsePeriodFN_1 ∧
      (crankshaftPulseHandler cmp1 p1 s).crankPulsePeriodF =
        (crankshaftPulseHandler cmp2 p2 s).crankPulsePeriodF ∧
      (crankshaftPulseHandler cmp1 p1 s).crankPulsePeriodFtN_1 =
        (crankshaftPulseHandler cmp2 p2 s).crankPulsePeriodFtN_1 ∧
      (crankshaftPulseHandler cmp1 p1 s).crankPulsePeriodEstimate =
        (crankshaftPulseHandler cmp2 p2 s).crankPulsePeriodEstimate) ∧
    (twDetects p1 s = false →
      (crankshaftPulseHandler cmp1 p1 s).crankPulsePeriodR = p1 ∧
      (crankshaftPulseHandler cmp1 p1 s).crankPulsePeriodFN_1 =
        ((p1 * 2 ^ s.cfPage1.filters.crankshaftPulseFilter
            - s.crankPulsePeriodFN_1) >>> s.cfPage1.filters.crankshaftPulseFilter)
          + s.crankPulsePeriodFN_1) := by
  obtain ⟨f1, f2, f3, f4⟩ := crankshaftPulseHandler_filter cmp1 p1 s
  obtain ⟨g1, g2, g3, g4⟩ := crankshaftPulseHandler_filter cmp2 p2 s
  refine ⟨fun h1 => ?_, fun h1 h2 => ?_, fun h1 => ?_⟩
  · have hR := (crankshaftPulseHandler_detect cmp1 p1 s h1).2.2.2.2.2.2
    rw [hR] at f1
    exact ⟨hR, f1⟩
  · have hR1 := (crankshaftPulseHandler_detect cmp1 p1 s h1).2.2.2.2.2.2
    have hR2 := (crankshaftPulseHandler_detect cmp2 p2 s h2).2.2.2.2.2.2
    rw [hR1] at f1
    rw [hR2] at g1
    have e1 : (crankshaftPulseHandler cmp1 p1 s).crankPulsePeriodFN_1 =
        (crankshaftPulseHandler cmp2 p2 s).crankPulsePeriodFN_1 := by rw [f1, g1]
    have e2 : (crankshaftPulseHandler cmp1 p1 s).crankPulsePeriodF =
        (crankshaftPulseHandler cmp2 p2 s).crankPulsePeriodF := by rw [f2, g2, e1]
    exact ⟨e1, e2, by rw [f4, g4, e2], by rw [f3, g3, e2]⟩
  · have hR := (crankshaftPulseHandler_nodetect cmp1 p1 s h1).2.2.2.2.2.2
    rw [hR] at f1
    exact ⟨hR, f1⟩

/-- C28, at a concrete input: at tooth 35 of the running wheel, settled on a
period of 10000, gaps of 20000 and of 30000 are both detected and leave the
same filtered period. -/
theorem C28_gap_period_not_filtered_witness :
    (crankshaftPulseHandler true 20000 (twRunning 35 3 10000)).crankPulsePeriodR =
      (twRunning 35 3 10000).crankPulsePeriodR ∧
    (crankshaftPulseHandler true 20000 (twRunning 35 3 10000)).crankPulsePeriodF =
      (crankshaftPulseHandler false 30000 (twRunning 35 3 10000)).crankPulsePeriodF :=
  ⟨((C28_gap_period_not_filtered true false 20000 30000 (twRunning 35 3 10000)).1
      (by decide)).1,
   ((C28_gap_period_not_filtered true false 20000 30000 (twRunning 35 3 10000)).2.1
      (by decide) (by decide)).2.1⟩

/-! ## Angle conversion: lemmas and claim -/

theorem floatToInt_of_nonneg (x : ℚ) (h : 0 ≤ x) : floatToInt x = ⌊x⌋ := by
  unfold floatToInt
  rw [if_pos h]

/-- A delay computed from a vernier in `[0, 1)` and a non-negative period. -/
theorem delay_bounds (F : Int) (v : ℚ) (hv0 : 0 ≤ v) (hv1 : v < 1) (hF : 0 ≤ F) :
    0 ≤ floatToInt ((F : ℚ) * v) ∧ floatToInt ((F : ℚ) * v) ≤ F ∧
    (0 < F → floatToInt ((F : ℚ) * v) < F) := by
  have hFq : (0 : ℚ) ≤ (F : ℚ) := by exact_mod_cast hF
  have hx : 0 ≤ (F : ℚ) * v := mul_nonneg hFq hv0
  rw [floatToInt_of_nonneg _ hx]
  refine ⟨Int.floor_nonneg.mpr hx, ?_, fun hpos => ?_⟩
  · have h1 : (F : ℚ) * v ≤ (F : ℚ) := by nlinarith
    have h2 : ((⌊(F : ℚ) * v⌋ : Int) : ℚ) ≤ (F : ℚ) := le_trans (Int.floor_le _) h1
    exact_mod_cast h2
  · have hFp : (0 : ℚ) < (F : ℚ) := by exact_mod_cast hpos
    have h1 : (F : ℚ) * v < (F : ℚ) := by nlinarith
    have h2 : ((⌊(F : ℚ) * v⌋ : Int) : ℚ) < (F : ℚ) := lt_of_le_of_lt (Int.floor_le _) h1
    exact_mod_cast h2

/-- The index and the vernier of a non-negative angle in tooth units. -/
theorem angleToIndexAndVernier_spec (s : TriggerWheel) (angle : ℚ)
    (h : 0 ≤ angle * s.triggerWheelToothSpacingReciprocal) :
    (angleToIndexAndVernier s angle).1 = ⌊angle * s.triggerWheelToothSpacingReciprocal⌋ ∧
    (angleToIndexAndVernier s angle).2 =
      angle * s.triggerWheelToothSpacingReciprocal -
        (⌊angle * s.triggerWheelToothSpacingReciprocal⌋ : Int) ∧
    0 ≤ (angleToIndexAndVernier s angle).2 ∧ (angleToIndexAndVernier s angle).2 < 1 := by
  unfold angleToIndexAndVernier
  dsimp only
  rw [floatToInt_of_nonneg _ h]
  refine ⟨rfl, rfl, ?_, ?_⟩
  · have := Int.floor_le (angle * s.triggerWheelToothSpacingReciprocal)
    linarith
  · have := Int.lt_floor_add_one (angle * s.triggerWheelToothSpacingReciprocal)
    linarith

theorem setTriggerWheelConfig_reciprocal_nonneg (s : TriggerWheel) (angle : ℚ)
    (hangle : 0 ≤ angle) (hN : 0 < s.cfPage1.p2.twTeeth) :
    0 ≤ angle * (setTriggerWheelConfig s).triggerWheelToothSpacingReciprocal := by
  have h : (0 : ℚ) < (s.cfPage1.p2.twTeeth : ℚ) := by exact_mod_cast hN
  have h2 : (setTriggerWheelConfig s).triggerWheelToothSpacingReciprocal =
      (s.cfPage1.p2.twTeeth : ℚ) / 360 := rfl
  rw [h2]
  positivity

/-- C30. Angle to tooth index and vernier: after `setTriggerWheelConfig` with
`twTeeth > 0`, for every angle >= 0 `angleToIndexAndVernier` returns
`index = floor(angle * twTeeth / 360)` and
`vernier = angle * twTeeth / 360 - index` with `0 <= vernier < 1`, so that
`index + vernier` is the angle in tooth units; the injection delay and the
ignition delay derived from such a vernier, `crankPulsePeriodF * vernier`
converted to `int`, are non-negative and, for a positive tooth period
`crankPulsePeriodF`, less than it. -/
theorem C30_angle_to_index_and_vernier (s : TriggerWheel) (angle : ℚ) (hangle : 0 ≤ angle)
    (hN : 0 < s.cfPage1.p2.twTeeth) :
    (angleToIndexAndVernier (setTriggerWheelConfig s) angle).1 =
      ⌊angle * (s.cfPage1.p2.twTeeth : ℚ) / 360⌋ ∧
    (angleToIndexAndVernier (setTriggerWheelConfig s) angle).2 =
      angle * (s.cfPage1.p2.twTeeth : ℚ) / 360 -
        ((angleToIndexAndVernier (setTriggerWheelConfig s) angle).1 : ℚ) ∧
    0 ≤ (angleToIndexAndVernier (setTriggerWheelConfig s) angle).2 ∧
    (angleToIndexAndVernier (setTriggerWheelConfig s) angle).2 < 1 ∧
    (∀ (injectorAngle PW : ℚ), angle = s.cfPage1.p2.twTDCAngle - injectorAngle →
      0 < s.crankPulsePeriodF →
      0 ≤ (twSetInjectionTiming PW
            (setInjectionAngle injectorAngle (setTriggerWheelConfig s))).injectorDelay ∧
      (twSetInjectionTiming PW
            (setInjectionAngle injectorAngle (setTriggerWheelConfig s))).injectorDelay
        < s.crankPulsePeriodF) ∧
    (∀ advance : ℚ, angle = s.cfPage1.p2.twTDCAngle - advance →
      0 < s.crankPulsePeriodF →
      0 ≤ (twSetIgnitionTiming advance (setTriggerWheelConfig s)).ignitionDelay ∧
      (twSetIgnitionTiming advance (setTriggerWheelConfig s)).ignitionDelay
        < s.crankPulsePeriodF) := by
  have hr := setTriggerWheelConfig_reciprocal_nonneg s angle hangle hN
  obtain ⟨h1, h2, h3, h4⟩ := angleToIndexAndVernier_spec (setTriggerWheelConfig s) angle hr
  have hrec : (setTriggerWheelConfig s).triggerWheelToothSpacingReciprocal =
      (s.cfPage1.p2.twTeeth : ℚ) / 360 := rfl
  have hmul : angle * (setTriggerWheelConfig s).triggerWheelToothSpacingReciprocal =
      angle * (s.cfPage1.p2.twTeeth : ℚ) / 360 := by rw [hrec]; ring
  refine ⟨by rw [h1, hmul], ?_, h3, h4, ?_, ?_⟩
  · rw [h2, h1, hmul]
  · intro injectorAngle PW ha hF
    have hd := delay_bounds s.crankPulsePeriodF
      (angleToIndexAndVernier (setTriggerWheelConfig s) angle).2 h3 h4 (le_of_lt hF)
    rw [ha] at hd
    exact ⟨hd.1, hd.2.2 hF⟩
  · intro advance ha hF
    have hd := delay_bounds s.crankPulsePeriodF
      (angleToIndexAndVernier (setTriggerWheelConfig s) angle).2 h3 h4 (le_of_lt hF)
    rw [ha] at hd
    exact ⟨hd.1, hd.2.2 hF⟩

/-- C30, at a concrete input: 36 teeth and an angle of 42 degrees give index 4
and vernier 0.2. -/
theorem C30_angle_to_index_and_vernier_witness :
    (angleToIndexAndVernier (setTriggerWheelConfig twStart) 42).1 = 4 ∧
    (angleToIndexAndVernier (setTriggerWheelConfig twStart) 42).2 = 1 / 5 := by
  have h := C30_angle_to_index_and_vernier twStart 42 (by norm_num) (by decide)
  have hN : ((twStart.cfPage1.p2.twTeeth : Int) : ℚ) = 36 := by
    have : twStart.cfPage1.p2.twTeeth = 36 := rfl
    rw [this]
    norm_num
  have h1 : (angleToIndexAndVernier (setTriggerWheelConfig twStart) 42).1 = 4 := by
    rw [h.1, hN]
    norm_num [Int.floor_eq_iff]
  refine ⟨h1, ?_⟩
  rw [h.2.1, h1, hN]
  norm_num

/-! ## Temperature compensation: claim -/

/-- C24. Temperature compensation: after `initTempCompSlope(T1, c1, T2, c2, k)`
with `T1 < T2`, `temperatureCompensation(T, k)` equals `1 + c1/100` for every
`T <= T1`, equals `1 + c2/100` for every `T >= T2`, and for `T1 <= T <= T2`
equals `1 + (a * T + b)` with `a = (c2 - c1) / (100 * (T2 - T1))` and
`b = c1/100 - a * T1`, the straight line through the two calibration points
(exact rational arithmetic). -/
theorem C24_temperature_compensation (T1 c1 T2 c2 T : ℚ) (k : Int) (s : FuelInjection)
    (h : T1 < T2) :
    (T ≤ T1 → temperatureCompensation (initTempCompSlope T1 c1 T2 c2 k s) T k = 1 + c1 / 100) ∧
    (T2 ≤ T → temperatureCompensation (initTempCompSlope T1 c1 T2 c2 k s) T k = 1 + c2 / 100) ∧
    (T1 ≤ T → T ≤ T2 →
      temperatureCompensation (initTempCompSlope T1 c1 T2 c2 k s) T k =
        1 + ((c2 - c1) / (100 * (T2 - T1)) * T +
          (c1 / 100 - (c2 - c1) / (100 * (T2 - T1)) * T1))) := by
  have hne : T2 - T1 ≠ 0 := by linarith [sub_pos.mpr h]
  have hc : (initTempCompSlope T1 c1 T2 c2 k s).tempCompCoeff k =
      { t1 := T1, t2 := T2, a := ((1 / 100) * c2 - (1 / 100) * c1) / (T2 - T1),
        b := (1 / 100) * c1 - ((1 / 100) * c2 - (1 / 100) * c1) / (T2 - T1) * T1 } := by
    unfold initTempCompSlope
    dsimp only
    rw [Function.update_same]
  unfold temperatureCompensation
  rw [hc]
  dsimp only
  refine ⟨fun hT => ?_, fun hT => ?_, fun hT1 hT2 => ?_⟩
  · have hl : limitF T T1 T2 = T1 := by
      rw [limitF_eq_max_min, min_eq_left (by linarith), max_eq_left hT]
    rw [hl]
    field_simp
    ring
  · have hl : limitF T T1 T2 = T2 := by
      rw [limitF_eq_max_min, min_eq_right hT, max_eq_right (le_of_lt h)]
    rw [hl]
    field_simp
    ring
  · have hl : limitF T T1 T2 = T := by
      rw [limitF_eq_max_min, min_eq_left hT2, max_eq_right hT1]
    rw [hl]
    field_simp

/-- C24, at a concrete input: the engine temperature slope of the default
configuration (10 % at 0 degrees, -5 % at 50 degrees) below, above and between
the calibration points. -/
theorem C24_temperature_compensation_witness :
    temperatureCompensation (initTempCompSlope 0 10 50 (-5) 0 (fuBoot cfPage1Default)) (-20) 0 =
      1 + 10 / 100 ∧
    temperatureCompensation (initTempCompSlope 0 10 50 (-5) 0 (fuBoot cfPage1Default)) 90 0 =
      1 + (-5) / 100 :=
  ⟨(C24_temperature_compensation 0 10 50 (-5) (-20) 0 (fuBoot cfPage1Default)
      (by norm_num)).1 (by norm_num),
   (C24_temperature_compensation 0 10 50 (-5) 90 0 (fuBoot cfPage1Default)
      (by norm_num)).2.1 (by norm_num)⟩

/-! ## AFR correction: frame lemmas and claims -/

theorem gridCopy_inGrid (new old : EngineMap) (l r : Int) (h : inGrid l r = true) :
    gridCopy new old l r = new l r := by
  unfold gridCopy
  rw [if_pos h]

theorem inGrid_iff (l r : Int) : inGrid l r = true ↔ (0 ≤ l ∧ l < 8) ∧ (0 ≤ r ∧ r < 8) := by
  unfold inGrid VE_MAP_SIZE_LOAD VE_MAP_SIZE_RPM
  rw [decide_eq_true_iff]
  tauto

/-- C25. AFR reset: after `afResetAFRNoSave`, for every cell `(l, r)` of the 8x8
grid the long-term average and the filter memory equal `targetAFRMap[l][r]`, and
the correction, the sample count and the cumulative error are 0. -/
theorem C25_afr_reset (correctionArray : EngineMap) (s : AutoAfr) (l r : Int)
    (hl : 0 ≤ l ∧ l < 8) (hr : 0 ≤ r ∧ r < 8) :
    (afResetAFRNoSave correctionArray s).2.afrData.lambdaAverages l r =
      s.cfPage1.targetAFRMap l r ∧
    (afResetAFRNoSave correctionArray s).2.filterN_1 l r = s.cfPage1.targetAFRMap l r ∧
    (afResetAFRNoSave correctionArray s).1 l r = 0 ∧
    (afResetAFRNoSave correctionArray s).2.afrData.lambdaSamples l r = 0 ∧
    (afResetAFRNoSave correctionArray s).2.afrData.cumulativeError l r = 0 := by
  have hg : inGrid l r = true := (inGrid_iff l r).mpr ⟨hl, hr⟩
  unfold afResetAFRNoSave
  dsimp only
  exact ⟨gridCopy_inGrid _ _ l r hg, gridCopy_inGrid _ _ l r hg, gridCopy_inGrid _ _ l r hg,
    gridCopy_inGrid _ _ l r hg, gridCopy_inGrid _ _ l r hg⟩

/-- C25, at a concrete input: cell (7, 7) of the default configuration, whose
target is 600, after a run that has changed the cell. -/
theorem C25_afr_reset_witness :
    (afResetAFRNoSave (afRun [(2000, 90)] 7 7 100 afStart).1
      (afRun [(2000, 90)] 7 7 100 afStart).2).2.afrData.lambdaAverages 7 7 =
      (afRun [(2000, 90)] 7 7 100 afStart).2.cfPage1.targetAFRMap 7 7 ∧
    (afResetAFRNoSave (afRun [(2000, 90)] 7 7 100 afStart).1
      (afRun [(2000, 90)] 7 7 100 afStart).2).2.afrData.cumulativeError 7 7 = 0 :=
  ⟨(C25_afr_reset (afRun [(2000, 90)] 7 7 100 afStart).1
      (afRun [(2000, 90)] 7 7 100 afStart).2 7 7 (by decide) (by decide)).1,
   (C25_afr_reset (afRun [(2000, 90)] 7 7 100 afStart).1
      (afRun [(2000, 90)] 7 7 100 afStart).2 7 7 (by decide) (by decide)).2.2.2.2⟩

theorem afUpdateAverage_other (l r a b : Int) (lambdaVoltage : ℚ) (s : AutoAfr)
    (h : ¬ (a = l ∧ b = r)) :
    (afUpdateAverage l r lambdaVoltage s).afrData.lambdaAverages a b =
      s.afrData.lambdaAverages a b ∧
    (afUpdateAverage l r lambdaVoltage s).afrData.lambdaSamples a b =
      s.afrData.lambdaSamples a b ∧
    (afUpdateAverage l r lambdaVoltage s).filterN_1 a b = s.filterN_1 a b := by
  unfold afUpdateAverage
  split_ifs
  · exact ⟨setCell_other _ _ _ _ _ _ h, setCell_other _ _ _ _ _ _ h, setCell_other _ _ _ _ _ _ h⟩
  · exact ⟨rfl, rfl, rfl⟩

theorem afIntegrateError_other (l r : Int) (e : ℚ) (s : AutoAfr) :
    (afIntegrateError l r e s).afrData.lambdaAverages = s.afrData.lambdaAverages ∧
    (afIntegrateError l r e s).afrData.lambdaSamples = s.afrData.lambdaSamples ∧
    (afIntegrateError l r e s).filterN_1 = s.filterN_1 ∧
    (afIntegrateError l r e s).dataLock = s.dataLock ∧
    (∀ a b, ¬ (a = l ∧ b = r) →
      (afIntegrateError l r e s).afrData.cumulativeError a b = s.afrData.cumulativeError a b) := by
  unfold afIntegrateError
  split_ifs
  · exact ⟨rfl, rfl, rfl, rfl, fun a b h => setCell_other _ _ _ _ _ _ h⟩
  · exact ⟨rfl, rfl, rfl, rfl, fun _ _ _ => rfl⟩

/-- The result of an active call of `afComputeCorrection`, step by step. -/
theorem afComputeCorrection_active (RPM engineTemp : ℚ) (l r : Int) (lambdaVoltage : ℚ)
    (c : EngineMap) (s : AutoAfr) (h : afActive s.cfPage1 (RPM, engineTemp)) :
    afComputeCorrection RPM engineTemp l r lambdaVoltage c s =
      (setCell c l r
        (s.cfPage1.p1.afrCorrectionGainP * (s.cfPage1.targetAFRMap l r - lambdaVoltage) +
         s.cfPage1.p1.afrCorrectionGainI *
          (afComputeCorrection RPM engineTemp l r lambdaVoltage c s).2.afrData.cumulativeError
            l r),
       afIntegrateError l r (s.cfPage1.targetAFRMap l r - lambdaVoltage)
        (afUpdateAverage l r lambdaVoltage
          { s with ecuStatus := setStatus AFR_ACTIVE_CONTROL s.ecuStatus })) := by
  have h2 : engineTemp > s.cfPage1.p1.engTempCompT2 ∧ RPM > s.cfPage1.p1.crankingThreshold := h
  unfold afComputeCorrection
  dsimp only
  rw [if_pos h2, (afIntegrateError_frame _ _ _ _).1, (afUpdateAverage_frame _ _ _ _).1]

/-- The result of a call of `afComputeCorrection` that is not active. -/
theorem afComputeCorrection_inactive (RPM engineTemp : ℚ) (l r : Int) (lambdaVoltage : ℚ)
    (c : EngineMap) (s : AutoAfr) (h : ¬ afActive s.cfPage1 (RPM, engineTemp)) :
    afComputeCorrection RPM engineTemp l r lambdaVoltage c s =
      (c, { s with ecuStatus := clearStatus AFR_ACTIVE_CONTROL s.ecuStatus }) := by
  have h2 : ¬ (engineTemp > s.cfPage1.p1.engTempCompT2 ∧ RPM > s.cfPage1.p1.crankingThreshold) :=
    h
  unfold afComputeCorrection
  rw [if_neg h2]

/-- C22. AFR correction for the current cell only: an active call of
`afComputeCorrection` for the cell `(loadIndex, rpmIndex)` leaves the
accumulator of the cell at `old + 0.001 * e` when the old magnitude was below
10000 and at the old value otherwise, with `e = target - lambdaVoltage`, and
writes `gainP * e + gainI * accumulator` (the accumulator after the update) to
the correction of the cell; the correction, the cumulative error, the average
and the sample count of every other cell are unchanged. -/
theorem C22_correction_current_cell_only (RPM engineTemp : ℚ) (loadIndex rpmIndex : Int)
    (lambdaVoltage : ℚ) (correctionArray : EngineMap) (s : AutoAfr)
    (h : engineTemp > s.cfPage1.p1.engTempCompT2 ∧ RPM > s.cfPage1.p1.crankingThreshold) :
    (afComputeCorrection RPM engineTemp loadIndex rpmIndex lambdaVoltage correctionArray
        s).2.afrData.cumulativeError loadIndex rpmIndex =
      (if |s.afrData.cumulativeError loadIndex rpmIndex| < 10000 then
        s.afrData.cumulativeError loadIndex rpmIndex +
          (1 / 1000) * (s.cfPage1.targetAFRMap loadIndex rpmIndex - lambdaVoltage)
      else s.afrData.cumulativeError loadIndex rpmIndex) ∧
    (afComputeCorrection RPM engineTemp loadIndex rpmIndex lambdaVoltage correctionArray
        s).1 loadIndex rpmIndex =
      s.cfPage1.p1.afrCorrectionGainP *
          (s.cfPage1.targetAFRMap loadIndex rpmIndex - lambdaVoltage) +
        s.cfPage1.p1.afrCorrectionGainI *
          (afComputeCorrection RPM engineTemp loadIndex rpmIndex lambdaVoltage correctionArray
            s).2.afrData.cumulativeError loadIndex rpmIndex ∧
    (∀ a b : Int, ¬ (a = loadIndex ∧ b = rpmIndex) →
      (afComputeCorrection RPM engineTemp loadIndex rpmIndex lambdaVoltage correctionArray
          s).1 a b = correctionArray a b ∧
      (afComputeCorrection RPM engineTemp loadIndex rpmIndex lambdaVoltage correctionArray
          s).2.afrData.cumulativeError a b = s.afrData.cumulativeError a b ∧
      (afComputeCorrection RPM engineTemp loadIndex rpmIndex lambdaVoltage correctionArray
          s).2.afrData.lambdaAverages a b = s.afrData.lambdaAverages a b ∧
      (afComputeCorrection RPM engineTemp loadIndex rpmIndex lambdaVoltage correctionArray
          s).2.afrData.lambdaSamples a b = s.afrData.lambdaSamples a b) := by
  have ha : afActive s.cfPage1 (RPM, engineTemp) := h
  have hcum := afComputeCorrection_cumulativeError RPM engineTemp loadIndex rpmIndex
    lambdaVoltage correctionArray s ha
  have hres := afComputeCorrection_active RPM engineTemp loadIndex rpmIndex lambdaVoltage
    correctionArray s ha
  refine ⟨hcum, ?_, fun a b hab => ?_⟩
  · have h1 := congrArg (fun p : EngineMap × AutoAfr => p.1 loadIndex rpmIndex) hres
    dsimp only at h1
    rw [h1, setCell_same]
  · have h1 := congrArg (fun p : EngineMap × AutoAfr => p.1 a b) hres
    have h2 := congrArg (fun p : EngineMap × AutoAfr => p.2) hres
    dsimp only at h1 h2
    obtain ⟨i1, i2, -, -, i5⟩ := afIntegrateError_other loadIndex rpmIndex
      (s.cfPage1.targetAFRMap loadIndex rpmIndex - lambdaVoltage)
      (afUpdateAverage loadIndex rpmIndex lambdaVoltage
        { s with ecuStatus := setStatus AFR_ACTIVE_CONTROL s.ecuStatus })
    obtain ⟨u1, u2, -⟩ := afUpdateAverage_other loadIndex rpmIndex a b lambdaVoltage
      { s with ecuStatus := setStatus AFR_ACTIVE_CONTROL s.ecuStatus } hab
    refine ⟨?_, ?_, ?_, ?_⟩
    · rw [h1, setCell_other _ _ _ _ _ _ hab]
    · rw [h2, i5 a b hab, (afUpdateAverage_frame _ _ _ _).2.1]
    · rw [h2, i1, u1]
    · rw [h2, i2, u2]

/-- C22, at a concrete input: the first active call on cell (0, 0) of the
default configuration with lambda voltage 100 leaves the accumulator at 0.38. -/
theorem C22_correction_current_cell_only_witness :
    (afComputeCorrection 2000 90 0 0 100 afStart.1 afStart.2).2.afrData.cumulativeError 0 0 =
      19 / 50 := by
  have h := (C22_correction_current_cell_only 2000 90 0 0 100 afStart.1 afStart.2
    afStart_active).1
  rw [h, afStart_cumulativeError, afStart_target]
  norm_num

/-! ## Status word: lemmas -/

theorem testStatus_two_pow (j status : Nat) : testStatus (2 ^ j) status = status.testBit j := by
  unfold testStatus
  cases hb : status.testBit j
  · rw [decide_eq_false_iff_not, not_not]
    apply Nat.eq_of_testBit_eq
    intro i
    rw [Nat.testBit_and, Nat.testBit_two_pow, Nat.zero_testBit]
    by_cases hji : j = i
    · rw [← hji, hb]
      rfl
    · simp [hji]
  · rw [decide_eq_true_iff]
    intro h0
    have h1 : (status &&& 2 ^ j).testBit j = true := by
      rw [Nat.testBit_and, Nat.testBit_two_pow_self, hb]
      rfl
    rw [h0, Nat.zero_testBit] at h1
    exact Bool.noConfusion h1

theorem setStatus_testBit (j k status : Nat) :
    (setStatus (2 ^ j) status).testBit k = (status.testBit k || decide (j = k)) := by
  unfold setStatus
  rw [Nat.testBit_or, Nat.testBit_two_pow]

theorem clearStatus_testBit (j k status : Nat) (hj : j < 32) :
    (clearStatus (2 ^ j) status).testBit k =
      (status.testBit k && decide (k < 32) && !decide (j = k)) := by
  unfold clearStatus
  have h32 : (0xFFFFFFFF : Nat) = 2 ^ 32 - 1 := by norm_num
  rw [Nat.testBit_and, Nat.testBit_xor, h32, Nat.testBit_two_pow_sub_one, Nat.testBit_two_pow]
  by_cases hjk : j = k
  · have hk : k < 32 := hjk ▸ hj
    simp [hjk, hk]
  · simp [hjk]

theorem AFR_ACTIVE_CONTROL_eq : AFR_ACTIVE_CONTROL = 2 ^ 14 := by decide

/-- C23. AFR controller inactive state: a call of `afComputeCorrection` with
`engineTemp <= engTempCompT2` or `RPM <= crankingThreshold` leaves the
correction array, the long-term averages, the sample counts and the cumulative
errors unchanged, clears the bit `AFR_ACTIVE_CONTROL` (bit 14) of the status
word and leaves every other bit of the 32-bit word unchanged; an active call
sets the bit. -/
theorem C23_inactive_state (RPM engineTemp : ℚ) (loadIndex rpmIndex : Int)
    (lambdaVoltage : ℚ) (correctionArray : EngineMap) (s : AutoAfr) :
    ((engineTemp ≤ s.cfPage1.p1.engTempCompT2 ∨ RPM ≤ s.cfPage1.p1.crankingThreshold) →
      (afComputeCorrection RPM engineTemp loadIndex rpmIndex lambdaVoltage correctionArray
          s).1 = correctionArray ∧
      (afComputeCorrection RPM engineTemp loadIndex rpmIndex lambdaVoltage correctionArray
          s).2.afrData = s.afrData ∧
      testStatus AFR_ACTIVE_CONTROL
        (afComputeCorrection RPM engineTemp loadIndex rpmIndex lambdaVoltage correctionArray
          s).2.ecuStatus = false ∧
      (∀ k : Nat, k < 32 → k ≠ 14 →
        (afComputeCorrection RPM engineTemp loadIndex rpmIndex lambdaVoltage correctionArray
          s).2.ecuStatus.testBit k = s.ecuStatus.testBit k)) ∧
    ((engineTemp > s.cfPage1.p1.engTempCompT2 ∧ RPM > s.cfPage1.p1.crankingThreshold) →
      testStatus AFR_ACTIVE_CONTROL
        (afComputeCorrection RPM engineTemp loadIndex rpmIndex lambdaVoltage correctionArray
          s).2.ecuStatus = true ∧
      (∀ k : Nat, k ≠ 14 →
        (afComputeCorrection RPM engineTemp loadIndex rpmIndex lambdaVoltage correctionArray
          s).2.ecuStatus.testBit k = s.ecuStatus.testBit k)) := by
  constructor
  · intro h
    have hn : ¬ afActive s.cfPage1 (RPM, engineTemp) := by
      intro ha
      have ha2 : engineTemp > s.cfPage1.p1.engTempCompT2 ∧
          RPM > s.cfPage1.p1.crankingThreshold := ha
      rcases h with h | h
      · exact absurd ha2.1 (not_lt.mpr h)
      · exact absurd ha2.2 (not_lt.mpr h)
    rw [afComputeCorrection_inactive _ _ _ _ _ _ _ hn]
    dsimp only
    rw [AFR_ACTIVE_CONTROL_eq, testStatus_two_pow]
    refine ⟨rfl, rfl, ?_, fun k hk hne => ?_⟩
    · rw [clearStatus_testBit 14 14 _ (by norm_num)]
      simp
    · rw [clearStatus_testBit 14 k _ (by norm_num)]
      simp [hk, Ne.symm hne]
  · intro h
    have ha : afActive s.cfPage1 (RPM, engineTemp) := h
    rw [afComputeCorrection_active _ _ _ _ _ _ _ ha]
    dsimp only
    rw [(afIntegrateError_frame _ _ _ _).2.1, (afUpdateAverage_frame _ _ _ _).2.2.1,
      AFR_ACTIVE_CONTROL_eq, testStatus_two_pow]
    refine ⟨?_, fun k hne => ?_⟩
    · rw [setStatus_testBit]
      simp
    · rw [setStatus_testBit]
      simp [Ne.symm hne]

/-- C23, at a concrete input: a cold engine (40 degrees, threshold 50) with
the status word 0x6100: the bit is cleared, the word becomes 0x2100. -/
theorem C23_inactive_state_witness :
    testStatus AFR_ACTIVE_CONTROL
      (afComputeCorrection 2000 40 0 0 100 afStart.1
        { afStart.2 with ecuStatus := 0x6100 }).2.ecuStatus = false :=
  ((C23_inactive_state 2000 40 0 0 100 afStart.1 { afStart.2 with ecuStatus := 0x6100 }).1
    (Or.inl (by
      have h : ({ afStart.2 with ecuStatus := 0x6100 } : AutoAfr).cfPage1 = cfPage1Default :=
        afStart_cfPage1
      rw [h]
      norm_num [cfPage1Default]))).2.2.1

/-! ## Restoring the configuration: lemmas and claim -/

theorem EEPROM_DATA_READ_ERROR_eq : EEPROM_DATA_READ_ERROR = 2 ^ 10 := by decide

theorem EEPROM_CHECKSUM_ERROR_eq : EEPROM_CHECKSUM_ERROR = 2 ^ 11 := by decide

theorem INVALID_CONFIG_eq : INVALID_CONFIG = 2 ^ 15 := by decide

theorem nvReadFailed_eq (status : Nat) :
    nvReadFailed status = (status.testBit 10 || status.testBit 11) := by
  unfold nvReadFailed
  rw [EEPROM_DATA_READ_ERROR_eq, EEPROM_CHECKSUM_ERROR_eq, testStatus_two_pow,
    testStatus_two_pow]

theorem nvReadFailed_setRead (status : Nat) :
    nvReadFailed (setStatus EEPROM_DATA_READ_ERROR status) = true := by
  rw [nvReadFailed_eq, EEPROM_DATA_READ_ERROR_eq, setStatus_testBit, setStatus_testBit]
  simp

theorem nvReadFailed_setChecksum (status : Nat) :
    nvReadFailed (setStatus EEPROM_CHECKSUM_ERROR status) = true := by
  rw [nvReadFailed_eq, EEPROM_CHECKSUM_ERROR_eq, setStatus_testBit, setStatus_testBit]
  simp

/-- The status word after a block read: as before, or with the read error bit
or the checksum error bit set. -/
theorem nvEEPROMBlockRead_status {α : Type} (blk : NvBlock α) (dest : α) (e : Eeprom)
    (status : Nat) :
    (nvEEPROMBlockRead blk dest e status).2.2.2 = status ∨
    (nvEEPROMBlockRead blk dest e status).2.2.2 = setStatus EEPROM_DATA_READ_ERROR status ∨
    (nvEEPROMBlockRead blk dest e status).2.2.2 = setStatus EEPROM_CHECKSUM_ERROR status := by
  rw [nvEEPROMBlockRead_eq]
  split_ifs <;> dsimp only <;> simp

/-- A block read does not touch the bit `INVALID_CONFIG`. -/
theorem nvEEPROMBlockRead_invalid {α : Type} (blk : NvBlock α) (dest : α) (e : Eeprom)
    (status : Nat) :
    testStatus INVALID_CONFIG (nvEEPROMBlockRead blk dest e status).2.2.2 =
      testStatus INVALID_CONFIG status := by
  rcases nvEEPROMBlockRead_status blk dest e status with h | h | h
  · rw [h]
  · rw [h, INVALID_CONFIG_eq, EEPROM_DATA_READ_ERROR_eq, testStatus_two_pow, testStatus_two_pow,
      setStatus_testBit]
    simp
  · rw [h, INVALID_CONFIG_eq, EEPROM_CHECKSUM_ERROR_eq, testStatus_two_pow, testStatus_two_pow,
      setStatus_testBit]
    simp

/-- A read or checksum error in the status word stays there over a block
read. -/
theorem nvEEPROMBlockRead_sticky {α : Type} (blk : NvBlock α) (dest : α) (e : Eeprom)
    (status : Nat) (h0 : nvReadFailed status = true) :
    nvReadFailed (nvEEPROMBlockRead blk dest e status).2.2.2 = true := by
  rcases nvEEPROMBlockRead_status blk dest e status with h | h | h
  · rw [h, h0]
  · rw [h, nvReadFailed_setRead]
  · rw [h, nvReadFailed_setChecksum]

/-- When a block read reports an error in the status word: the device does not
answer, the transmission of the address fails, the reception of the data fails,
or the checksum is received and does not match. -/
theorem nvEEPROMBlockRead_reports {α : Type} (blk : NvBlock α) (dest : α) (e : Eeprom)
    (status : Nat) (h0 : nvReadFailed status = false) :
    (nvReadFailed (nvEEPROMBlockRead blk dest e status).2.2.2 = true ↔
      (nvWaitReady 1001 e).1 = false ∨
      e.bus (nvWaitReady 1001 e).2.ops ≠ HAL_StatusTypeDef.HAL_OK ∨
      e.bus ((nvWaitReady 1001 e).2.ops + 1) ≠ HAL_StatusTypeDef.HAL_OK ∨
      (e.bus ((nvWaitReady 1001 e).2.ops + 2) = HAL_StatusTypeDef.HAL_OK ∧
        blk.checksumOk = false)) := by
  have hf : ¬ (nvReadFailed status = true) := by rw [h0]; exact Bool.false_ne_true
  rw [nvEEPROMBlockRead_eq]
  by_cases hw : (nvWaitReady 1001 e).1 = true
  · have hw' : ¬ (nvWaitReady 1001 e).1 = false := by rw [hw]; exact Bool.noConfusion
    rw [if_pos hw]
    by_cases h1 : e.bus (nvWaitReady 1001 e).2.ops ≠ HAL_StatusTypeDef.HAL_OK
    · rw [if_pos h1]
      dsimp only
      rw [nvReadFailed_setRead]
      exact ⟨fun _ => Or.inr (Or.inl h1), fun _ => rfl⟩
    · rw [if_neg h1]
      by_cases h2 : e.bus ((nvWaitReady 1001 e).2.ops + 1) ≠ HAL_StatusTypeDef.HAL_OK
      · rw [if_pos h2]
        dsimp only
        rw [nvReadFailed_setRead]
        exact ⟨fun _ => Or.inr (Or.inr (Or.inl h2)), fun _ => rfl⟩
      · rw [if_neg h2]
        by_cases h3 : e.bus ((nvWaitReady 1001 e).2.ops + 1 + 1) ≠ HAL_StatusTypeDef.HAL_OK
        · rw [if_pos h3]
          dsimp only
          constructor
          · intro h
            exact absurd h hf
          · rintro (h | h | h | ⟨h, -⟩)
            · exact absurd h hw'
            · exact absurd h h1
            · exact absurd h h2
            · exact absurd h h3
        · rw [if_neg h3]
          dsimp only
          by_cases hc : blk.checksumOk = true
          · rw [if_pos hc]
            constructor
            · intro h
              exact absurd h hf
            · rintro (h | h | h | ⟨-, h⟩)
              · exact absurd h hw'
              · exact absurd h h1
              · exact absurd h h2
              · rw [hc] at h
                exact Bool.noConfusion h
          · rw [if_neg hc, nvReadFailed_setChecksum]
            refine ⟨fun _ => Or.inr (Or.inr (Or.inr ⟨not_not.mp h3, ?_⟩)), fun _ => rfl⟩
            cases hck : blk.checksumOk
            · rfl
            · exact absurd hck hc
  · rw [if_neg hw]
    dsimp only
    rw [nvReadFailed_setRead]
    refine ⟨fun _ => Or.inl ?_, fun _ => rfl⟩
    cases hv : (nvWaitReady 1001 e).1
    · rfl
    · exact absurd hv hw

/-- The failure that a block read does not report in the status word: when the
data are received and the reception of the checksum fails, the function returns
`HAL_ERROR` with the data in the variable, the checksum is not compared and the
status word is as before. -/
theorem nvEEPROMBlockRead_unreported {α : Type} (blk : NvBlock α) (dest : α) (e : Eeprom)
    (status : Nat) (hw : (nvWaitReady 1001 e).1 = true)
    (h1 : e.bus (nvWaitReady 1001 e).2.ops = HAL_StatusTypeDef.HAL_OK)
    (h2 : e.bus ((nvWaitReady 1001 e).2.ops + 1) = HAL_StatusTypeDef.HAL_OK)
    (h3 : e.bus ((nvWaitReady 1001 e).2.ops + 2) ≠ HAL_StatusTypeDef.HAL_OK) :
    (nvEEPROMBlockRead blk dest e status).1 = HAL_StatusTypeDef.HAL_ERROR ∧
    (nvEEPROMBlockRead blk dest e status).2.1 = blk.data ∧
    (nvEEPROMBlockRead blk dest e status).2.2.2 = status := by
  rw [nvEEPROMBlockRead_eq, if_pos hw, if_neg (not_not.mpr h1), if_neg (not_not.mpr h2),
    if_pos h3]
  exact ⟨rfl, rfl, rfl⟩

theorem testStatus_setStatus_self (j status : Nat) :
    testStatus (2 ^ j) (setStatus (2 ^ j) status) = true := by
  rw [testStatus_two_pow, setStatus_testBit]
  simp

theorem cfRestoreDescriptor_frame {X : Type} (s : Ecu X) :
    (cfRestoreDescriptor s).cfPage1 = s.cfPage1 ∧
    nvSameDevice s.eeprom (cfRestoreDescriptor s).eeprom ∧
    testStatus INVALID_CONFIG (cfRestoreDescriptor s).ecuStatus =
      testStatus INVALID_CONFIG s.ecuStatus :=
  ⟨rfl, nvEEPROMBlockRead_frame _ _ _ _, nvEEPROMBlockRead_invalid _ _ _ _⟩

theorem cfRestoreBlock_frame {X α : Type} (view : Eeprom → Int → NvBlock α) (relAddr : Int)
    (get : page1Struct → α) (put : page1Struct → α → page1Struct) (s : Ecu X) :
    nvSameDevice s.eeprom (cfRestoreBlock view relAddr get put s).eeprom ∧
    testStatus INVALID_CONFIG (cfRestoreBlock view relAddr get put s).ecuStatus =
      testStatus INVALID_CONFIG s.ecuStatus ∧
    (nvReadFailed s.ecuStatus = true →
      nvReadFailed (cfRestoreBlock view relAddr get put s).ecuStatus = true) :=
  ⟨nvEEPROMBlockRead_frame _ _ _ _, nvEEPROMBlockRead_invalid _ _ _ _,
    nvEEPROMBlockRead_sticky _ _ _ _⟩

theorem cfRestoreBlocks_frame {X : Type} (s : Ecu X) :
    nvSameDevice s.eeprom (cfRestoreBlocks s).eeprom ∧
    testStatus INVALID_CONFIG (cfRestoreBlocks s).ecuStatus =
      testStatus INVALID_CONFIG s.ecuStatus := by
  unfold cfRestoreBlocks
  dsimp only
  exact ⟨nvSameDevice_trans (cfRestoreBlock_frame _ _ _ _ _).1
    (nvSameDevice_trans (cfRestoreBlock_frame _ _ _ _ _).1
    (nvSameDevice_trans (cfRestoreBlock_frame _ _ _ _ _).1
    (nvSameDevice_trans (cfRestoreBlock_frame _ _ _ _ _).1
    (nvSameDevice_trans (cfRestoreBlock_frame _ _ _ _ _).1
      (cfRestoreBlock_frame _ _ _ _ _).1)))),
    ((cfRestoreBlock_frame _ _ _ _ _).2.1.trans
    ((cfRestoreBlock_frame _ _ _ _ _).2.1.trans
    ((cfRestoreBlock_frame _ _ _ _ _).2.1.trans
    ((cfRestoreBlock_frame _ _ _ _ _).2.1.trans
    ((cfRestoreBlock_frame _ _ _ _ _).2.1.trans
      (cfRestoreBlock_frame _ _ _ _ _).2.1)))))⟩

/-- The configuration restore leaves what the device holds alone. -/
theorem cfRestoreConfiguration_eeprom {X : Type} (s : Ecu X) :
    nvSameDevice s.eeprom (cfRestoreConfiguration s).2.eeprom := by
  have hd := (cfRestoreDescriptor_frame s).2.1
  have hb := (cfRestoreBlocks_frame (cfRestoreDescriptor s)).1
  unfold cfRestoreConfiguration
  dsimp only
  split_ifs <;> dsimp only
  · exact hd
  · exact nvSameDevice_trans hd hb
  · exact nvSameDevice_trans hd hb

/-- C21. Invalid selected configuration: when the status word after the
descriptor read of `cfRestoreConfiguration` shows a read or checksum error, or
the descriptor read has `currentConfiguration` outside 1..8, the function sets
`INVALID_CONFIG`, returns 1 and leaves `cfPage1` as it was; when the descriptor
is valid but the status word after the six block reads shows a read or checksum
error it sets `INVALID_CONFIG` and returns 2; otherwise it returns 0 and the bit
`INVALID_CONFIG` is as before the call. The function looks at the status word
only, not at the values returned by `nvEEPROMBlockRead`. For every block read:
an error bit that is set stays set; with no error bit set before it, the read
sets one exactly when the device does not answer within the 1001 attempts, or
the transmission of the address fails, or the reception of the data fails, or
the checksum is received and does not match the data; and when the data are
received and the reception of the checksum fails, the read returns `HAL_ERROR`
with the data in the variable and the status word as before, so that this
failure is not reported to `cfRestoreConfiguration`. -/
theorem C21_invalid_configuration {X : Type} (s : Ecu X) :
    (cfDescriptorInvalid s →
      (cfRestoreConfiguration s).1 = 1 ∧
      testStatus INVALID_CONFIG (cfRestoreConfiguration s).2.ecuStatus = true ∧
      (cfRestoreConfiguration s).2.cfPage1 = s.cfPage1) ∧
    (¬ cfDescriptorInvalid s →
      nvReadFailed (cfRestoreBlocks (cfRestoreDescriptor s)).ecuStatus = true →
      (cfRestoreConfiguration s).1 = 2 ∧
      testStatus INVALID_CONFIG (cfRestoreConfiguration s).2.ecuStatus = true) ∧
    (¬ cfDescriptorInvalid s →
      nvReadFailed (cfRestoreBlocks (cfRestoreDescriptor s)).ecuStatus = false →
      (cfRestoreConfiguration s).1 = 0 ∧
      testStatus INVALID_CONFIG (cfRestoreConfiguration s).2.ecuStatus =
        testStatus INVALID_CONFIG s.ecuStatus) ∧
    (∀ (α : Type) (blk : NvBlock α) (dest : α) (e : Eeprom) (status : Nat),
      (nvReadFailed status = true →
        nvReadFailed (nvEEPROMBlockRead blk dest e status).2.2.2 = true) ∧
      (nvReadFailed status = false →
        (nvReadFailed (nvEEPROMBlockRead blk dest e status).2.2.2 = true ↔
          (nvWaitReady 1001 e).1 = false ∨
          e.bus (nvWaitReady 1001 e).2.ops ≠ HAL_StatusTypeDef.HAL_OK ∨
          e.bus ((nvWaitReady 1001 e).2.ops + 1) ≠ HAL_StatusTypeDef.HAL_OK ∨
          (e.bus ((nvWaitReady 1001 e).2.ops + 2) = HAL_StatusTypeDef.HAL_OK ∧
            blk.checksumOk = false))) ∧
      ((nvWaitReady 1001 e).1 = true →
        e.bus (nvWaitReady 1001 e).2.ops = HAL_StatusTypeDef.HAL_OK →
        e.bus ((nvWaitReady 1001 e).2.ops + 1) = HAL_StatusTypeDef.HAL_OK →
        e.bus ((nvWaitReady 1001 e).2.ops + 2) ≠ HAL_StatusTypeDef.HAL_OK →
        (nvEEPROMBlockRead blk dest e status).1 = HAL_StatusTypeDef.HAL_ERROR ∧
        (nvEEPROMBlockRead blk dest e status).2.1 = blk.data ∧
        (nvEEPROMBlockRead blk dest e status).2.2.2 = status)) := by
  obtain ⟨d1, -, d4⟩ := cfRestoreDescriptor_frame s
  obtain ⟨-, b2⟩ := cfRestoreBlocks_frame (cfRestoreDescriptor s)
  refine ⟨fun h => ?_, fun h hb => ?_, fun h hb => ?_, fun α blk dest e status =>
    ⟨nvEEPROMBlockRead_sticky blk dest e status, nvEEPROMBlockRead_reports blk dest e status,
      nvEEPROMBlockRead_unreported blk dest e status⟩⟩
  · have h' : nvReadFailed (cfRestoreDescriptor s).ecuStatus = true ∨
        (cfRestoreDescriptor s).configurationDescriptor.currentConfiguration < 1 ∨
        (cfRestoreDescriptor s).configurationDescriptor.currentConfiguration > 8 := h
    unfold cfRestoreConfiguration
    dsimp only
    rw [if_pos h']
    dsimp only
    rw [INVALID_CONFIG_eq]
    exact ⟨rfl, testStatus_setStatus_self _ _, d1⟩
  · have h' : ¬ (nvReadFailed (cfRestoreDescriptor s).ecuStatus = true ∨
        (cfRestoreDescriptor s).configurationDescriptor.currentConfiguration < 1 ∨
        (cfRestoreDescriptor s).configurationDescriptor.currentConfiguration > 8) := h
    unfold cfRestoreConfiguration
    dsimp only
    rw [if_neg h', if_pos hb]
    dsimp only
    rw [INVALID_CONFIG_eq]
    exact ⟨rfl, testStatus_setStatus_self _ _⟩
  · have h' : ¬ (nvReadFailed (cfRestoreDescriptor s).ecuStatus = true ∨
        (cfRestoreDescriptor s).configurationDescriptor.currentConfiguration < 1 ∨
        (cfRestoreDescriptor s).configurationDescriptor.currentConfiguration > 8) := h
    have hb' : ¬ (nvReadFailed (cfRestoreBlocks (cfRestoreDescriptor s)).ecuStatus = true) := by
      rw [hb]
      exact Bool.false_ne_true
    unfold cfRestoreConfiguration
    dsimp only
    rw [if_neg h', if_neg hb']
    dsimp only
    exact ⟨rfl, by rw [b2, d4]⟩

/-- C21, at concrete inputs: a descriptor naming configuration 9 gives 1 and
leaves the page; a valid descriptor with a filters block whose checksum does
not match gives 2; a valid descriptor and the reception of the data of the
filters block failing (bus operation 6) gives 2; with all blocks intact and
the reception of the descriptor checksum failing (bus operation 3) the
function returns 0. -/
theorem C21_invalid_configuration_witness :
    (cfRestoreConfiguration (ecuStart 0 (eepromConfig 9 true))).1 = 1 ∧
    (cfRestoreConfiguration (ecuStart 0 (eepromConfig 9 true))).2.cfPage1 = cfPage1Default ∧
    (cfRestoreConfiguration (ecuStart 0
      { eepromConfig 2 true with
        filters := fun _ => ⟨cfPage1Default.filters, false, fun _ x => x⟩ })).1 = 2 ∧
    (cfRestoreConfiguration (ecuStart 0 (eepromFailing 6 (eepromConfig 2 true)))).1 = 2 ∧
    (cfRestoreConfiguration (ecuStart 0 (eepromFailing 3 (eepromConfig 2 true)))).1 = 0 :=
  ⟨((C21_invalid_configuration (ecuStart 0 (eepromConfig 9 true))).1 (by decide)).1,
   ((C21_invalid_configuration (ecuStart 0 (eepromConfig 9 true))).1 (by decide)).2.2,
   ((C21_invalid_configuration (ecuStart 0
      { eepromConfig 2 true with
        filters := fun _ => ⟨cfPage1Default.filters, false, fun _ x => x⟩ })).2.1
      (by decide) (by decide)).1,
   ((C21_invalid_configuration (ecuStart 0 (eepromFailing 6 (eepromConfig 2 true)))).2.1
      (by decide) (by decide)).1,
   ((C21_invalid_configuration (ecuStart 0 (eepromFailing 3 (eepromConfig 2 true)))).2.2.1
      (by decide) (by decide)).1⟩

theorem EEPROM_DATA_SAVE_ERROR_eq : EEPROM_DATA_SAVE_ERROR = 2 ^ 9 := by decide

/-- The descriptor step of `cfSetCurrentConfig`: what it leaves on the device
when the block write returns `HAL_OK`, and the status word when it does not. -/
theorem cfStoreDescriptor_spec {X : Type} (n : Int) (s : Ecu X) :
    (cfStoreDescriptor n s).2.configurationDescriptor =
      { s.configurationDescriptor with currentConfiguration := n } ∧
    ((cfStoreDescriptor n s).1 = HAL_StatusTypeDef.HAL_OK →
      ((cfStoreDescriptor n s).2.eeprom.descriptor 0).data =
        { s.configurationDescriptor with currentConfiguration := n }) ∧
    ((cfStoreDescriptor n s).1 ≠ HAL_StatusTypeDef.HAL_OK →
      testStatus EEPROM_DATA_SAVE_ERROR (cfStoreDescriptor n s).2.ecuStatus = true) ∧
    (cfStoreDescriptor n s).2.eeprom.writes = s.eeprom.writes ++ [(0, 60)] := by
  unfold cfStoreDescriptor
  dsimp only
  obtain ⟨w1, -, -, -, w5, w6⟩ := nvEEPROMBlockWrite_frame
    (fun c => { c with
      descriptor := Function.update c.descriptor 0
        ((c.descriptor 0).written { s.configurationDescriptor with currentConfiguration := n }) })
    0 60 s.eeprom 0
  refine ⟨rfl, fun h => ?_, fun h => ?_, w1⟩
  · have hc := congrArg (fun c : NvContent => (c.descriptor 0).data) (w6 h)
    dsimp only at hc
    rw [hc, Function.update_same]
    rfl
  · rw [w5, if_neg h, EEPROM_DATA_SAVE_ERROR_eq]
    exact testStatus_setStatus_self _ _

theorem limitI_bounds (x : Int) : 0 ≤ limitI x 0 7 ∧ limitI x 0 7 ≤ 7 := by
  unfold limitI
  dsimp only
  split_ifs <;> omega

theorem axisPosition_bounds (x start delta : ℚ) (hd : 0 < delta) :
    0 ≤ axisPosition x start delta ∧ axisPosition x start delta ≤ 7 := by
  unfold axisPosition
  rw [limitF_eq_max_min]
  have h1 : start ≤ max start (min x (start + 7 * delta)) := le_max_left _ _
  have h2 : max start (min x (start + 7 * delta)) ≤ start + 7 * delta :=
    max_le (by linarith) (min_le_right _ _)
  constructor
  · apply div_nonneg _ (le_of_lt hd)
    linarith
  · rw [div_le_iff₀ hd]
    linarith

theorem floatToInt_bounds (p : ℚ) (h0 : 0 ≤ p) (h7 : p ≤ 7) :
    0 ≤ floatToInt p ∧ floatToInt p ≤ 7 := by
  rw [floatToInt_of_nonneg p h0]
  refine ⟨Int.floor_nonneg.mpr h0, ?_⟩
  have h : ((⌊p⌋ : Int) : ℚ) ≤ 7 := le_trans (Int.floor_le p) h7
  exact_mod_cast h

theorem roundf_bounds (p : ℚ) (h0 : 0 ≤ p) (h7 : p ≤ 7) : 0 ≤ roundf p ∧ roundf p ≤ 7 := by
  unfold roundf
  rw [if_pos h0]
  refine ⟨Int.floor_nonneg.mpr (by linarith), ?_⟩
  have h : ⌊p + 1 / 2⌋ < 8 := by
    rw [Int.floor_lt]
    push_cast
    linarith
  omega

/-- The indices set by `mapLookup`, in terms of the two fractional positions
computed by the function. -/
theorem mapLookup_indices (rpm load : ℚ) (s : FuelInjection) :
    (mapLookup rpm load s).currentCell.rpmIndex =
      limitI (roundf ((limitF rpm s.cfPage1.p2.rpmAxisStart
        (s.cfPage1.p2.rpmAxisStart + 7 * s.cfPage1.p2.rpmAxisDelta)
          - s.cfPage1.p2.rpmAxisStart) * s.rpmDeltaReciprocal)) 0 7 ∧
    (mapLookup rpm load s).currentCell.loadIndex =
      limitI (roundf ((limitF load s.cfPage1.p2.loadAxisStart
        (s.cfPage1.p2.loadAxisStart + 7 * s.cfPage1.p2.loadAxisDelta)
          - s.cfPage1.p2.loadAxisStart) * s.loadDeltaReciprocal)) 0 7 ∧
    (mapLookup rpm load s).r1 =
      (if limitI (floatToInt ((limitF rpm s.cfPage1.p2.rpmAxisStart
          (s.cfPage1.p2.rpmAxisStart + 7 * s.cfPage1.p2.rpmAxisDelta)
            - s.cfPage1.p2.rpmAxisStart) * s.rpmDeltaReciprocal)) 0 7 ≤ 6 then
        limitI (floatToInt ((limitF rpm s.cfPage1.p2.rpmAxisStart
          (s.cfPage1.p2.rpmAxisStart + 7 * s.cfPage1.p2.rpmAxisDelta)
            - s.cfPage1.p2.rpmAxisStart) * s.rpmDeltaReciprocal)) 0 7
      else limitI (floatToInt ((limitF rpm s.cfPage1.p2.rpmAxisStart
          (s.cfPage1.p2.rpmAxisStart + 7 * s.cfPage1.p2.rpmAxisDelta)
            - s.cfPage1.p2.rpmAxisStart) * s.rpmDeltaReciprocal)) 0 7 - 1) ∧
    (mapLookup rpm load s).l1 =
      (if limitI (floatToInt ((limitF load s.cfPage1.p2.loadAxisStart
          (s.cfPage1.p2.loadAxisStart + 7 * s.cfPage1.p2.loadAxisDelta)
            - s.cfPage1.p2.loadAxisStart) * s.loadDeltaReciprocal)) 0 7 ≤ 6 then
        limitI (floatToInt ((limitF load s.cfPage1.p2.loadAxisStart
          (s.cfPage1.p2.loadAxisStart + 7 * s.cfPage1.p2.loadAxisDelta)
            - s.cfPage1.p2.loadAxisStart) * s.loadDeltaReciprocal)) 0 7
      else limitI (floatToInt ((limitF load s.cfPage1.p2.loadAxisStart
          (s.cfPage1.p2.loadAxisStart + 7 * s.cfPage1.p2.loadAxisDelta)
            - s.cfPage1.p2.loadAxisStart) * s.loadDeltaReciprocal)) 0 7 - 1) ∧
    (mapLookup rpm load s).r2 = (mapLookup rpm load s).r1 + 1 ∧
    (mapLookup rpm load s).l2 = (mapLookup rpm load s).l1 + 1 := by
  have hR7 : VE_MAP_SIZE_RPM - 1 = 7 := by decide
  have hL7 : VE_MAP_SIZE_LOAD - 1 = 7 := by decide
  have hR6 : VE_MAP_SIZE_RPM - 2 = 6 := by decide
  have hL6 : VE_MAP_SIZE_LOAD - 2 = 6 := by decide
  unfold mapLookup
  simp only [hR7, hL7, hR6, hL6, Int.cast_ofNat, and_self]

theorem fuStart_axis :
    fuStart.cfPage1.p2.rpmAxisStart = 750 ∧ fuStart.cfPage1.p2.rpmAxisDelta = 700 ∧
    fuStart.cfPage1.p2.loadAxisStart = 30 ∧ fuStart.cfPage1.p2.loadAxisDelta = 10 ∧
    fuStart.rpmDeltaReciprocal = 1 / 700 ∧ fuStart.loadDeltaReciprocal = 1 / 10 := by
  have hc : fuStart.cfPage1 = cfPage1Default := rfl
  have h1 : cfPage1Default.p2.rpmAxisStart = 750 := rfl
  have h2 : cfPage1Default.p2.rpmAxisDelta = 700 := rfl
  have h3 : cfPage1Default.p2.loadAxisStart = 30 := rfl
  have h4 : cfPage1Default.p2.loadAxisDelta = 10 := rfl
  have hr := fuInitialise_reciprocals (fun _ => 0) 5 (fuBoot cfPage1Default)
  have hb : (fuBoot cfPage1Default).cfPage1 = cfPage1Default := rfl
  rw [hb, h2, h4] at hr
  rw [hc, h1, h2, h3, h4]
  exact ⟨rfl, rfl, rfl, rfl, hr.1, hr.2⟩

/-- C29, counterexample: with the default axis (start 750, delta 700, last grid
line at 5650) an rpm of 6000 is at position 7 of the axis, which truncates to
7, but `r1` is 6: at the end of the axis `r1` is not the truncated position. -/
theorem C29_counterexample :
    0 < fuStart.cfPage1.p2.rpmAxisDelta ∧
    floatToInt (axisPosition 6000 fuStart.cfPage1.p2.rpmAxisStart
      fuStart.cfPage1.p2.rpmAxisDelta) = 7 ∧
    (mapLookup 6000 50 fuStart).r1 = 6 ∧
    (mapLookup 6000 50 fuStart).r1 ≠
      floatToInt (axisPosition 6000 fuStart.cfPage1.p2.rpmAxisStart
        fuStart.cfPage1.p2.rpmAxisDelta) := by
  obtain ⟨a1, a2, a3, a4, a5, a6⟩ := fuStart_axis
  have hp : floatToInt (axisPosition 6000 fuStart.cfPage1.p2.rpmAxisStart
      fuStart.cfPage1.p2.rpmAxisDelta) = 7 := by
    rw [a1, a2]
    have hl : limitF 6000 750 (750 + 7 * 700) = 5650 := by
      rw [limitF_eq_max_min]
      norm_num
    unfold axisPosition
    rw [hl]
    norm_num [floatToInt]
  have hr : (mapLookup 6000 50 fuStart).r1 = 6 := by
    rw [(mapLookup_indices 6000 50 fuStart).2.2.1, a1, a2, a5]
    have hl : limitF 6000 750 (750 + 7 * 700) = 5650 := by
      rw [limitF_eq_max_min]
      norm_num
    rw [hl]
    have hf : floatToInt ((5650 - 750) * (1 / 700)) = 7 := by norm_num [floatToInt]
    rw [hf]
    decide
  refine ⟨by rw [a2]; norm_num, hp, hr, ?_⟩
  rw [hp, hr]
  decide

/-- C29, amended. Table indices stay in bounds: for every rpm and load, after
`mapLookup` the current cell satisfies `0 <= rpmIndex <= 7` and
`0 <= loadIndex <= 7` and the interpolation rectangle satisfies `0 <= r1`,
`r2 = r1 + 1 <= 7`, `0 <= l1`, `l2 = l1 + 1 <= 7`; with positive axis deltas
and the reciprocals set by `fuInitialise`, the current cell is the rounded
fractional position, and `r1`/`l1` is the truncated one except at the end of the
axis (position 7), where it is 6. -/
theorem C29_table_indices_in_bounds (rpm load : ℚ) (s : FuelInjection)
    (hR : 0 < s.cfPage1.p2.rpmAxisDelta) (hL : 0 < s.cfPage1.p2.loadAxisDelta)
    (hRr : s.rpmDeltaReciprocal = 1 / s.cfPage1.p2.rpmAxisDelta)
    (hLr : s.loadDeltaReciprocal = 1 / s.cfPage1.p2.loadAxisDelta) :
    (0 ≤ (mapLookup rpm load s).currentCell.rpmIndex ∧
      (mapLookup rpm load s).currentCell.rpmIndex ≤ 7) ∧
    (0 ≤ (mapLookup rpm load s).currentCell.loadIndex ∧
      (mapLookup rpm load s).currentCell.loadIndex ≤ 7) ∧
    (0 ≤ (mapLookup rpm load s).r1 ∧
      (mapLookup rpm load s).r2 = (mapLookup rpm load s).r1 + 1 ∧
      (mapLookup rpm load s).r2 ≤ 7) ∧
    (0 ≤ (mapLookup rpm load s).l1 ∧
      (mapLookup rpm load s).l2 = (mapLookup rpm load s).l1 + 1 ∧
      (mapLookup rpm load s).l2 ≤ 7) ∧
    (mapLookup rpm load s).currentCell.rpmIndex =
      roundf (axisPosition rpm s.cfPage1.p2.rpmAxisStart s.cfPage1.p2.rpmAxisDelta) ∧
    (mapLookup rpm load s).currentCell.loadIndex =
      roundf (axisPosition load s.cfPage1.p2.loadAxisStart s.cfPage1.p2.loadAxisDelta) ∧
    (mapLookup rpm load s).r1 =
      min (floatToInt (axisPosition rpm s.cfPage1.p2.rpmAxisStart s.cfPage1.p2.rpmAxisDelta))
        6 ∧
    (mapLookup rpm load s).l1 =
      min (floatToInt (axisPosition load s.cfPage1.p2.loadAxisStart
        s.cfPage1.p2.loadAxisDelta)) 6 := by
  obtain ⟨m1, m2, m3, m4, m5, m6⟩ := mapLookup_indices rpm load s
  have pR : (limitF rpm s.cfPage1.p2.rpmAxisStart
      (s.cfPage1.p2.rpmAxisStart + 7 * s.cfPage1.p2.rpmAxisDelta)
        - s.cfPage1.p2.rpmAxisStart) * s.rpmDeltaReciprocal =
      axisPosition rpm s.cfPage1.p2.rpmAxisStart s.cfPage1.p2.rpmAxisDelta := by
    rw [hRr]
    unfold axisPosition
    ring
  have pL : (limitF load s.cfPage1.p2.loadAxisStart
      (s.cfPage1.p2.loadAxisStart + 7 * s.cfPage1.p2.loadAxisDelta)
        - s.cfPage1.p2.loadAxisStart) * s.loadDeltaReciprocal =
      axisPosition load s.cfPage1.p2.loadAxisStart s.cfPage1.p2.loadAxisDelta := by
    rw [hLr]
    unfold axisPosition
    ring
  rw [pR] at m1 m3
  rw [pL] at m2 m4
  obtain ⟨bR0, bR7⟩ := axisPosition_bounds rpm s.cfPage1.p2.rpmAxisStart _ hR
  obtain ⟨bL0, bL7⟩ := axisPosition_bounds load s.cfPage1.p2.loadAxisStart _ hL
  obtain ⟨rR0, rR7⟩ := roundf_bounds _ bR0 bR7
  obtain ⟨rL0, rL7⟩ := roundf_bounds _ bL0 bL7
  obtain ⟨fR0, fR7⟩ := floatToInt_bounds _ bR0 bR7
  obtain ⟨fL0, fL7⟩ := floatToInt_bounds _ bL0 bL7
  rw [limitI_of_mem _ 0 7 rR0 rR7] at m1
  rw [limitI_of_mem _ 0 7 rL0 rL7] at m2
  rw [limitI_of_mem _ 0 7 fR0 fR7] at m3
  rw [limitI_of_mem _ 0 7 fL0 fL7] at m4
  have e3 : (mapLookup rpm load s).r1 =
      min (floatToInt (axisPosition rpm s.cfPage1.p2.rpmAxisStart s.cfPage1.p2.rpmAxisDelta))
        6 := by
    rw [m3]
    split_ifs with h
    · exact (min_eq_left h).symm
    · rw [min_eq_right (by omega)]
      omega
  have e4 : (mapLookup rpm load s).l1 =
      min (floatToInt (axisPosition load s.cfPage1.p2.loadAxisStart
        s.cfPage1.p2.loadAxisDelta)) 6 := by
    rw [m4]
    split_ifs with h
    · exact (min_eq_left h).symm
    · rw [min_eq_right (by omega)]
      omega
  have b3 : 0 ≤ (mapLookup rpm load s).r1 ∧ (mapLookup rpm load s).r1 ≤ 6 := by
    rw [e3]
    exact ⟨le_min fR0 (by norm_num), min_le_right _ _⟩
  have b4 : 0 ≤ (mapLookup rpm load s).l1 ∧ (mapLookup rpm load s).l1 ≤ 6 := by
    rw [e4]
    exact ⟨le_min fL0 (by norm_num), min_le_right _ _⟩
  refine ⟨?_, ?_, ⟨b3.1, m5, ?_⟩, ⟨b4.1, m6, ?_⟩, m1, m2, e3, e4⟩
  · rw [m1]
    exact ⟨rR0, rR7⟩
  · rw [m2]
    exact ⟨rL0, rL7⟩
  · rw [m5]
    omega
  · rw [m6]
    omega

/-- C29 amended, at a concrete input: with start 750 and delta 700, an rpm of
1850 gives `rpmIndex = 2` and `r1 = 1`. -/
theorem C29_table_indices_in_bounds_witness :
    (mapLookup 1850 50 fuStart).currentCell.rpmIndex = 2 ∧ (mapLookup 1850 50 fuStart).r1 = 1 := by
  obtain ⟨a1, a2, a3, a4, a5, a6⟩ := fuStart_axis
  have h := C29_table_indices_in_bounds 1850 50 fuStart (by rw [a2]; norm_num)
    (by rw [a4]; norm_num) (by rw [a5, a2]) (by rw [a6, a4])
  have hl : limitF 1850 750 (750 + 7 * 700) = 1850 := by
    rw [limitF_eq_max_min]
    norm_num
  have hp : axisPosition 1850 fuStart.cfPage1.p2.rpmAxisStart fuStart.cfPage1.p2.rpmAxisDelta
      = 11 / 7 := by
    rw [a1, a2]
    unfold axisPosition
    rw [hl]
    norm_num
  constructor
  · rw [h.2.2.2.2.1, hp]
    norm_num [roundf, Int.floor_eq_iff]
  · rw [h.2.2.2.2.2.2.1, hp]
    norm_num [floatToInt, Int.floor_eq_iff]

/-! ## Period filter: convergence -/

theorem periodFilterStep_gap (k : Nat) (R m : Int) :
    R * 2 ^ k - periodFilterStep k R m = (R * 2 ^ k - m) - (R * 2 ^ k - m) / 2 ^ k := by
  unfold periodFilterStep
  rw [Int.shiftRight_eq_div_pow]
  push_cast
  ring

/-- One update of the gap `d` between the settled memory and the memory. -/
theorem gap_step (P d : Int) (hP : 1 ≤ P) (hd : P - 1 ≤ d) :
    P - 1 ≤ d - d / P ∧ (P ≤ d → d - d / P < d) ∧ (d < P → d - d / P = d) := by
  have hP0 : 0 < P := by omega
  have hq := Int.ediv_add_emod d P
  have hr0 := Int.emod_nonneg d (ne_of_gt hP0)
  have hr1 := Int.emod_lt_of_pos d hP0
  by_cases hlt : d < P
  · have hz : d / P = 0 := Int.ediv_eq_zero_of_lt (by omega) hlt
    rw [hz]
    refine ⟨by omega, fun h => by omega, fun _ => by omega⟩
  · have hge : P ≤ d := by omega
    have hq1 : 1 ≤ d / P := by
      rw [Int.le_ediv_iff_mul_le hP0]
      omega
    refine ⟨?_, fun _ => by omega, fun h => absurd h hlt⟩
    nlinarith [mul_nonneg (by omega : (0 : Int) ≤ P - 1) (by omega : (0 : Int) ≤ d / P - 1)]

/-- The gap after `n` updates from an empty memory: never below `2 ^ k - 1`,
and at `2 ^ k - 1` after at most `R * 2 ^ k` updates. -/
theorem filter_gap (k : Nat) (R : Int) (hR : 1 ≤ R) (n : Nat) :
    (2 : Int) ^ k - 1 ≤ R * 2 ^ k - (periodFilterStep k R)^[n] 0 ∧
    (R * 2 ^ k - (periodFilterStep k R)^[n] 0 ≤ (2 : Int) ^ k - 1 ∨
      R * 2 ^ k - (periodFilterStep k R)^[n] 0 ≤ R * 2 ^ k - n) := by
  have hP : (1 : Int) ≤ 2 ^ k := one_le_pow₀ (by norm_num)
  induction n with
  | zero =>
    simp only [Function.iterate_zero, id_eq, sub_zero, Nat.cast_zero]
    refine ⟨?_, Or.inr le_rfl⟩
    nlinarith
  | succ n ih =>
    rw [Function.iterate_succ_apply', periodFilterStep_gap]
    obtain ⟨g1, g2, g3⟩ := gap_step (2 ^ k) (R * 2 ^ k - (periodFilterStep k R)^[n] 0) hP ih.1
    refine ⟨g1, ?_⟩
    by_cases hlt : R * 2 ^ k - (periodFilterStep k R)^[n] 0 < 2 ^ k
    · left
      rw [g3 hlt]
      omega
    · have hge : (2 : Int) ^ k ≤ R * 2 ^ k - (periodFilterStep k R)^[n] 0 := by omega
      have := g2 hge
      rcases ih.2 with h | h
      · omega
      · right
        push_cast
        omega

/-- The settled memory: after at least `R * 2 ^ k` updates with the period `R`
from an empty memory, the memory is `R * 2 ^ k - (2 ^ k - 1)`. -/
theorem filter_settles (k : Nat) (R : Int) (hR : 1 ≤ R) (n : Nat) (hn : R * 2 ^ k ≤ n) :
    (periodFilterStep k R)^[n] 0 = R * 2 ^ k - (2 ^ k - 1) := by
  have hP : (1 : Int) ≤ 2 ^ k := one_le_pow₀ (by norm_num)
  obtain ⟨h1, h2⟩ := filter_gap k R hR n
  rcases h2 with h | h
  · omega
  · omega

/-- The filtered period read from the settled memory. -/
theorem settled_shift (k : Nat) (R : Int) :
    (R * 2 ^ k - (2 ^ k - 1)) >>> k = if k = 0 then R else R - 1 := by
  rw [Int.shiftRight_eq_div_pow]
  push_cast
  split_ifs with hk
  · rw [hk]
    norm_num
  · have hP : (1 : Int) < 2 ^ k := by
      have : (2 : Int) ^ 1 ≤ 2 ^ k := pow_le_pow_right₀ (by norm_num) (by omega)
      omega
    have e : R * 2 ^ k - (2 ^ k - 1) = 1 + (R - 1) * 2 ^ k := by ring
    rw [e, Int.add_mul_ediv_right _ _ (by omega), Int.ediv_eq_zero_of_lt (by norm_num) hP]
    ring

theorem twSteadyTrain_of_all (R : Int) (ps : List (Bool × Int)) :
    ∀ s : TriggerWheel, (∀ p ∈ ps, p.2 = R) → twSteadyTrain R ps s := by
  induction ps with
  | nil => intro s _; trivial
  | cons p ps ih =>
    intro s h
    exact ⟨Or.inl (h p (List.mem_cons_self _ _)),
      ih _ (fun q hq => h q (List.mem_cons_of_mem _ hq))⟩

theorem crankshaftPulseHandler_rpmFromPeriod (cmp : Bool) (p : Int) (s : TriggerWheel) :
    (crankshaftPulseHandler cmp p s).rpmFromPeriod = s.rpmFromPeriod := by
  have h1 : ∀ t : TriggerWheel, (twPeriodFilter t).rpmFromPeriod = t.rpmFromPeriod := fun _ => rfl
  have h2 : ∀ t : TriggerWheel, (twOutputs cmp t).rpmFromPeriod = t.rpmFromPeriod := by
    intro t
    unfold twOutputs
    split_ifs
    · have a : ∀ u : TriggerWheel, (twFire cmp u).rpmFromPeriod = u.rpmFromPeriod := by
        intro u; unfold twFire; dsimp only; split_ifs <;> rfl
      have b : ∀ u : TriggerWheel, (twDwell cmp u).rpmFromPeriod = u.rpmFromPeriod := by
        intro u; unfold twDwell; dsimp only; split_ifs <;> rfl
      have c : ∀ u : TriggerWheel, (twInjectionB cmp u).rpmFromPeriod = u.rpmFromPeriod := by
        intro u; unfold twInjectionB; split_ifs <;> rfl
      have d : ∀ u : TriggerWheel, (twInjectionA cmp u).rpmFromPeriod = u.rpmFromPeriod := by
        intro u; unfold twInjectionA; split_ifs <;> rfl
      rw [a, b, c, d]
    · rfl
  have h3 : ∀ t : TriggerWheel, (twMissingTooth p t).rpmFromPeriod = t.rpmFromPeriod := by
    intro t; unfold twMissingTooth; split_ifs <;> rfl
  have h4 : ∀ t : TriggerWheel, (twSequenceReset t).rpmFromPeriod = t.rpmFromPeriod := by
    intro t; unfold twSequenceReset; split_ifs <;> rfl
  have h5 : ∀ t : TriggerWheel, (twUpdateTiming t).rpmFromPeriod = t.rpmFromPeriod := by
    intro t; unfold twUpdateTiming; split_ifs <;> rfl
  unfold crankshaftPulseHandler
  rw [h1, h2, h3, h4, h5]
  rfl

/-- One call of the handler in a steady train: the period kept for the filter
is `R` and the memory makes one filter step. -/
theorem crankshaftPulseHandler_steady (cmp : Bool) (p R : Int) (s : TriggerWheel)
    (hp : p = R ∨ twDetects p s = true)
    (hR : s.crankPulsePeriodR = R ∨ twDetects p s = false) :
    (crankshaftPulseHandler cmp p s).crankPulsePeriodR = R ∧
    (crankshaftPulseHandler cmp p s).crankPulsePeriodFN_1 =
      periodFilterStep s.cfPage1.filters.crankshaftPulseFilter R s.crankPulsePeriodFN_1 ∧
    (crankshaftPulseHandler cmp p s).crankPulsePeriodF =
      (crankshaftPulseHandler cmp p s).crankPulsePeriodFN_1 >>>
        s.cfPage1.filters.crankshaftPulseFilter := by
  obtain ⟨f1, f2, -, -⟩ := crankshaftPulseHandler_filter cmp p s
  have hRR : (crankshaftPulseHandler cmp p s).crankPulsePeriodR = R := by
    cases hd : twDetects p s
    · rw [(crankshaftPulseHandler_nodetect cmp p s hd).2.2.2.2.2.2]
      rcases hp with h | h
      · exact h
      · rw [hd] at h
        exact Bool.noConfusion h
    · rw [(crankshaftPulseHandler_detect cmp p s hd).2.2.2.2.2.2]
      rcases hR with h | h
      · exact h
      · rw [hd] at h
        exact Bool.noConfusion h
  rw [hRR] at f1
  exact ⟨hRR, f1, f2⟩

/-- A steady train from a state that holds the period `R`: the memory makes one
filter step per pulse. -/
theorem twRun_steady_train (R : Int) (ps : List (Bool × Int)) :
    ∀ s : TriggerWheel, s.crankPulsePeriodR = R → twSteadyTrain R ps s →
      s.crankPulsePeriodF =
        s.crankPulsePeriodFN_1 >>> s.cfPage1.filters.crankshaftPulseFilter →
      (twRun ps s).crankPulsePeriodFN_1 =
        (periodFilterStep s.cfPage1.filters.crankshaftPulseFilter R)^[ps.length]
          s.crankPulsePeriodFN_1 ∧
      (twRun ps s).crankPulsePeriodF =
        (twRun ps s).crankPulsePeriodFN_1 >>> s.cfPage1.filters.crankshaftPulseFilter ∧
      (twRun ps s).rpmFromPeriod = s.rpmFromPeriod := by
  induction ps with
  | nil => intro s _ _ hF; exact ⟨rfl, hF, rfl⟩
  | cons p ps ih =>
    intro s hR ht hF
    obtain ⟨c1, c2, c3⟩ := crankshaftPulseHandler_steady p.1 p.2 R s ht.1 (Or.inl hR)
    have hc := crankshaftPulseHandler_cfPage1 p.1 p.2 s
    have key := ih (crankshaftPulseHandler p.1 p.2 s) c1 ht.2 (by rw [hc]; exact c3)
    rw [hc, c2, crankshaftPulseHandler_rpmFromPeriod] at key
    rw [twRun_cons, List.length_cons, Function.iterate_succ_apply]
    exact key

theorem twPowerOnFilter_facts (k : Nat) :
    (twPowerOnFilter k).crankPulsePeriodFN_1 = 0 ∧
    (twPowerOnFilter k).cfPage1.filters.crankshaftPulseFilter = k ∧
    (twPowerOnFilter k).currentTooth = 0 ∧
    (twPowerOnFilter k).triggerWheelTeethHalf = 18 ∧
    (twPowerOnFilter k).rpmFromPeriod = 60000000 / 36 ∧
    (twPowerOnFilter k).cfPage1.p2.twTeeth = 36 := by
  refine ⟨rfl, rfl, rfl, rfl, ?_, rfl⟩
  have h : (twPowerOnFilter k).rpmFromPeriod =
      60000000 / (((twPowerOnFilter k).cfPage1.p2.twTeeth : Int) : ℚ) := rfl
  have h2 : (twPowerOnFilter k).cfPage1.p2.twTeeth = 36 := rfl
  rw [h, h2]
  norm_num

theorem twPowerOnFilter_nodetect (k : Nat) (p : Int) : twDetects p (twPowerOnFilter k) = false := by
  obtain ⟨-, -, h3, h4, -, -⟩ := twPowerOnFilter_facts k
  cases hd : twDetects p (twPowerOnFilter k)
  · rfl
  · have := (twDetects_iff p (twPowerOnFilter k)).mp hd
    rw [h3, h4] at this
    omega

/-- A steady train from power on: the memory makes one filter step per pulse,
from 0. -/
theorem twRun_power_on (k : Nat) (R : Int) (ps : List (Bool × Int))
    (ht : twSteadyTrain R ps (twPowerOnFilter k)) (hne : 1 ≤ ps.length) :
    (twRun ps (twPowerOnFilter k)).crankPulsePeriodFN_1 = (periodFilterStep k R)^[ps.length] 0 ∧
    (twRun ps (twPowerOnFilter k)).crankPulsePeriodF =
      (twRun ps (twPowerOnFilter k)).crankPulsePeriodFN_1 >>> k ∧
    (twRun ps (twPowerOnFilter k)).rpmFromPeriod = 60000000 / 36 := by
  obtain ⟨f1, f2, -, -, f5, -⟩ := twPowerOnFilter_facts k
  cases ps with
  | nil => simp at hne
  | cons p ps =>
    obtain ⟨c1, c2, c3⟩ := crankshaftPulseHandler_steady p.1 p.2 R (twPowerOnFilter k) ht.1
      (Or.inr (twPowerOnFilter_nodetect k p.2))
    have hc := crankshaftPulseHandler_cfPage1 p.1 p.2 (twPowerOnFilter k)
    have key := twRun_steady_train R ps (crankshaftPulseHandler p.1 p.2 (twPowerOnFilter k))
      c1 ht.2 (by rw [hc]; exact c3)
    rw [hc, c2, crankshaftPulseHandler_rpmFromPeriod, f1, f2, f5] at key
    rw [twRun_cons, List.length_cons, Function.iterate_succ_apply]
    exact key

/-- With the default shift 3 the memory is settled after 74 pulses. -/
theorem filter_settles_default (n : Nat) (hn : 74 ≤ n) :
    (periodFilterStep 3 10000)^[n] 0 = 79993 := by
  have h74 : (periodFilterStep 3 10000)^[74] 0 = 79993 := by decide
  have hfix : Function.IsFixedPt (periodFilterStep 3 10000) 79993 := by
    unfold Function.IsFixedPt
    decide
  obtain ⟨j, rfl⟩ := Nat.exists_eq_add_of_le hn
  rw [Nat.add_comm, Function.iterate_add_apply, h74]
  exact Function.iterate_fixed hfix j

theorem hfComputeRPM_in_sync (s : TriggerWheel) (h : s.triggerWheelInSync > 0)
    (hF : s.crankPulsePeriodF > 0) :
    (hfComputeRPM s).keyData.RPM = s.rpmFromPeriod / (s.crankPulsePeriodF : ℚ) := by
  unfold hfComputeRPM
  rw [if_pos h]
  dsimp only
  rw [if_pos hF]

/-- The filtered period after a steady train of 10000 from power on. -/
theorem twRun_power_on_settled (k : Nat) (ps : List (Bool × Int))
    (ht : twSteadyTrain 10000 ps (twPowerOnFilter k)) :
    (10000 * 2 ^ k ≤ ps.length →
      (twRun ps (twPowerOnFilter k)).crankPulsePeriodF = if k = 0 then 10000 else 9999) ∧
    (k = 3 → 74 ≤ ps.length → (twRun ps (twPowerOnFilter k)).crankPulsePeriodF = 9999) := by
  constructor
  · intro hn
    have h1 : 1 ≤ ps.length := by
      have : 1 ≤ 10000 * 2 ^ k := Nat.one_le_iff_ne_zero.mpr (by positivity)
      omega
    obtain ⟨r1, r2, -⟩ := twRun_power_on k 10000 ps ht h1
    have hn' : (10000 : Int) * 2 ^ k ≤ (ps.length : Int) := by exact_mod_cast hn
    rw [r2, r1, filter_settles k 10000 (by norm_num) ps.length hn', settled_shift]
    split_ifs <;> norm_num
  · intro hk hn
    subst hk
    obtain ⟨r1, r2, -⟩ := twRun_power_on 3 10000 ps ht (by omega)
    rw [r2, r1, filter_settles_default ps.length hn]
    decide

/-! ## Period filter: claim on the speed -/

/-- C26, counterexample: on the default 36-tooth wheel with filter shift 3,
from the power-on state, after 74 pulses of 10000 us the filter memory is
79993, a fixed point of the filter, and `crankPulsePeriodF` is 9999; it is
still 9999, not 10000, after a million pulses. -/
theorem C26_counterexample :
    twStart.cfPage1.filters.crankshaftPulseFilter = 3 ∧
    twStart.cfPage1.p2.twTeeth = 36 ∧
    (twRun (List.replicate 74 (true, 10000)) twStart).crankPulsePeriodFN_1 = 79993 ∧
    periodFilterStep 3 10000 79993 = 79993 ∧
    (twRun (List.replicate 74 (true, 10000)) twStart).crankPulsePeriodF = 9999 ∧
    (twRun (List.replicate 1000000 (true, 10000)) twStart).crankPulsePeriodF = 9999 := by
  have hs : twStart = twPowerOnFilter 3 := rfl
  have ht : ∀ n : Nat, twSteadyTrain 10000 (List.replicate n (true, 10000)) (twPowerOnFilter 3) :=
    fun n => twSteadyTrain_of_all 10000 _ _ (fun p hp => by rw [List.eq_of_mem_replicate hp])
  refine ⟨rfl, rfl, ?_, by decide, ?_, ?_⟩
  · rw [hs, (twRun_power_on 3 10000 _ (ht 74) (by rw [List.length_replicate]; norm_num)).1,
      List.length_replicate]
    exact filter_settles_default 74 le_rfl
  · rw [hs]
    exact (twRun_power_on_settled 3 _ (ht 74)).2 rfl (by rw [List.length_replicate])
  · rw [hs]
    exact (twRun_power_on_settled 3 _ (ht 1000000)).2 rfl
      (by rw [List.length_replicate]; norm_num)

/-- C26, amended. End-to-end speed: on a 36-tooth wheel with the filter shift
`k`, from the power-on filter state and fed a steady tooth period of 10000 us
(pulses of another period only where the handler detects the gap), after
`10000 * 2 ^ k` pulses (74 pulses for the default shift 3) `crankPulsePeriodF`
is 9999 for every shift `k >= 1` and 10000 only for `k = 0`, and it stays there
for every longer train; in sync the speed calculation of the high frequency
task then gives `RPM = (60,000,000 / 36) / 9999` for `k >= 1`. -/
theorem C26_filtered_period_settles (k : Nat) (pulses : List (Bool × Int))
    (ht : twSteadyTrain 10000 pulses (twPowerOnFilter k)) :
    (10000 * 2 ^ k ≤ pulses.length →
      (twRun pulses (twPowerOnFilter k)).crankPulsePeriodF = (if k = 0 then 10000 else 9999) ∧
      ((twRun pulses (twPowerOnFilter k)).triggerWheelInSync > 0 →
        (hfComputeRPM (twRun pulses (twPowerOnFilter k))).keyData.RPM =
          (60000000 / 36) / (if k = 0 then 10000 else 9999))) ∧
    (k = 3 → 74 ≤ pulses.length →
      (twRun pulses (twPowerOnFilter k)).crankPulsePeriodF = 9999 ∧
      ((twRun pulses (twPowerOnFilter k)).triggerWheelInSync > 0 →
        (hfComputeRPM (twRun pulses (twPowerOnFilter k))).keyData.RPM =
          (60000000 / 36) / 9999)) := by
  obtain ⟨s1, s2⟩ := twRun_power_on_settled k pulses ht
  constructor
  · intro hn
    have h1 : 1 ≤ pulses.length := by
      have : 1 ≤ 10000 * 2 ^ k := Nat.one_le_iff_ne_zero.mpr (by positivity)
      omega
    obtain ⟨-, -, r3⟩ := twRun_power_on k 10000 pulses ht h1
    refine ⟨s1 hn, fun hsync => ?_⟩
    have hF : (twRun pulses (twPowerOnFilter k)).crankPulsePeriodF > 0 := by
      rw [s1 hn]
      split_ifs <;> norm_num
    rw [hfComputeRPM_in_sync _ hsync hF, r3, s1 hn]
    split_ifs <;> norm_num
  · intro hk hn
    obtain ⟨-, -, r3⟩ := twRun_power_on k 10000 pulses ht (by omega)
    refine ⟨s2 hk hn, fun hsync => ?_⟩
    have hF : (twRun pulses (twPowerOnFilter k)).crankPulsePeriodF > 0 := by
      rw [s2 hk hn]
      norm_num
    rw [hfComputeRPM_in_sync _ hsync hF, r3, s2 hk hn]
    norm_num

/-- C26 amended, at a concrete input: 100 pulses of 10000 us with the default
shift 3. -/
theorem C26_filtered_period_settles_witness :
    (twRun (List.replicate 100 (true, 10000)) (twPowerOnFilter 3)).crankPulsePeriodF = 9999 :=
  ((C26_filtered_period_settles 3 (List.replicate 100 (true, 10000))
    (twSteadyTrain_of_all 10000 _ _ (fun p hp => by rw [List.eq_of_mem_replicate hp]))).2
    rfl (by rw [List.length_replicate]; norm_num)).1

/-! ## AFR correction: the data lock -/

theorem afUpdateAverage_locked (l r : Int) (lambdaVoltage : ℚ) (s : AutoAfr)
    (h : s.dataLock ≠ 0) : afUpdateAverage l r lambdaVoltage s = s := by
  unfold afUpdateAverage
  rw [if_neg h]

theorem afUpdateAverage_unlocked (l r : Int) (lambdaVoltage : ℚ) (s : AutoAfr)
    (h : s.dataLock = 0) :
    (afUpdateAverage l r lambdaVoltage s).afrData.lambdaAverages l r =
      s.filterN_1 l r + s.cfPage1.p1.afrAveragingFilterTC * (lambdaVoltage - s.filterN_1 l r) ∧
    (afUpdateAverage l r lambdaVoltage s).filterN_1 l r =
      s.filterN_1 l r + s.cfPage1.p1.afrAveragingFilterTC * (lambdaVoltage - s.filterN_1 l r) ∧
    (afUpdateAverage l r lambdaVoltage s).afrData.lambdaSamples l r =
      s.afrData.lambdaSamples l r + 1 / 100 := by
  unfold afUpdateAverage
  rw [if_pos h]
  dsimp only
  rw [setCell_same, setCell_same, setCell_same]
  exact ⟨by ring, by ring, rfl⟩

/-- A block read on a bus whose operations all succeed: the data of the block
are in the variable and only the checksum can be found wrong. -/
theorem nvEEPROMBlockRead_answers {α : Type} (blk : NvBlock α) (dest : α) (e : Eeprom)
    (status : Nat) (h : ∀ k, e.bus k = HAL_StatusTypeDef.HAL_OK) :
    (nvEEPROMBlockRead blk dest e status).1 = HAL_StatusTypeDef.HAL_OK ∧
    (nvEEPROMBlockRead blk dest e status).2.1 = blk.data ∧
    (nvEEPROMBlockRead blk dest e status).2.2.2 =
      if blk.checksumOk = true then status else setStatus EEPROM_CHECKSUM_ERROR status := by
  have hw : (nvWaitReady 1001 e).1 = true := by
    rw [nvWaitReady_ok 1000 e (h _)]
  rw [nvEEPROMBlockRead_eq, if_pos hw, if_neg (not_not.mpr (h _)), if_neg (not_not.mpr (h _)),
    if_neg (not_not.mpr (h _))]
  exact ⟨rfl, rfl, rfl⟩

theorem afRestored_facts :
    afRestored.2.cfPage1 = cfPage1Default ∧ afRestored.2.dataLock = 0 ∧
    afRestored.2.afrData.lambdaAverages 0 0 = 450 ∧ afRestored.2.filterN_1 0 0 = 480 ∧
    afRestored.2.afrData.lambdaSamples 0 0 = 12 := by
  have h : testStatus EEPROM_AVAILABLE EEPROM_AVAILABLE = true := by decide
  have hb : ∀ k, (eepromAfrData 450 12).bus k = HAL_StatusTypeDef.HAL_OK := fun _ => rfl
  have hr := fun (dest : EngineMap × EngineMap) (status : Nat) =>
    (nvEEPROMBlockRead_answers ((eepromAfrData 450 12).afrData AFR_DATA_NVM_ADDR) dest
      (eepromAfrData 450 12) status hb).2.1
  have e1 : afRestored.2.cfPage1 = cfPage1Default := by
    simp [afRestored, afInitialise, afResetAFRNoSave, afBoot, h]
  have e2 : afRestored.2.dataLock = 0 := by
    simp [afRestored, afInitialise, afResetAFRNoSave, afBoot, h]
  have e3 : afRestored.2.filterN_1 0 0 = 480 := by
    simp [afRestored, afInitialise, afResetAFRNoSave, afBoot, h, gridCopy, inGrid,
      cfPage1Default, mapOfRows, VE_MAP_SIZE_LOAD, VE_MAP_SIZE_RPM]
  have e4 : afRestored.2.afrData.lambdaAverages 0 0 = 450 ∧
      afRestored.2.afrData.lambdaSamples 0 0 = 12 := by
    simp only [afRestored, afInitialise, afResetAFRNoSave, afBoot, h, if_true, hr]
    simp [gridCopy, inGrid, eepromAfrData, VE_MAP_SIZE_LOAD, VE_MAP_SIZE_RPM]
  exact ⟨e1, e2, e4.1, e3, e4.2⟩

/-- C31, counterexample: after `afInitialise` has restored the averages from
the EEPROM (450 in every cell) the filter memory still holds the target (480 in
cell (0, 0)); with the data lock clear, the first active call on cell (0, 0)
with lambda voltage 100 leaves the average at 480 + 0.0005 x (100 - 480) =
479.81, not at 450 + 0.0005 x (100 - 450) = 449.825. -/
theorem C31_counterexample :
    afRestored.2.dataLock = 0 ∧
    afActive afRestored.2.cfPage1 (2000, 90) ∧
    afRestored.2.afrData.lambdaAverages 0 0 = 450 ∧
    (afComputeCorrection 2000 90 0 0 100 afRestored.1 afRestored.2).2.afrData.lambdaAverages
        0 0 = 47981 / 100 ∧
    (afComputeCorrection 2000 90 0 0 100 afRestored.1 afRestored.2).2.afrData.lambdaAverages
        0 0 ≠
      afRestored.2.afrData.lambdaAverages 0 0 +
        afRestored.2.cfPage1.p1.afrAveragingFilterTC *
          (100 - afRestored.2.afrData.lambdaAverages 0 0) := by
  obtain ⟨hc, hd, ha, hf, -⟩ := afRestored_facts
  have hact : afActive afRestored.2.cfPage1 (2000, 90) := by
    rw [hc]
    norm_num [afActive, cfPage1Default]
  have hres := congrArg (fun p : EngineMap × AutoAfr => p.2)
    (afComputeCorrection_active 2000 90 0 0 100 afRestored.1 afRestored.2 hact)
  dsimp only at hres
  have hval : (afComputeCorrection 2000 90 0 0 100 afRestored.1
      afRestored.2).2.afrData.lambdaAverages 0 0 = 47981 / 100 := by
    rw [hres, (afIntegrateError_other _ _ _ _).1,
      (afUpdateAverage_unlocked 0 0 100
        { afRestored.2 with ecuStatus := setStatus AFR_ACTIVE_CONTROL afRestored.2.ecuStatus }
        hd).1]
    show afRestored.2.filterN_1 0 0 + afRestored.2.cfPage1.p1.afrAveragingFilterTC *
      (100 - afRestored.2.filterN_1 0 0) = 47981 / 100
    rw [hf, hc]
    norm_num [cfPage1Default]
  refine ⟨hd, hact, ha, hval, ?_⟩
  rw [hval, ha, hc]
  norm_num [cfPage1Default]

/-- C31 (amended). Data lock: when the data-lock flag is set (not zero), an
active call of `afComputeCorrection` leaves `lambdaAverages`, `lambdaSamples`
and the filter memory of every cell unchanged, and `afSaveAFRDataToNVM` returns
with the flag clear and these arrays as they were. When the flag is clear, the
average of the selected cell and its filter memory become
`f + afrAveragingFilterTC * (lambdaVoltage - f)`, where `f` is the filter
memory of the cell before the call, and the sample count increases by 0.01; if
the filter memory equals the old average, as it does after a reset and after
every update of the cell, the average becomes
`old + afrAveragingFilterTC * (lambdaVoltage - old)`. -/
theorem C31_data_lock (RPM engineTemp : ℚ) (loadIndex rpmIndex : Int) (lambdaVoltage : ℚ)
    (correctionArray : EngineMap) (s : AutoAfr)
    (h : engineTemp > s.cfPage1.p1.engTempCompT2 ∧ RPM > s.cfPage1.p1.crankingThreshold) :
    (s.dataLock ≠ 0 →
      (afComputeCorrection RPM engineTemp loadIndex rpmIndex lambdaVoltage correctionArray
          s).2.afrData.lambdaAverages = s.afrData.lambdaAverages ∧
      (afComputeCorrection RPM engineTemp loadIndex rpmIndex lambdaVoltage correctionArray
          s).2.afrData.lambdaSamples = s.afrData.lambdaSamples ∧
      (afComputeCorrection RPM engineTemp loadIndex rpmIndex lambdaVoltage correctionArray
          s).2.filterN_1 = s.filterN_1) ∧
    ((afSaveAFRDataToNVM s).2.dataLock = 0 ∧
      (afSaveAFRDataToNVM s).2.afrData = s.afrData ∧
      (afSaveAFRDataToNVM s).2.filterN_1 = s.filterN_1) ∧
    (s.dataLock = 0 →
      (afComputeCorrection RPM engineTemp loadIndex rpmIndex lambdaVoltage correctionArray
          s).2.afrData.lambdaAverages loadIndex rpmIndex =
        s.filterN_1 loadIndex rpmIndex +
          s.cfPage1.p1.afrAveragingFilterTC * (lambdaVoltage - s.filterN_1 loadIndex rpmIndex) ∧
      (afComputeCorrection RPM engineTemp loadIndex rpmIndex lambdaVoltage correctionArray
          s).2.filterN_1 loadIndex rpmIndex =
        (afComputeCorrection RPM engineTemp loadIndex rpmIndex lambdaVoltage correctionArray
          s).2.afrData.lambdaAverages loadIndex rpmIndex ∧
      (afComputeCorrection RPM engineTemp loadIndex rpmIndex lambdaVoltage correctionArray
          s).2.afrData.lambdaSamples loadIndex rpmIndex =
        s.afrData.lambdaSamples loadIndex rpmIndex + 1 / 100 ∧
      (s.filterN_1 loadIndex rpmIndex = s.afrData.lambdaAverages loadIndex rpmIndex →
        (afComputeCorrection RPM engineTemp loadIndex rpmIndex lambdaVoltage correctionArray
            s).2.afrData.lambdaAverages loadIndex rpmIndex =
          s.afrData.lambdaAverages loadIndex rpmIndex +
            s.cfPage1.p1.afrAveragingFilterTC *
              (lambdaVoltage - s.afrData.lambdaAverages loadIndex rpmIndex))) := by
  have ha : afActive s.cfPage1 (RPM, engineTemp) := h
  have hres := congrArg (fun p : EngineMap × AutoAfr => p.2)
    (afComputeCorrection_active RPM engineTemp loadIndex rpmIndex lambdaVoltage
      correctionArray s ha)
  dsimp only at hres
  obtain ⟨i1, i2, i3, -, -⟩ := afIntegrateError_other loadIndex rpmIndex
    (s.cfPage1.targetAFRMap loadIndex rpmIndex - lambdaVoltage)
    (afUpdateAverage loadIndex rpmIndex lambdaVoltage
      { s with ecuStatus := setStatus AFR_ACTIVE_CONTROL s.ecuStatus })
  refine ⟨fun hl => ?_, ?_, fun hl => ?_⟩
  · have hu := afUpdateAverage_locked loadIndex rpmIndex lambdaVoltage
      { s with ecuStatus := setStatus AFR_ACTIVE_CONTROL s.ecuStatus } hl
    rw [hres, i1, i2, i3, hu]
    exact ⟨rfl, rfl, rfl⟩
  · unfold afSaveAFRDataToNVM
    exact ⟨rfl, rfl, rfl⟩
  · obtain ⟨u1, u2, u3⟩ := afUpdateAverage_unlocked loadIndex rpmIndex lambdaVoltage
      { s with ecuStatus := setStatus AFR_ACTIVE_CONTROL s.ecuStatus } hl
    have e1 : (afComputeCorrection RPM engineTemp loadIndex rpmIndex lambdaVoltage
        correctionArray s).2.afrData.lambdaAverages loadIndex rpmIndex =
        s.filterN_1 loadIndex rpmIndex +
          s.cfPage1.p1.afrAveragingFilterTC *
            (lambdaVoltage - s.filterN_1 loadIndex rpmIndex) := by
      rw [hres, i1, u1]
    refine ⟨e1, ?_, ?_, fun heq => ?_⟩
    · rw [e1, hres, i3, u2]
    · rw [hres, i2, u3]
    · rw [e1, heq]

/-- C31, at a concrete input: the first active call on cell (0, 0) after
`afInitialise` without EEPROM, with lambda voltage 100, moves the average from
480 to 479.81 and the sample count from 0 to 0.01. -/
theorem C31_data_lock_witness :
    (afComputeCorrection 2000 90 0 0 100 afStart.1 afStart.2).2.afrData.lambdaAverages 0 0 =
      47981 / 100 ∧
    (afComputeCorrection 2000 90 0 0 100 afStart.1 afStart.2).2.afrData.lambdaSamples 0 0 =
      1 / 100 := by
  have hd : afStart.2.dataLock = 0 := by
    have h : testStatus EEPROM_AVAILABLE 0 = false := by decide
    simp [afStart, afInitialise, afResetAFRNoSave, afBoot, h]
  have hf : afStart.2.filterN_1 0 0 = 480 := by
    have h : testStatus EEPROM_AVAILABLE 0 = false := by decide
    simp [afStart, afInitialise, afResetAFRNoSave, afBoot, h, gridCopy, inGrid, cfPage1Default,
      mapOfRows, VE_MAP_SIZE_LOAD, VE_MAP_SIZE_RPM]
  have hs : afStart.2.afrData.lambdaSamples 0 0 = 0 := by
    have h : testStatus EEPROM_AVAILABLE 0 = false := by decide
    simp [afStart, afInitialise, afResetAFRNoSave, afBoot, h, gridCopy]
  have key := (C31_data_lock 2000 90 0 0 100 afStart.1 afStart.2 afStart_active).2.2 hd
  refine ⟨?_, ?_⟩
  · rw [key.1, hf, afStart_cfPage1]
    norm_num [cfPage1Default]
  · rw [key.2.2.1, hs]
    norm_num

/-! ## Post-start enrichment: lemmas and claim -/

theorem accelCompensation1_enrichment (TPS : ℚ) (s : FuelInjection) :
    (accelCompensation1 TPS s).2.PSEStart = s.PSEStart ∧
    (accelCompensation1 TPS s).2.PSEDecay = s.PSEDecay := by
  unfold accelCompensation1
  dsimp only
  split_ifs <;> exact ⟨rfl, rfl⟩

/-- What `getInjectorPulseWidth` does to the post-start enrichment. -/
theorem getInjectorPulseWidth_PSE (RPM load TPS engineTemperature airTemperature : ℚ)
    (s : FuelInjection) :
    (getInjectorPulseWidth RPM load TPS engineTemperature airTemperature s).2.PSE =
      (if RPM < s.cfPage1.p1.crankingThreshold then s.PSEStart
       else if s.PSE > 1 then s.PSE - s.PSEDecay else 1) ∧
    (getInjectorPulseWidth RPM load TPS engineTemperature airTemperature s).2.PSEStart =
      s.PSEStart ∧
    (getInjectorPulseWidth RPM load TPS engineTemperature airTemperature s).2.PSEDecay =
      s.PSEDecay ∧
    (getInjectorPulseWidth RPM load TPS engineTemperature airTemperature s).2.cfPage1 =
      s.cfPage1 := by
  obtain ⟨h1, -, h3, -⟩ := accelCompensation1_frame TPS s
  obtain ⟨h4, h5⟩ := accelCompensation1_enrichment TPS s
  unfold getInjectorPulseWidth
  dsimp only
  rw [h1]
  by_cases hc : RPM < s.cfPage1.p1.crankingThreshold
  · rw [if_pos hc, if_pos hc]
    split_ifs <;> exact ⟨h4, h4, h5, rfl⟩
  · rw [if_neg hc, if_neg hc]
    dsimp only
    rw [h3, h5]
    exact ⟨rfl, h4, rfl, rfl⟩

/-- What one pass of the fuel calculation does to the post-start enrichment. -/
theorem fuCycle_PSE (c : FuelCycle) (s : FuelInjection) :
    (fuCycle c s).2.PSE =
      (if c.RPM < s.cfPage1.p1.crankingThreshold then s.PSEStart
       else if s.PSE > 1 then s.PSE - s.PSEDecay else 1) ∧
    (fuCycle c s).2.PSEStart = s.PSEStart ∧
    (fuCycle c s).2.PSEDecay = s.PSEDecay ∧
    (fuCycle c s).2.cfPage1 = s.cfPage1 :=
  getInjectorPulseWidth_PSE c.RPM c.load c.TPS c.engineTemperature c.airTemperature
    (fuCycleEntry c s)

theorem fuRun_nil (s : FuelInjection) : fuRun [] s = s := rfl

theorem fuRun_cons (c : FuelCycle) (cs : List FuelCycle) (s : FuelInjection) :
    fuRun (c :: cs) s = fuRun cs (fuCycle c s).2 := rfl

theorem fuRun_append (xs ys : List FuelCycle) (s : FuelInjection) :
    fuRun (xs ++ ys) s = fuRun ys (fuRun xs s) := by
  simp [fuRun, List.foldl_append]

theorem fuRun_frame (cs : List FuelCycle) (s : FuelInjection) :
    (fuRun cs s).PSEStart = s.PSEStart ∧ (fuRun cs s).PSEDecay = s.PSEDecay ∧
    (fuRun cs s).cfPage1 = s.cfPage1 := by
  induction cs generalizing s with
  | nil => exact ⟨rfl, rfl, rfl⟩
  | cons c cs ih =>
    obtain ⟨-, h2, h3, h4⟩ := fuCycle_PSE c s
    obtain ⟨i1, i2, i3⟩ := ih (fuCycle c s).2
    rw [fuRun_cons]
    exact ⟨i1.trans h2, i2.trans h3, i3.trans h4⟩

/-- The bounds kept by the enrichment: at most the start value, and below 1.0
by less than one decay step. -/
theorem fuRun_PSE_bounds (cs : List FuelCycle) (s : FuelInjection) (hs : 1 ≤ s.PSEStart)
    (hd : 0 ≤ s.PSEDecay) (h0 : s.PSE ≤ s.PSEStart)
    (h1 : 1 ≤ s.PSE ∨ 1 - s.PSEDecay < s.PSE) :
    (fuRun cs s).PSE ≤ s.PSEStart ∧
    (1 ≤ (fuRun cs s).PSE ∨ 1 - s.PSEDecay < (fuRun cs s).PSE) := by
  induction cs generalizing s with
  | nil => exact ⟨h0, h1⟩
  | cons c cs ih =>
    obtain ⟨e1, e2, e3, -⟩ := fuCycle_PSE c s
    rw [fuRun_cons]
    have key := ih (fuCycle c s).2 (by rw [e2]; exact hs) (by rw [e3]; exact hd)
      (by
        rw [e1, e2]
        split_ifs <;> linarith)
      (by
        rw [e1, e3]
        split_ifs with ha hb
        · exact Or.inl hs
        · exact Or.inr (by linarith)
        · exact Or.inl (le_refl 1))
    rw [e2, e3] at key
    exact key

/-- When the start value is a whole number of decay steps above 1.0 the
enrichment stays on the steps and never falls below 1.0. -/
theorem fuRun_PSE_on_steps (cs : List FuelCycle) (s : FuelInjection) (n : Nat)
    (hd : 0 ≤ s.PSEDecay) (hn : s.PSEStart = 1 + (n : ℚ) * s.PSEDecay)
    (h0 : ∃ k : Nat, k ≤ n ∧ s.PSE = 1 + (k : ℚ) * s.PSEDecay) :
    ∃ k : Nat, k ≤ n ∧ (fuRun cs s).PSE = 1 + (k : ℚ) * s.PSEDecay := by
  induction cs generalizing s with
  | nil => exact h0
  | cons c cs ih =>
    obtain ⟨e1, e2, e3, -⟩ := fuCycle_PSE c s
    rw [fuRun_cons]
    have key := ih (fuCycle c s).2 (by rw [e3]; exact hd) (by rw [e2, e3]; exact hn)
      (by
        obtain ⟨k, hk, hp⟩ := h0
        rw [e1, e3]
        split_ifs with ha hb
        · exact ⟨n, le_refl n, hn⟩
        · cases k with
          | zero =>
            rw [hp] at hb
            simp at hb
          | succ j =>
            refine ⟨j, by omega, ?_⟩
            rw [hp]
            push_cast
            ring
        · exact ⟨0, Nat.zero_le n, by simp⟩)
    rw [e3] at key
    exact key

theorem fuStartDecay_facts (t : ℚ) :
    (fuStartDecay t).PSEStart = 13 / 10 ∧ (fuStartDecay t).PSE = 13 / 10 ∧
    (fuStartDecay t).PSEDecay = (13 / 10 - 1) * 5 / (1000 * t) ∧
    (fuStartDecay t).cfPage1.p1.crankingThreshold = 500 := by
  refine ⟨?_, ?_, ?_, ?_⟩ <;>
  norm_num [fuStartDecay, fuInitialise, resetCorrectionArray, initAccelCompensation,
    initPostStartEnrichment, initTempCompSlope, fuBoot, cfPage1Default]

theorem fuCycleRunning_step (s : FuelInjection) (h : s.cfPage1.p1.crankingThreshold = 500) :
    (fuCycle fuCycleRunning s).2.PSE = if s.PSE > 1 then s.PSE - s.PSEDecay else 1 := by
  have hr : ¬ (fuCycleRunning.RPM < s.cfPage1.p1.crankingThreshold) := by
    rw [h]
    norm_num [fuCycleRunning]
  rw [(fuCycle_PSE fuCycleRunning s).1, if_neg hr]

/-- C32, counterexample: the default configuration with 30 % enrichment and a
decay time of 12.5 ms, initialised for the 5 ms task: the start value is 1.3
and the decay step 0.12. In successive passes with the engine running the
multiplier applied is 1.3, 1.18, 1.06 and then 0.94, which is below 1.0; the
pass after that uses 1.0. -/
theorem C32_counterexample :
    1 ≤ (fuStartDecay (1 / 80)).PSEStart ∧ 0 ≤ (fuStartDecay (1 / 80)).PSEDecay ∧
    (fuStartDecay (1 / 80)).PSE = 13 / 10 ∧
    (fuRun [fuCycleRunning] (fuStartDecay (1 / 80))).PSE = 59 / 50 ∧
    (fuRun [fuCycleRunning, fuCycleRunning] (fuStartDecay (1 / 80))).PSE = 53 / 50 ∧
    (fuRun [fuCycleRunning, fuCycleRunning, fuCycleRunning] (fuStartDecay (1 / 80))).PSE =
      47 / 50 ∧
    (fuRun [fuCycleRunning, fuCycleRunning, fuCycleRunning, fuCycleRunning]
      (fuStartDecay (1 / 80))).PSE = 1 ∧
    (fuRun [fuCycleRunning, fuCycleRunning, fuCycleRunning]
      (fuStartDecay (1 / 80))).cfPage1.p1.crankingThreshold ≤ fuCycleRunning.RPM ∧
    ¬ (1 ≤ (fuRun [fuCycleRunning, fuCycleRunning, fuCycleRunning]
      (fuStartDecay (1 / 80))).PSE) := by
  obtain ⟨f1, f2, f3, f4⟩ := fuStartDecay_facts (1 / 80)
  have hd : (fuStartDecay (1 / 80)).PSEDecay = 3 / 25 := by
    rw [f3]
    norm_num
  have step : ∀ (cs : List FuelCycle) (p : ℚ), (fuRun cs (fuStartDecay (1 / 80))).PSE = p →
      (fuRun (cs ++ [fuCycleRunning]) (fuStartDecay (1 / 80))).PSE =
        if p > 1 then p - 3 / 25 else 1 := by
    intro cs p hp
    obtain ⟨-, g2, g3⟩ := fuRun_frame cs (fuStartDecay (1 / 80))
    rw [fuRun_append, fuRun_cons, fuRun_nil,
      fuCycleRunning_step _ (by rw [g3]; exact f4), hp, g2, hd]
  have s1 := step [] (13 / 10) f2
  have s2 := step [fuCycleRunning] _ s1
  have s3 := step [fuCycleRunning, fuCycleRunning] _ s2
  have s4 := step [fuCycleRunning, fuCycleRunning, fuCycleRunning] _ s3
  simp only [List.nil_append, List.cons_append] at s1 s2 s3 s4
  norm_num at s1 s2 s3 s4
  refine ⟨by rw [f1]; norm_num, by rw [hd]; norm_num, f2, s1, s2, s3, s4, ?_, ?_⟩
  · rw [(fuRun_frame _ _).2.2, f4]
    norm_num [fuCycleRunning]
  · rw [s3]
    norm_num

/-- C32 (amended). Post-start enrichment decay, for passes of the fuel
calculation from a state with `PSE = PSEStart` (as `initPostStartEnrichment`
leaves it), `PSEStart >= 1` and `PSEDecay >= 0`: a cranking pass resets `PSE`
to `PSEStart`; a running pass calculates the pulse width with the current `PSE`
as multiplier and then leaves `PSE - PSEDecay` if `PSE` was above 1.0 and 1.0
otherwise, so that `PSE` stays at 1.0 once it is there. The multiplier never
exceeds `PSEStart`, and it is at least 1.0 or falls short of 1.0 by less than
one decay step; it is at least 1.0 throughout when `PSEStart` is a whole
number of decay steps above 1.0. -/
theorem C32_post_start_enrichment (cs : List FuelCycle) (c : FuelCycle) (s : FuelInjection)
    (hs : 1 ≤ s.PSEStart) (hd : 0 ≤ s.PSEDecay) (h0 : s.PSE = s.PSEStart) :
    (c.RPM < s.cfPage1.p1.crankingThreshold →
      (fuCycle c (fuRun cs s)).2.PSE = s.PSEStart) ∧
    (s.cfPage1.p1.crankingThreshold ≤ c.RPM →
      (fuCycle c (fuRun cs s)).1 =
        1000 * ((fuCycleEntry c (fuRun cs s)).cfPage1.p2.requiredFuel
            * (getMapInterpolatedValue (fuCycleEntry c (fuRun cs s))
                (veMapCorrectedAtCurrentCell (fuCycleEntry c (fuRun cs s))) / 100)
            * ((c.load + (accelCompensation1 c.TPS (fuCycleEntry c (fuRun cs s))).1) / 100)
            * temperatureCompensation (fuCycleEntry c (fuRun cs s)) c.engineTemperature 0
            * temperatureCompensation (fuCycleEntry c (fuRun cs s)) c.airTemperature 1
            * (fuRun cs s).PSE
          + (fuCycleEntry c (fuRun cs s)).cfPage1.p2.injectorLatency) ∧
      (fuCycle c (fuRun cs s)).2.PSE =
        (if (fuRun cs s).PSE > 1 then (fuRun cs s).PSE - s.PSEDecay else 1)) ∧
    (fuRun cs s).PSE ≤ s.PSEStart ∧
    (1 ≤ (fuRun cs s).PSE ∨ 1 - s.PSEDecay < (fuRun cs s).PSE) ∧
    (∀ n : Nat, s.PSEStart = 1 + (n : ℚ) * s.PSEDecay → 1 ≤ (fuRun cs s).PSE) := by
  obtain ⟨g1, g2, g3⟩ := fuRun_frame cs s
  obtain ⟨e1, -, -, -⟩ := fuCycle_PSE c (fuRun cs s)
  obtain ⟨b1, b2⟩ := fuRun_PSE_bounds cs s hs hd (le_of_eq h0) (Or.inl (by rw [h0]; exact hs))
  refine ⟨fun hc => ?_, fun hr => ⟨?_, ?_⟩, b1, b2, fun n hn => ?_⟩
  · rw [e1, g3, if_pos hc, g1]
  · have hr2 : (fuCycleEntry c (fuRun cs s)).cfPage1.p1.crankingThreshold ≤ c.RPM := by
      show (fuRun cs s).cfPage1.p1.crankingThreshold ≤ c.RPM
      rw [g3]
      exact hr
    exact (getInjectorPulseWidth_running c.RPM c.load c.TPS c.engineTemperature
      c.airTemperature (fuCycleEntry c (fuRun cs s)) hr2).1
  · rw [e1, g3, if_neg (not_lt.mpr hr), g2]
  · obtain ⟨k, -, hk⟩ := fuRun_PSE_on_steps cs s n hd hn ⟨n, le_refl n, by rw [h0, hn]⟩
    rw [hk]
    have : (0 : ℚ) ≤ (k : ℚ) * s.PSEDecay := mul_nonneg (Nat.cast_nonneg k) hd
    linarith

/-- C32, at a concrete input: the default configuration (30 % enrichment over
15 s, a decay step of 0.0001 for the 5 ms task, 3000 steps): after two running
passes the multiplier lies between 1.0 and 1.3, and a cranking pass puts it
back to 1.3. -/
theorem C32_post_start_enrichment_witness :
    1 ≤ (fuRun [fuCycleRunning, fuCycleRunning] (fuStartDecay 15)).PSE ∧
    (fuRun [fuCycleRunning, fuCycleRunning] (fuStartDecay 15)).PSE ≤ 13 / 10 ∧
    (fuCycle { fuCycleRunning with RPM := 200 }
      (fuRun [fuCycleRunning, fuCycleRunning] (fuStartDecay 15))).2.PSE = 13 / 10 := by
  obtain ⟨f1, f2, f3, f4⟩ := fuStartDecay_facts 15
  have hd : (fuStartDecay 15).PSEDecay = 1 / 10000 := by
    rw [f3]
    norm_num
  have key := C32_post_start_enrichment [fuCycleRunning, fuCycleRunning]
    { fuCycleRunning with RPM := 200 } (fuStartDecay 15) (by rw [f1]; norm_num)
    (by rw [hd]; norm_num) (by rw [f1, f2])
  refine ⟨key.2.2.2.2 3000 (by rw [f1, hd]; norm_num), ?_, ?_⟩
  · have := key.2.2.1
    rw [f1] at this
    exact this
  · rw [key.1 (by rw [f4]; norm_num [fuCycleRunning]), f1]

/-! ## AFR samples: lemmas and claim -/

theorem afGetSample_indices (c : EngineMap) (s : AutoAfr) (l r : Nat)
    (hl : s.loadIndex1 = (l : Int)) (hr : s.rpmIndex1 = (r : Int)) (hl8 : l < 8) (hr8 : r < 8) :
    (afGetSample c s).2.loadIndex1 = (((l * 8 + r + 1) % 64 / 8 : Nat) : Int) ∧
    (afGetSample c s).2.rpmIndex1 = (((l * 8 + r + 1) % 8 : Nat) : Int) := by
  unfold afGetSample VE_MAP_SIZE_RPM VE_MAP_SIZE_LOAD
  dsimp only
  rw [hl, hr]
  split_ifs with h1 h2
  · dsimp only
    have hr7 : r = 7 := by omega
    have hl7 : l = 7 := by omega
    subst hr7 hl7
    decide
  · dsimp only
    have hr7 : r = 7 := by omega
    subst hr7
    constructor
    · omega
    · omega
  · dsimp only
    constructor
    · omega
    · omega

theorem afComputeCorrection_indices (RPM engineTemp : ℚ) (l r : Int) (lambdaVoltage : ℚ)
    (c : EngineMap) (s : AutoAfr) :
    (afComputeCorrection RPM engineTemp l r lambdaVoltage c s).2.loadIndex1 = s.loadIndex1 ∧
    (afComputeCorrection RPM engineTemp l r lambdaVoltage c s).2.rpmIndex1 = s.rpmIndex1 := by
  unfold afComputeCorrection afIntegrateError afUpdateAverage
  dsimp only
  split_ifs <;> exact ⟨rfl, rfl⟩

/-- The indices of `afGetSample` before call number `n`. -/
theorem afSampleState_indices (cs : Nat → EngineMap) (between : Nat → AutoAfr → AutoAfr)
    (s : AutoAfr) (hl : s.loadIndex1 = 0) (hr : s.rpmIndex1 = 0)
    (hb : ∀ k t, (between k t).loadIndex1 = t.loadIndex1 ∧
      (between k t).rpmIndex1 = t.rpmIndex1) (n : Nat) :
    (afSampleState cs between n s).loadIndex1 = ((n % 64 / 8 : Nat) : Int) ∧
    (afSampleState cs between n s).rpmIndex1 = ((n % 8 : Nat) : Int) := by
  induction n with
  | zero => exact ⟨by rw [afSampleState, hl]; rfl, by rw [afSampleState, hr]; rfl⟩
  | succ n ih =>
    obtain ⟨i1, i2⟩ := ih
    obtain ⟨g1, g2⟩ := afGetSample_indices (cs n) (afSampleState cs between n s) (n % 64 / 8)
      (n % 8) i1 i2 (by omega) (by omega)
    rw [afSampleState, (hb _ _).1, (hb _ _).2, g1, g2]
    constructor
    · congr 1
      omega
    · congr 1
      omega

/-- C33. `afGetSample` walks the whole AFR grid in sequence and repeats:
starting from the indices (0, 0), whatever the firmware does to the other
variables between the calls, call number `n` (n = 0, 1, 2, ...) reports
`AFRIndex = n mod 64`, where `AFRIndex = loadIndex * 8 + rpmIndex` for the
indices `loadIndex = (n mod 64) / 8` and `rpmIndex = n mod 8` of the call, and
returns the correction, the average and the sample count of that cell at the
time of the call; the indices stay within 0..7; and among any 64 consecutive
calls exactly one reports any given cell of the grid. -/
theorem C33_sample_walk (cs : Nat → EngineMap) (between : Nat → AutoAfr → AutoAfr)
    (s : AutoAfr) (hl : s.loadIndex1 = 0) (hr : s.rpmIndex1 = 0)
    (hb : ∀ k t, (between k t).loadIndex1 = t.loadIndex1 ∧
      (between k t).rpmIndex1 = t.rpmIndex1) (n : Nat) :
    (afSampleReport cs between n s).AFRIndex = ((n % 64 : Nat) : ℚ) ∧
    (afSampleReport cs between n s).AFRIndex =
      (((afSampleState cs between n s).loadIndex1 * 8 +
        (afSampleState cs between n s).rpmIndex1 : Int) : ℚ) ∧
    (afSampleState cs between n s).loadIndex1 = ((n % 64 / 8 : Nat) : Int) ∧
    (afSampleState cs between n s).rpmIndex1 = ((n % 8 : Nat) : Int) ∧
    (afSampleReport cs between n s).correction =
      cs n (afSampleState cs between n s).loadIndex1 (afSampleState cs between n s).rpmIndex1 ∧
    (afSampleReport cs between n s).average =
      (afSampleState cs between n s).afrData.lambdaAverages
        (afSampleState cs between n s).loadIndex1 (afSampleState cs between n s).rpmIndex1 ∧
    (afSampleReport cs between n s).samples =
      (afSampleState cs between n s).afrData.lambdaSamples
        (afSampleState cs between n s).loadIndex1 (afSampleState cs between n s).rpmIndex1 ∧
    (0 ≤ (afSampleState cs between n s).loadIndex1 ∧
      (afSampleState cs between n s).loadIndex1 ≤ 7) ∧
    (0 ≤ (afSampleState cs between n s).rpmIndex1 ∧
      (afSampleState cs between n s).rpmIndex1 ≤ 7) ∧
    (∀ l r : Nat, l ≤ 7 → r ≤ 7 →
      ∃! k : Nat, k < 64 ∧
        (afSampleReport cs between (n + k) s).AFRIndex = ((l * 8 + r : Nat) : ℚ)) := by
  have hidx : ∀ m : Nat, (afSampleReport cs between m s).AFRIndex = ((m % 64 : Nat) : ℚ) := by
    intro m
    obtain ⟨i1, i2⟩ := afSampleState_indices cs between s hl hr hb m
    show (((afSampleState cs between m s).loadIndex1 * VE_MAP_SIZE_RPM +
      (afSampleState cs between m s).rpmIndex1 : Int) : ℚ) = ((m % 64 : Nat) : ℚ)
    rw [i1, i2]
    unfold VE_MAP_SIZE_RPM
    have : ((m % 64 / 8 : Nat) : Int) * 8 + ((m % 8 : Nat) : Int) = ((m % 64 : Nat) : Int) := by
      omega
    rw [this]
    norm_cast
  obtain ⟨i1, i2⟩ := afSampleState_indices cs between s hl hr hb n
  refine ⟨hidx n, rfl, i1, i2, rfl, rfl, rfl, ?_, ?_, ?_⟩
  · rw [i1]
    omega
  · rw [i2]
    omega
  · intro l r hl7 hr7
    refine ⟨(l * 8 + r + 64 - n % 64) % 64, ⟨by omega, ?_⟩, ?_⟩
    · rw [hidx]
      congr 1
      omega
    · rintro k ⟨hk, he⟩
      rw [hidx] at he
      have he2 : (n + k) % 64 = l * 8 + r := by exact_mod_cast he
      omega

/-- C33, at a concrete input: after `afInitialise`, with a call of
`afComputeCorrection` between the calls of `afGetSample`, call number 70
reports the cell with `AFRIndex` 6, that is load index 0 and RPM index 6. -/
theorem C33_sample_walk_witness :
    (afSampleReport (fun _ => afStart.1)
      (fun _ t => (afComputeCorrection 2000 90 0 0 100 afStart.1 t).2) 70 afStart.2).AFRIndex =
      6 ∧
    (afSampleState (fun _ => afStart.1)
      (fun _ t => (afComputeCorrection 2000 90 0 0 100 afStart.1 t).2) 70
      afStart.2).loadIndex1 = 0 ∧
    (afSampleState (fun _ => afStart.1)
      (fun _ t => (afComputeCorrection 2000 90 0 0 100 afStart.1 t).2) 70
      afStart.2).rpmIndex1 = 6 := by
  have h : testStatus EEPROM_AVAILABLE 0 = false := by decide
  have key := C33_sample_walk (fun _ => afStart.1)
    (fun _ t => (afComputeCorrection 2000 90 0 0 100 afStart.1 t).2) afStart.2
    (by simp [afStart, afInitialise, afResetAFRNoSave, afBoot, h])
    (by simp [afStart, afInitialise, afResetAFRNoSave, afBoot, h])
    (fun _ t => afComputeCorrection_indices 2000 90 0 0 100 afStart.1 t) 70
  refine ⟨?_, ?_, ?_⟩
  · rw [key.1]
    norm_num
  · rw [key.2.2.1]
    norm_num
  · rw [key.2.2.2.1]
    norm_num

/-! ## EEPROM layout: lemmas and claim -/

/-- For a configuration number in 1..8 and a relative address within the page
the conversion of `absAddr` to 16 bits changes nothing. -/
theorem absAddr_of_config {X : Type} (s : Ecu X) (rel : Int)
    (h1 : 1 ≤ s.configurationDescriptor.currentConfiguration)
    (h8 : s.configurationDescriptor.currentConfiguration ≤ 8) (hr0 : 0 ≤ rel)
    (hr : rel < CONFIGURATION_PAGE_SIZE) :
    absAddr rel s =
      (s.configurationDescriptor.currentConfiguration - 1) * 1344 + 640 + rel := by
  unfold CONFIGURATION_PAGE_SIZE at hr
  unfold absAddr toUint16 CONFIGURATION_PAGE_SIZE CONFIGURATION_PAGE_START_ADDR
  omega

theorem cfConfigBlocks_eq {X : Type} (s : Ecu X)
    (h1 : 1 ≤ s.configurationDescriptor.currentConfiguration)
    (h8 : s.configurationDescriptor.currentConfiguration ≤ 8) :
    cfConfigBlocks s =
      [((s.configurationDescriptor.currentConfiguration - 1) * 1344 + 640 + 0, 32),
       ((s.configurationDescriptor.currentConfiguration - 1) * 1344 + 640 + 64, 136),
       ((s.configurationDescriptor.currentConfiguration - 1) * 1344 + 640 + 256, 108),
       ((s.configurationDescriptor.currentConfiguration - 1) * 1344 + 640 + 384, 256),
       ((s.configurationDescriptor.currentConfiguration - 1) * 1344 + 640 + 704, 256),
       ((s.configurationDescriptor.currentConfiguration - 1) * 1344 + 640 + 1024, 256)] := by
  unfold cfConfigBlocks
  rw [absAddr_of_config s FILTERS_NVM_ADDR h1 h8 (by decide) (by decide),
    absAddr_of_config s PARAMETERS_1_NVM_ADDR h1 h8 (by decide) (by decide),
    absAddr_of_config s PARAMETERS_2_NVM_ADDR h1 h8 (by decide) (by decide),
    absAddr_of_config s VE_MAP_NVM_ADDR h1 h8 (by decide) (by decide),
    absAddr_of_config s IGNITION_MAP_NVM_ADDR h1 h8 (by decide) (by decide),
    absAddr_of_config s TGT_AFR_MAP_NVM_ADDR h1 h8 (by decide) (by decide)]
  rfl

/-- The call of `nvEEPROMBlockWrite` made by `afSaveAFRDataToNVM`. -/
theorem afSaveAFRDataToNVM_writes (s : AutoAfr) :
    (afSaveAFRDataToNVM s).2.eeprom.writes = s.eeprom.writes ++ [(AFR_DATA_NVM_ADDR, 512)] := by
  unfold afSaveAFRDataToNVM
  dsimp only
  exact (nvEEPROMBlockWrite_frame _ _ _ _ _).1

/-- The call of `nvEEPROMBlockWrite` made by `cfSaveConfig`. -/
theorem cfSaveConfig_writes {X : Type} (copy : page1Struct → page1Struct)
    (store : page1Struct → NvContent → NvContent) (blkSize nItems addr : Int) (s : Ecu X) :
    (cfSaveConfig copy store blkSize nItems nItems addr s).2.eeprom.writes =
      s.eeprom.writes ++ [(addr, blkSize)] := by
  unfold cfSaveConfig
  rw [if_pos rfl]
  dsimp only
  split_ifs <;> dsimp only <;> exact (nvEEPROMBlockWrite_frame _ _ _ _ _).1

/-- The call of `nvEEPROMBlockWrite` made by `cfProcessNVMMessage` is for one
of the six blocks of the current configuration. -/
theorem cfProcessNVMMessage_writes {X : Type} (env : Modules X) (block : Int)
    (data : Nat → paramType) (s : Ecu X) (hk : cfKnownBlock block) :
    ∃ b ∈ cfConfigBlocks s,
      (cfProcessNVMMessage env block (cfBlockItemCount block) data s).2.eeprom.writes =
        s.eeprom.writes ++ [b] := by
  unfold cfConfigBlocks
  rcases hk with h1 | h1 | h1 | h1 | h1 | h1
  · refine ⟨(absAddr FILTERS_NVM_ADDR s, 32), by simp, ?_⟩
    subst h1
    unfold cfProcessNVMMessage FILTER_BLK
    rw [if_pos rfl]
    dsimp only
    rw [(cfSoftwareResetFilters_frame _ _).2.1]
    exact cfSaveConfig_writes _ _ _ _ _ _
  · refine ⟨(absAddr PARAMETERS_1_NVM_ADDR s, 136), by simp, ?_⟩
    subst h1
    unfold cfProcessNVMMessage FILTER_BLK PARAMETER_1_BLK
    rw [if_neg (by decide), if_pos rfl]
    dsimp only
    rw [(cfSoftwareReset_frame _ _).2.1.2.1]
    exact cfSaveConfig_writes _ _ _ _ _ _
  · refine ⟨(absAddr PARAMETERS_2_NVM_ADDR s, 108), by simp, ?_⟩
    subst h1
    unfold cfProcessNVMMessage FILTER_BLK PARAMETER_1_BLK PARAMETER_2_BLK
    rw [if_neg (by decide), if_neg (by decide), if_pos rfl]
    dsimp only
    rw [(cfSoftwareReset_frame _ _).2.1.2.1]
    exact cfSaveConfig_writes _ _ _ _ _ _
  · refine ⟨(absAddr VE_MAP_NVM_ADDR s, 256), by simp, ?_⟩
    subst h1
    unfold cfProcessNVMMessage FILTER_BLK PARAMETER_1_BLK PARAMETER_2_BLK VE_MAP_BLK
    rw [if_neg (by decide), if_neg (by decide), if_neg (by decide), if_pos rfl]
    dsimp only
    rw [(cfSoftwareResetMaps_frame _ _).2.1.2.1]
    exact cfSaveConfig_writes _ _ _ _ _ _
  · refine ⟨(absAddr IGNITION_MAP_NVM_ADDR s, 256), by simp, ?_⟩
    subst h1
    unfold cfProcessNVMMessage FILTER_BLK PARAMETER_1_BLK PARAMETER_2_BLK VE_MAP_BLK IGN_MAP_BLK
    rw [if_neg (by decide), if_neg (by decide), if_neg (by decide), if_neg (by decide),
      if_pos rfl]
    exact cfSaveConfig_writes _ _ _ _ _ _
  · refine ⟨(absAddr TGT_AFR_MAP_NVM_ADDR s, 256), by simp, ?_⟩
    subst h1
    unfold cfProcessNVMMessage FILTER_BLK PARAMETER_1_BLK PARAMETER_2_BLK VE_MAP_BLK IGN_MAP_BLK
      TGT_AFR_BLK
    rw [if_neg (by decide), if_neg (by decide), if_neg (by decide), if_neg (by decide),
      if_neg (by decide), if_pos rfl]
    dsimp only
    rw [(cfSoftwareResetMaps_frame _ _).2.1.2.1]
    exact cfSaveConfig_writes _ _ _ _ _ _

/-- The call of `nvEEPROMBlockWrite` made by `cfSetCurrentConfig`. -/
theorem cfSetCurrentConfig_writes {X : Type} (env : Modules X) (n : Int) (s : Ecu X)
    (hn : n ≥ 1 ∧ n ≤ 8) :
    (cfSetCurrentConfig env n s).2.eeprom.writes = s.eeprom.writes ++ [(0, 60)] := by
  unfold cfSetCurrentConfig
  rw [if_pos hn]
  dsimp only
  rw [(cfSoftwareReset_frame _ _).2.1.2.1, (cfRestoreConfiguration_eeprom _).2.1,
    (cfStoreDescriptor_spec n s).2.2.2]

/-- C34. EEPROM layout: for every configuration number 1..8 the conversion of
`absAddr` to 16 bits does not truncate, `absAddr(rel) = (config - 1) * 1344 +
640 + rel`; every block read or written by the firmware (the configuration
descriptor at 0 with 60 bytes, the AFR data at 64 with 512 bytes, and the six
blocks of the configuration with 32, 136, 108, 256, 256 and 256 bytes) starts on
a 64-byte boundary and ends, with its 4-byte checksum, within 16 bits (indeed
within the 32768 bytes of the device); the ranges `[addr, addr + size + 4)` of
these blocks are pairwise disjoint; and the blocks of one configuration are
disjoint from the blocks of every other configuration. -/
theorem C34_eeprom_layout {X : Type} (s t : Ecu X)
    (hs : 1 ≤ s.configurationDescriptor.currentConfiguration ∧
      s.configurationDescriptor.currentConfiguration ≤ 8)
    (ht : 1 ≤ t.configurationDescriptor.currentConfiguration ∧
      t.configurationDescriptor.currentConfiguration ≤ 8) :
    (∀ rel : Int, 0 ≤ rel → rel < CONFIGURATION_PAGE_SIZE →
      absAddr rel s =
        (s.configurationDescriptor.currentConfiguration - 1) * 1344 + 640 + rel) ∧
    (∀ b ∈ nvmBlocks s, 0 ≤ (nvBlockRange b).1 ∧ (nvBlockRange b).1 % 64 = 0 ∧
      (nvBlockRange b).2 ≤ 2 ^ 16 ∧ (nvBlockRange b).2 ≤ 32768) ∧
    List.Pairwise nvDisjoint (nvmBlocks s) ∧
    (s.configurationDescriptor.currentConfiguration ≠
        t.configurationDescriptor.currentConfiguration →
      ∀ a ∈ cfConfigBlocks s, ∀ b ∈ cfConfigBlocks t, nvDisjoint a b) := by
  obtain ⟨hs1, hs8⟩ := hs
  obtain ⟨ht1, ht8⟩ := ht
  have es := cfConfigBlocks_eq s hs1 hs8
  have et := cfConfigBlocks_eq t ht1 ht8
  have h16 : (2 : Int) ^ 16 = 65536 := by norm_num
  refine ⟨fun rel h0 h1 => absAddr_of_config s rel hs1 hs8 h0 h1, ?_, ?_, fun hne => ?_⟩
  · intro b hb
    unfold nvmBlocks at hb
    rw [es] at hb
    simp only [List.mem_cons, List.mem_singleton, List.not_mem_nil, or_false] at hb
    unfold nvBlockRange
    rw [h16]
    rcases hb with h | h | h | h | h | h | h | h <;> subst h <;>
      simp only [AFR_DATA_NVM_ADDR] <;> omega
  · unfold nvmBlocks
    rw [es]
    simp only [List.pairwise_cons, List.mem_cons, List.mem_singleton, List.not_mem_nil,
      or_false, List.Pairwise.nil, and_true, forall_eq_or_imp, forall_eq, nvDisjoint,
      nvBlockRange, AFR_DATA_NVM_ADDR, IsEmpty.forall_iff, implies_true]
    omega
  · intro a ha b hb
    rw [es] at ha
    rw [et] at hb
    simp only [List.mem_cons, List.mem_singleton, List.not_mem_nil, or_false] at ha hb
    unfold nvDisjoint nvBlockRange
    rcases ha with h | h | h | h | h | h <;> subst h <;>
      rcases hb with h | h | h | h | h | h <;> subst h <;> dsimp only <;> omega

/-- C34, at a concrete input: configurations 1 and 8 of the device. With
configuration 8 the target AFR map is at 11072 and ends, with its checksum,
at 11332; the filters of configuration 8 start at 10048, after the end (1924)
of the target AFR map of configuration 1. -/
theorem C34_eeprom_layout_witness :
    absAddr TGT_AFR_MAP_NVM_ADDR
      { ecuStart 0 eepromFitted with
        configurationDescriptor :=
          { configurationDescriptorDefault with currentConfiguration := 8 } } = 11072 ∧
    List.Pairwise nvDisjoint (nvmBlocks (ecuStart 0 eepromFitted)) ∧
    nvDisjoint (absAddr TGT_AFR_MAP_NVM_ADDR (ecuStart 0 eepromFitted), 256)
      (absAddr FILTERS_NVM_ADDR
        { ecuStart 0 eepromFitted with
          configurationDescriptor :=
            { configurationDescriptorDefault with currentConfiguration := 8 } }, 32) := by
  have key := C34_eeprom_layout (ecuStart 0 eepromFitted)
    { ecuStart 0 eepromFitted with
      configurationDescriptor :=
        { configurationDescriptorDefault with currentConfiguration := 8 } }
    (by decide) (by decide)
  refine ⟨by decide, key.2.2.1, ?_⟩
  exact key.2.2.2 (by decide) _ (by simp [cfConfigBlocks]) _ (by simp [cfConfigBlocks])

/-! ## Idle throttle: claim -/

theorem aiInitialise_frame (cyclicPeriod : ℚ) (s : AutoIdle) :
    (aiInitialise cyclicPeriod s).PSIT = s.cfPage1.p1.psitDecayTime ∧
    (aiInitialise cyclicPeriod s).PSITDecayStep =
      s.cfPage1.p1.psitStartValue * cyclicPeriod / (1000 * s.cfPage1.p1.psitDecayTime) ∧
    (aiInitialise cyclicPeriod s).cfPage1 = s.cfPage1 ∧
    (aiInitialise cyclicPeriod s).keyData = s.keyData ∧
    (aiInitialise cyclicPeriod s).gradient =
      (s.cfPage1.p1.tpsFastIdleValue - s.cfPage1.p1.tpsNormalIdleValue) /
        (s.cfPage1.p1.tpsFastIdleTemp - s.cfPage1.p1.tpsNormalIdleTemp) ∧
    (aiInitialise cyclicPeriod s).offset =
      s.cfPage1.p1.tpsNormalIdleValue -
        (s.cfPage1.p1.tpsFastIdleValue - s.cfPage1.p1.tpsNormalIdleValue) /
          (s.cfPage1.p1.tpsFastIdleTemp - s.cfPage1.p1.tpsNormalIdleTemp) *
          s.cfPage1.p1.tpsNormalIdleTemp ∧
    (aiInitialise cyclicPeriod s).aiTargetTPSAdjust = 0 := by
  unfold aiInitialise aiType1ActuatorInit aiType2ActuatorInit
  dsimp only
  split_ifs <;> exact ⟨rfl, rfl, rfl, rfl, rfl, rfl, rfl⟩

/-- What `aiGetTargetTPS` does to the post-start idle throttle and what it
returns. -/
theorem aiGetTargetTPS_spec (engineTemp : ℚ) (s : AutoIdle) :
    (aiGetTargetTPS engineTemp s).2.PSIT =
      (if s.keyData.RPM > s.cfPage1.p1.crankingThreshold then
        (if s.PSIT > 0 then s.PSIT - s.PSITDecayStep else s.PSIT)
       else s.cfPage1.p1.psitStartValue) ∧
    (aiGetTargetTPS engineTemp s).1 =
      max (limitF (s.gradient * engineTemp + s.offset) s.cfPage1.p1.tpsNormalIdleValue
          s.cfPage1.p1.tpsFastIdleValue + s.aiTargetTPSAdjust)
        (aiGetTargetTPS engineTemp s).2.PSIT := by
  unfold aiGetTargetTPS
  dsimp only
  split_ifs <;> exact ⟨rfl, rfl⟩

/-- C35. Post-start idle throttle. `aiInitialise` leaves `PSIT` at
`psitDecayTime`, not at `psitStartValue`, with the decay step
`psitStartValue * cyclicPeriod / (1000 * psitDecayTime)`: on the default
configuration (start value 6, decay time 15 s) `PSIT` is 15 after
`aiInitialise(40)`, and with the engine running at 2000 RPM the first call
`aiGetTargetTPS(80)` returns 14.984 where a start value of 6 gives 5.984.
`aiGetTargetTPS` sets `PSIT` to `psitStartValue` while
`RPM <= crankingThreshold`, decrements it by `PSITDecayStep` while running and
positive, and returns the greater of the new `PSIT` and the slope value
`gradient * engineTemp + offset` limited to `[tpsNormalIdleValue,
tpsFastIdleValue]` plus `aiTargetTPSAdjust`. -/
theorem C35_idle_throttle_start_value (cyclicPeriod engineTemp : ℚ) (s : AutoIdle) :
    (aiInitialise cyclicPeriod s).PSIT = s.cfPage1.p1.psitDecayTime ∧
    (aiInitialise cyclicPeriod s).PSITDecayStep =
      s.cfPage1.p1.psitStartValue * cyclicPeriod / (1000 * s.cfPage1.p1.psitDecayTime) ∧
    ((aiStart 2000).PSIT = 15 ∧ (aiStart 2000).cfPage1.p1.psitStartValue = 6 ∧
      (aiGetTargetTPS 80 (aiStart 2000)).1 = 14984 / 1000 ∧
      (aiGetTargetTPS 80 { aiStart 2000 with PSIT := 6 }).1 = 5984 / 1000) ∧
    (aiGetTargetTPS engineTemp s).2.PSIT =
      (if s.keyData.RPM > s.cfPage1.p1.crankingThreshold then
        (if s.PSIT > 0 then s.PSIT - s.PSITDecayStep else s.PSIT)
       else s.cfPage1.p1.psitStartValue) ∧
    (aiGetTargetTPS engineTemp s).1 =
      max (limitF (s.gradient * engineTemp + s.offset) s.cfPage1.p1.tpsNormalIdleValue
          s.cfPage1.p1.tpsFastIdleValue + s.aiTargetTPSAdjust)
        (aiGetTargetTPS engineTemp s).2.PSIT := by
  obtain ⟨i1, i2, -⟩ := aiInitialise_frame cyclicPeriod s
  obtain ⟨g1, g2⟩ := aiGetTargetTPS_spec engineTemp s
  obtain ⟨a1, a2, a3, a4, a5, a6, a7⟩ := aiInitialise_frame CYCLIC_PROCESSING_LF_PERIOD
    (aiBoot cfPage1Default { keyDataZero with RPM := 2000 })
  have hP : (aiStart 2000).PSIT = 15 := by
    unfold aiStart
    rw [a1]
    rfl
  have hS : (aiStart 2000).PSITDecayStep = 2 / 125 := by
    unfold aiStart
    rw [a2]
    norm_num [aiBoot, cfPage1Default, CYCLIC_PROCESSING_LF_PERIOD]
  have hC : (aiStart 2000).cfPage1 = cfPage1Default := by
    unfold aiStart
    rw [a3]
    rfl
  have hK : (aiStart 2000).keyData.RPM = 2000 := by
    unfold aiStart
    rw [a4]
    rfl
  have hG : (aiStart 2000).gradient = -2 / 9 := by
    unfold aiStart
    rw [a5]
    norm_num [aiBoot, cfPage1Default]
  have hO : (aiStart 2000).offset = 100 / 9 := by
    unfold aiStart
    rw [a6]
    norm_num [aiBoot, cfPage1Default]
  have hA : (aiStart 2000).aiTargetTPSAdjust = 0 := by
    unfold aiStart
    rw [a7]
  refine ⟨i1, i2, ⟨hP, by rw [hC]; rfl, ?_, ?_⟩, g1, g2⟩
  · obtain ⟨e1, e2⟩ := aiGetTargetTPS_spec 80 (aiStart 2000)
    rw [e2, e1, hK, hP, hS, hG, hO, hA, hC]
    norm_num [cfPage1Default, limitF]
  · obtain ⟨e1, e2⟩ := aiGetTargetTPS_spec 80 { aiStart 2000 with PSIT := 6 }
    rw [e2, e1]
    show max (limitF ((aiStart 2000).gradient * 80 + (aiStart 2000).offset)
        (aiStart 2000).cfPage1.p1.tpsNormalIdleValue (aiStart 2000).cfPage1.p1.tpsFastIdleValue +
        (aiStart 2000).aiTargetTPSAdjust)
      (if (aiStart 2000).keyData.RPM > (aiStart 2000).cfPage1.p1.crankingThreshold then
        (if (6 : ℚ) > 0 then 6 - (aiStart 2000).PSITDecayStep else 6)
       else (aiStart 2000).cfPage1.p1.psitStartValue) = 5984 / 1000
    rw [hK, hS, hG, hO, hA, hC]
    norm_num [cfPage1Default, limitF]

/-! ## Scheduler: dispatch and the registration count -/

/-- The slots whose callback is called by the loop of `scTimerTick` are below
the registration count. -/
theorem scTimerTickLoop_calls_lt (cb : Callbacks) (hctl : scKeepsControl cb) :
    ∀ (fuel i : Nat) (s : Scheduler), ∀ t ∈ (scTimerTickLoop cb fuel i s).2,
      i ≤ t ∧ (t : Int) < s.scNumberOfTasksRegistered := by
  intro fuel
  induction fuel with
  | zero =>
    intro i s t ht
    simp [scTimerTickLoop] at ht
  | succ fuel ih =>
    intro i s t ht
    unfold scTimerTickLoop at ht
    by_cases hcnt : (i : Int) < s.scNumberOfTasksRegistered
    · rw [if_pos hcnt] at ht
      dsimp only at ht
      rcases List.mem_append.mp ht with h | h
      · have hti : t = i := by
          split_ifs at h
          · simpa using h
          · simp at h
        subst hti
        exact ⟨le_refl _, hcnt⟩
      · obtain ⟨h1, h2⟩ := ih (i + 1) (scTickTask cb i s).1 t h
        rw [(scTickTask_control cb hctl i s).1] at h2
        exact ⟨by omega, h2⟩
    · rw [if_neg hcnt] at ht
      simp at ht

/-- A slot at or above the registration count is not written by the loop of
`scTimerTick`. -/
theorem scTimerTickLoop_untouched (cb : Callbacks) (hctl : scKeepsControl cb) (t : Nat)
    (hfr : ∀ f u, (cb f u).scTasks t = u.scTasks t) :
    ∀ (fuel i : Nat) (s : Scheduler), s.scNumberOfTasksRegistered ≤ (t : Int) →
      (scTimerTickLoop cb fuel i s).1.scTasks t = s.scTasks t := by
  intro fuel
  induction fuel with
  | zero =>
    intro i s _
    rfl
  | succ fuel ih =>
    intro i s ht
    unfold scTimerTickLoop
    by_cases hcnt : (i : Int) < s.scNumberOfTasksRegistered
    · rw [if_pos hcnt]
      dsimp only
      have hne : i ≠ t := by
        intro h
        subst h
        omega
      rw [ih (i + 1) (scTickTask cb i s).1
        (by rw [(scTickTask_control cb hctl i s).1]; exact ht)]
      exact scTickTask_other cb (fun _ => True) t i (fun f u _ => hfr f u) hne s trivial
    · rw [if_neg hcnt]

/-- The loop body does nothing to a slot that is neither ready nor started. -/
theorem scTickTask_idle (cb : Callbacks) (t : Nat) (s : Scheduler)
    (h1 : (s.scTasks t).state ≠ scTaskStatus.SCH_READY)
    (h2 : (s.scTasks t).state ≠ scTaskStatus.SCH_STARTED) :
    scTickTask cb t s = (s, false) := by
  unfold scTickTask
  rw [if_neg h1]
  dsimp only
  rw [if_neg h2]

/-- A tick of a scheduler that is not started does nothing. -/
theorem scTimerTick_stopped (cb : Callbacks) (s : Scheduler) (h : s.scSchedulerStarted = 0) :
    scTimerTick cb s = (s, []) := by
  unfold scTimerTick
  rw [if_neg (not_not.mpr h)]

/-- After `scInitialise` and a single `scAddTask` at an index from 1 to 4 a
tick of the started scheduler changes nothing and calls nothing: the loop looks
at slot 0 only, which is undefined. -/
theorem scTimerTick_single_task (cb : Callbacks) (s : Scheduler) (tick index : Int) (f : Nat)
    (p : ℚ) (h1 : 1 ≤ index) (h5 : index < SCH_MAX_NUMBER_OF_TASKS) :
    scTimerTick cb (scStartScheduler (scAddTask index f p (scInitialise tick s))) =
      (scStartScheduler (scAddTask index f p (scInitialise tick s)), []) := by
  have hadd : scAddTask index f p (scInitialise tick s) =
      { scInitialise tick s with
        scTasks := Function.update (scInitialise tick s).scTasks index.toNat
          { (scInitialise tick s).scTasks index.toNat with
            period := toUnsigned (roundf (p / (scInitialise tick s).scTimerTickPeriod))
            periodCount := 0
            function := f
            state := scTaskStatus.SCH_READY }
        scNumberOfTasksRegistered := (scInitialise tick s).scNumberOfTasksRegistered + 1 } := by
    unfold scAddTask
    rw [if_pos (by show (0 : Int) < SCH_MAX_NUMBER_OF_TASKS; decide),
      if_pos ⟨by omega, h5⟩]
  have hcount : (scStartScheduler (scAddTask index f p
      (scInitialise tick s))).scNumberOfTasksRegistered = 1 := by
    rw [hadd]
    rfl
  have hne : (0 : Nat) ≠ index.toNat := by omega
  have hslot : ((scStartScheduler (scAddTask index f p (scInitialise tick s))).scTasks 0).state =
      scTaskStatus.SCH_UNDEFINED := by
    rw [hadd]
    show (Function.update (scInitialise tick s).scTasks index.toNat _ 0).state = _
    rw [Function.update_noteq hne]
    rfl
  have htask : scTickTask cb 0 (scStartScheduler (scAddTask index f p (scInitialise tick s))) =
      (scStartScheduler (scAddTask index f p (scInitialise tick s)), false) := by
    exact scTickTask_idle cb 0 _ (by rw [hslot]; decide) (by rw [hslot]; decide)
  unfold scTimerTick
  rw [if_pos (by show (1 : Int) ≠ 0; decide)]
  show scTimerTickLoop cb (4 + 1) 0 _ = _
  unfold scTimerTickLoop
  rw [if_pos (by rw [hcount]; decide)]
  dsimp only
  rw [htask]
  dsimp only
  show ((scTimerTickLoop cb (3 + 1) (0 + 1) _).1, [] ++ (scTimerTickLoop cb (3 + 1) (0 + 1) _).2) = _
  unfold scTimerTickLoop
  rw [if_neg (by rw [hcount]; decide)]
  rfl

theorem scRun_fixed (cb : Callbacks) (s : Scheduler) (h : scTimerTick cb s = (s, [])) (n : Nat) :
    scRun cb n s = s := by
  induction n with
  | zero => rfl
  | succ n ih => rw [scRun, ih, h]

theorem scCalls_fixed (cb : Callbacks) (s : Scheduler) (h : scTimerTick cb s = (s, []))
    (t n : Nat) : scCalls cb s t n = 0 := by
  induction n with
  | zero => rfl
  | succ n ih => rw [scCalls, ih, scCallsOnTick, scRun_fixed cb s h, h]; rfl

/-- C36. Scheduler dispatch depends on the registration count, not the slot.
With callbacks that leave the registration count and the started flag alone,
`scTimerTick` calls only callbacks of slots below `scNumberOfTasksRegistered`
and writes no slot at or above it. After `scInitialise` and a single
`scAddTask` at an index from 1 to 4 (for example 3) the count is 1 and slot 0 is
undefined, so for every number of ticks of the started scheduler, and whatever
the callbacks do, no callback is called and the state does not change. When the
scheduler is not started, or has been stopped, a tick changes nothing and calls
no callback. -/
theorem C36_dispatch_by_registration_count (cb : Callbacks) (s : Scheduler) :
    (scKeepsControl cb →
      (∀ t ∈ (scTimerTick cb s).2, (t : Int) < s.scNumberOfTasksRegistered) ∧
      (∀ t : Nat, s.scNumberOfTasksRegistered ≤ (t : Int) →
        (∀ f u, (cb f u).scTasks t = u.scTasks t) →
        (scTimerTick cb s).1.scTasks t = s.scTasks t)) ∧
    (∀ (tick index : Int) (f : Nat) (p : ℚ) (n : Nat),
      1 ≤ index → index < SCH_MAX_NUMBER_OF_TASKS →
      scRun cb n (scStartScheduler (scAddTask index f p (scInitialise tick s))) =
        scStartScheduler (scAddTask index f p (scInitialise tick s)) ∧
      (scTimerTick cb
        (scRun cb n (scStartScheduler (scAddTask index f p (scInitialise tick s))))).2 = [] ∧
      scCalls cb (scStartScheduler (scAddTask index f p (scInitialise tick s))) index.toNat n =
        0) ∧
    (s.scSchedulerStarted = 0 → scTimerTick cb s = (s, [])) ∧
    scTimerTick cb (scStopScheduler s) = (scStopScheduler s, []) := by
  refine ⟨fun hctl => ⟨fun t ht => ?_, fun t ht hfr => ?_⟩, ?_,
    scTimerTick_stopped cb s, scTimerTick_stopped cb _ rfl⟩
  · unfold scTimerTick at ht
    split_ifs at ht
    · exact (scTimerTickLoop_calls_lt cb hctl _ _ _ t ht).2
    · simp at ht
  · unfold scTimerTick
    split_ifs
    · exact scTimerTickLoop_untouched cb hctl t hfr _ _ _ ht
    · rfl
  · intro tick index f p n h1 h5
    have h := scTimerTick_single_task cb s tick index f p h1 h5
    refine ⟨scRun_fixed cb _ h n, ?_, scCalls_fixed cb _ h _ n⟩
    rw [scRun_fixed cb _ h n, h]

/-- C36, at a concrete input: the tick of 1 ms of `ecuInitialisation`, a single
task added at index 3 with a period of 5 ms, the cyclic tasks as callbacks: in
1000 ticks the callback of slot 3 is never called. -/
theorem C36_dispatch_by_registration_count_witness :
    scCalls cyclicTasks (scStartScheduler (scAddTask 3 3 5 (scInitialise 1 scBoot))) 3 1000 = 0 ∧
    scRun cyclicTasks 1000 (scStartScheduler (scAddTask 3 3 5 (scInitialise 1 scBoot))) =
      scStartScheduler (scAddTask 3 3 5 (scInitialise 1 scBoot)) :=
  ⟨((C36_dispatch_by_registration_count cyclicTasks scBoot).2.1 1 3 3 5 1000 (by decide)
      (by decide)).2.2,
   ((C36_dispatch_by_registration_count cyclicTasks scBoot).2.1 1 3 3 5 1000 (by decide)
      (by decide)).1⟩

/-! ## Scheduler: a task registered at or above the registration count -/

/-- C1, counterexample: on a fresh scheduler with the tick of 1 ms a single task
is registered at index 3 with a period of 5 ms, and the scheduler is started.
The task is registered and ready, with period 5 and period count 0, and its
callback never completes it; but the registration count is 1 and the loop of
`scTimerTick` visits slot 0 only. After any number of ticks the callback has not
been called, the slot is still `SCH_READY` with period count 0 and the overrun
count is 0. -/
theorem C1_counterexample :
    (scStartScheduler (scAddTask 3 3 5 (scInitialise 1 scBoot))).scSchedulerStarted ≠ 0 ∧
    (scStartScheduler (scAddTask 3 3 5 (scInitialise 1 scBoot))).scNumberOfTasksRegistered = 1 ∧
    ((scStartScheduler (scAddTask 3 3 5 (scInitialise 1 scBoot))).scTasks 3).state =
      scTaskStatus.SCH_READY ∧
    ((scStartScheduler (scAddTask 3 3 5 (scInitialise 1 scBoot))).scTasks 3).period = 5 ∧
    ∀ n : Nat,
      scCalls (fun _ u => u) (scStartScheduler (scAddTask 3 3 5 (scInitialise 1 scBoot))) 3 n =
        0 ∧
      ((scRun (fun _ u => u) n
        (scStartScheduler (scAddTask 3 3 5 (scInitialise 1 scBoot)))).scTasks 3).state =
        scTaskStatus.SCH_READY ∧
      ((scRun (fun _ u => u) n
        (scStartScheduler (scAddTask 3 3 5 (scInitialise 1 scBoot)))).scTasks 3).periodCount =
        0 ∧
      ((scRun (fun _ u => u) n
        (scStartScheduler (scAddTask 3 3 5 (scInitialise 1 scBoot)))).scTasks 3).overrunCount =
        0 := by
  have h := scTimerTick_single_task (fun _ u => u) scBoot 1 3 3 5 (by decide) (by decide)
  have hp : ((scStartScheduler (scAddTask 3 3 5 (scInitialise 1 scBoot))).scTasks 3).period =
      5 := by
    norm_num [scStartScheduler, scAddTask, scInitialise, scBoot, SCH_MAX_NUMBER_OF_TASKS, roundf,
      toUnsigned, UINT_RANGE, Function.update]
    decide
  refine ⟨by decide, by decide, by decide, hp, fun n => ?_⟩
  rw [scRun_fixed _ _ h n]
  exact ⟨scCalls_fixed _ _ h 3 n, by decide, by decide, by decide⟩

/-- C2, counterexample: the same scheduler with the cyclic tasks as callbacks,
each of which ends with `scCompleted` of its task. The task registered at index
3 with period 5 is ready, but it is not called on tick 5 nor on tick 10, and
after any number of ticks it has not been called at all. -/
theorem C2_counterexample :
    ((scStartScheduler (scAddTask 3 3 5 (scInitialise 1 scBoot))).scTasks 3).state =
      scTaskStatus.SCH_READY ∧
    ((scStartScheduler (scAddTask 3 3 5 (scInitialise 1 scBoot))).scTasks 3).period = 5 ∧
    ((scStartScheduler (scAddTask 3 3 5 (scInitialise 1 scBoot))).scTasks 3).function = 3 ∧
    scCallsOnTick cyclicTasks (scStartScheduler (scAddTask 3 3 5 (scInitialise 1 scBoot))) 3 4 =
      0 ∧
    scCallsOnTick cyclicTasks (scStartScheduler (scAddTask 3 3 5 (scInitialise 1 scBoot))) 3 9 =
      0 ∧
    ∀ n : Nat,
      scCalls cyclicTasks (scStartScheduler (scAddTask 3 3 5 (scInitialise 1 scBoot))) 3 n =
        0 := by
  have h := scTimerTick_single_task cyclicTasks scBoot 1 3 3 5 (by decide) (by decide)
  have hp : ((scStartScheduler (scAddTask 3 3 5 (scInitialise 1 scBoot))).scTasks 3).period =
      5 := by
    norm_num [scStartScheduler, scAddTask, scInitialise, scBoot, SCH_MAX_NUMBER_OF_TASKS, roundf,
      toUnsigned, UINT_RANGE, Function.update]
    decide
  have hc : ∀ k, scCallsOnTick cyclicTasks
      (scStartScheduler (scAddTask 3 3 5 (scInitialise 1 scBoot))) 3 k = 0 := by
    intro k
    rw [scCallsOnTick, scRun_fixed _ _ h k, h]
    rfl
  exact ⟨by decide, hp, by decide, hc 4, hc 9, fun n => scCalls_fixed _ _ h 3 n⟩

/-! ## Period filter: no overshoot -/

/-- One update of the filter memory `m` towards the scaled input `c`, with
`P = 2 ^ k`: from below the memory moves up without passing `c`, from above it
moves down by at least 1 without passing `c`. -/
theorem filter_step_bounds (P c m : Int) (hP : 1 ≤ P) :
    (m ≤ c → m ≤ m + (c - m) / P ∧ m + (c - m) / P ≤ c ∧
      (m + (c - m) / P = m ↔ c - m < P)) ∧
    (c < m → c ≤ m + (c - m) / P ∧ m + (c - m) / P < m) := by
  have hP0 : 0 < P := by omega
  have hq := Int.ediv_add_emod (c - m) P
  have hr0 := Int.emod_nonneg (c - m) (ne_of_gt hP0)
  have hr1 := Int.emod_lt_of_pos (c - m) hP0
  constructor
  · intro h
    have hq0 : 0 ≤ (c - m) / P := Int.ediv_nonneg (by omega) (by omega)
    have hle : (c - m) / P ≤ c - m := by
      nlinarith [mul_nonneg (by omega : (0 : Int) ≤ P - 1) hq0]
    refine ⟨by omega, by omega, ?_⟩
    constructor
    · intro he
      have hz : (c - m) / P = 0 := by omega
      rw [hz] at hq
      omega
    · intro hlt
      have hz : (c - m) / P = 0 := Int.ediv_eq_zero_of_lt (by omega) hlt
      omega
  · intro h
    have hq1 : (c - m) / P ≤ -1 := by
      by_contra hc
      have : 0 ≤ (c - m) / P := by omega
      nlinarith
    have hge : c - m ≤ (c - m) / P := by
      nlinarith [mul_nonneg (by omega : (0 : Int) ≤ P - 1) (by omega : (0 : Int) ≤ -1 - (c - m) / P)]
    exact ⟨by omega, by omega⟩

theorem periodFilterStep_eq (k : Nat) (R m : Int) :
    periodFilterStep k R m = m + (R * 2 ^ k - m) / 2 ^ k := by
  unfold periodFilterStep
  rw [Int.shiftRight_eq_div_pow]
  push_cast
  ring

/-- From above, the memory reaches the scaled input and stays there. -/
theorem filter_from_above (k : Nat) (R m : Int) (hm : R * 2 ^ k ≤ m) (n : Nat) :
    R * 2 ^ k ≤ (periodFilterStep k R)^[n] m ∧
    ((periodFilterStep k R)^[n] m = R * 2 ^ k ∨ (periodFilterStep k R)^[n] m ≤ m - n) := by
  have hP : (1 : Int) ≤ 2 ^ k := one_le_pow₀ (by norm_num)
  induction n with
  | zero =>
    simp only [Function.iterate_zero, id_eq, Nat.cast_zero, sub_zero]
    exact ⟨hm, Or.inr le_rfl⟩
  | succ n ih =>
    rw [Function.iterate_succ_apply', periodFilterStep_eq]
    obtain ⟨b1, b2⟩ := filter_step_bounds (2 ^ k) (R * 2 ^ k) ((periodFilterStep k R)^[n] m) hP
    obtain ⟨i1, i2⟩ := ih
    by_cases he : (periodFilterStep k R)^[n] m = R * 2 ^ k
    · obtain ⟨c1, c2, c3⟩ := b1 (le_of_eq he)
      have : (periodFilterStep k R)^[n] m + (R * 2 ^ k - (periodFilterStep k R)^[n] m) / 2 ^ k =
          (periodFilterStep k R)^[n] m := c3.mpr (by omega)
      rw [this]
      exact ⟨i1, Or.inl he⟩
    · obtain ⟨c1, c2⟩ := b2 (by omega)
      refine ⟨c1, Or.inr ?_⟩
      push_cast
      rcases i2 with h | h
      · exact absurd h he
      · omega

/-- C37. The shift-based period filter does not overshoot. For a pulse after
which the period taken by the filter is `R`, with the filter shift `k` and
the scaled memory `m = crankPulsePeriodFN_1` before the pulse, the handler
leaves the memory `m' = m + ((R * 2 ^ k - m) >> k)` and the filtered period
`m' >> k`. If `0 <= m <= R * 2 ^ k` then `m <= m' <= R * 2 ^ k`, the filtered
period does not decrease and does not exceed `R`, the memory is unchanged
exactly when `R * 2 ^ k - m < 2 ^ k`, and then the filtered period is `R` or
`R - 1`. If `m > R * 2 ^ k` then `R * 2 ^ k <= m' < m`, and after at most
`m - R * 2 ^ k` updates the memory equals `R * 2 ^ k` and stays there. -/
theorem C37_filter_no_overshoot (cmp : Bool) (p R : Int) (s : TriggerWheel)
    (hin : (crankshaftPulseHandler cmp p s).crankPulsePeriodR = R) :
    (crankshaftPulseHandler cmp p s).crankPulsePeriodFN_1 =
      s.crankPulsePeriodFN_1 +
        ((R * 2 ^ s.cfPage1.filters.crankshaftPulseFilter - s.crankPulsePeriodFN_1) >>>
          s.cfPage1.filters.crankshaftPulseFilter) ∧
    (crankshaftPulseHandler cmp p s).crankPulsePeriodFN_1 =
      periodFilterStep s.cfPage1.filters.crankshaftPulseFilter R s.crankPulsePeriodFN_1 ∧
    (crankshaftPulseHandler cmp p s).crankPulsePeriodF =
      (crankshaftPulseHandler cmp p s).crankPulsePeriodFN_1 >>>
        s.cfPage1.filters.crankshaftPulseFilter ∧
    (0 ≤ s.crankPulsePeriodFN_1 →
      s.crankPulsePeriodFN_1 ≤ R * 2 ^ s.cfPage1.filters.crankshaftPulseFilter →
      s.crankPulsePeriodFN_1 ≤ (crankshaftPulseHandler cmp p s).crankPulsePeriodFN_1 ∧
      (crankshaftPulseHandler cmp p s).crankPulsePeriodFN_1 ≤
        R * 2 ^ s.cfPage1.filters.crankshaftPulseFilter ∧
      s.crankPulsePeriodFN_1 >>> s.cfPage1.filters.crankshaftPulseFilter ≤
        (crankshaftPulseHandler cmp p s).crankPulsePeriodF ∧
      (crankshaftPulseHandler cmp p s).crankPulsePeriodF ≤ R ∧
      ((crankshaftPulseHandler cmp p s).crankPulsePeriodFN_1 = s.crankPulsePeriodFN_1 ↔
        R * 2 ^ s.cfPage1.filters.crankshaftPulseFilter - s.crankPulsePeriodFN_1 <
          2 ^ s.cfPage1.filters.crankshaftPulseFilter) ∧
      ((crankshaftPulseHandler cmp p s).crankPulsePeriodFN_1 = s.crankPulsePeriodFN_1 →
        (crankshaftPulseHandler cmp p s).crankPulsePeriodF = R ∨
        (crankshaftPulseHandler cmp p s).crankPulsePeriodF = R - 1)) ∧
    (R * 2 ^ s.cfPage1.filters.crankshaftPulseFilter < s.crankPulsePeriodFN_1 →
      R * 2 ^ s.cfPage1.filters.crankshaftPulseFilter ≤
        (crankshaftPulseHandler cmp p s).crankPulsePeriodFN_1 ∧
      (crankshaftPulseHandler cmp p s).crankPulsePeriodFN_1 < s.crankPulsePeriodFN_1 ∧
      (∀ n : Nat,
        s.crankPulsePeriodFN_1 - R * 2 ^ s.cfPage1.filters.crankshaftPulseFilter ≤ (n : Int) →
        (periodFilterStep s.cfPage1.filters.crankshaftPulseFilter R)^[n]
          s.crankPulsePeriodFN_1 = R * 2 ^ s.cfPage1.filters.crankshaftPulseFilter)) := by
  obtain ⟨f1, f2, -, -⟩ := crankshaftPulseHandler_filter cmp p s
  rw [hin] at f1
  generalize s.cfPage1.filters.crankshaftPulseFilter = k at f1 f2 ⊢
  generalize s.crankPulsePeriodFN_1 = m at f1 ⊢
  generalize (crankshaftPulseHandler cmp p s).crankPulsePeriodFN_1 = m' at f1 f2 ⊢
  generalize (crankshaftPulseHandler cmp p s).crankPulsePeriodF = F at f2 ⊢
  have hP : (1 : Int) ≤ 2 ^ k := one_le_pow₀ (by norm_num)
  have hP0 : (0 : Int) < 2 ^ k := by omega
  have e1 : m' = m + (R * 2 ^ k - m) / 2 ^ k := by
    rw [f1, Int.shiftRight_eq_div_pow]
    push_cast
    ring
  have e2 : F = m' / 2 ^ k := by
    rw [f2, Int.shiftRight_eq_div_pow]
    push_cast
    rfl
  obtain ⟨b1, b2⟩ := filter_step_bounds (2 ^ k) (R * 2 ^ k) m hP
  refine ⟨by rw [f1]; ring, by rw [periodFilterStep_eq, e1], f2, fun h0 hm => ?_, fun hm => ?_⟩
  · obtain ⟨c1, c2, c3⟩ := b1 hm
    rw [← e1] at c1 c2 c3
    have hF : F ≤ R := by
      rw [e2]
      calc m' / 2 ^ k ≤ (R * 2 ^ k) / 2 ^ k := Int.ediv_le_ediv hP0 c2
        _ = R := Int.mul_ediv_cancel R (ne_of_gt hP0)
    refine ⟨c1, c2, ?_, hF, c3, fun he => ?_⟩
    · rw [e2, Int.shiftRight_eq_div_pow]
      push_cast
      exact Int.ediv_le_ediv hP0 c1
    · have hgap := c3.mp he
      have hlow : R - 1 ≤ F := by
        rw [e2, he, Int.le_ediv_iff_mul_le hP0]
        nlinarith
      omega
  · obtain ⟨c1, c2⟩ := b2 hm
    rw [← e1] at c1 c2
    refine ⟨c1, c2, fun n hn => ?_⟩
    obtain ⟨g1, g2⟩ := filter_from_above k R m (le_of_lt hm) n
    rcases g2 with h | h
    · exact h
    · omega

/-- C37, at a concrete input: default configuration, memory settled on 10000
(80000 for the shift 3), a pulse of 10200 us: the memory moves to 80200, below
81600, and the filtered period to 10025. -/
theorem C37_filter_no_overshoot_witness :
    (crankshaftPulseHandler true 10200 (twRunning 5 0 10000)).crankPulsePeriodFN_1 = 80200 ∧
    (crankshaftPulseHandler true 10200 (twRunning 5 0 10000)).crankPulsePeriodF = 10025 ∧
    (twRunning 5 0 10000).crankPulsePeriodFN_1 ≤
      (crankshaftPulseHandler true 10200 (twRunning 5 0 10000)).crankPulsePeriodFN_1 ∧
    (crankshaftPulseHandler true 10200 (twRunning 5 0 10000)).crankPulsePeriodF ≤ 10200 := by
  have key := C37_filter_no_overshoot true 10200 10200 (twRunning 5 0 10000) (by decide)
  obtain ⟨k1, -, k3, k4, -⟩ := key
  obtain ⟨a1, -, -, a4, -⟩ := k4 (by decide) (by decide)
  have h1 : (crankshaftPulseHandler true 10200 (twRunning 5 0 10000)).crankPulsePeriodFN_1 =
      80200 := by
    rw [k1]
    decide
  refine ⟨h1, ?_, a1, a4⟩
  rw [k3, h1]
  decide

/-! ## Interpolation: lemmas and claim -/

/-- A point between `a` and `b`. -/
theorem lerp_bounds (u a b : ℚ) (h0 : 0 ≤ u) (h1 : u ≤ 1) :
    min a b ≤ u * (b - a) + a ∧ u * (b - a) + a ≤ max a b := by
  rcases le_total a b with h | h
  · rw [min_eq_left h, max_eq_right h]
    constructor
    · nlinarith
    · nlinarith
  · rw [min_eq_right h, max_eq_left h]
    constructor
    · nlinarith
    · nlinarith

/-- The value of `findHeightInsideRectangle` for a point inside the rectangle
lies between the least and the greatest corner height. -/
theorem findHeightInsideRectangle_bounds (x y widthR depthR h1 h2 h3 h4 : ℚ)
    (hx0 : 0 ≤ x * widthR) (hx1 : x * widthR ≤ 1) (hy0 : 0 ≤ y * depthR)
    (hy1 : y * depthR ≤ 1) :
    min (min h1 h2) (min h3 h4) ≤ findHeightInsideRectangle x y widthR depthR h1 h2 h3 h4 ∧
    findHeightInsideRectangle x y widthR depthR h1 h2 h3 h4 ≤ max (max h1 h2) (max h3 h4) := by
  unfold findHeightInsideRectangle
  dsimp only
  obtain ⟨a1, a2⟩ := lerp_bounds (x * widthR) h1 h2 hx0 hx1
  obtain ⟨b1, b2⟩ := lerp_bounds (x * widthR) h3 h4 hx0 hx1
  obtain ⟨c1, c2⟩ := lerp_bounds (y * depthR) (x * widthR * (h2 - h1) + h1)
    (x * widthR * (h4 - h3) + h3) hy0 hy1
  constructor
  · exact le_trans (le_min (le_trans (min_le_left _ _) a1) (le_trans (min_le_right _ _) b1)) c1
  · exact le_trans c2 (max_le (le_trans a2 (le_max_left _ _)) (le_trans b2 (le_max_right _ _)))

/-- One axis of `mapLookup`: with the lower index `min (trunc position) 6` the
relative position lies between 0 and the axis delta. -/
theorem axis_relative_bounds (x start delta : ℚ) (hd : 0 < delta) :
    0 ≤ limitF x start (start + 7 * delta) -
      (start + ((min (floatToInt (axisPosition x start delta)) 6 : Int) : ℚ) * delta) ∧
    limitF x start (start + 7 * delta) -
      (start + ((min (floatToInt (axisPosition x start delta)) 6 : Int) : ℚ) * delta) ≤ delta := by
  obtain ⟨p0, p7⟩ := axisPosition_bounds x start delta hd
  have hpos : limitF x start (start + 7 * delta) - start = axisPosition x start delta * delta := by
    unfold axisPosition
    field_simp
  rw [floatToInt_of_nonneg _ p0]
  have hfl := Int.floor_le (axisPosition x start delta)
  have hlt := Int.lt_floor_add_one (axisPosition x start delta)
  have e : limitF x start (start + 7 * delta) -
      (start + ((min ⌊axisPosition x start delta⌋ 6 : Int) : ℚ) * delta) =
      (axisPosition x start delta - ((min ⌊axisPosition x start delta⌋ 6 : Int) : ℚ)) * delta := by
    have := hpos
    linear_combination this
  rw [e]
  rcases le_total ⌊axisPosition x start delta⌋ 6 with h | h
  · rw [min_eq_left h]
    constructor
    · exact mul_nonneg (by linarith) (le_of_lt hd)
    · nlinarith
  · rw [min_eq_right h]
    have h6 : (6 : ℚ) ≤ axisPosition x start delta := by
      have : ((6 : Int) : ℚ) ≤ ((⌊axisPosition x start delta⌋ : Int) : ℚ) := by exact_mod_cast h
      push_cast at this
      linarith
    push_cast
    constructor
    · exact mul_nonneg (by linarith) (le_of_lt hd)
    · nlinarith

/-- The lower indices of the interpolation rectangle set by `mapLookup`. -/
theorem mapLookup_rectangle (rpm load : ℚ) (s : FuelInjection)
    (hR : 0 < s.cfPage1.p2.rpmAxisDelta) (hL : 0 < s.cfPage1.p2.loadAxisDelta)
    (hRr : s.rpmDeltaReciprocal = 1 / s.cfPage1.p2.rpmAxisDelta)
    (hLr : s.loadDeltaReciprocal = 1 / s.cfPage1.p2.loadAxisDelta) :
    (mapLookup rpm load s).r1 =
      min (floatToInt (axisPosition rpm s.cfPage1.p2.rpmAxisStart s.cfPage1.p2.rpmAxisDelta))
        6 ∧
    (mapLookup rpm load s).l1 =
      min (floatToInt (axisPosition load s.cfPage1.p2.loadAxisStart
        s.cfPage1.p2.loadAxisDelta)) 6 := by
  obtain ⟨-, -, m3, m4, -, -⟩ := mapLookup_indices rpm load s
  have pR : (limitF rpm s.cfPage1.p2.rpmAxisStart
      (s.cfPage1.p2.rpmAxisStart + 7 * s.cfPage1.p2.rpmAxisDelta)
        - s.cfPage1.p2.rpmAxisStart) * s.rpmDeltaReciprocal =
      axisPosition rpm s.cfPage1.p2.rpmAxisStart s.cfPage1.p2.rpmAxisDelta := by
    rw [hRr]
    unfold axisPosition
    ring
  have pL : (limitF load s.cfPage1.p2.loadAxisStart
      (s.cfPage1.p2.loadAxisStart + 7 * s.cfPage1.p2.loadAxisDelta)
        - s.cfPage1.p2.loadAxisStart) * s.loadDeltaReciprocal =
      axisPosition load s.cfPage1.p2.loadAxisStart s.cfPage1.p2.loadAxisDelta := by
    rw [hLr]
    unfold axisPosition
    ring
  rw [pR] at m3
  rw [pL] at m4
  obtain ⟨bR0, bR7⟩ := axisPosition_bounds rpm s.cfPage1.p2.rpmAxisStart _ hR
  obtain ⟨bL0, bL7⟩ := axisPosition_bounds load s.cfPage1.p2.loadAxisStart _ hL
  obtain ⟨fR0, fR7⟩ := floatToInt_bounds _ bR0 bR7
  obtain ⟨fL0, fL7⟩ := floatToInt_bounds _ bL0 bL7
  rw [limitI_of_mem _ 0 7 fR0 fR7] at m3
  rw [limitI_of_mem _ 0 7 fL0 fL7] at m4
  constructor
  · rw [m3]
    split_ifs with h
    · exact (min_eq_left h).symm
    · rw [min_eq_right (by omega)]
      omega
  · rw [m4]
    split_ifs with h
    · exact (min_eq_left h).symm
    · rw [min_eq_right (by omega)]
      omega

/-- The relative position stored by `mapLookup`. -/
theorem mapLookup_relative (rpm load : ℚ) (s : FuelInjection) :
    (mapLookup rpm load s).relRPM =
      limitF rpm s.cfPage1.p2.rpmAxisStart
          (s.cfPage1.p2.rpmAxisStart + 7 * s.cfPage1.p2.rpmAxisDelta) -
        (s.cfPage1.p2.rpmAxisStart +
          ((mapLookup rpm load s).r1 : ℚ) * s.cfPage1.p2.rpmAxisDelta) ∧
    (mapLookup rpm load s).relLoad =
      limitF load s.cfPage1.p2.loadAxisStart
          (s.cfPage1.p2.loadAxisStart + 7 * s.cfPage1.p2.loadAxisDelta) -
        (s.cfPage1.p2.loadAxisStart +
          ((mapLookup rpm load s).l1 : ℚ) * s.cfPage1.p2.loadAxisDelta) ∧
    (mapLookup rpm load s).rpmDeltaReciprocal = s.rpmDeltaReciprocal ∧
    (mapLookup rpm load s).loadDeltaReciprocal = s.loadDeltaReciprocal ∧
    (mapLookup rpm load s).cfPage1 = s.cfPage1 := by
  have hR7 : VE_MAP_SIZE_RPM - 1 = 7 := by decide
  have hL7 : VE_MAP_SIZE_LOAD - 1 = 7 := by decide
  unfold mapLookup
  simp only [hR7, hL7, Int.cast_ofNat, and_self]

/-- C38. Interpolated values stay within the surrounding cells: for positive
axis deltas, with the reciprocals set by `fuInitialise`, and every rpm and
load, after `mapLookup` the relative position satisfies
`0 <= relRPM <= rpmAxisDelta` and `0 <= relLoad <= loadAxisDelta`, and
`getMapInterpolatedValue(map)` lies between the minimum and the maximum of the
four corner values `map[l1][r1]`, `map[l1][r2]`, `map[l2][r1]`,
`map[l2][r2]`. -/
theorem C38_interpolation_within_corners (rpm load : ℚ) (s : FuelInjection) (map : EngineMap)
    (hR : 0 < s.cfPage1.p2.rpmAxisDelta) (hL : 0 < s.cfPage1.p2.loadAxisDelta)
    (hRr : s.rpmDeltaReciprocal = 1 / s.cfPage1.p2.rpmAxisDelta)
    (hLr : s.loadDeltaReciprocal = 1 / s.cfPage1.p2.loadAxisDelta) :
    (0 ≤ (mapLookup rpm load s).relRPM ∧
      (mapLookup rpm load s).relRPM ≤ s.cfPage1.p2.rpmAxisDelta) ∧
    (0 ≤ (mapLookup rpm load s).relLoad ∧
      (mapLookup rpm load s).relLoad ≤ s.cfPage1.p2.loadAxisDelta) ∧
    min (min (map (mapLookup rpm load s).l1 (mapLookup rpm load s).r1)
          (map (mapLookup rpm load s).l1 (mapLookup rpm load s).r2))
        (min (map (mapLookup rpm load s).l2 (mapLookup rpm load s).r1)
          (map (mapLookup rpm load s).l2 (mapLookup rpm load s).r2)) ≤
      getMapInterpolatedValue (mapLookup rpm load s) map ∧
    getMapInterpolatedValue (mapLookup rpm load s) map ≤
      max (max (map (mapLookup rpm load s).l1 (mapLookup rpm load s).r1)
          (map (mapLookup rpm load s).l1 (mapLookup rpm load s).r2))
        (max (map (mapLookup rpm load s).l2 (mapLookup rpm load s).r1)
          (map (mapLookup rpm load s).l2 (mapLookup rpm load s).r2)) := by
  obtain ⟨e1, e2⟩ := mapLookup_rectangle rpm load s hR hL hRr hLr
  obtain ⟨r1, r2, r3, r4, -⟩ := mapLookup_relative rpm load s
  obtain ⟨a0, a1⟩ := axis_relative_bounds rpm s.cfPage1.p2.rpmAxisStart _ hR
  obtain ⟨b0, b1⟩ := axis_relative_bounds load s.cfPage1.p2.loadAxisStart _ hL
  rw [← e1, ← r1] at a0 a1
  rw [← e2, ← r2] at b0 b1
  have hx0 : 0 ≤ (mapLookup rpm load s).relRPM * (mapLookup rpm load s).rpmDeltaReciprocal := by
    rw [r3, hRr]
    exact mul_nonneg a0 (by positivity)
  have hx1 : (mapLookup rpm load s).relRPM * (mapLookup rpm load s).rpmDeltaReciprocal ≤ 1 := by
    rw [r3, hRr, mul_one_div, div_le_one hR]
    exact a1
  have hy0 : 0 ≤ (mapLookup rpm load s).relLoad * (mapLookup rpm load s).loadDeltaReciprocal := by
    rw [r4, hLr]
    exact mul_nonneg b0 (by positivity)
  have hy1 : (mapLookup rpm load s).relLoad * (mapLookup rpm load s).loadDeltaReciprocal ≤ 1 := by
    rw [r4, hLr, mul_one_div, div_le_one hL]
    exact b1
  refine ⟨⟨a0, a1⟩, ⟨b0, b1⟩, ?_⟩
  unfold getMapInterpolatedValue
  exact findHeightInsideRectangle_bounds _ _ _ _ _ _ _ _ hx0 hx1 hy0 hy1

/-- C38, at a concrete input: the default configuration after `fuInitialise`,
1850 RPM and a load of 54.9, the VE map of the configuration. -/
theorem C38_interpolation_within_corners_witness :
    (0 ≤ (mapLookup 1850 (549 / 10) fuStart).relRPM ∧
      (mapLookup 1850 (549 / 10) fuStart).relRPM ≤ 700) ∧
    getMapInterpolatedValue (mapLookup 1850 (549 / 10) fuStart) cfPage1Default.veMap ≤
      max (max (cfPage1Default.veMap (mapLookup 1850 (549 / 10) fuStart).l1
            (mapLookup 1850 (549 / 10) fuStart).r1)
          (cfPage1Default.veMap (mapLookup 1850 (549 / 10) fuStart).l1
            (mapLookup 1850 (549 / 10) fuStart).r2))
        (max (cfPage1Default.veMap (mapLookup 1850 (549 / 10) fuStart).l2
            (mapLookup 1850 (549 / 10) fuStart).r1)
          (cfPage1Default.veMap (mapLookup 1850 (549 / 10) fuStart).l2
            (mapLookup 1850 (549 / 10) fuStart).r2)) := by
  obtain ⟨a1, a2, a3, a4, a5, a6⟩ := fuStart_axis
  have h := C38_interpolation_within_corners 1850 (549 / 10) fuStart cfPage1Default.veMap
    (by rw [a2]; norm_num) (by rw [a4]; norm_num) (by rw [a5, a2]) (by rw [a6, a4])
  rw [a2] at h
  exact ⟨h.1, h.2.2.2⟩

/-! ## Acceleration compensation: lemmas and claim -/

/-- One call of `accelCompensation1` from a state whose peak is within the
limit: the value returned lies between 0 and `L`, it is the value stored, and
the peak stays within the limit. -/
theorem accelCompensation1_bounds (L TPS : ℚ) (s : FuelInjection) (hL : 0 ≤ L)
    (h : accelWithinLimit L s) :
    0 ≤ (accelCompensation1 TPS s).1 ∧ (accelCompensation1 TPS s).1 ≤ L ∧
    (accelCompensation1 TPS s).2.accelCompensationValue = (accelCompensation1 TPS s).1 ∧
    accelWithinLimit L (accelCompensation1 TPS s).2 := by
  obtain ⟨h1, h2, h3⟩ := h
  unfold accelWithinLimit accelCompensation1
  dsimp only
  rw [h1]
  split_ifs <;> dsimp only <;> refine ⟨?_, ?_, rfl, rfl, ?_, ?_⟩ <;> linarith

theorem accelRun_nil (s : FuelInjection) : accelRun [] s = s := rfl

theorem accelRun_cons (x : ℚ) (tps : List ℚ) (s : FuelInjection) :
    accelRun (x :: tps) s = accelRun tps (accelCompensation1 x s).2 := rfl

theorem accelRun_within (L : ℚ) (hL : 0 ≤ L) (tps : List ℚ) :
    ∀ s : FuelInjection, accelWithinLimit L s → accelWithinLimit L (accelRun tps s) := by
  induction tps with
  | nil => exact fun s h => h
  | cons x tps ih =>
    intro s h
    rw [accelRun_cons]
    exact ih _ (accelCompensation1_bounds L x s hL h).2.2.2

theorem initAccelCompensation_within (logf : ℚ → ℚ) (L amplitudeFactor time cyclicPeriod : ℚ)
    (s : FuelInjection) (hL : 0 ≤ L) :
    accelWithinLimit L (initAccelCompensation logf L amplitudeFactor time cyclicPeriod s) := by
  unfold accelWithinLimit initAccelCompensation
  dsimp only
  exact ⟨rfl, le_refl 0, by linarith⟩

/-- A pass of the fuel calculation keeps the peak within the limit and stores a
compensation value between 0 and `L`. -/
theorem fuCycle_within (L : ℚ) (hL : 0 ≤ L) (c : FuelCycle) (s : FuelInjection)
    (h : accelWithinLimit L s) :
    accelWithinLimit L (fuCycle c s).2 ∧
    0 ≤ (fuCycle c s).2.accelCompensationValue ∧ (fuCycle c s).2.accelCompensationValue ≤ L := by
  have he : accelWithinLimit L (fuCycleEntry c s) := h
  obtain ⟨b1, b2, b3, b4⟩ := accelCompensation1_bounds L c.TPS (fuCycleEntry c s) hL he
  have hf : (fuCycle c s).2.accelCompLimit =
        (accelCompensation1 c.TPS (fuCycleEntry c s)).2.accelCompLimit ∧
      (fuCycle c s).2.accelCompPeak =
        (accelCompensation1 c.TPS (fuCycleEntry c s)).2.accelCompPeak ∧
      (fuCycle c s).2.accelCompensationValue =
        (accelCompensation1 c.TPS (fuCycleEntry c s)).2.accelCompensationValue := by
    unfold fuCycle getInjectorPulseWidth
    dsimp only
    split_ifs <;> exact ⟨rfl, rfl, rfl⟩
  obtain ⟨f1, f2, f3⟩ := hf
  refine ⟨?_, ?_, ?_⟩
  · unfold accelWithinLimit
    rw [f1, f2]
    exact b4
  · rw [f3, b3]
    exact b1
  · rw [f3, b3]
    exact b2

theorem fuRun_within (L : ℚ) (hL : 0 ≤ L) (cs : List FuelCycle) :
    ∀ s : FuelInjection, accelWithinLimit L s → accelWithinLimit L (fuRun cs s) := by
  induction cs with
  | nil => exact fun s h => h
  | cons c cs ih =>
    intro s h
    rw [fuRun_cons]
    exact ih _ (fuCycle_within L hL c s h).1

/-- C39. Acceleration compensation respects its absolute limit: after
`initAccelCompensation` with the limit `L >= 0`, for every sequence of TPS
inputs and every filter constant and amplitude (every amplitude factor, time,
cyclic period and value of the logarithm), each value returned by
`accelCompensation1` satisfies `0 <= value <= L`, and the peak satisfies
`0 <= accelCompPeak <= 2 * L` after every call. The same holds for the calls
made in successive passes of the fuel calculation, where the value is stored in
`accelCompensationValue`. -/
theorem C39_accel_compensation_limit (logf : ℚ → ℚ) (L amplitudeFactor time cyclicPeriod : ℚ)
    (s : FuelInjection) (hL : 0 ≤ L) (tps : List ℚ) (TPS : ℚ) (cs : List FuelCycle)
    (c : FuelCycle) :
    (0 ≤ (accelCompensation1 TPS
        (accelRun tps (initAccelCompensation logf L amplitudeFactor time cyclicPeriod s))).1 ∧
      (accelCompensation1 TPS
        (accelRun tps (initAccelCompensation logf L amplitudeFactor time cyclicPeriod s))).1 ≤
        L) ∧
    (0 ≤ (accelCompensation1 TPS
        (accelRun tps (initAccelCompensation logf L amplitudeFactor time cyclicPeriod
          s))).2.accelCompPeak ∧
      (accelCompensation1 TPS
        (accelRun tps (initAccelCompensation logf L amplitudeFactor time cyclicPeriod
          s))).2.accelCompPeak ≤ 2 * L) ∧
    (0 ≤ (fuCycle c
        (fuRun cs (initAccelCompensation logf L amplitudeFactor time cyclicPeriod
          s))).2.accelCompensationValue ∧
      (fuCycle c
        (fuRun cs (initAccelCompensation logf L amplitudeFactor time cyclicPeriod
          s))).2.accelCompensationValue ≤ L ∧
      0 ≤ (fuCycle c
        (fuRun cs (initAccelCompensation logf L amplitudeFactor time cyclicPeriod
          s))).2.accelCompPeak ∧
      (fuCycle c
        (fuRun cs (initAccelCompensation logf L amplitudeFactor time cyclicPeriod
          s))).2.accelCompPeak ≤ 2 * L) := by
  have h0 := initAccelCompensation_within logf L amplitudeFactor time cyclicPeriod s hL
  obtain ⟨b1, b2, -, -, b4, b5⟩ := accelCompensation1_bounds L TPS _ hL
    (accelRun_within L hL tps _ h0)
  obtain ⟨⟨-, c1, c2⟩, c3, c4⟩ := fuCycle_within L hL c _ (fuRun_within L hL cs _ h0)
  exact ⟨⟨b1, b2⟩, ⟨b4, b5⟩, c3, c4, c1, c2⟩

/-- C39, at a concrete input: the default limit 7.5 and amplitude 0.5 over
500 ms for the 5 ms task, with a logarithm of -1.6 for the argument 0.2, after
the throttle positions 10 and 50: the value for the next position 90 lies
between 0 and 7.5. -/
theorem C39_accel_compensation_limit_witness :
    0 ≤ (accelCompensation1 90
        (accelRun [10, 50]
          (initAccelCompensation (fun _ => -8 / 5) (15 / 2) (1 / 2) 500 5
            (fuBoot cfPage1Default)))).1 ∧
    (accelCompensation1 90
        (accelRun [10, 50]
          (initAccelCompensation (fun _ => -8 / 5) (15 / 2) (1 / 2) 500 5
            (fuBoot cfPage1Default)))).1 ≤ 15 / 2 :=
  (C39_accel_compensation_limit (fun _ => -8 / 5) (15 / 2) (1 / 2) 500 5 (fuBoot cfPage1Default)
    (by norm_num) [10, 50] 90 [] fuCycleRunning).1

/-! ## Capture interrupt: claim -/

/-- The period calculated by the interrupt function for 16-bit values. -/
theorem isrPulsePeriod_eq (timeNow previous : Int) (h0 : 0 ≤ timeNow) (h1 : timeNow < 65536)
    (p0 : 0 ≤ previous) (p1 : previous < 65536) :
    isrPulsePeriod timeNow previous =
      if timeNow > previous then timeNow - previous else timeNow + 65535 - previous := by
  unfold isrPulsePeriod toUint16
  split_ifs <;> omega

/-- C40, failing input: the counter has wrapped between the captures 65500 and
100, 136 counts apart; the period calculated is 100 + (65535 - 65500) = 135, and
it is the period the handler receives and stores. -/
theorem C40_counterexample :
    isrPulsePeriod 100 65500 = 135 ∧
    (100 - 65500 : Int) % 2 ^ 16 = 136 ∧
    (ecuISRcrankshaftTrigger true 8 100
      { crankshaftPulseTime_1 := 65500, tw := twRunning 5 0 10000 }).tw.crankPulsePeriodR =
      135 ∧
    (ecuISRcrankshaftTrigger true 8 100
      { crankshaftPulseTime_1 := 65500, tw := twRunning 5 0 10000 }).tw =
      crankshaftPulseHandler true 135 (twRunning 5 0 10000) := by
  refine ⟨by decide, by decide, by decide, ?_⟩
  have h8 : (8 : Nat) &&& 8 ≠ 0 := by decide
  unfold ecuISRcrankshaftTrigger
  rw [if_pos h8]
  rfl

/-- C40. Capture-timer pulse period, as the code calculates it: when the capture
flag tested by `ecuISRcrankshaftTrigger` is set, the function passes to
`crankshaftPulseHandler` the period calculated from the captured time
`timeNow` (the capture register converted to 16 bits) and the previous captured
time, and stores `timeNow` as the previous time; with the flag clear it does
nothing. For all 16-bit values the period is `timeNow - previous`, which is
`(timeNow - previous) mod 2^16`, when `timeNow > previous`. When the counter
has wrapped (`timeNow <= previous`) the statement
`period = timeNow + (0xffff - crankshaftPulseTime_1)` adds 65535 where the width
of the counter calls for 65536: the period is `timeNow + 65535 - previous`, that
is `(timeNow - previous - 1) mod 2^16`, one count less than
`(timeNow - previous) mod 2^16` for `timeNow < previous`, and 65535 for equal
times. -/
theorem C40_capture_pulse_period (cmp : Bool) (SR CCR3 : Nat) (s : CrankshaftTrigger)
    (hp : 0 ≤ s.crankshaftPulseTime_1 ∧ s.crankshaftPulseTime_1 < 2 ^ 16) :
    (SR &&& 8 ≠ 0 →
      (ecuISRcrankshaftTrigger cmp SR CCR3 s).tw =
        crankshaftPulseHandler cmp
          (isrPulsePeriod ((CCR3 : Int) % 2 ^ 16) s.crankshaftPulseTime_1) s.tw ∧
      (ecuISRcrankshaftTrigger cmp SR CCR3 s).crankshaftPulseTime_1 = (CCR3 : Int) % 2 ^ 16) ∧
    (SR &&& 8 = 0 → ecuISRcrankshaftTrigger cmp SR CCR3 s = s) ∧
    (∀ timeNow : Int, 0 ≤ timeNow → timeNow < 2 ^ 16 →
      (timeNow > s.crankshaftPulseTime_1 →
        isrPulsePeriod timeNow s.crankshaftPulseTime_1 = timeNow - s.crankshaftPulseTime_1 ∧
        isrPulsePeriod timeNow s.crankshaftPulseTime_1 =
          (timeNow - s.crankshaftPulseTime_1) % 2 ^ 16) ∧
      (timeNow ≤ s.crankshaftPulseTime_1 →
        isrPulsePeriod timeNow s.crankshaftPulseTime_1 =
          timeNow + 65535 - s.crankshaftPulseTime_1 ∧
        isrPulsePeriod timeNow s.crankshaftPulseTime_1 =
          (timeNow - s.crankshaftPulseTime_1 - 1) % 2 ^ 16) ∧
      (timeNow < s.crankshaftPulseTime_1 →
        isrPulsePeriod timeNow s.crankshaftPulseTime_1 =
          (timeNow - s.crankshaftPulseTime_1) % 2 ^ 16 - 1) ∧
      (timeNow = s.crankshaftPulseTime_1 →
        isrPulsePeriod timeNow s.crankshaftPulseTime_1 = 65535)) := by
  have h16 : (2 : Int) ^ 16 = 65536 := by norm_num
  rw [h16] at hp ⊢
  obtain ⟨p0, p1⟩ := hp
  refine ⟨fun h => ?_, fun h => ?_, fun timeNow h0 h1 => ?_⟩
  · unfold ecuISRcrankshaftTrigger
    rw [if_pos h]
    exact ⟨rfl, rfl⟩
  · unfold ecuISRcrankshaftTrigger
    rw [if_neg (not_not.mpr h)]
  · have e := isrPulsePeriod_eq timeNow s.crankshaftPulseTime_1 h0 h1 p0 p1
    refine ⟨fun h => ?_, fun h => ?_, fun h => ?_, fun h => ?_⟩
    · rw [e, if_pos h]
      omega
    · rw [e, if_neg (not_lt.mpr h)]
      omega
    · rw [e, if_neg (not_lt.mpr (le_of_lt h))]
      omega
    · rw [e, if_neg (not_lt.mpr (le_of_eq h))]
      omega

/-- C40, at a concrete input: captures at 65500 and then at 100 (wrapped), and
captures at 100 and then at 10100. -/
theorem C40_capture_pulse_period_witness :
    isrPulsePeriod 100 65500 = 135 ∧ isrPulsePeriod 10100 100 = 10000 ∧
    (ecuISRcrankshaftTrigger true 8 10100
      { crankshaftPulseTime_1 := 100, tw := twRunning 5 0 10000 }).crankshaftPulseTime_1 =
      10100 := by
  have k1 := (C40_capture_pulse_period true 8 100
    { crankshaftPulseTime_1 := 65500, tw := twRunning 5 0 10000 } (by decide)).2.2 100
    (by decide) (by decide)
  have k2 := C40_capture_pulse_period true 8 10100
    { crankshaftPulseTime_1 := 100, tw := twRunning 5 0 10000 } (by decide)
  refine ⟨?_, ?_, ?_⟩
  · rw [(k1.2.1 (by decide)).1]
    decide
  · rw [((k2.2.2 10100 (by decide) (by decide)).1 (by decide)).1]
    decide
  · rw [(k2.1 (by decide)).2]
    decide

end ECU
